import Mathlib

/-!
Auto-Mailer: durable job queue (webhook_jobs, removal_jobs)

Shallow embedding of `src/services/queue.js`, of the producers and retry
policy of `src/services/removalProcessor.js`, and of the tables they use
(`src/utils/db-init.js`).

Modelling conventions
* A table is the list of its rows, in insertion order.
* `NOW()` is an explicit argument `now : Int` (seconds); one call reads one
  clock value.  `DATE_ADD(NOW(), INTERVAL d SECOND)` is `now + d`.
* SQL `NULL` is `none`.
* The `status` columns hold one of the four literals the code writes.
* `attempts` (SQL `INT`) is a natural number; the range of `INT` is not
  modelled.
* JavaScript strings are `String`; a character stands for one UTF-16 unit.
* JSON values travel as their text: `payload_json` is the output of
  `JSON.stringify`, and a claimed job carries the text handed to `JSON.parse`.
* A transaction is one atomic step on the table (no interleaving inside it).
* Key columns are compared as exact strings (collation is not modelled); a
  `NULL` in a unique key collides with nothing.
* `AUTO_INCREMENT` hands out an id above every id in the table.
-/

namespace AutoMailer

/-- The four values written to the `status` column of both job tables. -/
inductive Status where
  | queued
  | processing
  | completed
  | failed
deriving DecidableEq

/-- One row of `webhook_jobs` (`db-init.js`, lines 112-134). -/
structure WebhookJob where
  id : Nat
  shop : String
  webhook_id : Option String
  job_type : String
  order_id : Option String
  status : Status
  attempts : Nat
  run_after : Int
  locked_at : Option Int
  locked_by : Option String
  last_error : Option String
  payload_json : Option String
  updated_at : Int
  created_at : Int
deriving DecidableEq

/-- The `webhook_jobs` table. -/
abbrev JobStore := List WebhookJob

/-- Column `updated_at TIMESTAMP ... ON UPDATE CURRENT_TIMESTAMP`: the stamp
moves to `now` exactly when the statement changed some other column. -/
def onUpdate (now : Int) (old new : WebhookJob) : WebhookJob :=
  if new = old then old else { new with updated_at := now }

/-- JavaScript `a || b` on a nullable string: `null` and `""` are falsy. -/
def jsOr (a : Option String) (b : String) : String :=
  match a with
  | none => b
  | some x => if x = "" then b else x

/-- JavaScript `String(error).slice(0, n)`. -/
def jsSlice (n : Nat) (s : String) : String :=
  String.mk (s.data.take n)

/-- The job object `claimJob` hands to the worker (`queue.js`, lines 82-89). -/
structure ClaimedJob where
  id : Nat
  shop : String
  jobType : String
  orderId : Option String
  payload : String
  attempts : Nat
deriving DecidableEq

/-- The `WHERE status = 'queued' AND run_after <= NOW()` of `claimJob`. -/
def eligible (now : Int) (r : WebhookJob) : Bool :=
  decide (r.status = Status.queued) && decide (r.run_after ≤ now)

/-- The `ORDER BY run_after ASC, id ASC` of `claimJob`. -/
def pickOrder (a b : WebhookJob) : Prop :=
  a.run_after < b.run_after ∨ (a.run_after = b.run_after ∧ a.id ≤ b.id)

instance : DecidableRel pickOrder := fun a b =>
  inferInstanceAs
    (Decidable (a.run_after < b.run_after ∨ (a.run_after = b.run_after ∧ a.id ≤ b.id)))

instance : IsTotal WebhookJob pickOrder where
  total a b := by
    unfold pickOrder
    rcases lt_trichotomy a.run_after b.run_after with h | h | h
    · exact Or.inl (Or.inl h)
    · rcases Nat.le_total a.id b.id with h' | h'
      · exact Or.inl (Or.inr ⟨h, h'⟩)
      · exact Or.inr (Or.inr ⟨h.symm, h'⟩)
    · exact Or.inr (Or.inl h)

instance : IsTrans WebhookJob pickOrder where
  trans a b c := by
    unfold pickOrder
    rintro (h1 | ⟨h1, h1'⟩) (h2 | ⟨h2, h2'⟩)
    · exact Or.inl (lt_trans h1 h2)
    · exact Or.inl (h2 ▸ h1)
    · exact Or.inl (h1 ▸ h2)
    · exact Or.inr ⟨h1.trans h2, h1'.trans h2'⟩

/-- The `SELECT ... LIMIT ? FOR UPDATE SKIP LOCKED` of `claimJob`, run as one
atomic step (no row is locked by another transaction). -/
def selectForClaim (s : JobStore) (now : Int) (limit : Nat) : List WebhookJob :=
  ((s.filter (eligible now)).insertionSort pickOrder).take limit

/-- The `SET` clause of the claiming `UPDATE` (`queue.js`, lines 74-76). -/
def claimRow (workerId : String) (now : Int) (r : WebhookJob) : WebhookJob :=
  onUpdate now r
    { r with status := Status.processing, locked_at := some now,
             locked_by := some workerId, attempts := r.attempts + 1 }

/-- The object built for a selected row `r` (`queue.js`, lines 82-89); the
payload is the text `r.payload_json || "{}"` given to `JSON.parse`. -/
def claimedOf (r : WebhookJob) : ClaimedJob :=
  { id := r.id, shop := r.shop, jobType := r.job_type, orderId := r.order_id,
    payload := jsOr r.payload_json "\x7b\x7d", attempts := r.attempts + 1 }

/-- The function `claimJob(limit)` of `queue.js`, lines 43-100, for the worker
`workerId`: the returned jobs and the table after the transaction. -/
def claimJob (s : JobStore) (workerId : String) (now : Int) (limit : Nat) :
    List ClaimedJob × JobStore :=
  let rows := selectForClaim s now limit
  if rows.length = 0 then ([], s)
  else
    let jobIds : List Nat := rows.map (fun r => r.id)
    let s' := s.map (fun r => if r.id ∈ jobIds then claimRow workerId now r else r)
    (rows.map claimedOf, s')

/-- The `SELECT attempts ... WHERE id = ?` of `failJob` followed by
`rows[0]?.attempts || 0`. -/
def storedAttempts (s : JobStore) (jobId : Nat) : Nat :=
  match s.find? (fun r => decide (r.id = jobId)) with
  | some r => r.attempts
  | none => 0

/-- The expression `Math.min(300, Math.pow(2, attempts) * 5)` of `failJob`. -/
def backoffSeconds (attempts : Nat) : Nat :=
  min 300 (2 ^ attempts * 5)

/-- The delay `failJob` applies (`queue.js`, lines 144-151): the hint when it
is not `null`, the exponential backoff otherwise. -/
def failDelay (retryAfterSeconds : Option Int) (attempts : Nat) : Int :=
  match retryAfterSeconds with
  | some hint => hint
  | none => (backoffSeconds attempts : Nat)

/-- The object `failJob` returns. -/
inductive FailResult where
  | failed (attempts : Nat)
  | requeued (attempts : Nat) (backoffSeconds : Int)
deriving DecidableEq

/-- The `SET` clause of the terminal `UPDATE` of `failJob` (lines 135-140). -/
def failRow (error : String) (now : Int) (r : WebhookJob) : WebhookJob :=
  onUpdate now r
    { r with status := Status.failed, locked_at := none, locked_by := none,
             last_error := some (jsSlice 2000 error) }

/-- The `SET` clause of the requeueing `UPDATE` of `failJob` (lines 153-159). -/
def requeueRow (error : String) (delay : Int) (now : Int) (r : WebhookJob) : WebhookJob :=
  onUpdate now r
    { r with status := Status.queued, locked_at := none, locked_by := none,
             last_error := some (jsSlice 2000 error), run_after := now + delay }

/-- The function `failJob(jobId, error, retryAfterSeconds)` of `queue.js`,
lines 118-163; `maxAttempts` is the parsed `WORKER_MAX_ATTEMPTS`. -/
def failJob (s : JobStore) (jobId : Nat) (error : String) (retryAfterSeconds : Option Int)
    (maxAttempts : Nat) (now : Int) : FailResult × JobStore :=
  let attempts := storedAttempts s jobId
  if maxAttempts ≤ attempts then
    (FailResult.failed attempts,
      s.map (fun r => if r.id = jobId then failRow error now r else r))
  else
    let delay := failDelay retryAfterSeconds attempts
    (FailResult.requeued attempts delay,
      s.map (fun r => if r.id = jobId then requeueRow error delay now r else r))

/-- The unique key `uq_jobs_dedupe (shop, job_type, order_id)`: the row `r`
collides with an insert of this key.  A `NULL` order id collides with
nothing. -/
def dedupeHit (shop jobType : String) (orderId : Option String) (r : WebhookJob) : Bool :=
  decide (r.shop = shop) && decide (r.job_type = jobType) &&
    (orderId.isSome && decide (r.order_id = orderId))

/-- The `AUTO_INCREMENT` value given to a new row: larger than every id in
the table. -/
def nextId (s : JobStore) : Nat :=
  (s.map (fun r => r.id)).foldr max 0 + 1

/-- SQL `COALESCE(a, b)`: the first argument that is not `NULL`. -/
def coalesce (a b : Option String) : Option String :=
  match a with
  | some w => some w
  | none => b

/-- The `ON DUPLICATE KEY UPDATE` clause of `enqueueJob` (lines 16-18):
`webhook_id = COALESCE(VALUES(webhook_id), webhook_id)` and the payload
replaced unless the row is completed. -/
def refreshRow (webhookId : Option String) (payloadJson : String) (now : Int)
    (r : WebhookJob) : WebhookJob :=
  onUpdate now r
    { r with
      webhook_id := coalesce webhookId r.webhook_id,
      payload_json := if r.status = Status.completed then r.payload_json else some payloadJson }

/-- The row `enqueueJob` inserts (lines 14-15); columns not listed take their
defaults. -/
def freshRow (id : Nat) (shop jobType : String) (orderId webhookId : Option String)
    (payloadJson : String) (delaySeconds : Int) (now : Int) : WebhookJob :=
  { id := id, shop := shop, webhook_id := webhookId, job_type := jobType,
    order_id := orderId, status := Status.queued, attempts := 0,
    run_after := now + delaySeconds, locked_at := none, locked_by := none,
    last_error := none, payload_json := some payloadJson,
    updated_at := now, created_at := now }

/-- The function `enqueueJob` of `queue.js`, lines 6-41, as its effect on the
table; `payloadJson` is `JSON.stringify(payload)`.  The counters it reports
(`affectedRows`, `insertId`) are not modelled. -/
def enqueueJob (s : JobStore) (shop jobType : String) (orderId webhookId : Option String)
    (payloadJson : String) (delaySeconds : Int) (now : Int) : JobStore :=
  if s.any (dedupeHit shop jobType orderId) then
    s.map (fun r =>
      if dedupeHit shop jobType orderId r then refreshRow webhookId payloadJson now r else r)
  else
    s ++ [freshRow (nextId s) shop jobType orderId webhookId payloadJson delaySeconds now]

/-- One row of `removal_jobs` (`db-init.js`, lines 254-272). -/
structure RemovalJob where
  id : Nat
  shop : String
  month_stamp : String
  status : Status
  attempts : Nat
  locked_at : Option Int
  locked_by : Option String
  stats_json : Option String
  last_error : Option String
  created_at : Int
  updated_at : Int
deriving DecidableEq

/-- The `removal_jobs` table. -/
abbrev RemovalStore := List RemovalJob

/-- The `ON UPDATE CURRENT_TIMESTAMP` column of `removal_jobs`. -/
def onUpdateRemoval (now : Int) (old new : RemovalJob) : RemovalJob :=
  if new = old then old else { new with updated_at := now }

/-- First assignment of `createRemovalJob` (line 22):
`status = CASE WHEN status IN ('completed', 'failed') THEN 'queued' ELSE status END`. -/
def reopenStatus (r : RemovalJob) : RemovalJob :=
  { r with status :=
      if r.status = Status.completed ∨ r.status = Status.failed then Status.queued
      else r.status }

/-- Second assignment of `createRemovalJob` (line 23):
`attempts = CASE WHEN status IN ('completed', 'failed') THEN 0 ELSE attempts END`. -/
def resetAttempts (r : RemovalJob) : RemovalJob :=
  { r with attempts :=
      if r.status = Status.completed ∨ r.status = Status.failed then 0 else r.attempts }

/-- The `ON DUPLICATE KEY UPDATE` clause of `createRemovalJob`.  MySQL carries
out the assignments from left to right, a later one reading the columns as
the earlier ones left them. -/
def recreateRow (now : Int) (r : RemovalJob) : RemovalJob :=
  onUpdateRemoval now r (resetAttempts (reopenStatus r))

/-- The unique key `uq_removal_shop_month (shop, month_stamp)`. -/
def removalHit (shop monthStamp : String) (r : RemovalJob) : Bool :=
  decide (r.shop = shop) && decide (r.month_stamp = monthStamp)

/-- The `AUTO_INCREMENT` value given to a new removal job. -/
def nextRemovalId (s : RemovalStore) : Nat :=
  (s.map (fun r => r.id)).foldr max 0 + 1

/-- The function `createRemovalJob(shop, monthStamp)` of `removalProcessor.js`,
lines 12-40: the `{ id, status }` it returns (`rows[0]`) and the table. -/
def createRemovalJob (s : RemovalStore) (shop monthStamp : String) (now : Int) :
    Option (Nat × Status) × RemovalStore :=
  let s' : RemovalStore :=
    if s.any (removalHit shop monthStamp) then
      s.map (fun r => if removalHit shop monthStamp r then recreateRow now r else r)
    else
      s ++ [{ id := nextRemovalId s, shop := shop, month_stamp := monthStamp,
              status := Status.queued, attempts := 0, locked_at := none, locked_by := none,
              stats_json := none, last_error := none, created_at := now, updated_at := now }]
  ((s'.find? (removalHit shop monthStamp)).map (fun r => (r.id, r.status)), s')

/-- The expression `Math.min(300, Math.pow(2, attempts) * 10)` of
`failRemovalJob` (line 125). -/
def removalBackoffSeconds (attempts : Nat) : Nat :=
  min 300 (2 ^ attempts * 10)

/-- The `backoff` of `failRemovalJob` (line 125):
`retryAfterSeconds || Math.min(300, Math.pow(2, attempts) * 10)`; the hints
`null` and `0` are falsy. -/
def removalBackoff (retryAfterSeconds : Option Int) (attempts : Nat) : Int :=
  match retryAfterSeconds with
  | none => (removalBackoffSeconds attempts : Nat)
  | some hint => if hint = 0 then (removalBackoffSeconds attempts : Nat) else hint

/-- One `claimJob(limit)` call of a race: the worker making it, its limit and
the clock value its transaction reads. -/
structure ClaimCall where
  workerId : String
  limit : Nat
  now : Int

/-- A sequence of `claimJob` transactions run one after the other on the
table: the list returned by each call, and the final table. -/
def claimSeq : List ClaimCall → JobStore → List (List ClaimedJob) × JobStore
  | [], s => ([], s)
  | c :: cs, s =>
    let res := claimJob s c.workerId c.now c.limit
    let rest := claimSeq cs res.2
    (res.1 :: rest.1, rest.2)

/-- Scenario of the specification: an empty table into which the webhook
route enqueues order 1001 at time 100 with its 3 second delay. -/
def scenarioQueued : JobStore :=
  enqueueJob [] "demo.myshopify.com" "order_paid" (some "1001") (some "wh-1") "\x7b\x7d" 3 100

/-- The scenario after `claimJob(1)` by `worker_a` at time 103. -/
def scenarioClaimed : JobStore :=
  (claimJob scenarioQueued "worker_a" 103 1).2

/-- An error text of 2001 characters. -/
def longError : String :=
  String.mk (List.replicate 2001 'x')

/-- One round of the retry loop on a job: the worker, limit and clock value of
the `claimJob` call, and the error text and clock value of the `failJob` call
that follows it. -/
structure Round where
  workerId : String
  limit : Nat
  claimAt : Int
  error : String
  failAt : Int

/-- A `claimJob` call followed, when it returned the job `jobId`, by
`failJob(jobId, error, null)`; `none` when the claim did not return the job. -/
def claimThenFail (maxAttempts jobId : Nat) (s : JobStore) (rd : Round) : Option JobStore :=
  let res := claimJob s rd.workerId rd.claimAt rd.limit
  if jobId ∈ res.1.map (fun j => j.id) then
    some (failJob res.2 jobId rd.error none maxAttempts rd.failAt).2
  else none

/-- Alternating `claimJob` and `failJob` on the job `jobId`, round after round. -/
def claimFailRounds (maxAttempts jobId : Nat) : List Round → JobStore → Option JobStore
  | [], s => some s
  | rd :: rds, s =>
    match claimThenFail maxAttempts jobId s rd with
    | some s' => claimFailRounds maxAttempts jobId rds s'
    | none => none

/-- A call of `claimJob` or of `failJob`, with its arguments and clock value. -/
inductive QueueCall where
  | claim (workerId : String) (limit : Nat) (now : Int)
  | fail (jobId : Nat) (error : String) (retryAfterSeconds : Option Int) (now : Int)

/-- A sequence of `claimJob` and `failJob` calls run on the table: the list
returned by each `claimJob`, and the final table. -/
def runCalls (maxAttempts : Nat) : List QueueCall → JobStore → List (List ClaimedJob) × JobStore
  | [], s => ([], s)
  | QueueCall.claim w l t :: cs, s =>
    let res := claimJob s w t l
    let rest := runCalls maxAttempts cs res.2
    (res.1 :: rest.1, rest.2)
  | QueueCall.fail i e h t :: cs, s =>
    runCalls maxAttempts cs (failJob s i e h maxAttempts t).2

/-- Five rounds on the scenario job, a thousand seconds apart. -/
def scenarioRounds : List Round :=
  [⟨"worker_a", 1, 1000, "boom", 1001⟩, ⟨"worker_b", 1, 2000, "boom", 2001⟩,
   ⟨"worker_a", 1, 3000, "boom", 3001⟩, ⟨"worker_c", 1, 4000, "boom", 4001⟩,
   ⟨"worker_b", 1, 5000, "last", 5001⟩]

/-- A table for a race: two queued jobs due by time 10, one queued job due at
time 500, and one completed job. -/
def raceStore : JobStore :=
  [freshRow 1 "demo.myshopify.com" "order_paid" (some "1001") none "\x7b\x7d" 0 10,
   freshRow 2 "demo.myshopify.com" "order_paid" (some "1002") none "\x7b\x7d" 0 5,
   freshRow 3 "demo.myshopify.com" "order_paid" (some "1003") none "\x7b\x7d" 490 10,
   { freshRow 4 "demo.myshopify.com" "order_paid" (some "1004") none "\x7b\x7d" 0 1 with
     status := Status.completed, attempts := 1 }]

/-- Three racing claimers on `raceStore`. -/
def raceCalls : List ClaimCall :=
  [⟨"worker_a", 1, 50⟩, ⟨"worker_b", 2, 60⟩, ⟨"worker_c", 1, 60⟩]

/-- The unique key `uq_jobs_dedupe (shop, job_type, order_id)` holds in the
table: two rows that agree on the three columns, with an order id that is
not `NULL`, are the same row. -/
def DedupeKeyUnique (s : JobStore) : Prop :=
  ∀ a ∈ s, ∀ b ∈ s, a.shop = b.shop → a.job_type = b.job_type →
    a.order_id = b.order_id → a.order_id ≠ none → a = b

/-- The unique key `uq_removal_shop_month (shop, month_stamp)` holds in the
table. -/
def RemovalKeyUnique (s : RemovalStore) : Prop :=
  ∀ a ∈ s, ∀ b ∈ s, a.shop = b.shop → a.month_stamp = b.month_stamp → a = b

/-- What `claimRemovalJob` returns: the selected row's `id`, `status` and
`attempts` as read by its `SELECT`. -/
structure RemovalClaim where
  id : Nat
  status : Status
  attempts : Nat
deriving DecidableEq

/-- The function `claimRemovalJob(shop, monthStamp, workerId)` of
`removalProcessor.js`, lines 42-84: the claimed job or `null`, and the table. -/
def claimRemovalJob (s : RemovalStore) (shop monthStamp workerId : String) (now : Int) :
    Option RemovalClaim × RemovalStore :=
  match s.filter (fun r => removalHit shop monthStamp r && decide (r.status = Status.queued)) with
  | [] => (none, s)
  | job :: _ =>
    (some { id := job.id, status := job.status, attempts := job.attempts },
      s.map (fun r =>
        if r.id = job.id then
          onUpdateRemoval now r
            { r with status := Status.processing, locked_at := some now,
                     locked_by := some workerId, attempts := r.attempts + 1 }
        else r))

/-- A table holding the scenario order after it was processed: completed at
time 150. -/
def completedStore : JobStore :=
  [{ freshRow 1 "demo.myshopify.com" "order_paid" (some "1001") (some "wh-1") "old" 3 100 with
     status := Status.completed, attempts := 1, updated_at := 150 }]

/-- A table holding the scenario order after it exhausted its attempts. -/
def failedStore : JobStore :=
  [{ freshRow 1 "demo.myshopify.com" "order_paid" (some "1001") (some "wh-1") "old" 3 100 with
     status := Status.failed, attempts := 5, last_error := some "boom", updated_at := 150 }]

/-- A removal table with one completed and one failed month. -/
def removalDemo : RemovalStore :=
  [{ id := 1, shop := "demo.myshopify.com", month_stamp := "2024-01",
     status := Status.completed, attempts := 1, locked_at := none, locked_by := none,
     stats_json := some "done", last_error := none, created_at := 10, updated_at := 20 },
   { id := 2, shop := "demo.myshopify.com", month_stamp := "2024-02",
     status := Status.failed, attempts := 5, locked_at := none, locked_by := none,
     stats_json := none, last_error := some "boom", created_at := 30, updated_at := 40 }]

/-- The function `completeJob(jobId)` of `queue.js`, lines 102-116, as its
effect on the table (the reported `affectedRows` is not modelled). -/
def completeJob (s : JobStore) (jobId : Nat) (now : Int) : JobStore :=
  s.map (fun r =>
    if r.id = jobId then
      onUpdate now r
        { r with status := Status.completed, locked_at := none, locked_by := none,
                 last_error := none }
    else r)

/-- The function `rescheduleJob(jobId, delaySeconds)` of `queue.js`, lines
165-179. -/
def rescheduleJob (s : JobStore) (jobId : Nat) (delaySeconds : Int) (now : Int) : JobStore :=
  s.map (fun r =>
    if r.id = jobId then
      onUpdate now r
        { r with status := Status.queued, locked_at := none, locked_by := none,
                 run_after := now + delaySeconds }
    else r)

/-- A call of one of the five functions of `queue.js` that write to
`webhook_jobs`, with its arguments, the `WORKER_MAX_ATTEMPTS` in force (for
`failJob`) and the clock value it reads. -/
inductive JobOp where
  | enqueue (shop jobType : String) (orderId webhookId : Option String) (payloadJson : String)
      (delaySeconds : Int) (now : Int)
  | claim (workerId : String) (limit : Nat) (now : Int)
  | complete (jobId : Nat) (now : Int)
  | fail (jobId : Nat) (error : String) (retryAfterSeconds : Option Int) (maxAttempts : Nat)
      (now : Int)
  | reschedule (jobId : Nat) (delaySeconds : Int) (now : Int)

/-- The table after one call. -/
def applyJobOp (s : JobStore) : JobOp → JobStore
  | JobOp.enqueue shop jobType orderId webhookId payloadJson delay now =>
    enqueueJob s shop jobType orderId webhookId payloadJson delay now
  | JobOp.claim w limit now => (claimJob s w now limit).2
  | JobOp.complete jobId now => completeJob s jobId now
  | JobOp.fail jobId error hint m now => (failJob s jobId error hint m now).2
  | JobOp.reschedule jobId delay now => rescheduleJob s jobId delay now

/-- The table after a sequence of calls, the first call first. -/
def runJobOps (ops : List JobOp) (s : JobStore) : JobStore :=
  ops.foldl applyJobOp s

/-! ## The idempotency ledger (`src/services/idempotency.js`) -/

/-- A JavaScript value as the ledger reads it, through
`v ? JSON.stringify(v) : null`: whether it is truthy, and its
`JSON.stringify` text (read only when it is truthy). -/
structure JsValue where
  truthy : Bool
  json : String
deriving DecidableEq

/-- The value `null`. -/
def jsNull : JsValue := ⟨false, "null"⟩

/-- The value `false`. -/
def jsFalse : JsValue := ⟨false, "false"⟩

/-- The number `0`. -/
def jsZero : JsValue := ⟨false, "0"⟩

/-- The empty string `""`. -/
def jsEmptyString : JsValue := ⟨false, "\"\""⟩

/-- The classes the code tells apart with `instanceof`: a plain `Error`, the
`ShopifyRateLimitError` of `shopify.js`, the one of `customerLookup.js`, and
the `AddEventRateLimitError` of `addEvent.js`. -/
inductive ErrorClass where
  | plain
  | shopifyRateLimitError
  | customerLookupRateLimitError
  | addEventRateLimitError
deriving DecidableEq

/-- A thrown value, by the properties the code reads; `none` is a property
that is missing (or, for the numbers, not a number). -/
structure JsError where
  cls : ErrorClass
  status : Option Int
  statusCode : Option Int
  code : Option String
  message : Option String
  retryAfter : Option Int
deriving DecidableEq

/-- JavaScript `String(x)` on a string that may be `undefined`. -/
def jsString (x : Option String) : String :=
  match x with
  | some s => s
  | none => "undefined"

/-- JavaScript `s.includes(sub)`. -/
def jsIncludes (s sub : String) : Bool :=
  decide (sub.data <:+: s.data)

/-- One character inside a `JSON.stringify` string literal. -/
def jsonEscapeChar (c : Char) : List Char :=
  if c.val = 34 then [Char.ofNat 92, Char.ofNat 34]
  else if c.val = 92 then [Char.ofNat 92, Char.ofNat 92]
  else if c.val = 8 then [Char.ofNat 92, 'b']
  else if c.val = 9 then [Char.ofNat 92, 't']
  else if c.val = 10 then [Char.ofNat 92, 'n']
  else if c.val = 12 then [Char.ofNat 92, 'f']
  else if c.val = 13 then [Char.ofNat 92, 'r']
  else if c.val < 32 then
    [Char.ofNat 92, 'u', '0', '0', Nat.digitChar (c.val.toNat / 16),
      Nat.digitChar (c.val.toNat % 16)]
  else [c]

/-- The text `JSON.stringify(s)` of a string `s`. -/
def jsonQuote (s : String) : String :=
  String.mk ([Char.ofNat 34] ++ (s.data.map jsonEscapeChar).flatten ++ [Char.ofNat 34])

/-- The text `JSON.stringify({ error: s })` written by `markActionFailed`. -/
def errorDetailsJson (s : String) : String :=
  "\x7b\"error\":" ++ jsonQuote s ++ "\x7d"

/-- The three values written to the `status` column of `order_action_logs`. -/
inductive ActionStatus where
  | acquired
  | completed
  | failed
deriving DecidableEq

/-- One row of `order_action_logs` (`db-init.js`, lines 136-151). -/
structure ActionLog where
  id : Nat
  shop : String
  order_id : String
  action : String
  details_json : Option String
  status : ActionStatus
  created_at : Int
  updated_at : Int
deriving DecidableEq

/-- The `order_action_logs` table. -/
abbrev Ledger := List ActionLog

/-- The `ON UPDATE CURRENT_TIMESTAMP` column of `order_action_logs`. -/
def onUpdateAction (now : Int) (old new : ActionLog) : ActionLog :=
  if new = old then old else { new with updated_at := now }

/-- The `WHERE shop = ? AND order_id = ? AND action = ?` of the ledger
statements, which is also the unique key `uq_action_dedupe`. -/
def actionHit (shop orderId action : String) (r : ActionLog) : Bool :=
  decide (r.shop = shop) && decide (r.order_id = orderId) && decide (r.action = action)

/-- The `AUTO_INCREMENT` value given to a new ledger row. -/
def nextActionId (l : Ledger) : Nat :=
  (l.map (fun r => r.id)).foldr max 0 + 1

/-- The expression `details ? JSON.stringify(details) : null`. -/
def detailsJson (details : JsValue) : Option String :=
  if details.truthy then some details.json else none

/-- The row `acquireAction` reads back on a collision:
`SELECT id, status, created_at`. -/
structure ExistingAction where
  id : Nat
  status : ActionStatus
  created_at : Int
deriving DecidableEq

/-- What `acquireAction` returns: `{ acquired: true, insertId }` or
`{ acquired: false, existing }`, where `existing` is `existing[0]`. -/
inductive AcquireResult where
  | acquired (insertId : Nat)
  | notAcquired (existing : Option ExistingAction)
deriving DecidableEq

/-- The row `acquireAction` inserts (lines 19-21); `created_at` and
`updated_at` take the current time. -/
def acquiredRow (id : Nat) (shop orderId action : String) (details : JsValue) (now : Int) :
    ActionLog :=
  { id := id, shop := shop, order_id := orderId, action := action,
    details_json := detailsJson details, status := ActionStatus.acquired,
    created_at := now, updated_at := now }

/-- The function `acquireAction(shop, orderId, action, details)` of
`idempotency.js`, lines 11-43: the insert succeeds when no row holds the key,
and fails with `ER_DUP_ENTRY` otherwise, in which case the row is read back. -/
def acquireAction (l : Ledger) (shop orderId action : String) (details : JsValue)
    (now : Int) : AcquireResult × Ledger :=
  if l.any (actionHit shop orderId action) then
    (AcquireResult.notAcquired
        ((l.find? (actionHit shop orderId action)).map
          (fun r => { id := r.id, status := r.status, created_at := r.created_at })),
      l)
  else
    (AcquireResult.acquired (nextActionId l),
      l ++ [acquiredRow (nextActionId l) shop orderId action details now])

/-- The function `markActionComplete(shop, orderId, action, details)` of
`idempotency.js`, lines 45-60, as its effect on the table:
`SET status = 'completed', details_json = COALESCE(?, details_json)`. -/
def markActionComplete (l : Ledger) (shop orderId action : String) (details : JsValue)
    (now : Int) : Ledger :=
  l.map (fun r =>
    if actionHit shop orderId action r then
      onUpdateAction now r
        { r with status := ActionStatus.completed,
                 details_json := coalesce (detailsJson details) r.details_json }
    else r)

/-- The function `markActionFailed(shop, orderId, action, error)` of
`idempotency.js`, lines 62-74; `error` is `err.message`, which may be
missing. -/
def markActionFailed (l : Ledger) (shop orderId action : String) (error : Option String)
    (now : Int) : Ledger :=
  l.map (fun r =>
    if actionHit shop orderId action r then
      onUpdateAction now r
        { r with status := ActionStatus.failed,
                 details_json := some (errorDetailsJson (jsSlice 1000 (jsString error))) }
    else r)

/-- The function `releaseAction(shop, orderId, action)` of `idempotency.js`,
lines 76-89, as its effect on the table: `DELETE ... AND status = 'acquired'`. -/
def releaseAction (l : Ledger) (shop orderId action : String) : Ledger :=
  l.filter (fun r =>
    !(actionHit shop orderId action r && decide (r.status = ActionStatus.acquired)))

/-- The classification of `withIdempotentAction`, lines 143-144:
`is429 || err.code === "ECONNRESET" || err.code === "ETIMEDOUT"` with
`is429 = err.status === 429 || err.statusCode === 429 ||
err.message?.includes("429")`. -/
def isTransient (err : JsError) : Bool :=
  (decide (err.status = some 429) || decide (err.statusCode = some 429) ||
    (match err.message with
     | some m => jsIncludes m "429"
     | none => false)) ||
  decide (err.code = some "ECONNRESET") || decide (err.code = some "ETIMEDOUT")

/-- What `withIdempotentAction` returns: `{ skipped: true, reason, existing }`
or `{ skipped: false, result }`. -/
inductive IdemResult where
  | skipped (existing : Option ExistingAction)
  | ran (result : JsValue)
deriving DecidableEq

/-- A task `fn` handed to `withIdempotentAction`: it acts on the world outside
the ledger and returns a value or throws. -/
abbrev Task (σ : Type) := σ → Except JsError JsValue × σ

/-- The function `withIdempotentAction(shop, orderId, action, details, fn)` of
`idempotency.js`, lines 122-155, on the ledger `l` and the world `w`, whose
clock is read by `clock`: what it returns or throws, the ledger and the world
afterwards. -/
def withIdempotentAction {σ : Type} (clock : σ → Int) (l : Ledger)
    (shop orderId action : String) (details : JsValue) (fn : Task σ) (w : σ) :
    Except JsError IdemResult × Ledger × σ :=
  match acquireAction l shop orderId action details (clock w) with
  | (AcquireResult.notAcquired existing, l1) => (Except.ok (IdemResult.skipped existing), l1, w)
  | (AcquireResult.acquired _, l1) =>
    match fn w with
    | (Except.ok result, w1) =>
      (Except.ok (IdemResult.ran result),
        markActionComplete l1 shop orderId action result (clock w1), w1)
    | (Except.error err, w1) =>
      (Except.error err,
        if isTransient err then releaseAction l1 shop orderId action
        else markActionFailed l1 shop orderId action err.message (clock w1),
        w1)

/-- A later `withIdempotentAction` call: its key, details and task. -/
structure IdemCall (σ : Type) where
  shop : String
  orderId : String
  action : String
  details : JsValue
  fn : Task σ

/-- A sequence of `withIdempotentAction` calls run one after the other: the
ledger and the world afterwards. -/
def runIdemCalls {σ : Type} (clock : σ → Int) :
    List (IdemCall σ) → Ledger × σ → Ledger × σ
  | [], st => st
  | c :: cs, st =>
    runIdemCalls clock cs
      (withIdempotentAction clock st.1 c.shop c.orderId c.action c.details c.fn st.2).2

/-- A world for the demonstrations: the list of effects carried out so far;
its clock advances by one with each effect. -/
abbrev DemoWorld := List String

/-- The clock of the demonstration world. -/
def demoClock (w : DemoWorld) : Int := (w.length : Nat)

/-- A task that sends an email and returns the transport's answer. -/
def demoSend : Task DemoWorld :=
  fun w => (Except.ok ⟨true, "\x7b\"success\":true\x7d"⟩, w ++ ["email sent"])

/-- A task that hits a rate limit. -/
def demoRateLimited : Task DemoWorld :=
  fun w => (Except.error ⟨ErrorClass.shopifyRateLimitError, some 429, some 429, none,
    some "Rate limited by Shopify", some 2⟩, w ++ ["request refused"])

/-- A task that fails for good. -/
def demoBroken : Task DemoWorld :=
  fun w => (Except.error ⟨ErrorClass.plain, none, none, none,
    some "Email template not found: northern_subscription", none⟩, w ++ ["lookup failed"])

/-- A task that succeeds and returns `null`. -/
def demoQuiet : Task DemoWorld :=
  fun w => (Except.ok jsNull, w ++ ["done"])

/-- The details `{ notifyCustomer: true }` passed at acquire time. -/
def demoDetails : JsValue := ⟨true, "\x7b\"notifyCustomer\":true\x7d"⟩

/-! ## Order processing (`src/services/orderProcessor.js`, `src/services/worker.js`) -/

/-- JavaScript white space and line terminators, the characters
`String.prototype.trim` removes. -/
def jsIsSpace (c : Char) : Bool :=
  c.val = 9 || c.val = 10 || c.val = 11 || c.val = 12 || c.val = 13 || c.val = 32 ||
  c.val = 160 || c.val = 5760 || (8192 ≤ c.val && c.val ≤ 8202) || c.val = 8232 ||
  c.val = 8233 || c.val = 8239 || c.val = 8287 || c.val = 12288 || c.val = 65279

/-- JavaScript `s.trim()`. -/
def jsTrim (s : String) : String :=
  String.mk (((s.data.dropWhile jsIsSpace).reverse.dropWhile jsIsSpace).reverse)

/-- A line item of an order, by the properties `detectProductTypes` reads. -/
structure LineItem where
  title : Option String
  name : Option String
  product_title : Option String
  variant_title : Option String
deriving DecidableEq

/-- An order as `processOrderPaid` reads it: `String(order.id)`, the three
places an email may stand, `order.line_items || []`; `raw` is the whole
payload, for the collaborators that read more of it. -/
structure Order where
  id : String
  contact_email : Option String
  email : Option String
  customer_email : Option String
  line_items : List LineItem
  raw : String
deriving DecidableEq

/-- What `detectProductTypes` returns (`orderProcessor.js`, lines 16-60). -/
structure ProductTypes where
  hasNorthern : Bool
  hasSouthern : Bool
  hasWorkshop : Bool
  northernItems : List LineItem
  southernItems : List LineItem
  workshopItems : List LineItem
deriving DecidableEq

/-- The string `combined` that `detectProductTypes` builds for an item; the
argument `lower` is `String.prototype.toLowerCase`. -/
def combinedTitle (lower : String → String) (item : LineItem) : String :=
  lower (jsOr item.title "") ++ " " ++ lower (jsOr item.name "") ++ " " ++
    lower (jsOr item.product_title "") ++ " " ++ lower (jsOr item.variant_title "")

/-- The body of the `for` loop of `detectProductTypes` (lines 28-54) for one
line item. -/
def classifyItem (lower : String → String) (result : ProductTypes) (item : LineItem) :
    ProductTypes :=
  let combined := combinedTitle lower item
  let r1 : ProductTypes :=
    if jsIncludes combined "northern" then
      { result with hasNorthern := true, northernItems := result.northernItems ++ [item] }
    else result
  let r2 : ProductTypes :=
    if jsIncludes combined "southern" then
      { r1 with hasSouthern := true, southernItems := r1.southernItems ++ [item] }
    else r1
  if jsIncludes combined "workshop" then
    { r2 with hasWorkshop := true, workshopItems := r2.workshopItems ++ [item] }
  else r2

/-- The function `detectProductTypes(lineItems)` of `orderProcessor.js`,
lines 16-60. -/
def detectProductTypes (lower : String → String) (lineItems : List LineItem) : ProductTypes :=
  lineItems.foldl (classifyItem lower)
    { hasNorthern := false, hasSouthern := false, hasWorkshop := false,
      northernItems := [], southernItems := [], workshopItems := [] }

/-- The `email` of `extractCustomerInfo(order)` (lines 64-68):
`order.contact_email || order.email || customer.email || ""`. -/
def customerEmail (order : Order) : String :=
  jsOr order.contact_email (jsOr order.email (jsOr order.customer_email ""))

/-- What `parseOrderTags` returns (lines 84-106). -/
structure ParsedTags where
  isFirstOrder : Bool
  isRecurringOrder : Bool
  raw : List String
deriving DecidableEq

/-- The function `parseOrderTags(tagsArray)` of `orderProcessor.js`, lines
84-106; each tag is compared as `tag.toLowerCase().trim()`. -/
def parseOrderTags (lower : String → String) (tagsArray : List String) : ParsedTags :=
  { isFirstOrder := tagsArray.any (fun tag => jsTrim (lower tag) = "subscription first order"),
    isRecurringOrder :=
      tagsArray.any (fun tag => jsTrim (lower tag) = "subscription recurring order"),
    raw := tagsArray }

/-- The collaborators of `processOrderPaid`, acting on the world `σ` outside
the ledger and the job table, and the built-ins it relies on. -/
structure OrderEnv (σ : Type) where
  clock : σ → Int
  toLowerCase : String → String
  parseOrder : String → Order
  saveOrderSeen : String → Order → σ → σ
  getOrderTags : String → String → σ → Except JsError (List String) × σ
  sendTemplateEmail : String → String → String → Order → σ → Except JsError JsValue × σ
  fulfillOrder : String → String → Bool → σ → Except JsError JsValue × σ
  saveWorkshopRegistration : String → Order → List LineItem → σ → Except JsError Unit × σ

/-- An entry pushed to `results.actions`: the action and its status. -/
abbrev ActionEntry := String × String

/-- Sequencing of two steps of an `async` function: the second runs on the
state the first left, unless the first threw. -/
def andThen {α β S : Type} (r : Except JsError α × S) (k : α → S → Except JsError β × S) :
    Except JsError β × S :=
  match r with
  | (Except.ok a, s) => k a s
  | (Except.error e, s) => (Except.error e, s)

/-- One `try { withIdempotentAction(...) ... } catch (err) { ...; throw err }`
block of `processOrderPaid`: the entry pushed is `skipped` when the call was
skipped and `doneStatus` when the task ran; an error is re-thrown. -/
def actionStep {σ : Type} (env : OrderEnv σ) (shop orderId action : String) (details : JsValue)
    (fn : Task σ) (doneStatus : String) (acts : List ActionEntry) (st : Ledger × σ) :
    Except JsError (List ActionEntry) × (Ledger × σ) :=
  match withIdempotentAction env.clock st.1 shop orderId action details fn st.2 with
  | (Except.ok (IdemResult.skipped _), l, w) => (Except.ok (acts ++ [(action, "skipped")]), (l, w))
  | (Except.ok (IdemResult.ran _), l, w) => (Except.ok (acts ++ [(action, doneStatus)]), (l, w))
  | (Except.error e, l, w) => (Except.error e, (l, w))

/-- The details `{ template, email }` of the email actions. -/
def emailDetails (template email : String) : JsValue :=
  ⟨true, "\x7b\"template\":" ++ jsonQuote template ++ ",\"email\":" ++ jsonQuote email ++ "\x7d"⟩

/-- The details `{ notifyCustomer }` of the fulfilment actions. -/
def fulfillDetails (notifyCustomer : Bool) : JsValue :=
  ⟨true, if notifyCustomer then "\x7b\"notifyCustomer\":true\x7d"
    else "\x7b\"notifyCustomer\":false\x7d"⟩

/-- A step that is taken only under a condition (`if (cond) { ... }`). -/
def stepIf {S : Type} (cond : Bool)
    (step : List ActionEntry → S → Except JsError (List ActionEntry) × S)
    (acts : List ActionEntry) (st : S) : Except JsError (List ActionEntry) × S :=
  if cond then step acts st else (Except.ok acts, st)

/-- The subscription branch of `processOrderPaid` (lines 233-360). -/
def subscriptionActions {σ : Type} (env : OrderEnv σ) (shop : String) (order : Order)
    (products : ProductTypes) (parsedTags : ParsedTags) (acts : List ActionEntry)
    (st : Ledger × σ) : Except JsError (List ActionEntry) × (Ledger × σ) :=
  let email := customerEmail order
  if parsedTags.isFirstOrder then
    andThen
      (stepIf (products.hasNorthern && decide (email ≠ ""))
        (actionStep env shop order.id "email_northern"
          (emailDetails "northern_subscription" email)
          (env.sendTemplateEmail shop "northern_subscription" email order) "sent")
        acts st)
      (fun acts1 st1 =>
        andThen
          (stepIf (products.hasSouthern && decide (email ≠ ""))
            (actionStep env shop order.id "email_southern"
              (emailDetails "southern_subscription" email)
              (env.sendTemplateEmail shop "southern_subscription" email order) "sent")
            acts1 st1)
          (fun acts2 st2 =>
            actionStep env shop order.id "fulfill_subscription" (fulfillDetails true)
              (env.fulfillOrder shop order.id true) "completed" acts2 st2))
  else if parsedTags.isRecurringOrder then
    actionStep env shop order.id "fulfill_subscription" (fulfillDetails false)
      (env.fulfillOrder shop order.id false) "completed" acts st
  else
    (Except.ok (acts ++ [("subscription_skipped", "no_matching_tag")]), st)

/-- The workshop branch of `processOrderPaid` (lines 362-423). -/
def workshopActions {σ : Type} (env : OrderEnv σ) (shop : String) (order : Order)
    (products : ProductTypes) (acts : List ActionEntry) (st : Ledger × σ) :
    Except JsError (List ActionEntry) × (Ledger × σ) :=
  let email := customerEmail order
  match env.saveWorkshopRegistration shop order products.workshopItems st.2 with
  | (Except.error e, w) => (Except.error e, (st.1, w))
  | (Except.ok _, w) =>
    andThen
      (stepIf (decide (email ≠ ""))
        (actionStep env shop order.id "email_workshop" (emailDetails "workshop_email" email)
          (env.sendTemplateEmail shop "workshop_email" email order) "sent")
        acts (st.1, w))
      (fun acts1 st1 =>
        actionStep env shop order.id "fulfill_workshop" (fulfillDetails true)
          (env.fulfillOrder shop order.id true) "completed" acts1 st1)

/-- The function `processOrderPaid(shop, order)` of `orderProcessor.js`, lines
194-435: the `results.actions` it returns or the error it throws, and the
ledger and world afterwards. -/
def processOrderPaid {σ : Type} (env : OrderEnv σ) (shop : String) (order : Order)
    (st : Ledger × σ) : Except JsError (List ActionEntry) × (Ledger × σ) :=
  let w0 := env.saveOrderSeen shop order st.2
  let products := detectProductTypes env.toLowerCase order.line_items
  let hasSubscription := products.hasNorthern || products.hasSouthern
  andThen
    (if hasSubscription then
      match env.getOrderTags shop order.id w0 with
      | (Except.ok tags, w1) =>
        subscriptionActions env shop order products (parseOrderTags env.toLowerCase tags) []
          (st.1, w1)
      | (Except.error e, w1) => (Except.error e, (st.1, w1))
    else (Except.ok [], (st.1, w0)))
    (fun acts1 st1 =>
      andThen (stepIf products.hasWorkshop (workshopActions env shop order products) acts1 st1)
        (fun acts2 st2 =>
          (Except.ok
            (if !hasSubscription && !products.hasWorkshop then
              acts2 ++ [("skipped", "no_matching_products")]
            else acts2), st2)))

/-- What `processJob` returns: `{ success: true }` or
`{ success: false, error, failResult }` (durations are not modelled). -/
inductive ProcessOutcome where
  | success
  | failure (error : Option String) (failResult : FailResult)
deriving DecidableEq

/-- The hint `processJob` passes to `failJob` (`worker.js`, lines 46-50):
`err.retryAfter || 10` for a `ShopifyRateLimitError`, `null` otherwise. -/
def retryAfterOf (err : JsError) : Option Int :=
  if err.cls = ErrorClass.shopifyRateLimitError then
    some (match err.retryAfter with
      | some n => if n = 0 then 10 else n
      | none => 10)
  else none

/-- The function `processJob(job)` of `worker.js`, lines 17-58, on the job
table, the ledger and the world: what it returns, or the error that escapes
it, and the three afterwards; `maxAttempts` is `WORKER_MAX_ATTEMPTS`. -/
def processJob {σ : Type} (env : OrderEnv σ) (maxAttempts : Nat) (job : ClaimedJob)
    (st : JobStore × Ledger × σ) : Except JsError ProcessOutcome × (JobStore × Ledger × σ) :=
  let task : Except JsError Unit × (Ledger × σ) :=
    if job.jobType = "order_paid" then
      match processOrderPaid env job.shop (env.parseOrder job.payload) st.2 with
      | (Except.ok _, st1) => (Except.ok (), st1)
      | (Except.error e, st1) => (Except.error e, st1)
    else (Except.ok (), st.2)
  match task with
  | (Except.ok _, st1) =>
    (Except.ok ProcessOutcome.success, (completeJob st.1 job.id (env.clock st1.2), st1))
  | (Except.error err, st1) =>
    let failed := failJob st.1 job.id (jsString err.message) (retryAfterOf err) maxAttempts
      (env.clock st1.2)
    (Except.ok (ProcessOutcome.failure err.message failed.1), (failed.2, st1))

/-- One pass of the body of `workerLoop` (`worker.js`, lines 65-77) by the
worker `workerId`: `claimJob(1)` at the current time, then `processJob` on
each claimed job in turn. -/
def workerIteration {σ : Type} (env : OrderEnv σ) (maxAttempts : Nat) (workerId : String)
    (st : JobStore × Ledger × σ) : JobStore × Ledger × σ :=
  let claimed := claimJob st.1 workerId (env.clock st.2.2) 1
  claimed.1.foldl (fun acc job => (processJob env maxAttempts job acc).2) (claimed.2, st.2)

/-- The order of the scenario: one northern subscription box, with an email. -/
def demoOrder : Order :=
  { id := "1001", contact_email := some "ada@example.com", email := none,
    customer_email := none,
    line_items := [⟨some "Northern Box", none, none, some "Monthly"⟩], raw := "\x7b\x7d" }

/-- Lower-casing of the letters `A` to `Z`, which is what `toLowerCase` does
on the texts of the demonstrations. -/
def asciiLower (s : String) : String :=
  String.mk (s.data.map Char.toLower)

/-- Collaborators for the demonstrations, on a world whose clock starts at 200
and advances by 100 with each effect: the order is tagged as a first order,
the email template is missing, and fulfilment succeeds. -/
def brokenMailEnv : OrderEnv DemoWorld :=
  { clock := fun w => 200 + 100 * (w.length : Nat),
    toLowerCase := asciiLower,
    parseOrder := fun _ => demoOrder,
    saveOrderSeen := fun _ _ w => w,
    getOrderTags := fun _ _ w => (Except.ok ["Subscription First Order"], w ++ ["tags read"]),
    sendTemplateEmail := fun _ template _ _ w =>
      (Except.error ⟨ErrorClass.plain, none, none, none,
        some ("Email template not found: " ++ template), none⟩, w ++ ["template missing"]),
    fulfillOrder := fun _ _ _ w =>
      (Except.ok ⟨true, "\x7b\"success\":true\x7d"⟩, w ++ ["order fulfilled"]),
    saveWorkshopRegistration := fun _ _ _ w => (Except.ok (), w) }

/-- Collaborators for the demonstrations in which Shopify answers the tag
lookup with 429 and `Retry-After: 0`. -/
def rateLimitedEnv : OrderEnv DemoWorld :=
  { brokenMailEnv with
    getOrderTags := fun _ _ w =>
      (Except.error ⟨ErrorClass.shopifyRateLimitError, some 429, some 429, none,
        some "Rate limited by Shopify", some 0⟩, w ++ ["tags refused"]) }

/-- The scenario after the first pass of a worker: the email action failed
for good and the job was requeued. -/
def firstAttempt : JobStore × Ledger × DemoWorld :=
  workerIteration brokenMailEnv 5 "worker_a" (scenarioQueued, [], [])

/-- The scenario after the worker slept and made a second pass. -/
def secondAttempt : JobStore × Ledger × DemoWorld :=
  workerIteration brokenMailEnv 5 "worker_a"
    (firstAttempt.1, firstAttempt.2.1, firstAttempt.2.2 ++ ["slept"])

/-- The ledger row left by the first attempt of the scenario. -/
def failedEmailRow : ActionLog :=
  { id := 1, shop := "demo.myshopify.com", order_id := "1001", action := "email_northern",
    details_json :=
      some "\x7b\"error\":\"Email template not found: northern_subscription\"\x7d",
    status := ActionStatus.failed, created_at := 300, updated_at := 400 }

/-- The job object of the scenario as `claimJob` hands it out the second time. -/
def secondClaim : ClaimedJob :=
  { id := 1, shop := "demo.myshopify.com", jobType := "order_paid", orderId := some "1001",
    payload := "\x7b\x7d", attempts := 2 }

/-! ## The removal pipeline (`src/services/removalProcessor.js`, lines 86-514) -/

/-- The values the code writes to `removal_status` (and to the `status` of a
removal log). -/
inductive RemovalStatus where
  | pending
  | done
  | not_found
  | failed
  | skipped
deriving DecidableEq, Repr

/-- A row of `previous_cancelled_subs` (`db-init.js`, lines 203-221). -/
structure RemovalTarget where
  id : Nat
  shop : String
  month_stamp : String
  contract_id : String
  customer_id : String
  email : Option String
  line_variant_id : Option String
  handle : Option String
  removal_status : RemovalStatus
  removal_error : Option String
  removed_at : Option Int
  created_at : Int
  updated_at : Int
deriving DecidableEq

/-- A row of `removal_logs` (`db-init.js`, lines 276-290). -/
structure RemovalLog where
  id : Nat
  shop : String
  prev_cancelled_id : Nat
  calendar_key : Option String
  email : Option String
  subscriber_id : Option String
  status : RemovalStatus
  error : Option String
  created_at : Int
deriving DecidableEq

/-- The `stats` object of `processRemovalJob` (lines 201-208); an entry of
`errors` is `{ id, error }`. -/
structure RemovalStats where
  processed : Nat
  done : Nat
  notFound : Nat
  failed : Nat
  skipped : Nat
  errors : List (Nat × Option String)
deriving DecidableEq

/-- The configuration `addEvent.js` reads from the environment (lines 3-16). -/
structure AddEventConfig where
  apiKey : String
  northernCalendarId : String
  southernCalendarId : String
  snapshotTtlMinutes : Int
  northernVariantIds : List String
  southernVariantIds : List String

/-- What `getCustomerEmail` resolves to when the customer exists
(`customerLookup.js`, lines 100-104), by the property the pipeline reads. -/
structure CustomerData where
  email : Option String
deriving DecidableEq

/-- A string that may be `null`, seen as a condition: `null` and the empty
string are falsy. -/
def truthyString (x : Option String) : Option String :=
  match x with
  | some s => if s = "" then none else some s
  | none => none

/-- An id that may be `null`, seen as a condition: `null` and `0` are falsy. -/
def truthyNat (x : Option Nat) : Option Nat :=
  match x with
  | some n => if n = 0 then none else some n
  | none => none

/-- The function `getCalendarKeyForVariant(lineVariantId)` of `addEvent.js`,
lines 30-46. -/
def getCalendarKeyForVariant (cfg : AddEventConfig) (lineVariantId : Option String) :
    Option String :=
  let variantId := jsTrim (jsOr lineVariantId "")
  if variantId ∈ cfg.northernVariantIds then some "northern"
  else if variantId ∈ cfg.southernVariantIds then some "southern"
  else none

/-- The function `getCalendarId(calendarKey)` of `addEvent.js`, lines 48-52. -/
def getCalendarId (cfg : AddEventConfig) (calendarKey : String) : Option String :=
  if calendarKey = "northern" then some cfg.northernCalendarId
  else if calendarKey = "southern" then some cfg.southernCalendarId
  else none

/-- The collaborators of the removal pipeline, acting on the world `σ` outside
the three removal tables; `monthStamp` is
`new Date().toISOString().slice(0, 7)`. -/
structure RemovalEnv (σ : Type) where
  clock : σ → Int
  monthStamp : σ → String
  config : AddEventConfig
  getCustomerEmail : String → String → σ → Except JsError (Option CustomerData) × σ
  ensureSnapshot : String → String → String → σ → Except JsError (Option Nat) × σ
  lookupSubscriberByEmail : Nat → String → σ → Except JsError (Option String) × σ
  deleteSubscriber : Option String → String → σ → Except JsError Unit × σ

/-- What the loop of `processRemovalJob` works on: the target and log tables,
its `stats`, its `snapshotCache` object and the world. -/
structure RemovalState (σ : Type) where
  targets : List RemovalTarget
  logs : List RemovalLog
  stats : RemovalStats
  snapshotCache : List (String × Option Nat)
  world : σ

/-- MySQL `ON UPDATE CURRENT_TIMESTAMP` on `previous_cancelled_subs`. -/
def onUpdateTarget (now : Int) (old new : RemovalTarget) : RemovalTarget :=
  if new = old then old else { new with updated_at := now }

/-- An `UPDATE previous_cancelled_subs SET ... WHERE id = ?`. -/
def updateTarget (ts : List RemovalTarget) (id : Nat) (now : Int)
    (set : RemovalTarget → RemovalTarget) : List RemovalTarget :=
  ts.map (fun r => if r.id = id then onUpdateTarget now r (set r) else r)

/-- The assignment `SET email = ?`. -/
def setEmail (email : String) (r : RemovalTarget) : RemovalTarget :=
  { r with email := some email }

/-- The assignment `SET removal_status = ?, removal_error = ?`. -/
def setStatus (status : RemovalStatus) (error : Option String) (r : RemovalTarget) :
    RemovalTarget :=
  { r with removal_status := status, removal_error := error }

/-- The assignment
`SET removal_status = 'done', removed_at = ?, removal_error = NULL`. -/
def setDone (removedAt : Int) (r : RemovalTarget) : RemovalTarget :=
  { r with removal_status := RemovalStatus.done, removed_at := some removedAt,
           removal_error := none }

/-- The id `AUTO_INCREMENT` gives the next removal log. -/
def nextLogId (logs : List RemovalLog) : Nat :=
  (logs.map (fun r => r.id)).foldr max 0 + 1

/-- The function `logRemovalAttempt` of `removalProcessor.js`, lines 383-395;
the error column is `error ? String(error).slice(0, 2000) : null`. -/
def logRemovalAttempt (logs : List RemovalLog) (shop : String) (prevCancelledId : Nat)
    (calendarKey email subscriberId : Option String) (status : RemovalStatus)
    (error : Option String) (now : Int) : List RemovalLog :=
  logs ++ [{ id := nextLogId logs, shop := shop, prev_cancelled_id := prevCancelledId,
             calendar_key := calendarKey, email := email, subscriber_id := subscriberId,
             status := status,
             error := (truthyString error).map (jsSlice 2000),
             created_at := now }]

/-- The counter of `stats` a closing status increments. -/
def countStatus (status : RemovalStatus) (stats : RemovalStats) : RemovalStats :=
  match status with
  | RemovalStatus.pending => stats
  | RemovalStatus.done => { stats with done := stats.done + 1 }
  | RemovalStatus.not_found => { stats with notFound := stats.notFound + 1 }
  | RemovalStatus.failed => { stats with failed := stats.failed + 1 }
  | RemovalStatus.skipped => { stats with skipped := stats.skipped + 1 }

/-- The three statements that close a target without a removal (for example
lines 247-254): the status update with its `removal_error`, the log entry with
its own error text, and the counter. -/
def closeTarget {σ : Type} (env : RemovalEnv σ) (shop : String) (rowId : Nat)
    (status : RemovalStatus) (removalError : String) (calendarKey email : Option String)
    (logError : String) (st : RemovalState σ) : RemovalState σ :=
  { st with
    targets := updateTarget st.targets rowId (env.clock st.world)
      (setStatus status (some removalError)),
    logs := logRemovalAttempt st.logs shop rowId calendarKey email none status
      (some logError) (env.clock st.world),
    stats := countStatus status st.stats }

/-- The value `snapshotCache[cacheKey]`: the last one assigned, if any. -/
def cacheGet (cache : List (String × Option Nat)) (cacheKey : String) : Option Nat :=
  (cache.find? (fun e => e.1 = cacheKey)).bind (fun e => e.2)

/-- The assignment `snapshotCache[cacheKey] = value`. -/
def cacheSet (cache : List (String × Option Nat)) (cacheKey : String) (value : Option Nat) :
    List (String × Option Nat) :=
  (cacheKey, value) :: cache.filter (fun e => e.1 ≠ cacheKey)

/-- Lines 228-257 of `processRemovalJob`: the email of a target. The result
`none` is the `continue` after the target was closed as `not_found`;
otherwise it is the value of `email`, which may still be falsy. -/
def resolveEmail {σ : Type} (env : RemovalEnv σ) (shop : String) (row : RemovalTarget)
    (st : RemovalState σ) : Except JsError (Option (Option String)) × RemovalState σ :=
  if (truthyString row.email).isNone && decide (row.customer_id ≠ "") then
    match env.getCustomerEmail shop row.customer_id st.world with
    | (Except.error e, w) => (Except.error e, { st with world := w })
    | (Except.ok customerData, w) =>
      match truthyString (customerData.bind (fun c => c.email)) with
      | some email =>
        (Except.ok (some (some email)),
          { st with world := w,
                    targets := updateTarget st.targets row.id (env.clock w) (setEmail email) })
      | none =>
        (Except.ok none,
          closeTarget env shop row.id RemovalStatus.not_found
            "Customer email not found in Shopify" none row.email "Customer email not found"
            { st with world := w })
  else (Except.ok (some row.email), st)

/-- Lines 289-295 of `processRemovalJob`: the snapshot id of a calendar, from
`snapshotCache` when it holds a truthy one and from `ensureSnapshot`
otherwise. -/
def cachedSnapshot {σ : Type} (env : RemovalEnv σ) (shop monthStamp calendarKey : String)
    (st : RemovalState σ) : Except JsError (Option Nat) × RemovalState σ :=
  let cacheKey := shop ++ ":" ++ monthStamp ++ ":" ++ calendarKey
  match truthyNat (cacheGet st.snapshotCache cacheKey) with
  | some snapshotId => (Except.ok (some snapshotId), st)
  | none =>
    match env.ensureSnapshot shop monthStamp calendarKey st.world with
    | (Except.error e, w) => (Except.error e, { st with world := w })
    | (Except.ok snapshotId, w) =>
      (Except.ok snapshotId,
        { st with world := w,
                  snapshotCache := cacheSet st.snapshotCache cacheKey snapshotId })

/-- Lines 311-342 of `processRemovalJob`: the lookup in the snapshot, the
external delete and the `done` bookkeeping. -/
def removeSubscriber {σ : Type} (env : RemovalEnv σ) (shop : String) (rowId : Nat)
    (calendarKey email : String) (snapshotId : Nat) (st : RemovalState σ) :
    Except JsError Unit × RemovalState σ :=
  match env.lookupSubscriberByEmail snapshotId email st.world with
  | (Except.error e, w) => (Except.error e, { st with world := w })
  | (Except.ok found, w) =>
    match truthyString found with
    | none =>
      (Except.ok (),
        closeTarget env shop rowId RemovalStatus.not_found
          "Subscriber not found in AddEvent calendar" (some calendarKey) (some email)
          "Not in AddEvent" { st with world := w })
    | some subscriberId =>
      match env.deleteSubscriber (getCalendarId env.config calendarKey) subscriberId w with
      | (Except.error e, w2) => (Except.error e, { st with world := w2 })
      | (Except.ok _, w2) =>
        (Except.ok (),
          { st with
            world := w2,
            targets := updateTarget st.targets rowId (env.clock w2) (setDone (env.clock w2)),
            logs := logRemovalAttempt st.logs shop rowId (some calendarKey) (some email)
              (some subscriberId) RemovalStatus.done none (env.clock w2),
            stats := countStatus RemovalStatus.done st.stats })

/-- The body of the inner `try` of `processRemovalJob`, lines 228-342, for one
pending row. -/
def removeTarget {σ : Type} (env : RemovalEnv σ) (shop monthStamp : String)
    (row : RemovalTarget) (st : RemovalState σ) : Except JsError Unit × RemovalState σ :=
  andThen (resolveEmail env shop row st) (fun resolved st1 =>
    match resolved with
    | none => (Except.ok (), st1)
    | some current =>
      match truthyString current with
      | none =>
        (Except.ok (),
          closeTarget env shop row.id RemovalStatus.not_found "No email available" none none
            "No email available" st1)
      | some email =>
        match getCalendarKeyForVariant env.config row.line_variant_id with
        | none =>
          (Except.ok (),
            closeTarget env shop row.id RemovalStatus.skipped
              "No calendar mapping for variant" none (some email) "No calendar mapping" st1)
        | some calendarKey =>
          andThen (cachedSnapshot env shop monthStamp calendarKey st1) (fun snapshot st2 =>
            match truthyNat snapshot with
            | none =>
              (Except.ok (),
                closeTarget env shop row.id RemovalStatus.skipped "Could not create snapshot"
                  (some calendarKey) (some email) "No snapshot" st2)
            | some snapshotId =>
              removeSubscriber env shop row.id calendarKey email snapshotId st2))

/-- The test `isRateLimit` of the inner `catch` (lines 347-349); the class
`ShopifyRateLimit` is the one of `customerLookup.js`. -/
def isRateLimit (err : JsError) : Bool :=
  decide (err.cls = ErrorClass.addEventRateLimitError) ||
  decide (err.cls = ErrorClass.customerLookupRateLimitError) ||
  decide (err.status = some 429)

/-- What the inner `catch` does with an error that is not a rate limit (lines
356-364). -/
def recordFailure {σ : Type} (env : RemovalEnv σ) (shop : String) (row : RemovalTarget)
    (err : JsError) (st : RemovalState σ) : RemovalState σ :=
  { st with
    targets := updateTarget st.targets row.id (env.clock st.world)
      (setStatus RemovalStatus.failed (some (jsSlice 1000 (jsString err.message)))),
    logs := logRemovalAttempt st.logs shop row.id none row.email none RemovalStatus.failed
      err.message (env.clock st.world),
    stats := { countStatus RemovalStatus.failed st.stats with
               errors := st.stats.errors ++ [(row.id, err.message)] } }

/-- The statement `stats.processed++` (line 225). -/
def countProcessed {σ : Type} (st : RemovalState σ) : RemovalState σ :=
  { st with stats := { st.stats with processed := st.stats.processed + 1 } }

/-- One turn of the `for` loop of `processRemovalJob` (lines 223-366):
`stats.processed++`, the `try` body and the `catch`, which re-throws a rate
limit and records every other error on the target. -/
def processTarget {σ : Type} (env : RemovalEnv σ) (shop monthStamp : String)
    (row : RemovalTarget) (st : RemovalState σ) : Except JsError Unit × RemovalState σ :=
  match removeTarget env shop monthStamp row (countProcessed st) with
  | (Except.ok _, st1) => (Except.ok (), st1)
  | (Except.error err, st1) =>
    if isRateLimit err then (Except.error err, st1)
    else (Except.ok (), recordFailure env shop row err st1)

/-- The `for` loop of `processRemovalJob` over the selected rows: it ends at
the first turn that throws. -/
def processTargets {σ : Type} (env : RemovalEnv σ) (shop monthStamp : String) :
    List RemovalTarget → RemovalState σ → Except JsError Unit × RemovalState σ
  | [], st => (Except.ok (), st)
  | row :: rest, st =>
    match processTarget env shop monthStamp row st with
    | (Except.ok _, st1) => processTargets env shop monthStamp rest st1
    | (Except.error e, st1) => (Except.error e, st1)

/-- The order `ORDER BY id ASC` on `previous_cancelled_subs`. -/
def targetOrder (a b : RemovalTarget) : Prop :=
  a.id ≤ b.id

instance : DecidableRel targetOrder := fun a b =>
  inferInstanceAs (Decidable (a.id ≤ b.id))

instance : IsTotal RemovalTarget targetOrder where
  total a b := Nat.le_total a.id b.id

instance : IsTrans RemovalTarget targetOrder where
  trans _ _ _ h1 h2 := Nat.le_trans h1 h2

/-- The `SELECT ... WHERE shop = ? AND month_stamp = ? AND removal_status =
'pending' ORDER BY id ASC` of lines 211-217; the rows are kept whole, the
loop reads their `id`, `customer_id`, `email` and `line_variant_id`. -/
def pendingRows (ts : List RemovalTarget) (shop monthStamp : String) : List RemovalTarget :=
  (ts.filter (fun r => decide (r.shop = shop) && decide (r.month_stamp = monthStamp) &&
    decide (r.removal_status = RemovalStatus.pending))).insertionSort targetOrder

/-- The text `JSON.stringify(stats)`; an entry of `errors` whose `error` is
`undefined` is written without that property. -/
def statsJson (stats : RemovalStats) : String :=
  "\x7b\"processed\":" ++ toString stats.processed ++ ",\"done\":" ++ toString stats.done ++
    ",\"notFound\":" ++ toString stats.notFound ++ ",\"failed\":" ++ toString stats.failed ++
    ",\"skipped\":" ++ toString stats.skipped ++ ",\"errors\":[" ++
    ",".intercalate (stats.errors.map (fun e =>
      match e.2 with
      | some m => "\x7b\"id\":" ++ toString e.1 ++ ",\"error\":" ++ jsonQuote m ++ "\x7d"
      | none => "\x7b\"id\":" ++ toString e.1 ++ "\x7d")) ++ "]\x7d"

/-- The function `completeRemovalJob(jobId, stats)` of `removalProcessor.js`,
lines 86-99. -/
def completeRemovalJob (s : RemovalStore) (jobId : Nat) (stats : RemovalStats) (now : Int) :
    RemovalStore :=
  s.map (fun r =>
    if r.id = jobId then
      onUpdateRemoval now r
        { r with status := Status.completed, locked_at := none, locked_by := none,
                 stats_json := some (statsJson stats), last_error := none }
    else r)

/-- What `failRemovalJob` returns: `{ status: "failed" }` or
`{ status: "requeued", backoff }`. -/
inductive RemovalFailResult where
  | failed
  | requeued (backoff : Int)
deriving DecidableEq

/-- The `attempts` that `failRemovalJob` reads (lines 107-112):
`rows[0]?.attempts || 0`. -/
def removalAttempts (s : RemovalStore) (jobId : Nat) : Nat :=
  match s.filter (fun r => r.id = jobId) with
  | r :: _ => r.attempts
  | [] => 0

/-- The function `failRemovalJob(jobId, error, retryAfterSeconds)` of
`removalProcessor.js`, lines 101-135, with `maxAttempts = 5`; `error` is the
text `String(error)`. The table has no `run_after` column and neither
`UPDATE` stores the backoff, which is only returned. -/
def failRemovalJob (s : RemovalStore) (jobId : Nat) (error : String)
    (retryAfterSeconds : Option Int) (now : Int) : RemovalFailResult × RemovalStore :=
  if 5 ≤ removalAttempts s jobId then
    (RemovalFailResult.failed,
      s.map (fun r =>
        if r.id = jobId then
          onUpdateRemoval now r
            { r with status := Status.failed, locked_at := none, locked_by := none,
                     last_error := some (jsSlice 2000 error) }
        else r))
  else
    (RemovalFailResult.requeued (removalBackoff retryAfterSeconds (removalAttempts s jobId)),
      s.map (fun r =>
        if r.id = jobId then
          onUpdateRemoval now r
            { r with status := Status.queued, locked_at := none, locked_by := none,
                     last_error := some (jsSlice 2000 error) }
        else r))

/-- The expression `err.retryAfter || null` of the outer `catch` (line 376). -/
def retryAfterOrNull (retryAfter : Option Int) : Option Int :=
  match retryAfter with
  | some n => if n = 0 then none else some n
  | none => none

/-- A row of `active_subs`, by the columns the pipeline reads. -/
structure ActiveSub where
  shop : String
  contract_id : String
  customer_id : String
deriving DecidableEq

/-- The tables of the removal pipeline and the world. -/
structure RemovalDb (σ : Type) where
  jobs : RemovalStore
  active : List ActiveSub
  targets : List RemovalTarget
  logs : List RemovalLog
  world : σ

/-- What `processRemovalJob` returns: `{ processed: false, reason: "no_job" }`,
`{ processed: true, stats }` or `{ processed: false, error, stats }`. -/
inductive RemovalOutcome where
  | noJob
  | completed (stats : RemovalStats)
  | failed (error : Option String) (stats : RemovalStats)
deriving DecidableEq

/-- The `stats` object `processRemovalJob` starts from. -/
def emptyStats : RemovalStats :=
  { processed := 0, done := 0, notFound := 0, failed := 0, skipped := 0, errors := [] }

/-- The loop state `processRemovalJob` starts from. -/
def startState {σ : Type} (db : RemovalDb σ) : RemovalState σ :=
  { targets := db.targets, logs := db.logs, stats := emptyStats, snapshotCache := [],
    world := db.world }

/-- The function `processRemovalJob(shop, monthStamp, workerId)` of
`removalProcessor.js`, lines 189-381. -/
def processRemovalJob {σ : Type} (env : RemovalEnv σ) (shop monthStamp workerId : String)
    (db : RemovalDb σ) : RemovalOutcome × RemovalDb σ :=
  match claimRemovalJob db.jobs shop monthStamp workerId (env.clock db.world) with
  | (none, jobs) => (RemovalOutcome.noJob, { db with jobs := jobs })
  | (some job, jobs) =>
    match processTargets env shop monthStamp (pendingRows db.targets shop monthStamp)
        (startState db) with
    | (Except.ok _, st) =>
      (RemovalOutcome.completed st.stats,
        { jobs := completeRemovalJob jobs job.id st.stats (env.clock st.world),
          active := db.active, targets := st.targets, logs := st.logs, world := st.world })
    | (Except.error err, st) =>
      (RemovalOutcome.failed err.message st.stats,
        { jobs := (failRemovalJob jobs job.id (jsString err.message)
            (retryAfterOrNull err.retryAfter) (env.clock st.world)).2,
          active := db.active, targets := st.targets, logs := st.logs, world := st.world })

/-- What `processSingleContractRemoval` returns:
`{ processed: false, reason: "customer_is_active" }`,
`{ processed: false, reason: "already_processed", status }`,
`{ processed: true, status, reason }`, `{ processed: true, status: "done",
subscriberId }` or `{ processed: false, status: "failed", error }`. -/
inductive SingleOutcome where
  | customerIsActive
  | alreadyProcessed (status : RemovalStatus)
  | closed (status : RemovalStatus) (reason : String)
  | done (subscriberId : String)
  | failed (error : Option String)
deriving DecidableEq

/-- The id `AUTO_INCREMENT` gives the next row of `previous_cancelled_subs`. -/
def nextTargetId (ts : List RemovalTarget) : Nat :=
  (ts.map (fun r => r.id)).foldr max 0 + 1

/-- A status update of `processSingleContractRemoval` (for example lines
445-448), which writes no log. -/
def closeSingle {σ : Type} (env : RemovalEnv σ) (prevId : Nat) (status : RemovalStatus)
    (removalError : String) (db : RemovalDb σ) : RemovalDb σ :=
  { db with
    targets := updateTarget db.targets prevId (env.clock db.world)
      (setStatus status (some removalError)) }

/-- The body of the `try` of `processSingleContractRemoval`, lines 441-502. -/
def removeSingle {σ : Type} (env : RemovalEnv σ) (shop monthStamp customerId : String)
    (lineVariantId : Option String) (prevId : Nat) (db : RemovalDb σ) :
    Except JsError SingleOutcome × RemovalDb σ :=
  match env.getCustomerEmail shop customerId db.world with
  | (Except.error e, w) => (Except.error e, { db with world := w })
  | (Except.ok customerData, w) =>
    match truthyString (customerData.bind (fun c => c.email)) with
    | none =>
      (Except.ok (SingleOutcome.closed RemovalStatus.not_found "no_email"),
        closeSingle env prevId RemovalStatus.not_found "Customer email not found"
          { db with world := w })
    | some email =>
      let db1 : RemovalDb σ :=
        { db with world := w,
                  targets := updateTarget db.targets prevId (env.clock w) (setEmail email) }
      match getCalendarKeyForVariant env.config lineVariantId with
      | none =>
        (Except.ok (SingleOutcome.closed RemovalStatus.skipped "no_calendar_mapping"),
          closeSingle env prevId RemovalStatus.skipped "No calendar mapping for variant" db1)
      | some calendarKey =>
        match env.ensureSnapshot shop monthStamp calendarKey db1.world with
        | (Except.error e, w2) => (Except.error e, { db1 with world := w2 })
        | (Except.ok snapshot, w2) =>
          match truthyNat snapshot with
          | none =>
            (Except.ok (SingleOutcome.closed RemovalStatus.skipped "no_snapshot"),
              closeSingle env prevId RemovalStatus.skipped "Could not create snapshot"
                { db1 with world := w2 })
          | some snapshotId =>
            match env.lookupSubscriberByEmail snapshotId email w2 with
            | (Except.error e, w3) => (Except.error e, { db1 with world := w3 })
            | (Except.ok found, w3) =>
              match truthyString found with
              | none =>
                (Except.ok (SingleOutcome.closed RemovalStatus.not_found "not_in_addevent"),
                  closeSingle env prevId RemovalStatus.not_found
                    "Subscriber not found in AddEvent" { db1 with world := w3 })
              | some subscriberId =>
                match env.deleteSubscriber (getCalendarId env.config calendarKey)
                    subscriberId w3 with
                | (Except.error e, w4) => (Except.error e, { db1 with world := w4 })
                | (Except.ok _, w4) =>
                  (Except.ok (SingleOutcome.done subscriberId),
                    { db1 with
                      world := w4,
                      targets := updateTarget db1.targets prevId (env.clock w4)
                        (setDone (env.clock w4)),
                      logs := logRemovalAttempt db1.logs shop prevId (some calendarKey)
                        (some email) (some subscriberId) RemovalStatus.done none
                        (env.clock w4) })

/-- The `INSERT INTO previous_cancelled_subs ... VALUES (?, ?, ?, ?, NULL, ?,
NULL, 'pending')` of lines 427-432; `insertId` is `nextTargetId`. -/
def insertPending {σ : Type} (env : RemovalEnv σ)
    (shop monthStamp contractId customerId : String) (lineVariantId : Option String)
    (db : RemovalDb σ) : RemovalDb σ :=
  { db with
    targets := db.targets ++
      [{ id := nextTargetId db.targets, shop := shop, month_stamp := monthStamp,
         contract_id := contractId, customer_id := customerId, email := none,
         line_variant_id := lineVariantId, handle := none,
         removal_status := RemovalStatus.pending, removal_error := none,
         removed_at := none, created_at := env.clock db.world,
         updated_at := env.clock db.world }] }

/-- The function `processSingleContractRemoval(shop, contractId, customerId,
lineVariantId)` of `removalProcessor.js`, lines 397-514. -/
def processSingleContractRemoval {σ : Type} (env : RemovalEnv σ)
    (shop contractId customerId : String) (lineVariantId : Option String) (db : RemovalDb σ) :
    SingleOutcome × RemovalDb σ :=
  let monthStamp := env.monthStamp db.world
  if db.active.any (fun a => decide (a.shop = shop) && decide (a.customer_id = customerId)) then
    (SingleOutcome.customerIsActive, db)
  else
    match db.targets.filter (fun r => decide (r.shop = shop) &&
        decide (r.contract_id = contractId) && decide (r.month_stamp = monthStamp)) with
    | existing :: _ =>
      if existing.removal_status ≠ RemovalStatus.pending then
        (SingleOutcome.alreadyProcessed existing.removal_status, db)
      else
        match removeSingle env shop monthStamp customerId lineVariantId existing.id db with
        | (Except.ok out, db1) => (out, db1)
        | (Except.error err, db1) =>
          (SingleOutcome.failed err.message,
            closeSingle env existing.id RemovalStatus.failed
              (jsSlice 1000 (jsString err.message)) db1)
    | [] =>
      match removeSingle env shop monthStamp customerId lineVariantId
          (nextTargetId db.targets)
          (insertPending env shop monthStamp contractId customerId lineVariantId db) with
      | (Except.ok out, db1) => (out, db1)
      | (Except.error err, db1) =>
        (SingleOutcome.failed err.message,
          closeSingle env (nextTargetId db.targets) RemovalStatus.failed
            (jsSlice 1000 (jsString err.message)) db1)

/-- The columns of a target that record its outcome. -/
def statusKey (r : RemovalTarget) : Nat × RemovalStatus × Option String × Option Int :=
  (r.id, r.removal_status, r.removal_error, r.removed_at)

/-- Two versions of the target table hold the same rows with an id outside
`ids`. -/
def SameOutside (ids : List Nat) (ts1 ts2 : List RemovalTarget) : Prop :=
  ∀ r : RemovalTarget, r.id ∉ ids → (r ∈ ts2 ↔ r ∈ ts1)

/-- The sum of the four outcome counters of `stats`. -/
def closedCount (stats : RemovalStats) : Nat :=
  stats.done + stats.notFound + stats.failed + stats.skipped

/-- A configuration with one northern and one southern variant. -/
def demoConfig : AddEventConfig :=
  { apiKey := "key", northernCalendarId := "cal-n", southernCalendarId := "cal-s",
    snapshotTtlMinutes := 15, northernVariantIds := ["111"], southernVariantIds := ["222"] }

/-- A removal environment over a world that lists the external calls made:
every customer has the email `<id>@example.com`, every email is subscribed
as `sub-<email>`, the snapshot id is 7, and `deleteSubscriber` throws what
`failOn` gives for the subscriber. -/
def demoRemovalEnv (failOn : String → Option JsError) : RemovalEnv DemoWorld :=
  { clock := fun w => 1000 + (w.length : Nat),
    monthStamp := fun _ => "2024-03",
    config := demoConfig,
    getCustomerEmail := fun _ customerId w =>
      (Except.ok (some { email := some (customerId ++ "@example.com") }),
        w ++ ["customer " ++ customerId]),
    ensureSnapshot := fun _ _ calendarKey w =>
      (Except.ok (some 7), w ++ ["snapshot " ++ calendarKey]),
    lookupSubscriberByEmail := fun _ email w =>
      (Except.ok (some ("sub-" ++ email)), w ++ ["lookup " ++ email]),
    deleteSubscriber := fun _ subscriberId w =>
      match failOn subscriberId with
      | some e => (Except.error e, w ++ ["delete refused " ++ subscriberId])
      | none => (Except.ok (), w ++ ["delete " ++ subscriberId]) }

/-- A pending target of the demo month. -/
def demoTarget (id : Nat) (customerId : String) (email : Option String) (variant : String) :
    RemovalTarget :=
  { id := id, shop := "demo.myshopify.com", month_stamp := "2024-03",
    contract_id := "contract-" ++ customerId, customer_id := customerId, email := email,
    line_variant_id := some variant, handle := none,
    removal_status := RemovalStatus.pending, removal_error := none, removed_at := none,
    created_at := 900, updated_at := 900 }

/-- A batch of three pending targets with its queued removal job; the third
target has no stored email. -/
def demoRemovalDb : RemovalDb DemoWorld :=
  { jobs := [{ id := 1, shop := "demo.myshopify.com", month_stamp := "2024-03",
               status := Status.queued, attempts := 0, locked_at := none, locked_by := none,
               stats_json := none, last_error := none, created_at := 900,
               updated_at := 900 }],
    active := [],
    targets := [demoTarget 1 "c1" (some "a@example.com") "111",
                demoTarget 2 "c2" (some "b@example.com") "111",
                demoTarget 3 "c3" none "222"],
    logs := [],
    world := [] }

/-- The error thrown by `addEventRequest` on a 429 answer with
`Retry-After: 30` (`addEvent.js`, lines 73-77). -/
def addEventRateLimit : JsError :=
  { cls := ErrorClass.addEventRateLimitError, status := some 429, statusCode := some 429,
    code := none, message := some "Rate limited by AddEvent", retryAfter := some 30 }

/-- The error `fetch` throws when the connection is reset. -/
def connectionReset : JsError :=
  { cls := ErrorClass.plain, status := none, statusCode := none, code := some "ECONNRESET",
    message := some "fetch failed", retryAfter := none }

/-- The deletion of the second target's subscriber is rate limited. -/
def rateLimitOnSecond (subscriberId : String) : Option JsError :=
  if subscriberId = "sub-b@example.com" then some addEventRateLimit else none

/-- The deletion of the second target's subscriber meets a connection reset. -/
def resetOnSecond (subscriberId : String) : Option JsError :=
  if subscriberId = "sub-b@example.com" then some connectionReset else none

/-- The deletion of the third target's subscriber meets a connection reset. -/
def resetOnThird (subscriberId : String) : Option JsError :=
  if subscriberId = "sub-c3@example.com" then some connectionReset else none

/-- Every deletion is rate limited. -/
def rateLimitAlways (_ : String) : Option JsError :=
  some addEventRateLimit

/-- A step of the loop that closed nothing: every target keeps its outcome
columns, rows with another id are untouched, and neither a log entry nor a
counter was added. -/
def StepQuiet {σ : Type} (id : Nat) (st st2 : RemovalState σ) : Prop :=
  st2.targets.map statusKey = st.targets.map statusKey ∧
  SameOutside [id] st.targets st2.targets ∧
  st2.targets.map (fun r => r.id) = st.targets.map (fun r => r.id) ∧
  st2.logs = st.logs ∧ st2.stats = st.stats

/-- A step of the loop that closed the target `id`: rows with another id are
untouched, one outcome counter went up by one and one log entry for the
target was appended. -/
def StepClosed {σ : Type} (id : Nat) (st st2 : RemovalState σ) : Prop :=
  SameOutside [id] st.targets st2.targets ∧
  st2.targets.map (fun r => r.id) = st.targets.map (fun r => r.id) ∧
  st2.stats.processed = st.stats.processed ∧
  closedCount st2.stats = closedCount st.stats + 1 ∧
  ∃ entry : RemovalLog, st2.logs = st.logs ++ [entry] ∧ entry.prev_cancelled_id = id

/-! ## The subscriber snapshot (`src/services/addEvent.js`, lines 90-258) -/

/-- An entry of a listing page, by the properties `fetchCalendarSubscribers`
reads: `sub.id`, `sub.subscriber_id` and `sub.email`. -/
structure RawSubscriber where
  id : Option String
  subscriber_id : Option String
  email : Option String
deriving DecidableEq

/-- An entry of the list `fetchCalendarSubscribers` returns. -/
structure Subscriber where
  subscriber_id : String
  email : String
deriving DecidableEq

/-- The expression `String(email || "").toLowerCase().trim()`, written at line
116 for a listed subscriber and at line 242 for the email looked up. -/
def normalizeEmail (lower : String → String) (email : Option String) : String :=
  jsTrim (lower (jsOr email ""))

/-- The object pushed for a listed subscriber (lines 114-117). -/
def toSubscriber (lower : String → String) (sub : RawSubscriber) : Subscriber :=
  { subscriber_id := jsOr sub.id (jsOr sub.subscriber_id ""),
    email := normalizeEmail lower sub.email }

/-- What `addEvent.js` relies on: the clock (in seconds, the unit of the
`DATETIME` column), the offset of the process's local time zone from UTC (in
seconds, positive east of Greenwich), `toLowerCase`, the configuration, and
the listing request of lines 105-110, `listPage calendarId page`, which
yields `data.subscribers || data.data || []` or throws. -/
structure AddEventEnv (σ : Type) where
  clock : σ → Int
  zoneOffset : Int
  toLowerCase : String → String
  config : AddEventConfig
  listPage : String → Nat → σ → Except JsError (List RawSubscriber) × σ

/-- The `while (hasMore)` loop of `fetchCalendarSubscribers` (lines 102-130)
from the page `page` on, `all` being `allSubscribers`; `none` says that the
loop did not end within the given number of turns. -/
def fetchLoop {σ : Type} (env : AddEventEnv σ) (calendarId : String) :
    Nat → Nat → List Subscriber → σ → Option (Except JsError (List Subscriber) × σ)
  | 0, _, _, _ => none
  | fuel + 1, page, all, w =>
    match env.listPage calendarId page w with
    | (Except.error e, w1) => some (Except.error e, w1)
    | (Except.ok subscribers, w1) =>
      if subscribers.length < 100 then
        if page > 100 then
          some (Except.ok (all ++ subscribers.map (toSubscriber env.toLowerCase)), w1)
        else some (Except.ok (all ++ subscribers.map (toSubscriber env.toLowerCase)), w1)
      else
        if page + 1 > 100 then
          some (Except.ok (all ++ subscribers.map (toSubscriber env.toLowerCase)), w1)
        else
          fetchLoop env calendarId fuel (page + 1)
            (all ++ subscribers.map (toSubscriber env.toLowerCase)) w1

/-- The error `new Error(message)`. -/
def plainError (message : String) : JsError :=
  { cls := ErrorClass.plain, status := none, statusCode := none, code := none,
    message := some message, retryAfter := none }

/-- The function `fetchCalendarSubscribers(calendarId)` of `addEvent.js`, lines
90-134. The loop is given 100 turns, which it never exhausts
(`fetchLoop_traced`); the last branch stands for a loop that does not
end. -/
def fetchCalendarSubscribers {σ : Type} (env : AddEventEnv σ) (calendarId : String) (w : σ) :
    Except JsError (List Subscriber) × σ :=
  if env.config.apiKey = "" then (Except.error (plainError "ADDEVENT_API_KEY not configured"), w)
  else
    match fetchLoop env calendarId 100 1 [] w with
    | some r => r
    | none => (Except.error (plainError "loop did not end"), w)

/-- A row of `addevent_subscriber_snapshots` (`db-init.js`, lines 226-237). -/
structure SnapshotRow where
  id : Nat
  shop : String
  month_stamp : String
  calendar_key : String
  calendar_id : String
  fetched_at : Int
  subscriber_count : Nat
  created_at : Int
deriving DecidableEq

/-- A row of `addevent_subscribers_cache` (`db-init.js`, lines 242-251). -/
structure CacheRow where
  id : Nat
  snapshot_id : Nat
  email : String
  subscriber_id : String
  created_at : Int
deriving DecidableEq

/-- The two snapshot tables. -/
structure SnapshotDb where
  snapshots : List SnapshotRow
  cache : List CacheRow
deriving DecidableEq

/-- The unique key `(shop, month_stamp, calendar_key)` of the snapshots. -/
def snapshotHit (shop monthStamp calendarKey : String) (r : SnapshotRow) : Bool :=
  decide (r.shop = shop) && decide (r.month_stamp = monthStamp) &&
    decide (r.calendar_key = calendarKey)

/-- The order `ORDER BY fetched_at DESC`. -/
def snapshotOrder (a b : SnapshotRow) : Prop :=
  b.fetched_at ≤ a.fetched_at

instance : DecidableRel snapshotOrder := fun a b =>
  inferInstanceAs (Decidable (b.fetched_at ≤ a.fetched_at))

instance : IsTotal SnapshotRow snapshotOrder where
  total a b := le_total b.fetched_at a.fetched_at

instance : IsTrans SnapshotRow snapshotOrder where
  trans _ _ _ h1 h2 := le_trans h2 h1

/-- The `SELECT ... ORDER BY fetched_at DESC LIMIT 1` of lines 163-170. -/
def latestSnapshot (snapshots : List SnapshotRow) (shop monthStamp calendarKey : String) :
    Option SnapshotRow :=
  ((snapshots.filter (snapshotHit shop monthStamp calendarKey)).insertionSort
    snapshotOrder).head?

/-- The id `AUTO_INCREMENT` gives the next snapshot. -/
def nextSnapshotId (snapshots : List SnapshotRow) : Nat :=
  (snapshots.map (fun r => r.id)).foldr max 0 + 1

/-- The `INSERT ... ON DUPLICATE KEY UPDATE fetched_at = VALUES(fetched_at),
subscriber_count = VALUES(subscriber_count)` of lines 192-199. -/
def upsertSnapshot (snapshots : List SnapshotRow) (shop monthStamp calendarKey : String)
    (calendarId : String) (fetchedAt : Int) (count : Nat) : List SnapshotRow :=
  if snapshots.any (snapshotHit shop monthStamp calendarKey) then
    snapshots.map (fun r =>
      if snapshotHit shop monthStamp calendarKey r then
        { r with fetched_at := fetchedAt, subscriber_count := count }
      else r)
  else
    snapshots ++ [{ id := nextSnapshotId snapshots, shop := shop, month_stamp := monthStamp,
                    calendar_key := calendarKey, calendar_id := calendarId,
                    fetched_at := fetchedAt, subscriber_count := count,
                    created_at := fetchedAt }]

/-- The unique key `(snapshot_id, email)` of the cache. -/
def cacheHit (snapshotId : Nat) (email : String) (r : CacheRow) : Bool :=
  decide (r.snapshot_id = snapshotId) && decide (r.email = email)

/-- The id `AUTO_INCREMENT` gives the next cache row. -/
def nextCacheId (cache : List CacheRow) : Nat :=
  (cache.map (fun r => r.id)).foldr max 0 + 1

/-- One row of the `INSERT INTO addevent_subscribers_cache ... ON DUPLICATE KEY
UPDATE subscriber_id = VALUES(subscriber_id)` of lines 226-230. -/
def cacheUpsert (snapshotId : Nat) (now : Int) (cache : List CacheRow) (s : Subscriber) :
    List CacheRow :=
  if cache.any (cacheHit snapshotId s.email) then
    cache.map (fun r =>
      if cacheHit snapshotId s.email r then { r with subscriber_id := s.subscriber_id } else r)
  else
    cache ++ [{ id := nextCacheId cache, snapshot_id := snapshotId, email := s.email,
                subscriber_id := s.subscriber_id, created_at := now }]

/-- The slices `subscribers.slice(i, i + 500)` for `i = start, start + 500,
...` while `i < subscribers.length` (lines 221-222); `fuel` bounds the number
of slices. -/
def cacheBatches (subscribers : List Subscriber) : Nat → Nat → List (List Subscriber)
  | 0, _ => []
  | fuel + 1, i =>
    if i < subscribers.length then
      ((subscribers.drop i).take 500) :: cacheBatches subscribers fuel (i + 500)
    else []

/-- Lines 214-234 of `ensureSnapshot`: the cache rows of the snapshot are
deleted and the fetched list is inserted in batches of 500, each batch one
statement whose rows are inserted in order. -/
def rebuildCache (cache : List CacheRow) (snapshotId : Nat) (subscribers : List Subscriber)
    (now : Int) : List CacheRow :=
  (cacheBatches subscribers subscribers.length 0).foldl
    (fun c batch => batch.foldl (cacheUpsert snapshotId now) c)
    (cache.filter (fun r => decide (r.snapshot_id ≠ snapshotId)))

/-- Lines 187-237 of `ensureSnapshot`: the listing is fetched, the snapshot row
written and the cache of the snapshot rebuilt. -/
def refreshSnapshot {σ : Type} (env : AddEventEnv σ) (shop monthStamp calendarKey : String)
    (calendarId : String) (st : SnapshotDb × σ) : Except JsError (Option Nat) × (SnapshotDb × σ) :=
  match fetchCalendarSubscribers env calendarId st.2 with
  | (Except.error e, w1) => (Except.error e, (st.1, w1))
  | (Except.ok subscribers, w1) =>
    match ((upsertSnapshot st.1.snapshots shop monthStamp calendarKey calendarId
        (env.clock w1) subscribers.length).find?
        (snapshotHit shop monthStamp calendarKey)).map (fun r => r.id) with
    | some snapshotId =>
      (Except.ok (some snapshotId),
        ({ snapshots := upsertSnapshot st.1.snapshots shop monthStamp calendarKey calendarId
             (env.clock w1) subscribers.length,
           cache := rebuildCache st.1.cache snapshotId subscribers (env.clock w1) }, w1))
    | none =>
      (Except.ok none,
        ({ snapshots := upsertSnapshot st.1.snapshots shop monthStamp calendarKey calendarId
             (env.clock w1) subscribers.length,
           cache := st.1.cache }, w1))

/-- The instant `new Date(snapshot.fetched_at)` of line 174. The column was
written as the UTC wall clock (`toISOString()`, line 190), and the pool of
`db.js` sets no `timezone`, so the driver reads the `DATETIME` as wall clock
time of the process's local zone: the instant read is the instant written
less the zone offset. -/
def fetchedInstant (zoneOffset : Int) (snapshot : SnapshotRow) : Int :=
  snapshot.fetched_at - zoneOffset

/-- The function `ensureSnapshot(shop, monthStamp, calendarKey)` of
`addEvent.js`, lines 152-238. The age test `ageMinutes < SNAPSHOT_TTL_MINUTES`
is taken in seconds. -/
def ensureSnapshot {σ : Type} (env : AddEventEnv σ) (shop monthStamp calendarKey : String)
    (st : SnapshotDb × σ) : Except JsError (Option Nat) × (SnapshotDb × σ) :=
  match truthyString (getCalendarId env.config calendarKey) with
  | none => (Except.ok none, st)
  | some calendarId =>
    match latestSnapshot st.1.snapshots shop monthStamp calendarKey with
    | some snapshot =>
      if env.clock st.2 - fetchedInstant env.zoneOffset snapshot <
          env.config.snapshotTtlMinutes * 60 then
        (Except.ok (some snapshot.id), st)
      else refreshSnapshot env shop monthStamp calendarKey calendarId st
    | none => refreshSnapshot env shop monthStamp calendarKey calendarId st

/-- The function `lookupSubscriberByEmail(snapshotId, email)` of `addEvent.js`,
lines 240-258. -/
def lookupSubscriberByEmail (lower : String → String) (cache : List CacheRow)
    (snapshotId : Nat) (email : Option String) : Option String :=
  ((cache.filter (cacheHit snapshotId (normalizeEmail lower email))).head?).map
    (fun r => r.subscriber_id)

/-- The environment `env` with a listing request that also writes down, next
to the world, each page asked for and the entries it got (none when the
request threw). -/
def tracedEnv {σ : Type} (env : AddEventEnv σ) :
    AddEventEnv (σ × List (Nat × List RawSubscriber)) :=
  { clock := fun s => env.clock s.1,
    zoneOffset := env.zoneOffset,
    toLowerCase := env.toLowerCase,
    config := env.config,
    listPage := fun calendarId page s =>
      match env.listPage calendarId page s.1 with
      | (Except.ok subscribers, w1) => (Except.ok subscribers, (w1, s.2 ++ [(page, subscribers)]))
      | (Except.error e, w1) => (Except.error e, (w1, s.2 ++ [(page, [])])) }

/-- At most one snapshot row holds a key `(shop, month_stamp, calendar_key)`
(the unique index `uq_snap_shop_month_cal`). -/
def SnapshotKeyUnique (snapshots : List SnapshotRow) : Prop :=
  ∀ a ∈ snapshots, ∀ b ∈ snapshots, a.shop = b.shop → a.month_stamp = b.month_stamp →
    a.calendar_key = b.calendar_key → a = b

/-- A listing of two subscribers on one page, over a world that lists the
requests made; the clock advances 1 second per request; the process runs on
UTC. -/
def demoAddEventEnv : AddEventEnv DemoWorld :=
  { clock := fun w => 1000 + (w.length : Nat),
    zoneOffset := 0,
    toLowerCase := asciiLower,
    config := demoConfig,
    listPage := fun calendarId page w =>
      (Except.ok
        [{ id := some "s1", subscriber_id := none, email := some " Ann@Example.com " },
         { id := none, subscriber_id := some "s2", email := some "bob@example.com" }],
        w ++ ["list " ++ calendarId ++ " page " ++ toString page]) }

/-- The demo listing with the process one hour east of UTC. -/
def demoAddEventEnvEast : AddEventEnv DemoWorld :=
  { demoAddEventEnv with zoneOffset := 3600 }

/-- The snapshot tables before any snapshot was taken. -/
def emptySnapshotDb : SnapshotDb :=
  { snapshots := [], cache := [] }

/-! ## The plan of ledger actions of `processOrderPaid` -/

/-- A ledger action to attempt: its name, the details passed when the ledger
row is acquired, the task to run and the status reported when it ran. -/
structure PlannedAction (σ : Type) where
  action : String
  details : JsValue
  task : Task σ
  doneStatus : String

/-- The email action for a template. -/
def plannedEmail {σ : Type} (env : OrderEnv σ) (shop : String) (order : Order)
    (action template : String) : PlannedAction σ :=
  { action := action, details := emailDetails template (customerEmail order),
    task := env.sendTemplateEmail shop template (customerEmail order) order,
    doneStatus := "sent" }

/-- The fulfilment action with a given `notifyCustomer`. -/
def plannedFulfill {σ : Type} (env : OrderEnv σ) (shop : String) (order : Order)
    (action : String) (notifyCustomer : Bool) : PlannedAction σ :=
  { action := action, details := fulfillDetails notifyCustomer,
    task := env.fulfillOrder shop order.id notifyCustomer, doneStatus := "completed" }

/-- The subscription actions as the claim states them: with the first-order
tag, `email_northern` and `email_southern` for the product types present
(only with an email), then `fulfill_subscription` with `notifyCustomer =
true`; with only the recurring tag, `fulfill_subscription` with
`notifyCustomer = false`; with neither tag, nothing. -/
def plannedSubscriptionActions {σ : Type} (env : OrderEnv σ) (shop : String) (order : Order)
    (products : ProductTypes) (parsedTags : ParsedTags) : List (PlannedAction σ) :=
  if parsedTags.isFirstOrder then
    (if products.hasNorthern && decide (customerEmail order ≠ "") then
      [plannedEmail env shop order "email_northern" "northern_subscription"] else []) ++
    (if products.hasSouthern && decide (customerEmail order ≠ "") then
      [plannedEmail env shop order "email_southern" "southern_subscription"] else []) ++
    [plannedFulfill env shop order "fulfill_subscription" true]
  else if parsedTags.isRecurringOrder then
    [plannedFulfill env shop order "fulfill_subscription" false]
  else []

/-- The workshop actions as the claim states them: `email_workshop` (only with
an email), then `fulfill_workshop`. -/
def plannedWorkshopActions {σ : Type} (env : OrderEnv σ) (shop : String) (order : Order) :
    List (PlannedAction σ) :=
  (if decide (customerEmail order ≠ "") then
    [plannedEmail env shop order "email_workshop" "workshop_email"] else []) ++
  [plannedFulfill env shop order "fulfill_workshop" true]

/-- Attempting a plan: each action in order through `withIdempotentAction`
(one `try` block of `processOrderPaid` each), ending at the first that
throws. -/
def attemptPlan {σ : Type} (env : OrderEnv σ) (shop orderId : String) :
    List (PlannedAction σ) → List ActionEntry → Ledger × σ →
      Except JsError (List ActionEntry) × (Ledger × σ)
  | [], acts, st => (Except.ok acts, st)
  | p :: rest, acts, st =>
    andThen (actionStep env shop orderId p.action p.details p.task p.doneStatus acts st)
      (fun acts1 st1 => attemptPlan env shop orderId rest acts1 st1)

/-- The actions of `processOrderPaid` as the claim states them: the
subscription plan is attempted for an order with a northern or southern item,
on the tags Shopify returns; the workshop plan is attempted, after the
registration was saved, for an order with a workshop item; an order with no
matching product attempts nothing. -/
def processByPlan {σ : Type} (env : OrderEnv σ) (shop : String) (order : Order)
    (st : Ledger × σ) : Except JsError (List ActionEntry) × (Ledger × σ) :=
  let products := detectProductTypes env.toLowerCase order.line_items
  andThen
    (if products.hasNorthern || products.hasSouthern then
      match env.getOrderTags shop order.id (env.saveOrderSeen shop order st.2) with
      | (Except.ok tags, w1) =>
        if (parseOrderTags env.toLowerCase tags).isFirstOrder ||
            (parseOrderTags env.toLowerCase tags).isRecurringOrder then
          attemptPlan env shop order.id
            (plannedSubscriptionActions env shop order products
              (parseOrderTags env.toLowerCase tags)) [] (st.1, w1)
        else (Except.ok [("subscription_skipped", "no_matching_tag")], (st.1, w1))
      | (Except.error e, w1) => (Except.error e, (st.1, w1))
    else (Except.ok [], (st.1, env.saveOrderSeen shop order st.2)))
    (fun acts1 st1 =>
      andThen
        (if products.hasWorkshop then
          match env.saveWorkshopRegistration shop order products.workshopItems st1.2 with
          | (Except.error e, w) => (Except.error e, (st1.1, w))
          | (Except.ok _, w) =>
            attemptPlan env shop order.id (plannedWorkshopActions env shop order) acts1
              (st1.1, w)
        else (Except.ok acts1, st1))
        (fun acts2 st2 =>
          (Except.ok
            (if !(products.hasNorthern || products.hasSouthern) && !products.hasWorkshop then
              acts2 ++ [("skipped", "no_matching_products")]
            else acts2), st2)))

/-! ## Lemmas on the claiming transaction -/

theorem onUpdate_cases (now : Int) (old new : WebhookJob) :
    onUpdate now old new = new ∨ onUpdate now old new = { new with updated_at := now } := by
  unfold onUpdate
  by_cases h : new = old
  · left; simp [h]
  · right; simp [h]

theorem onUpdate_id (now : Int) (old new : WebhookJob) :
    (onUpdate now old new).id = new.id := by
  rcases onUpdate_cases now old new with h | h <;> rw [h]

theorem onUpdate_status (now : Int) (old new : WebhookJob) :
    (onUpdate now old new).status = new.status := by
  rcases onUpdate_cases now old new with h | h <;> rw [h]

theorem onUpdate_attempts (now : Int) (old new : WebhookJob) :
    (onUpdate now old new).attempts = new.attempts := by
  rcases onUpdate_cases now old new with h | h <;> rw [h]

theorem onUpdate_of_ne (now : Int) (old new : WebhookJob) (h : new ≠ old) :
    onUpdate now old new = { new with updated_at := now } := by
  unfold onUpdate; simp [h]

theorem claimRow_id (w : String) (now : Int) (r : WebhookJob) :
    (claimRow w now r).id = r.id := by
  unfold claimRow; rw [onUpdate_id]

theorem claimRow_status (w : String) (now : Int) (r : WebhookJob) :
    (claimRow w now r).status = Status.processing := by
  unfold claimRow; rw [onUpdate_status]

theorem claimRow_attempts (w : String) (now : Int) (r : WebhookJob) :
    (claimRow w now r).attempts = r.attempts + 1 := by
  unfold claimRow; rw [onUpdate_attempts]

theorem eligible_iff (now : Int) (r : WebhookJob) :
    eligible now r = true ↔ r.status = Status.queued ∧ r.run_after ≤ now := by
  simp [eligible]

theorem mem_selectForClaim {s : JobStore} {now : Int} {limit : Nat} {r : WebhookJob}
    (h : r ∈ selectForClaim s now limit) :
    r ∈ s ∧ r.status = Status.queued ∧ r.run_after ≤ now := by
  unfold selectForClaim at h
  have h1 := List.mem_of_mem_take h
  have h2 := (List.perm_insertionSort pickOrder _).mem_iff.mp h1
  rw [List.mem_filter, eligible_iff] at h2
  exact h2

theorem selectForClaim_subperm (s : JobStore) (now : Int) (limit : Nat) :
    List.Subperm (selectForClaim s now limit) s := by
  unfold selectForClaim
  exact ((List.take_sublist _ _).subperm.trans
    (List.perm_insertionSort pickOrder _).subperm).trans (List.filter_sublist _).subperm

theorem selectForClaim_nodup {s : JobStore} (now : Int) (limit : Nat)
    (h : (s.map (fun r => r.id)).Nodup) :
    ((selectForClaim s now limit).map (fun r => r.id)).Nodup := by
  obtain ⟨l, hp, hs⟩ := selectForClaim_subperm s now limit
  exact ((hp.map _).nodup_iff).mp ((hs.map _).nodup h)

theorem claimJob_fst (s : JobStore) (w : String) (now : Int) (limit : Nat) :
    (claimJob s w now limit).1 = (selectForClaim s now limit).map claimedOf := by
  unfold claimJob
  by_cases h : (selectForClaim s now limit).length = 0
  · simp only [h, if_true]
    rw [List.length_eq_zero] at h
    simp [h]
  · simp [h]

theorem claimJob_snd (s : JobStore) (w : String) (now : Int) (limit : Nat) :
    (claimJob s w now limit).2 =
      s.map (fun r =>
        if r.id ∈ (selectForClaim s now limit).map (fun r => r.id) then claimRow w now r
        else r) := by
  unfold claimJob
  by_cases h : (selectForClaim s now limit).length = 0
  · simp only [h, if_true]
    rw [List.length_eq_zero] at h
    simp [h]
  · simp [h]

theorem claimJob_ids (s : JobStore) (w : String) (now : Int) (limit : Nat) :
    (claimJob s w now limit).1.map (fun j => j.id) =
      (selectForClaim s now limit).map (fun r => r.id) := by
  rw [claimJob_fst, List.map_map]
  rfl

theorem claimJob_store_ids (s : JobStore) (w : String) (now : Int) (limit : Nat) :
    (claimJob s w now limit).2.map (fun r => r.id) = s.map (fun r => r.id) := by
  rw [claimJob_snd, List.map_map]
  apply List.map_congr_left
  intro r _
  simp only [Function.comp]
  split
  · exact claimRow_id w now r
  · rfl

/-- In a table with a primary key, two rows with the same id are the same row. -/
theorem eq_of_id_eq {α : Type} {f : α → Nat} {s : List α} (hid : (s.map f).Nodup)
    {a b : α} (ha : a ∈ s) (hb : b ∈ s) (h : f a = f b) : a = b :=
  List.inj_on_of_nodup_map hid ha hb h

theorem selectForClaim_sorted (s : JobStore) (now : Int) (limit : Nat) :
    (selectForClaim s now limit).Sorted pickOrder := by
  unfold selectForClaim
  exact (List.sorted_insertionSort pickOrder _).sublist (List.take_sublist _ _)

theorem selectForClaim_length (s : JobStore) (now : Int) (limit : Nat) :
    (selectForClaim s now limit).length =
      min limit (s.countP (fun r => decide (r.status = Status.queued ∧ r.run_after ≤ now))) := by
  unfold selectForClaim
  rw [List.length_take, List.length_insertionSort, List.countP_eq_length_filter]
  congr 2
  apply List.filter_congr
  intro r _
  simp [eligible]

theorem selectForClaim_first (s : JobStore) (now : Int) (limit : Nat) (r r' : WebhookJob)
    (hr : r ∈ s) (hq : r.status = Status.queued) (ht : r.run_after ≤ now)
    (hn : r ∉ selectForClaim s now limit) (hr' : r' ∈ selectForClaim s now limit) :
    pickOrder r' r := by
  unfold selectForClaim at hn hr'
  have hs := List.sorted_insertionSort pickOrder (s.filter (eligible now))
  have hmem : r ∈ (s.filter (eligible now)).insertionSort pickOrder := by
    rw [(List.perm_insertionSort pickOrder _).mem_iff, List.mem_filter, eligible_iff]
    exact ⟨hr, hq, ht⟩
  rw [← List.take_append_drop limit ((s.filter (eligible now)).insertionSort pickOrder)] at hs hmem
  rcases List.mem_append.mp hmem with h | h
  · exact absurd h hn
  · exact (List.pairwise_append.mp hs).2.2 r' hr' r h

theorem claimRow_eq (w : String) (now : Int) (r : WebhookJob) :
    claimRow w now r =
      { r with status := Status.processing, locked_at := some now, locked_by := some w,
               attempts := r.attempts + 1, updated_at := now } := by
  unfold claimRow
  rw [onUpdate_of_ne]
  intro hc
  have := congrArg WebhookJob.attempts hc
  simp at this

theorem mem_claimJob_fst {s : JobStore} {w : String} {now : Int} {limit : Nat} {j : ClaimedJob}
    (h : j ∈ (claimJob s w now limit).1) :
    ∃ r ∈ selectForClaim s now limit, j = claimedOf r := by
  rw [claimJob_fst, List.mem_map] at h
  obtain ⟨r, hr, rfl⟩ := h
  exact ⟨r, hr, rfl⟩

/-! ## Claims on `claimJob` -/

/-- C2: in a table whose ids are distinct, every job returned by `claimJob` has
its row set to processing, locked by the calling worker at `now`, with
attempts one more than before (all other columns kept, `updated_at` stamped),
and the returned job reports that incremented value; a row whose id is not
returned stays as it was, no row is added or removed, and when no row is
queued and due the call returns the empty list and the table unchanged. -/
theorem claimJob_effect (s : JobStore) (w : String) (now : Int) (limit : Nat)
    (hid : (s.map (fun r => r.id)).Nodup) :
    (∀ j ∈ (claimJob s w now limit).1, ∃ r ∈ s, r.id = j.id) ∧
    (∀ j ∈ (claimJob s w now limit).1, ∀ r ∈ s, r.id = j.id →
      j.attempts = r.attempts + 1 ∧
      { r with status := Status.processing, locked_at := some now, locked_by := some w,
               attempts := r.attempts + 1, updated_at := now } ∈ (claimJob s w now limit).2) ∧
    (∀ r ∈ s, r.id ∉ (claimJob s w now limit).1.map (fun j => j.id) →
      r ∈ (claimJob s w now limit).2) ∧
    (claimJob s w now limit).2.map (fun r => r.id) = s.map (fun r => r.id) ∧
    ((∀ r ∈ s, ¬ (r.status = Status.queued ∧ r.run_after ≤ now)) →
      claimJob s w now limit = ([], s)) := by
  refine ⟨?_, ?_, ?_, claimJob_store_ids s w now limit, ?_⟩
  · intro j hj
    obtain ⟨r, hr, rfl⟩ := mem_claimJob_fst hj
    exact ⟨r, (mem_selectForClaim hr).1, rfl⟩
  · intro j hj r hr hrj
    obtain ⟨r0, hr0, rfl⟩ := mem_claimJob_fst hj
    have h0 := mem_selectForClaim hr0
    have hEq : r = r0 := eq_of_id_eq hid hr h0.1 hrj
    subst hEq
    refine ⟨rfl, ?_⟩
    rw [claimJob_snd, List.mem_map]
    refine ⟨r, hr, ?_⟩
    have hin : r.id ∈ (selectForClaim s now limit).map (fun r => r.id) :=
      List.mem_map.mpr ⟨r, hr0, rfl⟩
    rw [if_pos hin, claimRow_eq]
  · intro r hr hn
    rw [claimJob_ids] at hn
    rw [claimJob_snd, List.mem_map]
    exact ⟨r, hr, by rw [if_neg hn]⟩
  · intro hnone
    have hempty : selectForClaim s now limit = [] := by
      apply List.eq_nil_iff_forall_not_mem.mpr
      intro r hr
      have h := mem_selectForClaim hr
      exact hnone r h.1 h.2
    unfold claimJob
    simp [hempty]

/-- C2 on `raceStore`: `claimJob(1)` by `worker_a` at time 50 returns job 2
with attempts 1 and changes that row only. -/
theorem claimJob_effect_witness :
    (raceStore.map (fun r => r.id)).Nodup ∧
    (claimJob raceStore "worker_a" 50 1).2.map (fun r => r.id) =
      raceStore.map (fun r => r.id) ∧
    (claimJob raceStore "worker_a" 50 1).1.map (fun j => (j.id, j.attempts)) = [(2, 1)] ∧
    (claimJob raceStore "worker_a" 50 1).2.map
        (fun r => (r.status, r.attempts, r.locked_by, r.locked_at)) =
      [(Status.queued, 0, none, none), (Status.processing, 1, some "worker_a", some 50),
       (Status.queued, 0, none, none), (Status.completed, 1, none, none)] :=
  ⟨by decide, (claimJob_effect raceStore "worker_a" 50 1 (by decide)).2.2.2.1,
    by decide, by decide⟩

/-- C3: the rows behind the jobs `claimJob` returns are rows of the table that
are queued and due, there are `min limit k` of them where `k` counts the
queued due rows, they come in ascending `(run_after, id)` order, and every
queued due row left out comes after each of them in that order. -/
theorem claimJob_takes_first_due (s : JobStore) (w : String) (now : Int) (limit : Nat) :
    ∃ rows : List WebhookJob,
      (claimJob s w now limit).1 = rows.map claimedOf ∧
      List.Subperm rows s ∧
      (∀ r ∈ rows, r.status = Status.queued ∧ r.run_after ≤ now) ∧
      rows.length =
        min limit (s.countP (fun r => decide (r.status = Status.queued ∧ r.run_after ≤ now))) ∧
      rows.Pairwise (fun a b =>
        a.run_after < b.run_after ∨ (a.run_after = b.run_after ∧ a.id ≤ b.id)) ∧
      (∀ r ∈ s, r.status = Status.queued → r.run_after ≤ now → r ∉ rows →
        ∀ r' ∈ rows,
          r'.run_after < r.run_after ∨ (r'.run_after = r.run_after ∧ r'.id ≤ r.id)) :=
  ⟨selectForClaim s now limit, claimJob_fst s w now limit, selectForClaim_subperm s now limit,
    fun _ hr => (mem_selectForClaim hr).2, selectForClaim_length s now limit,
    selectForClaim_sorted s now limit,
    fun r hr hq ht hn r' hr' => selectForClaim_first s now limit r r' hr hq ht hn hr'⟩

/-! ## A race of claimers -/

theorem claimJob_ids_nodup {s : JobStore} (w : String) (now : Int) (limit : Nat)
    (hid : (s.map (fun r => r.id)).Nodup) :
    ((claimJob s w now limit).1.map (fun j => j.id)).Nodup := by
  rw [claimJob_ids]
  exact selectForClaim_nodup now limit hid

theorem claimJob_returned_due {s : JobStore} {w : String} {now : Int} {limit : Nat} {i : Nat}
    (h : i ∈ (claimJob s w now limit).1.map (fun j => j.id)) :
    ∃ r ∈ s, r.id = i ∧ r.status = Status.queued ∧ r.run_after ≤ now := by
  rw [claimJob_ids, List.mem_map] at h
  obtain ⟨r, hr, rfl⟩ := h
  have h0 := mem_selectForClaim hr
  exact ⟨r, h0.1, rfl, h0.2⟩

theorem claimJob_row_cases {s : JobStore} {w : String} {now : Int} {limit : Nat}
    {r' : WebhookJob} (h : r' ∈ (claimJob s w now limit).2) :
    (r' ∈ s ∧ r'.id ∉ (claimJob s w now limit).1.map (fun j => j.id)) ∨
    (r'.id ∈ (claimJob s w now limit).1.map (fun j => j.id) ∧ r'.status = Status.processing ∧
      ∃ r ∈ s, r.id = r'.id ∧ r'.attempts = r.attempts + 1) := by
  rw [claimJob_ids]
  rw [claimJob_snd, List.mem_map] at h
  obtain ⟨r, hr, rfl⟩ := h
  by_cases hin : r.id ∈ (selectForClaim s now limit).map (fun r => r.id)
  · right
    rw [if_pos hin]
    exact ⟨by rw [claimRow_id]; exact hin, claimRow_status w now r, r, hr,
      (claimRow_id w now r).symm, claimRow_attempts w now r⟩
  · left
    rw [if_neg hin]
    exact ⟨hr, hin⟩

/-- What a race of claimers preserves, seen from the table it started on. -/
theorem claimSeq_inv (calls : List ClaimCall) (now : Int) :
    ∀ s : JobStore, (s.map (fun r => r.id)).Nodup → (∀ c ∈ calls, c.now ≤ now) →
      (claimSeq calls s).2.map (fun r => r.id) = s.map (fun r => r.id) ∧
      ((claimSeq calls s).1.flatten.map (fun j => j.id)).Nodup ∧
      (∀ i ∈ (claimSeq calls s).1.flatten.map (fun j => j.id),
        ∃ r ∈ s, r.id = i ∧ r.status = Status.queued ∧ r.run_after ≤ now) ∧
      (∀ r' ∈ (claimSeq calls s).2,
        (r' ∈ s ∧ r'.id ∉ (claimSeq calls s).1.flatten.map (fun j => j.id)) ∨
        (r'.id ∈ (claimSeq calls s).1.flatten.map (fun j => j.id) ∧
          r'.status = Status.processing ∧
          ∃ r ∈ s, r.id = r'.id ∧ r'.attempts = r.attempts + 1)) := by
  induction calls with
  | nil =>
    intro s _ _
    simp [claimSeq]
  | cons c cs ih =>
    intro s hid hnow
    have hc : c.now ≤ now := hnow c (List.mem_cons_self _ _)
    have hcs : ∀ c' ∈ cs, c'.now ≤ now := fun c' h => hnow c' (List.mem_cons_of_mem _ h)
    have hid1 : ((claimJob s c.workerId c.now c.limit).2.map (fun r => r.id)).Nodup := by
      rw [claimJob_store_ids]; exact hid
    obtain ⟨i1, i2, i3, i4⟩ := ih (claimJob s c.workerId c.now c.limit).2 hid1 hcs
    have hflat : (claimSeq (c :: cs) s).1.flatten.map (fun j => j.id) =
        (claimJob s c.workerId c.now c.limit).1.map (fun j => j.id) ++
          (claimSeq cs (claimJob s c.workerId c.now c.limit).2).1.flatten.map (fun j => j.id) := by
      simp [claimSeq]
    have hsnd : (claimSeq (c :: cs) s).2 =
        (claimSeq cs (claimJob s c.workerId c.now c.limit).2).2 := by
      simp [claimSeq]
    -- a job returned by a later call was still queued after the first call
    have later : ∀ i ∈ (claimSeq cs (claimJob s c.workerId c.now c.limit).2).1.flatten.map
        (fun j => j.id), ∃ r ∈ s, r.id = i ∧ r.status = Status.queued ∧ r.run_after ≤ now ∧
          r ∈ (claimJob s c.workerId c.now c.limit).2 ∧
          i ∉ (claimJob s c.workerId c.now c.limit).1.map (fun j => j.id) := by
      intro i hi
      obtain ⟨r1, hr1, hri, hq, ht⟩ := i3 i hi
      rcases claimJob_row_cases hr1 with ⟨hs, hn⟩ | ⟨_, hp, _⟩
      · exact ⟨r1, hs, hri, hq, ht, hr1, hri ▸ hn⟩
      · rw [hq] at hp; exact absurd hp (by decide)
    rw [hflat, hsnd]
    refine ⟨i1.trans (claimJob_store_ids s _ _ _), ?_, ?_, ?_⟩
    · rw [List.nodup_append]
      refine ⟨claimJob_ids_nodup _ _ _ hid, i2, ?_⟩
      intro i h1 h2
      obtain ⟨_, _, _, _, _, _, hn⟩ := later i h2
      exact hn h1
    · intro i hi
      rcases List.mem_append.mp hi with h | h
      · obtain ⟨r, hr, hri, hq, ht⟩ := claimJob_returned_due h
        exact ⟨r, hr, hri, hq, le_trans ht hc⟩
      · obtain ⟨r, hr, hri, hq, ht, _, _⟩ := later i h
        exact ⟨r, hr, hri, hq, ht⟩
    · intro r' hr'
      rcases i4 r' hr' with ⟨h1, hn⟩ | ⟨hin, hp, r1, hr1, hri, hatt⟩
      · rcases claimJob_row_cases h1 with ⟨hs, hn1⟩ | ⟨hin1, hp, r, hr, hri, hatt⟩
        · left
          refine ⟨hs, ?_⟩
          intro h
          rcases List.mem_append.mp h with h | h
          · exact hn1 h
          · exact hn h
        · right
          exact ⟨List.mem_append_left _ hin1, hp, r, hr, hri, hatt⟩
      · right
        refine ⟨List.mem_append_right _ hin, hp, ?_⟩
        obtain ⟨r, hr, hri', _, _, hr2, _⟩ := later r'.id hin
        have hEq : r1 = r := eq_of_id_eq hid1 hr1 hr2 (hri.trans hri'.symm)
        exact ⟨r, hr, hri', hEq ▸ hatt⟩

/-- C1: on a table with distinct ids, for any sequence of `claimJob`
transactions by any workers with any limits, made at times up to `now`:
every returned job is a row that was queued with `run_after <= now` in the
starting table, no job is returned twice (by two calls or within one), and
the stored attempts of each returned job is exactly one more than in the
starting table. -/
theorem claimSeq_at_most_once (s : JobStore) (calls : List ClaimCall) (now : Int)
    (hid : (s.map (fun r => r.id)).Nodup) (hnow : ∀ c ∈ calls, c.now ≤ now) :
    (∀ js ∈ (claimSeq calls s).1, ∀ j ∈ js,
      ∃ r ∈ s, r.id = j.id ∧ r.status = Status.queued ∧ r.run_after ≤ now) ∧
    ((claimSeq calls s).1.flatten.map (fun j => j.id)).Nodup ∧
    (∀ js ∈ (claimSeq calls s).1, ∀ j ∈ js,
      (∃ r' ∈ (claimSeq calls s).2, r'.id = j.id) ∧
      ∀ r ∈ s, ∀ r' ∈ (claimSeq calls s).2, r.id = j.id → r'.id = j.id →
        r'.attempts = r.attempts + 1) := by
  obtain ⟨i1, i2, i3, i4⟩ := claimSeq_inv calls now s hid hnow
  have hmem : ∀ js ∈ (claimSeq calls s).1, ∀ j ∈ js,
      j.id ∈ (claimSeq calls s).1.flatten.map (fun j => j.id) := fun js hjs j hj =>
    List.mem_map.mpr ⟨j, List.mem_flatten.mpr ⟨js, hjs, hj⟩, rfl⟩
  refine ⟨fun js hjs j hj => i3 j.id (hmem js hjs j hj), i2, ?_⟩
  intro js hjs j hj
  have hin := hmem js hjs j hj
  obtain ⟨r, hr, hri, _, _⟩ := i3 j.id hin
  constructor
  · have : j.id ∈ (claimSeq calls s).2.map (fun r => r.id) := by
      rw [i1]; exact List.mem_map.mpr ⟨r, hr, hri⟩
    obtain ⟨r', hr', h⟩ := List.mem_map.mp this
    exact ⟨r', hr', h⟩
  · intro r0 hr0 r' hr' h0 h'
    rcases i4 r' hr' with ⟨_, hn⟩ | ⟨_, _, r1, hr1, hri1, hatt⟩
    · rw [h'] at hn; exact absurd hin hn
    · have hEq : r1 = r0 := eq_of_id_eq hid hr1 hr0 (hri1.trans (h'.trans h0.symm))
      exact hEq ▸ hatt

/-- C1 on `raceStore`: three claimers at times up to 60 share the two due
jobs, the third gets nothing. -/
theorem claimSeq_at_most_once_witness :
    (raceStore.map (fun r => r.id)).Nodup ∧ (∀ c ∈ raceCalls, c.now ≤ 60) ∧
    ((claimSeq raceCalls raceStore).1.flatten.map (fun j => j.id)).Nodup ∧
    (claimSeq raceCalls raceStore).1.map (fun js => js.map (fun j => j.id)) = [[2], [1], []] ∧
    (claimSeq raceCalls raceStore).2.map (fun r => r.attempts) = [1, 1, 0, 1] :=
  ⟨by decide, by decide,
    (claimSeq_at_most_once raceStore raceCalls 60 (by decide) (by decide)).2.1,
    by decide, by decide⟩

/-! ## Lemmas on `failJob` -/

theorem onUpdate_eq_with (now : Int) (old new : WebhookJob) :
    onUpdate now old new = { new with updated_at := (onUpdate now old new).updated_at } := by
  rcases onUpdate_cases now old new with h | h <;> rw [h]

theorem storedAttempts_of_mem {s : JobStore} (hid : (s.map (fun r => r.id)).Nodup)
    {r : WebhookJob} (hr : r ∈ s) : storedAttempts s r.id = r.attempts := by
  unfold storedAttempts
  cases hf : s.find? (fun x => decide (x.id = r.id)) with
  | none =>
    rw [List.find?_eq_none] at hf
    exact absurd (hf r hr) (by simp)
  | some r0 =>
    have h1 := List.mem_of_find?_eq_some hf
    have h2 := List.find?_some hf
    simp only [decide_eq_true_eq] at h2
    have : r0 = r := eq_of_id_eq hid h1 hr h2
    simp [this]

theorem failRow_eq (error : String) (now : Int) (r : WebhookJob) :
    failRow error now r =
      { r with status := Status.failed, locked_at := none, locked_by := none,
               last_error := some (jsSlice 2000 error),
               updated_at := (failRow error now r).updated_at } := by
  unfold failRow
  exact onUpdate_eq_with _ _ _

theorem requeueRow_eq (error : String) (delay now : Int) (r : WebhookJob) :
    requeueRow error delay now r =
      { r with status := Status.queued, locked_at := none, locked_by := none,
               last_error := some (jsSlice 2000 error), run_after := now + delay,
               updated_at := (requeueRow error delay now r).updated_at } := by
  unfold requeueRow
  exact onUpdate_eq_with _ _ _

theorem failRow_id (error : String) (now : Int) (r : WebhookJob) :
    (failRow error now r).id = r.id := by
  unfold failRow; rw [onUpdate_id]

theorem requeueRow_id (error : String) (delay now : Int) (r : WebhookJob) :
    (requeueRow error delay now r).id = r.id := by
  unfold requeueRow; rw [onUpdate_id]

theorem failJob_of_le {s : JobStore} {jobId m : Nat} (error : String) (hint : Option Int)
    (now : Int) (h : m ≤ storedAttempts s jobId) :
    failJob s jobId error hint m now =
      (FailResult.failed (storedAttempts s jobId),
        s.map (fun r => if r.id = jobId then failRow error now r else r)) := by
  unfold failJob
  simp only [h, if_true]

theorem failJob_of_lt {s : JobStore} {jobId m : Nat} (error : String) (hint : Option Int)
    (now : Int) (h : storedAttempts s jobId < m) :
    failJob s jobId error hint m now =
      (FailResult.requeued (storedAttempts s jobId) (failDelay hint (storedAttempts s jobId)),
        s.map (fun r =>
          if r.id = jobId then requeueRow error (failDelay hint (storedAttempts s jobId)) now r
          else r)) := by
  unfold failJob
  have hn : ¬ m ≤ storedAttempts s jobId := by omega
  simp only [hn, if_false]

theorem failJob_store_ids (s : JobStore) (jobId : Nat) (error : String) (hint : Option Int)
    (m : Nat) (now : Int) :
    (failJob s jobId error hint m now).2.map (fun r => r.id) = s.map (fun r => r.id) := by
  by_cases h : m ≤ storedAttempts s jobId
  · rw [failJob_of_le error hint now h, List.map_map]
    apply List.map_congr_left
    intro r _
    simp only [Function.comp]
    split
    · exact failRow_id _ _ _
    · rfl
  · rw [failJob_of_lt error hint now (by omega), List.map_map]
    apply List.map_congr_left
    intro r _
    simp only [Function.comp]
    split
    · exact requeueRow_id _ _ _ _
    · rfl

/-- The requeueing branch of `failJob`, on the row it was called for. -/
theorem failJob_requeue {s : JobStore} (hid : (s.map (fun r => r.id)).Nodup) {r : WebhookJob}
    (hr : r ∈ s) (error : String) (hint : Option Int) (m : Nat) (now : Int)
    (ha : r.attempts < m) :
    (failJob s r.id error hint m now).1 =
        FailResult.requeued r.attempts (failDelay hint r.attempts) ∧
      requeueRow error (failDelay hint r.attempts) now r ∈ (failJob s r.id error hint m now).2 := by
  have hst := storedAttempts_of_mem hid hr
  rw [failJob_of_lt error hint now (by omega), hst]
  refine ⟨rfl, ?_⟩
  simp only [List.mem_map]
  exact ⟨r, hr, by simp⟩

/-- The terminal branch of `failJob`, on the row it was called for. -/
theorem failJob_exhausted {s : JobStore} (hid : (s.map (fun r => r.id)).Nodup) {r : WebhookJob}
    (hr : r ∈ s) (error : String) (hint : Option Int) (m : Nat) (now : Int)
    (ha : m ≤ r.attempts) :
    (failJob s r.id error hint m now).1 = FailResult.failed r.attempts ∧
      failRow error now r ∈ (failJob s r.id error hint m now).2 := by
  have hst := storedAttempts_of_mem hid hr
  rw [failJob_of_le error hint now (by omega), hst]
  refine ⟨rfl, ?_⟩
  simp only [List.mem_map]
  exact ⟨r, hr, by simp⟩

/-- The function `failJob` leaves rows with another id as they were. -/
theorem failJob_other {s : JobStore} {r : WebhookJob} (hr : r ∈ s) (jobId : Nat)
    (error : String) (hint : Option Int) (m : Nat) (now : Int) (hne : r.id ≠ jobId) :
    r ∈ (failJob s jobId error hint m now).2 := by
  by_cases h : m ≤ storedAttempts s jobId
  · rw [failJob_of_le error hint now h]
    simp only [List.mem_map]
    exact ⟨r, hr, by simp [hne]⟩
  · rw [failJob_of_lt error hint now (by omega)]
    simp only [List.mem_map]
    exact ⟨r, hr, by simp [hne]⟩

theorem jsSlice_of_short (n : Nat) (e : String) (h : e.length ≤ n) : jsSlice n e = e := by
  unfold jsSlice
  have : e.data.take n = e.data := List.take_of_length_le h
  rw [this]

theorem jsSlice_length (n : Nat) (e : String) : (jsSlice n e).length = min n e.length := by
  unfold jsSlice
  show (List.take n e.data).length = min n e.data.length
  exact List.length_take n e.data

theorem backoffSeconds_mono {a b : Nat} (h : a ≤ b) : backoffSeconds a ≤ backoffSeconds b := by
  unfold backoffSeconds
  have : 2 ^ a ≤ 2 ^ b := Nat.pow_le_pow_right (by decide) h
  omega

theorem removalBackoffSeconds_mono {a b : Nat} (h : a ≤ b) :
    removalBackoffSeconds a ≤ removalBackoffSeconds b := by
  unfold removalBackoffSeconds
  have : 2 ^ a ≤ 2 ^ b := Nat.pow_le_pow_right (by decide) h
  omega

theorem scenarioClaimed_row :
    scenarioClaimed =
      [{ id := 1, shop := "demo.myshopify.com", webhook_id := some "wh-1",
         job_type := "order_paid", order_id := some "1001", status := Status.processing,
         attempts := 1, run_after := 103, locked_at := some 103,
         locked_by := some "worker_a", last_error := none, payload_json := some "\x7b\x7d",
         updated_at := 103, created_at := 100 }] := by
  decide

/-! ## Claims on `failJob` and the retry policy -/

/-- C5 (as the code has it): when `failJob` is called for a row with stored
attempts `a < maxAttempts` in a table with distinct ids, it reports a requeue
whose delay is the hint verbatim when one is given and `min(300, 5 * 2^a)`
otherwise; the row becomes queued with `run_after = now + delay`, lock fields
null and `last_error` the first 2000 characters of the error text, which is
the whole text when it has at most 2000 characters; no other column but
`updated_at` changes. -/
theorem failJob_requeue_delay (s : JobStore) (hid : (s.map (fun r => r.id)).Nodup)
    (r : WebhookJob) (hr : r ∈ s) (error : String) (hint : Option Int) (m : Nat) (now : Int)
    (ha : r.attempts < m) :
    (failJob s r.id error hint m now).1 =
        FailResult.requeued r.attempts
          (match hint with
           | some h => h
           | none => ((min 300 (5 * 2 ^ r.attempts) : Nat) : Int)) ∧
    (∃ r' ∈ (failJob s r.id error hint m now).2,
      r' = { r with
              status := Status.queued, locked_at := none, locked_by := none,
              last_error := some (String.mk (error.data.take 2000)),
              run_after := now + (match hint with
                | some h => h
                | none => ((min 300 (5 * 2 ^ r.attempts) : Nat) : Int)),
              updated_at := r'.updated_at }) ∧
    (error.length ≤ 2000 → String.mk (error.data.take 2000) = error) := by
  have hd : failDelay hint r.attempts =
      (match hint with
       | some h => h
       | none => ((min 300 (5 * 2 ^ r.attempts) : Nat) : Int)) := by
    cases hint with
    | none => simp [failDelay, backoffSeconds, Nat.mul_comm]
    | some h => rfl
  obtain ⟨h1, h2⟩ := failJob_requeue hid hr error hint m now ha
  rw [hd] at h1 h2
  refine ⟨h1, ⟨_, h2, ?_⟩, fun hlen => jsSlice_of_short 2000 error hlen⟩
  exact requeueRow_eq _ _ _ _

/-- C5, the scenario of the specification: after one claim (stored attempts
1), `fail(id, "boom", null)` with `maxAttempts = 5` at time 110 requeues the
job with a delay of 10 seconds and `last_error = "boom"`. -/
theorem failJob_requeue_delay_witness :
    (scenarioClaimed.map (fun r => r.id)).Nodup ∧
    (failJob scenarioClaimed 1 "boom" none 5 110).1 = FailResult.requeued 1 10 ∧
    (failJob scenarioClaimed 1 "boom" none 5 110).2.map
        (fun r => (r.status, r.run_after, r.locked_at, r.locked_by, r.last_error)) =
      [(Status.queued, 120, none, none, some "boom")] := by
  have key := failJob_requeue_delay scenarioClaimed (by decide)
    { id := 1, shop := "demo.myshopify.com", webhook_id := some "wh-1",
      job_type := "order_paid", order_id := some "1001", status := Status.processing,
      attempts := 1, run_after := 103, locked_at := some 103,
      locked_by := some "worker_a", last_error := none, payload_json := some "\x7b\x7d",
      updated_at := 103, created_at := 100 }
    (by rw [scenarioClaimed_row]; exact List.mem_singleton.mpr rfl) "boom" none 5 110 (by decide)
  exact ⟨by decide, key.1, by decide⟩

/-- C5 as stated fails on a long error text: with an error of 2001 characters
the requeued row does not hold the error text in `last_error`. -/
theorem failJob_last_error_truncated :
    ∃ r' ∈ (failJob scenarioClaimed 1 longError none 5 110).2,
      r'.id = 1 ∧ r'.status = Status.queued ∧ r'.last_error ≠ some longError := by
  have hmem : (⟨1, "demo.myshopify.com", some "wh-1", "order_paid", some "1001",
      Status.processing, 1, 103, some 103, some "worker_a", none, some "\x7b\x7d", 103, 100⟩ :
      WebhookJob) ∈ scenarioClaimed := by
    rw [scenarioClaimed_row]; exact List.mem_singleton.mpr rfl
  obtain ⟨_, h2⟩ := failJob_requeue (by decide) hmem longError none 5 110 (by decide)
  refine ⟨_, h2, ?_, ?_, ?_⟩
  · rw [requeueRow_id]
  · rw [requeueRow_eq]
  · rw [requeueRow_eq]
    intro h
    have h' : jsSlice 2000 longError = longError := by simpa using h
    have hl := congrArg String.length h'
    rw [jsSlice_length] at hl
    have : longError.length = 2001 := by
      show (List.replicate 2001 'x').length = 2001
      exact List.length_replicate _ _
    rw [this] at hl
    omega

/-- C6: with no hint, the backoff computed by `failJob`,
`min(300, 5 * 2^attempts)`, and the one computed by `failRemovalJob`,
`min(300, 10 * 2^attempts)`, are non-decreasing in the attempt count and never
exceed 300 seconds, for all attempt counts. -/
theorem backoff_monotone_capped (a b : Nat) (h : a ≤ b) :
    failDelay none a ≤ failDelay none b ∧ failDelay none b ≤ 300 ∧
    removalBackoff none a ≤ removalBackoff none b ∧ removalBackoff none b ≤ 300 ∧
    failDelay none a = ((min 300 (5 * 2 ^ a) : Nat) : Int) ∧
    removalBackoff none a = ((min 300 (10 * 2 ^ a) : Nat) : Int) := by
  have h1 := backoffSeconds_mono h
  have h2 := removalBackoffSeconds_mono h
  have h3 : backoffSeconds b ≤ 300 := by unfold backoffSeconds; omega
  have h4 : removalBackoffSeconds b ≤ 300 := by unfold removalBackoffSeconds; omega
  refine ⟨?_, ?_, ?_, ?_, ?_, ?_⟩
  · show ((backoffSeconds a : Nat) : Int) ≤ ((backoffSeconds b : Nat) : Int)
    exact_mod_cast h1
  · show ((backoffSeconds b : Nat) : Int) ≤ 300
    exact_mod_cast h3
  · show ((removalBackoffSeconds a : Nat) : Int) ≤ ((removalBackoffSeconds b : Nat) : Int)
    exact_mod_cast h2
  · show ((removalBackoffSeconds b : Nat) : Int) ≤ 300
    exact_mod_cast h4
  · show ((backoffSeconds a : Nat) : Int) = _
    unfold backoffSeconds
    rw [Nat.mul_comm]
  · show ((removalBackoffSeconds a : Nat) : Int) = _
    unfold removalBackoffSeconds
    rw [Nat.mul_comm]

/-- C6 on the range named by the specification, attempts 0 and 10. -/
theorem backoff_monotone_capped_witness :
    (0 : Nat) ≤ 10 ∧ failDelay none 0 ≤ failDelay none 10 ∧ failDelay none 10 ≤ 300 ∧
    removalBackoff none 0 ≤ removalBackoff none 10 ∧ removalBackoff none 10 ≤ 300 :=
  ⟨by decide, (backoff_monotone_capped 0 10 (by decide)).1,
    (backoff_monotone_capped 0 10 (by decide)).2.1,
    (backoff_monotone_capped 0 10 (by decide)).2.2.1,
    (backoff_monotone_capped 0 10 (by decide)).2.2.2.1⟩

/-! ## The retry loop -/

theorem claimRow_mem {s : JobStore} {w : String} {now : Int} {limit : Nat} {r : WebhookJob}
    (hr : r ∈ s) (hin : r.id ∈ (claimJob s w now limit).1.map (fun j => j.id)) :
    claimRow w now r ∈ (claimJob s w now limit).2 := by
  rw [claimJob_ids] at hin
  rw [claimJob_snd, List.mem_map]
  exact ⟨r, hr, by rw [if_pos hin]⟩

theorem claimJob_keeps {s : JobStore} {w : String} {now : Int} {limit : Nat} {r : WebhookJob}
    (hr : r ∈ s) (hn : r.id ∉ (claimJob s w now limit).1.map (fun j => j.id)) :
    r ∈ (claimJob s w now limit).2 := by
  rw [claimJob_ids] at hn
  rw [claimJob_snd, List.mem_map]
  exact ⟨r, hr, by rw [if_neg hn]⟩

/-- One round on the job whose row is `r`: the claim can only have returned it
if it was queued, and the round leaves it with one more attempt, unlocked,
with the error recorded, queued below the bound and failed at the bound. -/
theorem claimThenFail_step {m : Nat} {s s1 : JobStore} {r : WebhookJob} {rd : Round}
    (hid : (s.map (fun r => r.id)).Nodup) (hr : r ∈ s)
    (hrun : claimThenFail m r.id s rd = some s1) :
    r.status = Status.queued ∧ (s1.map (fun r => r.id)).Nodup ∧
    ∃ r1 ∈ s1, r1.id = r.id ∧ r1.attempts = r.attempts + 1 ∧
      r1.locked_at = none ∧ r1.locked_by = none ∧
      r1.last_error = some (jsSlice 2000 rd.error) ∧
      (r.attempts + 1 < m → r1.status = Status.queued) ∧
      (m ≤ r.attempts + 1 → r1.status = Status.failed) := by
  unfold claimThenFail at hrun
  simp only at hrun
  split at hrun
  · rename_i hin
    obtain ⟨r0, hr0, hri, hq, _⟩ := claimJob_returned_due hin
    have hEq : r0 = r := eq_of_id_eq hid hr0 hr hri
    subst hEq
    have hc := claimRow_mem hr0 hin
    have hid1 : ((claimJob s rd.workerId rd.claimAt rd.limit).2.map (fun r => r.id)).Nodup := by
      rw [claimJob_store_ids]; exact hid
    have hcid : (claimRow rd.workerId rd.claimAt r0).id = r0.id := claimRow_id _ _ _
    have hcat : (claimRow rd.workerId rd.claimAt r0).attempts = r0.attempts + 1 :=
      claimRow_attempts _ _ _
    injection hrun with hrun
    subst hrun
    refine ⟨hq, by rw [failJob_store_ids]; exact hid1, ?_⟩
    rw [← hcid]
    by_cases hlt : r0.attempts + 1 < m
    · obtain ⟨_, h2⟩ := failJob_requeue hid1 hc rd.error none m rd.failAt (by rw [hcat]; exact hlt)
      refine ⟨_, h2, requeueRow_id _ _ _ _, ?_, ?_, ?_, ?_, ?_, ?_⟩
      · rw [requeueRow_eq]; exact hcat
      · rw [requeueRow_eq]
      · rw [requeueRow_eq]
      · rw [requeueRow_eq]
      · intro _; rw [requeueRow_eq]
      · intro h; omega
    · obtain ⟨_, h2⟩ := failJob_exhausted hid1 hc rd.error none m rd.failAt
        (by rw [hcat]; omega)
      refine ⟨_, h2, failRow_id _ _ _, ?_, ?_, ?_, ?_, ?_, ?_⟩
      · rw [failRow_eq]; exact hcat
      · rw [failRow_eq]
      · rw [failRow_eq]
      · rw [failRow_eq]
      · intro h; omega
      · intro _; rw [failRow_eq]
  · exact absurd hrun (by simp)

/-- State of the job after any number of rounds that could be carried out. -/
theorem claimFailRounds_state (m jobId : Nat) :
    ∀ (rds : List Round) (s s' : JobStore) (r : WebhookJob),
      (s.map (fun r => r.id)).Nodup → r ∈ s → r.id = jobId →
      r.locked_at = none → r.locked_by = none →
      ((r.status = Status.queued ∧ r.attempts < m) ∨
        (r.status = Status.failed ∧ r.attempts = m)) →
      claimFailRounds m jobId rds s = some s' →
      (s'.map (fun r => r.id)).Nodup ∧
      ∃ r' ∈ s', r'.id = jobId ∧ r'.attempts = r.attempts + rds.length ∧
        r'.locked_at = none ∧ r'.locked_by = none ∧
        ((r'.status = Status.queued ∧ r'.attempts < m) ∨
          (r'.status = Status.failed ∧ r'.attempts = m)) ∧
        (∀ rd, rds.getLast? = some rd → r'.last_error = some (jsSlice 2000 rd.error)) := by
  intro rds
  induction rds with
  | nil =>
    intro s s' r hid hr hri hl1 hl2 hst hrun
    simp only [claimFailRounds, Option.some.injEq] at hrun
    subst hrun
    exact ⟨hid, r, hr, hri, by simp, hl1, hl2, hst, by simp⟩
  | cons rd rest ih =>
    intro s s' r hid hr hri hl1 hl2 hst hrun
    simp only [claimFailRounds] at hrun
    cases hstep : claimThenFail m jobId s rd with
    | none => rw [hstep] at hrun; exact absurd hrun (by simp)
    | some s1 =>
      rw [hstep] at hrun
      simp only at hrun
      rw [← hri] at hstep
      obtain ⟨hq, hid1, r1, hr1, hri1, hat1, hla, hlb, herr, hlt, hge⟩ :=
        claimThenFail_step hid hr hstep
      have ha : r.attempts < m := by
        rcases hst with ⟨_, h⟩ | ⟨h, _⟩
        · exact h
        · rw [hq] at h; exact absurd h (by decide)
      have hst1 : (r1.status = Status.queued ∧ r1.attempts < m) ∨
          (r1.status = Status.failed ∧ r1.attempts = m) := by
        by_cases h : r.attempts + 1 < m
        · exact Or.inl ⟨hlt h, by omega⟩
        · exact Or.inr ⟨hge (by omega), by omega⟩
      obtain ⟨hid', r', hr', hri', hat', hla', hlb', hst', herr'⟩ :=
        ih s1 s' r1 hid1 hr1 (hri1.trans hri) hla hlb hst1 hrun
      refine ⟨hid', r', hr', hri', ?_, hla', hlb', hst', ?_⟩
      · rw [hat', hat1, List.length_cons]; omega
      · intro rd' hlast
        cases rest with
        | nil =>
          simp only [List.getLast?_singleton, Option.some.injEq] at hlast
          subst hlast
          simp only [claimFailRounds, Option.some.injEq] at hrun
          subst hrun
          have : r' = r1 := eq_of_id_eq hid1 hr' hr1 (hri'.trans (hri1.trans hri).symm)
          rw [this]; exact herr
        | cons rd2 rest2 =>
          rw [List.getLast?_cons_cons] at hlast
          exact herr' rd' hlast

/-- A queued job can always be taken through `n` more rounds while its
attempts stay within the bound: claim with a limit covering the table, at a
time when the job is due. -/
theorem claimFailRounds_exist (m jobId : Nat) :
    ∀ (n : Nat) (s : JobStore) (r : WebhookJob),
      (s.map (fun r => r.id)).Nodup → r ∈ s → r.id = jobId →
      r.status = Status.queued → r.attempts + n ≤ m →
      ∃ rds s', rds.length = n ∧ claimFailRounds m jobId rds s = some s' := by
  intro n
  induction n with
  | zero =>
    intro s r _ _ _ _ _
    exact ⟨[], s, rfl, rfl⟩
  | succ n ih =>
    intro s r hid hr hri hq ha
    subst hri
    have hsel : r ∈ selectForClaim s r.run_after s.length := by
      unfold selectForClaim
      rw [List.take_of_length_le, (List.perm_insertionSort pickOrder _).mem_iff,
        List.mem_filter, eligible_iff]
      · exact ⟨hr, hq, le_refl _⟩
      · rw [List.length_insertionSort]
        exact List.length_filter_le _ _
    have hin : r.id ∈ (claimJob s "worker" r.run_after s.length).1.map (fun j => j.id) := by
      rw [claimJob_ids]
      exact List.mem_map.mpr ⟨r, hsel, rfl⟩
    have hstep : claimThenFail m r.id s ⟨"worker", s.length, r.run_after, "error", r.run_after⟩ =
        some (failJob (claimJob s "worker" r.run_after s.length).2 r.id "error" none m
          r.run_after).2 := by
      unfold claimThenFail
      simp only [hin, if_true]
    obtain ⟨_, hid1, r1, hr1, hri1, hat1, _, _, _, hlt, _⟩ := claimThenFail_step hid hr hstep
    cases n with
    | zero =>
      refine ⟨[⟨"worker", s.length, r.run_after, "error", r.run_after⟩],
        (failJob (claimJob s "worker" r.run_after s.length).2 r.id "error" none m
          r.run_after).2, rfl, ?_⟩
      simp only [claimFailRounds, hstep]
    | succ k =>
      obtain ⟨rds, s', hlen, hrun⟩ :=
        ih _ r1 hid1 hr1 hri1 (hlt (by omega)) (by omega)
      refine ⟨⟨"worker", s.length, r.run_after, "error", r.run_after⟩ :: rds, s',
        by simp [hlen], ?_⟩
      simp only [claimFailRounds, hstep]
      exact hrun

/-- Once a job is failed with its attempts at or above the bound, no sequence
of `claimJob` and `failJob` calls returns it or changes its status. -/
theorem runCalls_failed_stays (m jobId : Nat) :
    ∀ (calls : List QueueCall) (s : JobStore) (r : WebhookJob),
      (s.map (fun r => r.id)).Nodup → r ∈ s → r.id = jobId →
      r.status = Status.failed → m ≤ r.attempts →
      (∀ js ∈ (runCalls m calls s).1, ∀ j ∈ js, j.id ≠ jobId) ∧
      (∀ r' ∈ (runCalls m calls s).2, r'.id = jobId → r'.status = Status.failed) := by
  intro calls
  induction calls with
  | nil =>
    intro s r hid hr hri hf _
    refine ⟨by simp [runCalls], ?_⟩
    intro r' hr' hri'
    have : r' = r := eq_of_id_eq hid hr' hr (hri'.trans hri.symm)
    rw [this]; exact hf
  | cons c cs ih =>
    intro s r hid hr hri hf ha
    cases c with
    | claim w l t =>
      have hn : r.id ∉ (claimJob s w t l).1.map (fun j => j.id) := by
        intro hin
        obtain ⟨r0, hr0, hri0, hq, _⟩ := claimJob_returned_due hin
        have : r0 = r := eq_of_id_eq hid hr0 hr hri0
        rw [this, hf] at hq
        exact absurd hq (by decide)
      have hid1 : ((claimJob s w t l).2.map (fun r => r.id)).Nodup := by
        rw [claimJob_store_ids]; exact hid
      obtain ⟨h1, h2⟩ := ih (claimJob s w t l).2 r hid1 (claimJob_keeps hr hn) hri hf ha
      simp only [runCalls]
      refine ⟨?_, h2⟩
      intro js hjs j hj
      rcases List.mem_cons.mp hjs with h | h
      · subst h
        intro hji
        exact hn (hri ▸ List.mem_map.mpr ⟨j, hj, hji⟩)
      · exact h1 js h j hj
    | fail i e h t =>
      have hid1 : ((failJob s i e h m t).2.map (fun r => r.id)).Nodup := by
        rw [failJob_store_ids]; exact hid
      simp only [runCalls]
      by_cases hi : r.id = i
      · subst hi
        obtain ⟨_, h2⟩ := failJob_exhausted hid hr e h m t ha
        refine ih _ (failRow e t r) hid1 h2 ((failRow_id _ _ _).trans hri) ?_ ?_
        · rw [failRow_eq]
        · rw [failRow_eq]; exact ha
      · exact ih _ r hid1 (failJob_other hr i e h m t hi) hri hf ha

/-- C4: take a table with distinct ids and a freshly enqueued job in it
(queued, attempts 0, no lock) and any bound `m >= 1`.  After any `k` rounds of
`claimJob` returning the job followed by `failJob` without hint, `k` is at
most `m`, the stored attempts equal `k`, the lock fields are null, the error
of the last round is recorded, and the job is queued when `k < m` and failed
when `k = m`.  Such a run of `m` rounds exists.  After the `m`-th round no
sequence of `claimJob` and `failJob` calls returns the job or moves it out of
failed. -/
theorem failJob_terminal_after_max (m : Nat) (hm : 1 ≤ m) (s : JobStore)
    (hid : (s.map (fun r => r.id)).Nodup) (r : WebhookJob) (hr : r ∈ s)
    (hq : r.status = Status.queued) (h0 : r.attempts = 0)
    (hl1 : r.locked_at = none) (hl2 : r.locked_by = none) :
    (∀ rds s', claimFailRounds m r.id rds s = some s' →
      rds.length ≤ m ∧
      ∃ r' ∈ s', r'.id = r.id ∧ (∀ r2 ∈ s', r2.id = r.id → r2 = r') ∧
        r'.attempts = rds.length ∧ r'.locked_at = none ∧ r'.locked_by = none ∧
        (rds.length < m → r'.status = Status.queued) ∧
        (rds.length = m → r'.status = Status.failed) ∧
        (∀ rd, rds.getLast? = some rd →
          r'.last_error = some (String.mk (rd.error.data.take 2000)))) ∧
    (∃ rds s', rds.length = m ∧ claimFailRounds m r.id rds s = some s') ∧
    (∀ rds s', rds.length = m → claimFailRounds m r.id rds s = some s' →
      ∀ calls : List QueueCall,
        (∀ js ∈ (runCalls m calls s').1, ∀ j ∈ js, j.id ≠ r.id) ∧
        (∀ r' ∈ (runCalls m calls s').2, r'.id = r.id → r'.status = Status.failed)) := by
  have hstart : (r.status = Status.queued ∧ r.attempts < m) ∨
      (r.status = Status.failed ∧ r.attempts = m) := Or.inl ⟨hq, by omega⟩
  have main : ∀ rds s', claimFailRounds m r.id rds s = some s' →
      (s'.map (fun r => r.id)).Nodup ∧
      ∃ r' ∈ s', r'.id = r.id ∧ r'.attempts = rds.length ∧
        r'.locked_at = none ∧ r'.locked_by = none ∧
        ((r'.status = Status.queued ∧ r'.attempts < m) ∨
          (r'.status = Status.failed ∧ r'.attempts = m)) ∧
        (∀ rd, rds.getLast? = some rd → r'.last_error = some (jsSlice 2000 rd.error)) := by
    intro rds s' hrun
    obtain ⟨hid', r', hr', hri', hat', hla, hlb, hst, herr⟩ :=
      claimFailRounds_state m r.id rds s s' r hid hr rfl hl1 hl2 hstart hrun
    exact ⟨hid', r', hr', hri', by omega, hla, hlb, hst, herr⟩
  refine ⟨?_, ?_, ?_⟩
  · intro rds s' hrun
    obtain ⟨hid', r', hr', hri', hat', hla, hlb, hst, herr⟩ := main rds s' hrun
    refine ⟨?_, r', hr', hri', ?_, hat', hla, hlb, ?_, ?_, herr⟩
    · rcases hst with ⟨_, h⟩ | ⟨_, h⟩ <;> omega
    · intro r2 hr2 hri2
      exact eq_of_id_eq hid' hr2 hr' (hri2.trans hri'.symm)
    · intro hlt
      rcases hst with ⟨h, _⟩ | ⟨_, h⟩
      · exact h
      · omega
    · intro heq
      rcases hst with ⟨_, h⟩ | ⟨h, _⟩
      · omega
      · exact h
  · exact claimFailRounds_exist m r.id m s r hid hr rfl hq (by omega)
  · intro rds s' hlen hrun calls
    obtain ⟨hid', r', hr', hri', hat', _, _, hst, _⟩ := main rds s' hrun
    have hf : r'.status = Status.failed := by
      rcases hst with ⟨_, h⟩ | ⟨h, _⟩
      · omega
      · exact h
    have := runCalls_failed_stays m r.id calls s' r' hid' hr' hri' hf (by omega)
    exact this

/-- C4 on the scenario of the specification with `maxAttempts = 5`: five
rounds can be carried out on the enqueued order, the job is queued with 4
attempts after the fourth and failed with 5 attempts after the fifth. -/
theorem failJob_terminal_after_max_witness :
    (1 ≤ 5) ∧ (scenarioQueued.map (fun r => r.id)).Nodup ∧
    (∃ rds s', rds.length = 5 ∧ claimFailRounds 5 1 rds scenarioQueued = some s') ∧
    (claimFailRounds 5 1 (scenarioRounds.take 4) scenarioQueued).map
        (fun s' => s'.map (fun r => (r.status, r.attempts, r.run_after, r.last_error))) =
      some [(Status.queued, 4, 4081, some "boom")] ∧
    (claimFailRounds 5 1 scenarioRounds scenarioQueued).map
        (fun s' => s'.map (fun r => (r.status, r.attempts, r.locked_by, r.last_error))) =
      some [(Status.failed, 5, none, some "last")] :=
  ⟨by decide, by decide,
    (failJob_terminal_after_max 5 (by decide) scenarioQueued (by decide)
      (freshRow 1 "demo.myshopify.com" "order_paid" (some "1001") (some "wh-1") "\x7b\x7d" 3 100)
      (by decide) rfl rfl rfl rfl).2.1,
    by decide, by decide⟩

/-! ## Lemmas on `enqueueJob` -/

theorem dedupeHit_iff (shop jobType orderId : String) (r : WebhookJob) :
    dedupeHit shop jobType (some orderId) r = true ↔
      r.shop = shop ∧ r.job_type = jobType ∧ r.order_id = some orderId := by
  simp [dedupeHit, and_assoc]

theorem refreshRow_eq (webhookId : Option String) (payloadJson : String) (now : Int)
    (r : WebhookJob) :
    refreshRow webhookId payloadJson now r =
      { r with
        webhook_id := coalesce webhookId r.webhook_id,
        payload_json :=
          if r.status = Status.completed then r.payload_json else some payloadJson,
        updated_at := (refreshRow webhookId payloadJson now r).updated_at } := by
  unfold refreshRow
  exact onUpdate_eq_with _ _ _

theorem refreshRow_id (webhookId : Option String) (payloadJson : String) (now : Int)
    (r : WebhookJob) : (refreshRow webhookId payloadJson now r).id = r.id := by
  unfold refreshRow; rw [onUpdate_id]

theorem enqueueJob_of_hit {s : JobStore} {shop jobType : String} {orderId : Option String}
    (webhookId : Option String) (payloadJson : String) (delay now : Int)
    (h : s.any (dedupeHit shop jobType orderId) = true) :
    enqueueJob s shop jobType orderId webhookId payloadJson delay now =
      s.map (fun r =>
        if dedupeHit shop jobType orderId r then refreshRow webhookId payloadJson now r
        else r) := by
  unfold enqueueJob
  simp only [h, if_true]

theorem enqueueJob_of_no_hit {s : JobStore} {shop jobType : String} {orderId : Option String}
    (webhookId : Option String) (payloadJson : String) (delay now : Int)
    (h : s.any (dedupeHit shop jobType orderId) = false) :
    enqueueJob s shop jobType orderId webhookId payloadJson delay now =
      s ++ [freshRow (nextId s) shop jobType orderId webhookId payloadJson delay now] := by
  unfold enqueueJob
  simp [h]

theorem lt_nextId {s : JobStore} {r : WebhookJob} (hr : r ∈ s) : r.id < nextId s := by
  unfold nextId
  induction s with
  | nil => exact absurd hr (List.not_mem_nil _)
  | cons a t ih =>
    simp only [List.map_cons, List.foldr_cons]
    rcases List.mem_cons.mp hr with h | h
    · subst h; omega
    · have := ih h; omega

/-- A list without repetition whose members all equal `r` and that holds `r`
is the singleton `[r]`. -/
theorem eq_singleton_of_nodup {α : Type} {l : List α} {r : α} (hn : l.Nodup)
    (hall : ∀ x ∈ l, x = r) (hr : r ∈ l) : l = [r] := by
  cases l with
  | nil => exact absurd hr (List.not_mem_nil _)
  | cons a t =>
    have ha : a = r := hall a (List.mem_cons_self _ _)
    subst ha
    cases t with
    | nil => rfl
    | cons b t' =>
      have hb : b = a := hall b (List.mem_cons_of_mem _ (List.mem_cons_self _ _))
      subst hb
      exact absurd (List.mem_cons_self _ _) (List.nodup_cons.mp hn).1

theorem enqueueJob_store_ids_of_hit {s : JobStore} {shop jobType : String}
    {orderId : Option String} (webhookId : Option String) (payloadJson : String)
    (delay now : Int) (h : s.any (dedupeHit shop jobType orderId) = true) :
    (enqueueJob s shop jobType orderId webhookId payloadJson delay now).map (fun r => r.id) =
      s.map (fun r => r.id) := by
  rw [enqueueJob_of_hit webhookId payloadJson delay now h, List.map_map]
  apply List.map_congr_left
  intro r _
  simp only [Function.comp]
  split
  · exact refreshRow_id _ _ _ _
  · rfl

theorem refreshRow_key (shop jobType orderId : String) (webhookId : Option String)
    (payloadJson : String) (now : Int) (r : WebhookJob) :
    decide ((refreshRow webhookId payloadJson now r).shop = shop ∧
        (refreshRow webhookId payloadJson now r).job_type = jobType ∧
        (refreshRow webhookId payloadJson now r).order_id = some orderId) =
      decide (r.shop = shop ∧ r.job_type = jobType ∧ r.order_id = some orderId) := by
  rw [refreshRow_eq]

/-- The rows of the table that carry a given key, when the unique key holds
and `r` is one of them: `r` alone. -/
theorem filter_key_eq_singleton {s : JobStore} (hid : (s.map (fun r => r.id)).Nodup)
    (hkey : DedupeKeyUnique s) {shop jobType orderId : String} {r : WebhookJob} (hr : r ∈ s)
    (h1 : r.shop = shop) (h2 : r.job_type = jobType) (h3 : r.order_id = some orderId) :
    s.filter (fun x => decide (x.shop = shop ∧ x.job_type = jobType ∧
      x.order_id = some orderId)) = [r] := by
  apply eq_singleton_of_nodup
  · exact (List.Nodup.of_map _ hid).filter _
  · intro x hx
    rw [List.mem_filter, decide_eq_true_eq] at hx
    obtain ⟨hxs, k1, k2, k3⟩ := hx
    exact hkey x hxs r hr (k1.trans h1.symm) (k2.trans h2.symm) (k3.trans h3.symm)
      (by rw [k3]; exact Option.some_ne_none _)
  · rw [List.mem_filter, decide_eq_true_eq]
    exact ⟨hr, h1, h2, h3⟩

theorem any_dedupeHit_of_mem {s : JobStore} {shop jobType orderId : String} {r : WebhookJob}
    (hr : r ∈ s) (h1 : r.shop = shop) (h2 : r.job_type = jobType)
    (h3 : r.order_id = some orderId) :
    s.any (dedupeHit shop jobType (some orderId)) = true :=
  List.any_eq_true.mpr ⟨r, hr, (dedupeHit_iff shop jobType orderId r).mpr ⟨h1, h2, h3⟩⟩

/-- The rows carrying the key after `enqueueJob` hit the existing row `r`. -/
theorem enqueueJob_filter_key {s : JobStore} (hid : (s.map (fun r => r.id)).Nodup)
    (hkey : DedupeKeyUnique s) {shop jobType orderId : String} {r : WebhookJob} (hr : r ∈ s)
    (h1 : r.shop = shop) (h2 : r.job_type = jobType) (h3 : r.order_id = some orderId)
    (webhookId : Option String) (payloadJson : String) (delay now : Int) :
    (enqueueJob s shop jobType (some orderId) webhookId payloadJson delay now).filter
        (fun x => decide (x.shop = shop ∧ x.job_type = jobType ∧ x.order_id = some orderId)) =
      [refreshRow webhookId payloadJson now r] := by
  rw [enqueueJob_of_hit webhookId payloadJson delay now (any_dedupeHit_of_mem hr h1 h2 h3),
    List.filter_map]
  have hcongr : s.filter ((fun x => decide (x.shop = shop ∧ x.job_type = jobType ∧
        x.order_id = some orderId)) ∘ (fun r =>
        if dedupeHit shop jobType (some orderId) r then refreshRow webhookId payloadJson now r
        else r)) =
      s.filter (fun x => decide (x.shop = shop ∧ x.job_type = jobType ∧
        x.order_id = some orderId)) := by
    apply List.filter_congr
    intro x _
    simp only [Function.comp]
    split
    · exact refreshRow_key shop jobType orderId webhookId payloadJson now x
    · rfl
  rw [hcongr, filter_key_eq_singleton hid hkey hr h1 h2 h3]
  simp [(dedupeHit_iff shop jobType orderId r).mpr ⟨h1, h2, h3⟩]

/-! ## Claims on the producers -/

/-- C7: in a table with distinct ids where the unique key holds, for a key
`(shop, jobType, orderId)` with an order id that is not null: if a row with
that key is queued, processing or failed, then after `enqueueJob` with the key
and a new payload exactly one row carries the key, it is that row (same id,
status and attempts) and its payload is the new payload, and no row was
added; if no row carries the key, `enqueueJob` appends exactly one row, with a
fresh id, the key, status queued, attempts 0, null lock fields, the payload
and `run_after = now + delay`. -/
theorem enqueueJob_dedupes (s : JobStore) (hid : (s.map (fun r => r.id)).Nodup)
    (hkey : DedupeKeyUnique s) (shop jobType orderId : String) (webhookId : Option String)
    (payloadJson : String) (delay now : Int) :
    (∀ r ∈ s, r.shop = shop → r.job_type = jobType → r.order_id = some orderId →
      (r.status = Status.queued ∨ r.status = Status.processing ∨ r.status = Status.failed) →
      ∃ r', (enqueueJob s shop jobType (some orderId) webhookId payloadJson delay now).filter
            (fun x => decide (x.shop = shop ∧ x.job_type = jobType ∧
              x.order_id = some orderId)) = [r'] ∧
        r'.id = r.id ∧ r'.status = r.status ∧ r'.attempts = r.attempts ∧
        r'.payload_json = some payloadJson ∧
        (enqueueJob s shop jobType (some orderId) webhookId payloadJson delay now).length =
          s.length) ∧
    ((∀ r ∈ s, ¬ (r.shop = shop ∧ r.job_type = jobType ∧ r.order_id = some orderId)) →
      ∃ r', enqueueJob s shop jobType (some orderId) webhookId payloadJson delay now =
          s ++ [r'] ∧
        (∀ x ∈ s, x.id ≠ r'.id) ∧
        r'.shop = shop ∧ r'.job_type = jobType ∧ r'.order_id = some orderId ∧
        r'.status = Status.queued ∧ r'.attempts = 0 ∧
        r'.locked_at = none ∧ r'.locked_by = none ∧
        r'.payload_json = some payloadJson ∧ r'.run_after = now + delay) := by
  constructor
  · intro r hr h1 h2 h3 hst
    refine ⟨refreshRow webhookId payloadJson now r,
      enqueueJob_filter_key hid hkey hr h1 h2 h3 webhookId payloadJson delay now,
      refreshRow_id _ _ _ _, ?_, ?_, ?_, ?_⟩
    · rw [refreshRow_eq]
    · rw [refreshRow_eq]
    · have hne : r.status ≠ Status.completed := by
        rcases hst with h | h | h <;> rw [h] <;> decide
      rw [refreshRow_eq]
      simp [hne]
    · rw [enqueueJob_of_hit webhookId payloadJson delay now
        (any_dedupeHit_of_mem hr h1 h2 h3), List.length_map]
  · intro habs
    have hno : s.any (dedupeHit shop jobType (some orderId)) = false := by
      rw [Bool.eq_false_iff]
      intro h
      obtain ⟨x, hx, hhit⟩ := List.any_eq_true.mp h
      exact habs x hx ((dedupeHit_iff shop jobType orderId x).mp hhit)
    refine ⟨freshRow (nextId s) shop jobType (some orderId) webhookId payloadJson delay now,
      enqueueJob_of_no_hit webhookId payloadJson delay now hno, ?_,
      rfl, rfl, rfl, rfl, rfl, rfl, rfl, rfl, rfl⟩
    intro x hx
    exact Nat.ne_of_lt (lt_nextId hx)

/-- C7 on the scenario: order 1001 is queued, a second webhook for it with a
new payload leaves one row, holding the new payload. -/
theorem enqueueJob_dedupes_witness :
    (scenarioQueued.map (fun r => r.id)).Nodup ∧ DedupeKeyUnique scenarioQueued ∧
    (enqueueJob scenarioQueued "demo.myshopify.com" "order_paid" (some "1001") (some "wh-2")
        "new" 3 200).length = scenarioQueued.length ∧
    (enqueueJob scenarioQueued "demo.myshopify.com" "order_paid" (some "1001") (some "wh-2")
        "new" 3 200).map (fun r => (r.id, r.status, r.attempts, r.payload_json)) =
      [(1, Status.queued, 0, some "new")] := by
  have hid : (scenarioQueued.map (fun r => r.id)).Nodup := by decide
  have hkey : DedupeKeyUnique scenarioQueued := by unfold DedupeKeyUnique; decide
  obtain ⟨_, _, _, _, _, _, hlen⟩ :=
    (enqueueJob_dedupes scenarioQueued hid hkey "demo.myshopify.com" "order_paid" "1001"
      (some "wh-2") "new" 3 200).1
      (freshRow 1 "demo.myshopify.com" "order_paid" (some "1001") (some "wh-1") "\x7b\x7d" 3 100)
      (by decide) rfl rfl rfl (Or.inl rfl)
  exact ⟨hid, hkey, hlen, by decide⟩

/-- After `enqueueJob` hit the row `r`, the row with the id of `r` is the
refreshed `r`. -/
theorem enqueueJob_row_of_hit {s : JobStore} (hid : (s.map (fun r => r.id)).Nodup)
    {shop jobType orderId : String} {r : WebhookJob} (hr : r ∈ s)
    (h1 : r.shop = shop) (h2 : r.job_type = jobType) (h3 : r.order_id = some orderId)
    (webhookId : Option String) (payloadJson : String) (delay now : Int) :
    refreshRow webhookId payloadJson now r ∈
        enqueueJob s shop jobType (some orderId) webhookId payloadJson delay now ∧
      ∀ r' ∈ enqueueJob s shop jobType (some orderId) webhookId payloadJson delay now,
        r'.id = r.id → r' = refreshRow webhookId payloadJson now r := by
  have hhit := (dedupeHit_iff shop jobType orderId r).mpr ⟨h1, h2, h3⟩
  rw [enqueueJob_of_hit webhookId payloadJson delay now (any_dedupeHit_of_mem hr h1 h2 h3)]
  constructor
  · rw [List.mem_map]
    exact ⟨r, hr, by rw [if_pos hhit]⟩
  · intro r' hr' hri
    rw [List.mem_map] at hr'
    obtain ⟨y, hy, rfl⟩ := hr'
    have hyid : y.id = r.id := by
      rw [← hri]
      split
      · exact (refreshRow_id _ _ _ _).symm
      · rfl
    have : y = r := eq_of_id_eq hid hy hr hyid
    subst this
    rw [if_pos hhit]

theorem refreshRow_noop (payloadJson : String) (now : Int) (r : WebhookJob)
    (webhookId : Option String) (hc : r.status = Status.completed)
    (hw : webhookId = none ∨ webhookId = r.webhook_id) :
    refreshRow webhookId payloadJson now r = r := by
  have hco : coalesce webhookId r.webhook_id = r.webhook_id := by
    rcases hw with h | h
    · rw [h]; rfl
    · rw [h]; cases r.webhook_id <;> rfl
  unfold refreshRow onUpdate
  rw [hco, if_pos hc, if_pos rfl]

/-- C8 (as the code has it): when `enqueueJob` hits a completed row `r`, no
row is added, every other row stays as it was, and `r` keeps its payload and
every column except that `webhook_id` becomes the new webhook id when that is
not null, `updated_at` moving to `now` when this changed it; with a null
webhook id, or the stored one, the table is unchanged. -/
theorem enqueueJob_completed_frame (s : JobStore) (hid : (s.map (fun r => r.id)).Nodup)
    (hkey : DedupeKeyUnique s) (shop jobType orderId : String) (r : WebhookJob) (hr : r ∈ s)
    (h1 : r.shop = shop) (h2 : r.job_type = jobType) (h3 : r.order_id = some orderId)
    (hc : r.status = Status.completed) (webhookId : Option String) (payloadJson : String)
    (delay now : Int) :
    (enqueueJob s shop jobType (some orderId) webhookId payloadJson delay now).map
        (fun x => x.id) = s.map (fun x => x.id) ∧
    (∀ x ∈ s, x.id ≠ r.id →
      x ∈ enqueueJob s shop jobType (some orderId) webhookId payloadJson delay now) ∧
    (∃ r' ∈ enqueueJob s shop jobType (some orderId) webhookId payloadJson delay now,
      r' = { r with
              webhook_id := coalesce webhookId r.webhook_id,
              updated_at := r'.updated_at } ∧
      (r'.updated_at = r.updated_at ∨ r'.updated_at = now)) ∧
    ((webhookId = none ∨ webhookId = r.webhook_id) →
      enqueueJob s shop jobType (some orderId) webhookId payloadJson delay now = s) := by
  have hany := any_dedupeHit_of_mem hr h1 h2 h3
  have honly : ∀ x ∈ s, dedupeHit shop jobType (some orderId) x = true → x = r := by
    intro x hx hhit
    obtain ⟨k1, k2, k3⟩ := (dedupeHit_iff shop jobType orderId x).mp hhit
    exact hkey x hx r hr (k1.trans h1.symm) (k2.trans h2.symm) (k3.trans h3.symm)
      (by rw [k3]; exact Option.some_ne_none _)
  refine ⟨enqueueJob_store_ids_of_hit webhookId payloadJson delay now hany, ?_, ?_, ?_⟩
  · intro x hx hne
    rw [enqueueJob_of_hit webhookId payloadJson delay now hany, List.mem_map]
    refine ⟨x, hx, ?_⟩
    have : ¬ dedupeHit shop jobType (some orderId) x = true := fun h =>
      hne (congrArg WebhookJob.id (honly x hx h))
    rw [if_neg this]
  · refine ⟨_, (enqueueJob_row_of_hit hid hr h1 h2 h3 webhookId payloadJson delay now).1, ?_, ?_⟩
    · conv_lhs => rw [refreshRow_eq]
      simp [hc]
    · unfold refreshRow
      rcases onUpdate_cases now r
        { r with
          webhook_id := coalesce webhookId r.webhook_id,
          payload_json :=
            if r.status = Status.completed then r.payload_json else some payloadJson }
        with h | h
      · left; rw [h]
      · right; rw [h]
  · intro hw
    rw [enqueueJob_of_hit webhookId payloadJson delay now hany]
    conv_rhs => rw [← List.map_id s]
    apply List.map_congr_left
    intro x hx
    by_cases hhit : dedupeHit shop jobType (some orderId) x = true
    · rw [if_pos hhit, honly x hx hhit]
      exact refreshRow_noop payloadJson now r webhookId hc hw
    · rw [if_neg hhit]; rfl

/-- C8 on `completedStore`: a webhook for the completed order 1001 with a null
webhook id leaves the table as it was. -/
theorem enqueueJob_completed_frame_witness :
    (completedStore.map (fun r => r.id)).Nodup ∧ DedupeKeyUnique completedStore ∧
    enqueueJob completedStore "demo.myshopify.com" "order_paid" (some "1001") none "new" 3 200 =
      completedStore := by
  have hid : (completedStore.map (fun r => r.id)).Nodup := by decide
  have hkey : DedupeKeyUnique completedStore := by unfold DedupeKeyUnique; decide
  exact ⟨hid, hkey,
    (enqueueJob_completed_frame completedStore hid hkey "demo.myshopify.com" "order_paid" "1001"
      { freshRow 1 "demo.myshopify.com" "order_paid" (some "1001") (some "wh-1") "old" 3 100 with
        status := Status.completed, attempts := 1, updated_at := 150 }
      (by decide) rfl rfl rfl rfl none "new" 3 200).2.2.2 (Or.inl rfl)⟩

/-- C8 as stated fails: a webhook for the completed order 1001 that carries
another webhook id changes the row's `webhook_id` and `updated_at` (the
payload is kept). -/
theorem enqueueJob_completed_changes_webhook_id :
    completedStore.map (fun r => (r.status, r.webhook_id, r.payload_json, r.updated_at)) =
      [(Status.completed, some "wh-1", some "old", 150)] ∧
    (enqueueJob completedStore "demo.myshopify.com" "order_paid" (some "1001") (some "wh-2")
        "new" 3 200).map (fun r => (r.status, r.webhook_id, r.payload_json, r.updated_at)) =
      [(Status.completed, some "wh-2", some "old", 200)] ∧
    enqueueJob completedStore "demo.myshopify.com" "order_paid" (some "1001") (some "wh-2")
        "new" 3 200 ≠ completedStore := by
  refine ⟨by decide, by decide, by decide⟩

/-! ## Lemmas on `createRemovalJob` -/

theorem onUpdateRemoval_cases (now : Int) (old new : RemovalJob) :
    onUpdateRemoval now old new = new ∨
      onUpdateRemoval now old new = { new with updated_at := now } := by
  unfold onUpdateRemoval
  by_cases h : new = old
  · left; simp [h]
  · right; simp [h]

theorem recreateRow_id (now : Int) (r : RemovalJob) : (recreateRow now r).id = r.id := by
  unfold recreateRow
  rcases onUpdateRemoval_cases now r (resetAttempts (reopenStatus r)) with h | h <;> rw [h] <;> rfl

theorem recreateRow_shop (now : Int) (r : RemovalJob) : (recreateRow now r).shop = r.shop := by
  unfold recreateRow
  rcases onUpdateRemoval_cases now r (resetAttempts (reopenStatus r)) with h | h <;> rw [h] <;> rfl

theorem recreateRow_month (now : Int) (r : RemovalJob) :
    (recreateRow now r).month_stamp = r.month_stamp := by
  unfold recreateRow
  rcases onUpdateRemoval_cases now r (resetAttempts (reopenStatus r)) with h | h <;> rw [h] <;> rfl

theorem recreateRow_status (now : Int) (r : RemovalJob) :
    (recreateRow now r).status =
      if r.status = Status.completed ∨ r.status = Status.failed then Status.queued
      else r.status := by
  unfold recreateRow
  rcases onUpdateRemoval_cases now r (resetAttempts (reopenStatus r)) with h | h <;> rw [h] <;> rfl

theorem removalHit_iff (shop monthStamp : String) (r : RemovalJob) :
    removalHit shop monthStamp r = true ↔ r.shop = shop ∧ r.month_stamp = monthStamp := by
  simp [removalHit]

theorem createRemovalJob_snd_of_hit {s : RemovalStore} {shop monthStamp : String} (now : Int)
    (h : s.any (removalHit shop monthStamp) = true) :
    (createRemovalJob s shop monthStamp now).2 =
      s.map (fun r => if removalHit shop monthStamp r then recreateRow now r else r) := by
  unfold createRemovalJob
  simp only [h, if_true]

/-- After `createRemovalJob` hit the row `q`, the row with the id of `q` is the
re-created `q`. -/
theorem createRemovalJob_row_of_hit {s : RemovalStore} (hid : (s.map (fun r => r.id)).Nodup)
    {q : RemovalJob} (hq : q ∈ s) (now : Int) :
    recreateRow now q ∈ (createRemovalJob s q.shop q.month_stamp now).2 ∧
      ∀ q' ∈ (createRemovalJob s q.shop q.month_stamp now).2,
        q'.id = q.id → q' = recreateRow now q := by
  have hhit : removalHit q.shop q.month_stamp q = true :=
    (removalHit_iff _ _ _).mpr ⟨rfl, rfl⟩
  have hany : s.any (removalHit q.shop q.month_stamp) = true :=
    List.any_eq_true.mpr ⟨q, hq, hhit⟩
  rw [createRemovalJob_snd_of_hit now hany]
  constructor
  · rw [List.mem_map]
    exact ⟨q, hq, by rw [if_pos hhit]⟩
  · intro q' hq' hqi
    rw [List.mem_map] at hq'
    obtain ⟨y, hy, rfl⟩ := hq'
    have hyid : y.id = q.id := by
      rw [← hqi]
      split
      · exact (recreateRow_id _ _).symm
      · rfl
    have : y = q := eq_of_id_eq hid hy hq hyid
    subst this
    rw [if_pos hhit]

/-- After `createRemovalJob` brought the row `q` back to queued,
`claimRemovalJob` for its shop and month selects it. -/
theorem claimRemovalJob_after_create {s : RemovalStore} (hid : (s.map (fun r => r.id)).Nodup)
    (hkey : RemovalKeyUnique s) {q : RemovalJob} (hq : q ∈ s)
    (hst : q.status = Status.completed ∨ q.status = Status.failed) (now : Int)
    (w : String) (t : Int) :
    ∃ a, (claimRemovalJob (createRemovalJob s q.shop q.month_stamp now).2 q.shop q.month_stamp
      w t).1 = some { id := q.id, status := Status.queued, attempts := a } := by
  have hhit : removalHit q.shop q.month_stamp q = true :=
    (removalHit_iff _ _ _).mpr ⟨rfl, rfl⟩
  have hany : s.any (removalHit q.shop q.month_stamp) = true :=
    List.any_eq_true.mpr ⟨q, hq, hhit⟩
  have hrow := (createRemovalJob_row_of_hit hid hq now).1
  have hqs : (recreateRow now q).status = Status.queued := by
    rw [recreateRow_status, if_pos hst]
  have hall : ∀ x ∈ (createRemovalJob s q.shop q.month_stamp now).2,
      removalHit q.shop q.month_stamp x = true → x = recreateRow now q := by
    intro x hx hxhit
    rw [createRemovalJob_snd_of_hit now hany, List.mem_map] at hx
    obtain ⟨y, hy, rfl⟩ := hx
    have hyhit : removalHit q.shop q.month_stamp y = true := by
      by_cases h : removalHit q.shop q.month_stamp y = true
      · exact h
      · rw [if_neg h] at hxhit; exact hxhit
    obtain ⟨k1, k2⟩ := (removalHit_iff _ _ _).mp hyhit
    have : y = q := hkey y hy q hq k1 k2
    subst this
    rw [if_pos hyhit]
  unfold claimRemovalJob
  cases hfil : (createRemovalJob s q.shop q.month_stamp now).2.filter
      (fun r => removalHit q.shop q.month_stamp r && decide (r.status = Status.queued)) with
  | nil =>
    have : recreateRow now q ∈ (createRemovalJob s q.shop q.month_stamp now).2.filter
        (fun r => removalHit q.shop q.month_stamp r && decide (r.status = Status.queued)) := by
      rw [List.mem_filter]
      refine ⟨hrow, ?_⟩
      have h1 : removalHit q.shop q.month_stamp (recreateRow now q) = true :=
        (removalHit_iff _ _ _).mpr ⟨recreateRow_shop _ _, recreateRow_month _ _⟩
      simp [h1, hqs]
    rw [hfil] at this
    exact absurd this (List.not_mem_nil _)
  | cons job rest =>
    have hjob : job ∈ (createRemovalJob s q.shop q.month_stamp now).2.filter
        (fun r => removalHit q.shop q.month_stamp r && decide (r.status = Status.queued)) := by
      rw [hfil]; exact List.mem_cons_self _ _
    rw [List.mem_filter, Bool.and_eq_true] at hjob
    have hEq := hall job hjob.1 hjob.2.1
    refine ⟨job.attempts, ?_⟩
    simp only
    rw [hEq, recreateRow_id, hqs]

/-- C9 (as the code has it): re-enqueueing the key of a completed row.
`enqueueJob` leaves the webhook row completed with its attempts unchanged;
`createRemovalJob` returns the removal row to queued. -/
theorem reenqueue_completed (s : JobStore) (hid : (s.map (fun r => r.id)).Nodup)
    (shop jobType orderId : String) (r : WebhookJob) (hr : r ∈ s)
    (h1 : r.shop = shop) (h2 : r.job_type = jobType) (h3 : r.order_id = some orderId)
    (hc : r.status = Status.completed) (webhookId : Option String) (payloadJson : String)
    (delay now : Int)
    (rs : RemovalStore) (hrid : (rs.map (fun q => q.id)).Nodup) (q : RemovalJob) (hq : q ∈ rs)
    (hqc : q.status = Status.completed) (now' : Int) :
    (∃ r' ∈ enqueueJob s shop jobType (some orderId) webhookId payloadJson delay now,
      r'.id = r.id) ∧
    (∀ r' ∈ enqueueJob s shop jobType (some orderId) webhookId payloadJson delay now,
      r'.id = r.id → r'.status = Status.completed ∧ r'.attempts = r.attempts) ∧
    (∃ q' ∈ (createRemovalJob rs q.shop q.month_stamp now').2, q'.id = q.id) ∧
    (∀ q' ∈ (createRemovalJob rs q.shop q.month_stamp now').2,
      q'.id = q.id → q'.status = Status.queued) := by
  obtain ⟨e1, e2⟩ := enqueueJob_row_of_hit hid hr h1 h2 h3 webhookId payloadJson delay now
  obtain ⟨c1, c2⟩ := createRemovalJob_row_of_hit hrid hq now'
  refine ⟨⟨_, e1, refreshRow_id _ _ _ _⟩, ?_, ⟨_, c1, recreateRow_id _ _⟩, ?_⟩
  · intro r' hr' hri
    rw [e2 r' hr' hri, refreshRow_eq]
    exact ⟨hc, rfl⟩
  · intro q' hq' hqi
    rw [c2 q' hq' hqi, recreateRow_status, if_pos (Or.inl hqc)]

/-- C9 on the demonstration tables: the completed order stays completed with 1
attempt after a new webhook; the completed month 2024-01 is queued again after
`createRemovalJob`. -/
theorem reenqueue_completed_witness :
    (completedStore.map (fun r => r.id)).Nodup ∧ (removalDemo.map (fun q => q.id)).Nodup ∧
    (∀ r' ∈ enqueueJob completedStore "demo.myshopify.com" "order_paid" (some "1001")
        (some "wh-2") "new" 3 200,
      r'.id = 1 → r'.status = Status.completed ∧ r'.attempts = 1) ∧
    (∀ q' ∈ (createRemovalJob removalDemo "demo.myshopify.com" "2024-01" 100).2,
      q'.id = 1 → q'.status = Status.queued) := by
  have key := reenqueue_completed completedStore (by decide) "demo.myshopify.com" "order_paid"
    "1001"
    { freshRow 1 "demo.myshopify.com" "order_paid" (some "1001") (some "wh-1") "old" 3 100 with
      status := Status.completed, attempts := 1, updated_at := 150 }
    (by decide) rfl rfl rfl rfl (some "wh-2") "new" 3 200
    removalDemo (by decide)
    { id := 1, shop := "demo.myshopify.com", month_stamp := "2024-01",
      status := Status.completed, attempts := 1, locked_at := none, locked_by := none,
      stats_json := some "done", last_error := none, created_at := 10, updated_at := 20 }
    (by decide) rfl 100
  exact ⟨by decide, by decide, key.2.1, key.2.2.2⟩

/-- C9 as stated fails for `createRemovalJob`: re-creating the completed month
2024-01 returns `{ id: 1, status: 'queued' }` and leaves the row queued, not
completed. -/
theorem createRemovalJob_requeues_completed :
    removalDemo.map (fun q => (q.id, q.status)) =
      [(1, Status.completed), (2, Status.failed)] ∧
    (createRemovalJob removalDemo "demo.myshopify.com" "2024-01" 100).1 =
      some (1, Status.queued) ∧
    (createRemovalJob removalDemo "demo.myshopify.com" "2024-01" 100).2.map
        (fun q => (q.id, q.status)) =
      [(1, Status.queued), (2, Status.failed)] := by
  refine ⟨by decide, by decide, by decide⟩

/-- C10 (as the code has it): re-enqueueing the key of a failed row.
`createRemovalJob` returns the removal row to queued, reports it queued, and a
following `claimRemovalJob` for that shop and month selects it; `enqueueJob`
refreshes the payload of the webhook row but leaves it failed, and no
following `claimJob` returns it. -/
theorem reenqueue_failed (rs : RemovalStore) (hrid : (rs.map (fun q => q.id)).Nodup)
    (hrkey : RemovalKeyUnique rs) (q : RemovalJob) (hq : q ∈ rs)
    (hqf : q.status = Status.failed) (now' : Int)
    (s : JobStore) (hid : (s.map (fun r => r.id)).Nodup)
    (shop jobType orderId : String) (r : WebhookJob) (hr : r ∈ s)
    (h1 : r.shop = shop) (h2 : r.job_type = jobType) (h3 : r.order_id = some orderId)
    (hf : r.status = Status.failed) (webhookId : Option String) (payloadJson : String)
    (delay now : Int) :
    (∃ q' ∈ (createRemovalJob rs q.shop q.month_stamp now').2, q'.id = q.id) ∧
    (∀ q' ∈ (createRemovalJob rs q.shop q.month_stamp now').2,
      q'.id = q.id → q'.status = Status.queued) ∧
    (∀ (w : String) (t : Int), ∃ a,
      (claimRemovalJob (createRemovalJob rs q.shop q.month_stamp now').2 q.shop q.month_stamp
        w t).1 = some { id := q.id, status := Status.queued, attempts := a }) ∧
    (∃ r' ∈ enqueueJob s shop jobType (some orderId) webhookId payloadJson delay now,
      r'.id = r.id) ∧
    (∀ r' ∈ enqueueJob s shop jobType (some orderId) webhookId payloadJson delay now,
      r'.id = r.id → r'.status = Status.failed ∧ r'.payload_json = some payloadJson) ∧
    (∀ (w : String) (t : Int) (limit : Nat),
      ∀ j ∈ (claimJob (enqueueJob s shop jobType (some orderId) webhookId payloadJson delay now)
        w t limit).1, j.id ≠ r.id) := by
  obtain ⟨e1, e2⟩ := enqueueJob_row_of_hit hid hr h1 h2 h3 webhookId payloadJson delay now
  obtain ⟨c1, c2⟩ := createRemovalJob_row_of_hit hrid hq now'
  have hst : ∀ r' ∈ enqueueJob s shop jobType (some orderId) webhookId payloadJson delay now,
      r'.id = r.id → r'.status = Status.failed ∧ r'.payload_json = some payloadJson := by
    intro r' hr' hri
    rw [e2 r' hr' hri, refreshRow_eq]
    refine ⟨hf, ?_⟩
    have hne : r.status ≠ Status.completed := by rw [hf]; decide
    simp [hne]
  refine ⟨⟨_, c1, recreateRow_id _ _⟩, ?_,
    fun w t => claimRemovalJob_after_create hrid hrkey hq (Or.inr hqf) now' w t,
    ⟨_, e1, refreshRow_id _ _ _ _⟩, hst, ?_⟩
  · intro q' hq' hqi
    rw [c2 q' hq' hqi, recreateRow_status, if_pos (Or.inr hqf)]
  · intro w t limit j hj hji
    obtain ⟨r0, hr0, hri0, hq0, _⟩ :=
      claimJob_returned_due (List.mem_map.mpr ⟨j, hj, rfl⟩)
    have := (hst r0 hr0 (hri0.trans hji)).1
    rw [hq0] at this
    exact absurd this (by decide)

/-- C10 on the demonstration tables: the failed month 2024-02 is queued again
and claimed; the failed order stays failed after a new webhook. -/
theorem reenqueue_failed_witness :
    (removalDemo.map (fun q => q.id)).Nodup ∧ RemovalKeyUnique removalDemo ∧
    (failedStore.map (fun r => r.id)).Nodup ∧
    (∀ q' ∈ (createRemovalJob removalDemo "demo.myshopify.com" "2024-02" 100).2,
      q'.id = 2 → q'.status = Status.queued) ∧
    (∀ r' ∈ enqueueJob failedStore "demo.myshopify.com" "order_paid" (some "1001")
        (some "wh-2") "new" 3 200,
      r'.id = 1 → r'.status = Status.failed ∧ r'.payload_json = some "new") := by
  have hk : RemovalKeyUnique removalDemo := by unfold RemovalKeyUnique; decide
  have key := reenqueue_failed removalDemo (by decide) hk
    { id := 2, shop := "demo.myshopify.com", month_stamp := "2024-02",
      status := Status.failed, attempts := 5, locked_at := none, locked_by := none,
      stats_json := none, last_error := some "boom", created_at := 30, updated_at := 40 }
    (by decide) rfl 100
    failedStore (by decide) "demo.myshopify.com" "order_paid" "1001"
    { freshRow 1 "demo.myshopify.com" "order_paid" (some "1001") (some "wh-1") "old" 3 100 with
      status := Status.failed, attempts := 5, last_error := some "boom", updated_at := 150 }
    (by decide) rfl rfl rfl rfl (some "wh-2") "new" 3 200
  exact ⟨by decide, hk, by decide, key.2.1, key.2.2.2.2.1⟩

/-- C10 as stated fails for `enqueueJob`: a new webhook for the failed order
1001 leaves the row failed, and a `claimJob` long after returns nothing. -/
theorem enqueueJob_keeps_failed :
    failedStore.map (fun r => (r.id, r.status)) = [(1, Status.failed)] ∧
    (enqueueJob failedStore "demo.myshopify.com" "order_paid" (some "1001") (some "wh-2")
        "new" 3 200).map (fun r => (r.id, r.status, r.payload_json)) =
      [(1, Status.failed, some "new")] ∧
    (claimJob (enqueueJob failedStore "demo.myshopify.com" "order_paid" (some "1001")
        (some "wh-2") "new" 3 200) "worker_a" 100000 10).1 = [] := by
  refine ⟨by decide, by decide, by decide⟩

/-! ## The lock fields follow the status -/

theorem onUpdate_locked_at (now : Int) (old new : WebhookJob) :
    (onUpdate now old new).locked_at = new.locked_at := by
  rcases onUpdate_cases now old new with h | h <;> rw [h]

theorem onUpdate_locked_by (now : Int) (old new : WebhookJob) :
    (onUpdate now old new).locked_by = new.locked_by := by
  rcases onUpdate_cases now old new with h | h <;> rw [h]

/-- Mapping a table with a function that keeps a property of rows keeps the
property on every row. -/
theorem forall_mem_map_of_preserved {α : Type} {p : α → Prop} {f : α → α} {s : List α}
    (hs : ∀ r ∈ s, p r) (hf : ∀ r, p r → p (f r)) : ∀ r ∈ s.map f, p r := by
  intro r hr
  obtain ⟨x, hx, rfl⟩ := List.mem_map.mp hr
  exact hf x (hs x hx)

/-- Each call keeps the lock fields in step with the status. -/
theorem applyJobOp_lock (s : JobStore) (op : JobOp)
    (hs : ∀ r ∈ s,
      (r.status = Status.processing → r.locked_by ≠ none ∧ r.locked_at ≠ none) ∧
      (r.status ≠ Status.processing → r.locked_by = none ∧ r.locked_at = none)) :
    ∀ r ∈ applyJobOp s op,
      (r.status = Status.processing → r.locked_by ≠ none ∧ r.locked_at ≠ none) ∧
      (r.status ≠ Status.processing → r.locked_by = none ∧ r.locked_at = none) := by
  cases op with
  | enqueue shop jobType orderId webhookId payloadJson delay now =>
    simp only [applyJobOp]
    unfold enqueueJob
    split
    · apply forall_mem_map_of_preserved hs
      intro r hr
      split
      · rw [refreshRow_eq]; exact hr
      · exact hr
    · intro r hr
      rcases List.mem_append.mp hr with h | h
      · exact hs r h
      · rw [List.mem_singleton.mp h]
        exact ⟨fun h => absurd h (by simp [freshRow]), fun _ => ⟨rfl, rfl⟩⟩
  | claim w limit now =>
    simp only [applyJobOp]
    rw [claimJob_snd]
    apply forall_mem_map_of_preserved hs
    intro r hr
    split
    · rw [claimRow_eq]
      exact ⟨fun _ => ⟨by simp, by simp⟩, fun h => absurd rfl h⟩
    · exact hr
  | complete jobId now =>
    simp only [applyJobOp]
    unfold completeJob
    apply forall_mem_map_of_preserved hs
    intro r hr
    split
    · rw [onUpdate_eq_with]
      exact ⟨fun h => absurd h (by simp), fun _ => ⟨rfl, rfl⟩⟩
    · exact hr
  | fail jobId error hint m now =>
    simp only [applyJobOp]
    by_cases h : m ≤ storedAttempts s jobId
    · rw [failJob_of_le error hint now h]
      apply forall_mem_map_of_preserved hs
      intro r hr
      split
      · rw [failRow_eq]
        exact ⟨fun h => absurd h (by simp), fun _ => ⟨rfl, rfl⟩⟩
      · exact hr
    · rw [failJob_of_lt error hint now (by omega)]
      apply forall_mem_map_of_preserved hs
      intro r hr
      split
      · rw [requeueRow_eq]
        exact ⟨fun h => absurd h (by simp), fun _ => ⟨rfl, rfl⟩⟩
      · exact hr
  | reschedule jobId delay now =>
    simp only [applyJobOp]
    unfold rescheduleJob
    apply forall_mem_map_of_preserved hs
    intro r hr
    split
    · rw [onUpdate_eq_with]
      exact ⟨fun h => absurd h (by simp), fun _ => ⟨rfl, rfl⟩⟩
    · exact hr

theorem runJobOps_lock (ops : List JobOp) :
    ∀ s : JobStore,
      (∀ r ∈ s,
        (r.status = Status.processing → r.locked_by ≠ none ∧ r.locked_at ≠ none) ∧
        (r.status ≠ Status.processing → r.locked_by = none ∧ r.locked_at = none)) →
      ∀ r ∈ runJobOps ops s,
        (r.status = Status.processing → r.locked_by ≠ none ∧ r.locked_at ≠ none) ∧
        (r.status ≠ Status.processing → r.locked_by = none ∧ r.locked_at = none) := by
  induction ops with
  | nil => intro s hs; exact hs
  | cons op rest ih =>
    intro s hs
    exact ih (applyJobOp s op) (applyJobOp_lock s op hs)

/-- C11: in every table reached from the empty `webhook_jobs` table by any
sequence of `enqueueJob`, `claimJob`, `completeJob`, `failJob` and
`rescheduleJob` calls with any arguments, a processing row has `locked_by` and
`locked_at` not null, and a queued, completed or failed row has both null. -/
theorem lock_fields_follow_status (ops : List JobOp) :
    ∀ r ∈ runJobOps ops [],
      (r.status = Status.processing → r.locked_by ≠ none ∧ r.locked_at ≠ none) ∧
      ((r.status = Status.queued ∨ r.status = Status.completed ∨ r.status = Status.failed) →
        r.locked_by = none ∧ r.locked_at = none) := by
  intro r hr
  have h := runJobOps_lock ops [] (fun r hr => absurd hr (List.not_mem_nil r)) r hr
  refine ⟨h.1, fun hst => h.2 ?_⟩
  rcases hst with h' | h' | h' <;> rw [h'] <;> decide

/-- C11 on the scenario: after order 1001 was enqueued and claimed, its row is
processing with both lock fields set. -/
theorem lock_fields_follow_status_witness :
    ({ id := 1, shop := "demo.myshopify.com", webhook_id := some "wh-1",
       job_type := "order_paid", order_id := some "1001", status := Status.processing,
       attempts := 1, run_after := 103, locked_at := some 103,
       locked_by := some "worker_a", last_error := none, payload_json := some "\x7b\x7d",
       updated_at := 103, created_at := 100 } : WebhookJob) ∈
      runJobOps
        [JobOp.enqueue "demo.myshopify.com" "order_paid" (some "1001") (some "wh-1")
           "\x7b\x7d" 3 100,
         JobOp.claim "worker_a" 1 103] [] ∧
    ((some "worker_a" : Option String) ≠ none ∧ (some 103 : Option Int) ≠ none) :=
  ⟨by decide,
    (lock_fields_follow_status
      [JobOp.enqueue "demo.myshopify.com" "order_paid" (some "1001") (some "wh-1")
         "\x7b\x7d" 3 100,
       JobOp.claim "worker_a" 1 103]
      { id := 1, shop := "demo.myshopify.com", webhook_id := some "wh-1",
        job_type := "order_paid", order_id := some "1001", status := Status.processing,
        attempts := 1, run_after := 103, locked_at := some 103,
        locked_by := some "worker_a", last_error := none, payload_json := some "\x7b\x7d",
        updated_at := 103, created_at := 100 }
      (by decide)).1 rfl⟩

/-! ## Lemmas on the idempotency ledger -/

theorem actionHit_iff (shop orderId action : String) (r : ActionLog) :
    actionHit shop orderId action r = true ↔
      r.shop = shop ∧ r.order_id = orderId ∧ r.action = action := by
  simp [actionHit, and_assoc]

theorem any_actionHit_eq_false {l : Ledger} {shop orderId action : String}
    (h : ∀ r ∈ l, ¬ (r.shop = shop ∧ r.order_id = orderId ∧ r.action = action)) :
    l.any (actionHit shop orderId action) = false := by
  rw [Bool.eq_false_iff]
  intro hany
  obtain ⟨x, hx, hhit⟩ := List.any_eq_true.mp hany
  exact h x hx ((actionHit_iff _ _ _ x).mp hhit)

theorem not_hit_of_any_eq_false {l : Ledger} {shop orderId action : String}
    (h : l.any (actionHit shop orderId action) = false) :
    ∀ r ∈ l, actionHit shop orderId action r = false := by
  intro r hr
  rw [Bool.eq_false_iff]
  intro hhit
  have : l.any (actionHit shop orderId action) = true := List.any_eq_true.mpr ⟨r, hr, hhit⟩
  rw [h] at this
  exact absurd this (by decide)

theorem acquiredRow_hit (id : Nat) (shop orderId action : String) (details : JsValue)
    (now : Int) : actionHit shop orderId action (acquiredRow id shop orderId action details now)
      = true :=
  (actionHit_iff _ _ _ _).mpr ⟨rfl, rfl, rfl⟩

theorem acquireAction_of_free {l : Ledger} {shop orderId action : String} (details : JsValue)
    (now : Int) (h : l.any (actionHit shop orderId action) = false) :
    acquireAction l shop orderId action details now =
      (AcquireResult.acquired (nextActionId l),
        l ++ [acquiredRow (nextActionId l) shop orderId action details now]) := by
  unfold acquireAction
  simp [h]

/-- On a collision `acquireAction` reads back a row of the table that holds
the key, and leaves the table as it is. -/
theorem acquireAction_of_hit {l : Ledger} {shop orderId action : String} (details : JsValue)
    (now : Int) (h : l.any (actionHit shop orderId action) = true) :
    ∃ r ∈ l, actionHit shop orderId action r = true ∧
      l.find? (actionHit shop orderId action) = some r ∧
      acquireAction l shop orderId action details now =
        (AcquireResult.notAcquired
          (some { id := r.id, status := r.status, created_at := r.created_at }), l) := by
  cases hf : l.find? (actionHit shop orderId action) with
  | none =>
    rw [List.find?_eq_none] at hf
    obtain ⟨x, hx, hhit⟩ := List.any_eq_true.mp h
    exact absurd hhit (hf x hx)
  | some r =>
    refine ⟨r, List.mem_of_find?_eq_some hf, List.find?_some hf, rfl, ?_⟩
    unfold acquireAction
    simp [h, hf]

/-- An `UPDATE ... WHERE key` on a table in which no row holds the key. -/
theorem map_if_hit_of_free {l : Ledger} {shop orderId action : String}
    (f : ActionLog → ActionLog) (h : ∀ r ∈ l, actionHit shop orderId action r = false) :
    l.map (fun r => if actionHit shop orderId action r then f r else r) = l := by
  conv_rhs => rw [← List.map_id l]
  apply List.map_congr_left
  intro r hr
  simp [h r hr]

theorem markActionComplete_after_acquire {l : Ledger} {shop orderId action : String}
    (details result : JsValue) (now later : Int)
    (h : l.any (actionHit shop orderId action) = false) :
    markActionComplete (l ++ [acquiredRow (nextActionId l) shop orderId action details now])
        shop orderId action result later =
      l ++ [onUpdateAction later (acquiredRow (nextActionId l) shop orderId action details now)
        { acquiredRow (nextActionId l) shop orderId action details now with
          status := ActionStatus.completed,
          details_json := coalesce (detailsJson result) (detailsJson details) }] := by
  unfold markActionComplete
  rw [List.map_append, map_if_hit_of_free _ (not_hit_of_any_eq_false h)]
  simp [acquiredRow_hit]
  rfl

theorem markActionFailed_after_acquire {l : Ledger} {shop orderId action : String}
    (details : JsValue) (error : Option String) (now later : Int)
    (h : l.any (actionHit shop orderId action) = false) :
    markActionFailed (l ++ [acquiredRow (nextActionId l) shop orderId action details now])
        shop orderId action error later =
      l ++ [onUpdateAction later (acquiredRow (nextActionId l) shop orderId action details now)
        { acquiredRow (nextActionId l) shop orderId action details now with
          status := ActionStatus.failed,
          details_json := some (errorDetailsJson (jsSlice 1000 (jsString error))) }] := by
  unfold markActionFailed
  rw [List.map_append, map_if_hit_of_free _ (not_hit_of_any_eq_false h)]
  simp [acquiredRow_hit]

theorem releaseAction_after_acquire {l : Ledger} {shop orderId action : String}
    (details : JsValue) (now : Int) (h : l.any (actionHit shop orderId action) = false) :
    releaseAction (l ++ [acquiredRow (nextActionId l) shop orderId action details now])
        shop orderId action = l := by
  unfold releaseAction
  rw [List.filter_append]
  have h1 : l.filter (fun r => !(actionHit shop orderId action r &&
      decide (r.status = ActionStatus.acquired))) = l := by
    rw [List.filter_eq_self]
    intro r hr
    simp [not_hit_of_any_eq_false h r hr]
  rw [h1]
  have h2 : (acquiredRow (nextActionId l) shop orderId action details now).status =
      ActionStatus.acquired := rfl
  simp [acquiredRow_hit, h2]

theorem withIdempotentAction_of_hit {σ : Type} (clock : σ → Int) {l : Ledger}
    {shop orderId action : String} (details : JsValue) (fn : Task σ) (w : σ)
    (h : l.any (actionHit shop orderId action) = true) :
    ∃ r ∈ l, actionHit shop orderId action r = true ∧
      l.find? (actionHit shop orderId action) = some r ∧
      withIdempotentAction clock l shop orderId action details fn w =
        (Except.ok (IdemResult.skipped
          (some { id := r.id, status := r.status, created_at := r.created_at })), l, w) := by
  obtain ⟨r, hr, hhit, hfind, hacq⟩ := acquireAction_of_hit details (clock w) h
  refine ⟨r, hr, hhit, hfind, ?_⟩
  unfold withIdempotentAction
  rw [hacq]

theorem withIdempotentAction_of_ok {σ : Type} (clock : σ → Int) {l : Ledger}
    {shop orderId action : String} (details : JsValue) (fn : Task σ) (w : σ) {result : JsValue}
    (h : l.any (actionHit shop orderId action) = false) (hok : (fn w).1 = Except.ok result) :
    withIdempotentAction clock l shop orderId action details fn w =
      (Except.ok (IdemResult.ran result),
        l ++ [onUpdateAction (clock (fn w).2)
          (acquiredRow (nextActionId l) shop orderId action details (clock w))
          { acquiredRow (nextActionId l) shop orderId action details (clock w) with
            status := ActionStatus.completed,
            details_json := coalesce (detailsJson result) (detailsJson details) }],
        (fn w).2) := by
  unfold withIdempotentAction
  rw [acquireAction_of_free details (clock w) h]
  cases hfn : fn w with
  | mk out w1 =>
    rw [hfn] at hok
    simp only at hok
    subst hok
    simp only
    rw [markActionComplete_after_acquire details result (clock w) (clock w1) h]

theorem withIdempotentAction_of_transient {σ : Type} (clock : σ → Int) {l : Ledger}
    {shop orderId action : String} (details : JsValue) (fn : Task σ) (w : σ) {err : JsError}
    (h : l.any (actionHit shop orderId action) = false) (herr : (fn w).1 = Except.error err)
    (htr : isTransient err = true) :
    withIdempotentAction clock l shop orderId action details fn w =
      (Except.error err, l, (fn w).2) := by
  unfold withIdempotentAction
  rw [acquireAction_of_free details (clock w) h]
  cases hfn : fn w with
  | mk out w1 =>
    rw [hfn] at herr
    simp only at herr
    subst herr
    simp only
    rw [if_pos htr, releaseAction_after_acquire details (clock w) h]

theorem withIdempotentAction_of_permanent {σ : Type} (clock : σ → Int) {l : Ledger}
    {shop orderId action : String} (details : JsValue) (fn : Task σ) (w : σ) {err : JsError}
    (h : l.any (actionHit shop orderId action) = false) (herr : (fn w).1 = Except.error err)
    (hperm : isTransient err = false) :
    withIdempotentAction clock l shop orderId action details fn w =
      (Except.error err,
        l ++ [onUpdateAction (clock (fn w).2)
          (acquiredRow (nextActionId l) shop orderId action details (clock w))
          { acquiredRow (nextActionId l) shop orderId action details (clock w) with
            status := ActionStatus.failed,
            details_json := some (errorDetailsJson (jsSlice 1000 (jsString err.message))) }],
        (fn w).2) := by
  unfold withIdempotentAction
  rw [acquireAction_of_free details (clock w) h]
  cases hfn : fn w with
  | mk out w1 =>
    rw [hfn] at herr
    simp only at herr
    subst herr
    simp only
    rw [hperm, markActionFailed_after_acquire details err.message (clock w) (clock w1) h]
    simp

theorem onUpdateAction_eq_with (now : Int) (old new : ActionLog) :
    onUpdateAction now old new =
      { new with updated_at := (onUpdateAction now old new).updated_at } := by
  unfold onUpdateAction
  by_cases h : new = old
  · simp [h]
  · simp [h]

/-! ## Claims on the idempotency ledger -/

/-- C12: `acquireAction` never raises; when no row holds
`(shop, orderId, action)` it returns `acquired = true` and appends one row
with that key and status acquired; when a row holds the key it returns
`acquired = false` with the `id`, `status` and `created_at` of such a row and
leaves the table as it is; a second acquire right after a first one on a free
key returns `acquired = false` with `existing.status = "acquired"`. -/
theorem acquireAction_exactly_when_free (l : Ledger) (shop orderId action : String)
    (details : JsValue) (now : Int) :
    ((∀ r ∈ l, ¬ (r.shop = shop ∧ r.order_id = orderId ∧ r.action = action)) →
      acquireAction l shop orderId action details now =
        (AcquireResult.acquired (nextActionId l),
          l ++ [{ id := nextActionId l, shop := shop, order_id := orderId, action := action,
                  details_json := if details.truthy then some details.json else none,
                  status := ActionStatus.acquired, created_at := now, updated_at := now }])) ∧
    ((∃ r ∈ l, r.shop = shop ∧ r.order_id = orderId ∧ r.action = action) →
      ∃ r ∈ l, (r.shop = shop ∧ r.order_id = orderId ∧ r.action = action) ∧
        acquireAction l shop orderId action details now =
          (AcquireResult.notAcquired
            (some { id := r.id, status := r.status, created_at := r.created_at }), l)) ∧
    ((∀ r ∈ l, ¬ (r.shop = shop ∧ r.order_id = orderId ∧ r.action = action)) →
      ∀ (details2 : JsValue) (now2 : Int),
        acquireAction (acquireAction l shop orderId action details now).2 shop orderId action
            details2 now2 =
          (AcquireResult.notAcquired
            (some { id := nextActionId l, status := ActionStatus.acquired, created_at := now }),
            (acquireAction l shop orderId action details now).2)) := by
  refine ⟨?_, ?_, ?_⟩
  · intro hfree
    exact acquireAction_of_free details now (any_actionHit_eq_false hfree)
  · rintro ⟨r0, hr0, hkey⟩
    have hany : l.any (actionHit shop orderId action) = true :=
      List.any_eq_true.mpr ⟨r0, hr0, (actionHit_iff _ _ _ r0).mpr hkey⟩
    obtain ⟨r, hr, hhit, _, hacq⟩ := acquireAction_of_hit details now hany
    exact ⟨r, hr, (actionHit_iff _ _ _ r).mp hhit, hacq⟩
  · intro hfree details2 now2
    have hno := any_actionHit_eq_false hfree
    rw [acquireAction_of_free details now hno]
    have hfindl : l.find? (actionHit shop orderId action) = none := by
      rw [List.find?_eq_none]
      intro x hx
      rw [not_hit_of_any_eq_false hno x hx]
      decide
    unfold acquireAction
    simp [acquiredRow_hit, hfindl]
    exact ⟨rfl, rfl, rfl⟩

/-- C13: on a ledger with no row for the key, when the task of the first
`withIdempotentAction` call succeeds with `r`, that call returns
`skipped = false` with `r`, leaves the world as the task left it and appends
one row for the key, completed; a second call with the key, whatever its
details and task, returns `skipped = true` with that completed row and leaves
ledger and world untouched, so that the world after both calls is the one
left by a single run of the first task. -/
theorem withIdempotentAction_runs_once {σ : Type} (clock : σ → Int) (l : Ledger)
    (shop orderId action : String) (d1 d2 : JsValue) (fn1 fn2 : Task σ) (w : σ) (r : JsValue)
    (hfree : ∀ x ∈ l, ¬ (x.shop = shop ∧ x.order_id = orderId ∧ x.action = action))
    (hok : (fn1 w).1 = Except.ok r) :
    (withIdempotentAction clock l shop orderId action d1 fn1 w).1 =
        Except.ok (IdemResult.ran r) ∧
    (withIdempotentAction clock l shop orderId action d1 fn1 w).2.2 = (fn1 w).2 ∧
    ∃ row, (withIdempotentAction clock l shop orderId action d1 fn1 w).2.1 = l ++ [row] ∧
      (row.shop = shop ∧ row.order_id = orderId ∧ row.action = action) ∧
      row.status = ActionStatus.completed ∧
      withIdempotentAction clock (l ++ [row]) shop orderId action d2 fn2 (fn1 w).2 =
        (Except.ok (IdemResult.skipped
          (some { id := row.id, status := ActionStatus.completed,
                  created_at := row.created_at })),
          l ++ [row], (fn1 w).2) := by
  have hno := any_actionHit_eq_false hfree
  rw [withIdempotentAction_of_ok clock d1 fn1 w hno hok]
  refine ⟨rfl, rfl, _, rfl, ?_, ?_, ?_⟩
  · rw [onUpdateAction_eq_with]; exact ⟨rfl, rfl, rfl⟩
  · rw [onUpdateAction_eq_with]
  · generalize hrow : onUpdateAction (clock (fn1 w).2)
        (acquiredRow (nextActionId l) shop orderId action d1 (clock w))
        { acquiredRow (nextActionId l) shop orderId action d1 (clock w) with
          status := ActionStatus.completed,
          details_json := coalesce (detailsJson r) (detailsJson d1) } = row
    have hkey : actionHit shop orderId action row = true := by
      rw [← hrow, onUpdateAction_eq_with]
      exact (actionHit_iff _ _ _ _).mpr ⟨rfl, rfl, rfl⟩
    have hst : row.status = ActionStatus.completed := by
      rw [← hrow, onUpdateAction_eq_with]
    have hany : (l ++ [row]).any (actionHit shop orderId action) = true :=
      List.any_eq_true.mpr ⟨row, List.mem_append_right _ (List.mem_singleton.mpr rfl), hkey⟩
    obtain ⟨x, _, _, hfind, hres⟩ := withIdempotentAction_of_hit clock d2 fn2 (fn1 w).2 hany
    have hfindl : l.find? (actionHit shop orderId action) = none := by
      rw [List.find?_eq_none]
      intro y hy
      rw [not_hit_of_any_eq_false hno y hy]
      decide
    have hx : x = row := by
      rw [List.find?_append, hfindl] at hfind
      simp [List.find?, hkey] at hfind
      exact hfind.symm
    rw [hres, hx, hst]

/-- C13 on the demonstration world: the first call sends the email and
completes the row; a second call with a task that would fail is skipped and
sends nothing. -/
theorem withIdempotentAction_runs_once_witness :
    (∀ x ∈ ([] : Ledger), ¬ (x.shop = "demo.myshopify.com" ∧ x.order_id = "1001" ∧
      x.action = "email_northern")) ∧
    (demoSend []).1 = Except.ok ⟨true, "\x7b\"success\":true\x7d"⟩ ∧
    (withIdempotentAction demoClock [] "demo.myshopify.com" "1001" "email_northern"
        demoDetails demoSend []).1 = Except.ok (IdemResult.ran ⟨true, "\x7b\"success\":true\x7d"⟩) ∧
    (withIdempotentAction demoClock [] "demo.myshopify.com" "1001" "email_northern"
        demoDetails demoSend []).2.2 = ["email sent"] ∧
    (withIdempotentAction demoClock
        (withIdempotentAction demoClock [] "demo.myshopify.com" "1001" "email_northern"
          demoDetails demoSend []).2.1
        "demo.myshopify.com" "1001" "email_northern" demoDetails demoBroken
        ["email sent"]).2.2 = ["email sent"] := by
  have key := withIdempotentAction_runs_once demoClock [] "demo.myshopify.com" "1001"
    "email_northern" demoDetails demoDetails demoSend demoBroken []
    ⟨true, "\x7b\"success\":true\x7d"⟩ (by simp) rfl
  exact ⟨by simp, rfl, key.1, key.2.1, by decide⟩

/-- C14: on a ledger with no row for the key, when the task throws an error
that the code classifies as transient (status or statusCode 429, a message
containing "429", code ECONNRESET or ETIMEDOUT), the call re-raises that
error, the world is as the task left it, and the ledger is back to what it
was, with no row for the key; a later call with the key then acquires again
and runs its task: the world moves as that task moves it, and the call
returns the task's result or re-raises its error. -/
theorem withIdempotentAction_transient_releases {σ : Type} (clock : σ → Int) (l : Ledger)
    (shop orderId action : String) (d : JsValue) (fn : Task σ) (w : σ) (err : JsError)
    (hfree : ∀ x ∈ l, ¬ (x.shop = shop ∧ x.order_id = orderId ∧ x.action = action))
    (herr : (fn w).1 = Except.error err) (htr : isTransient err = true) :
    withIdempotentAction clock l shop orderId action d fn w = (Except.error err, l, (fn w).2) ∧
    (acquireAction l shop orderId action d (clock w)).2 =
      l ++ [acquiredRow (nextActionId l) shop orderId action d (clock w)] ∧
    ∀ (d2 : JsValue) (fn2 : Task σ),
      (withIdempotentAction clock l shop orderId action d2 fn2 (fn w).2).2.2 =
        (fn2 (fn w).2).2 ∧
      (∀ r2, (fn2 (fn w).2).1 = Except.ok r2 →
        (withIdempotentAction clock l shop orderId action d2 fn2 (fn w).2).1 =
          Except.ok (IdemResult.ran r2)) ∧
      (∀ e2, (fn2 (fn w).2).1 = Except.error e2 →
        (withIdempotentAction clock l shop orderId action d2 fn2 (fn w).2).1 =
          Except.error e2) := by
  have hno := any_actionHit_eq_false hfree
  refine ⟨withIdempotentAction_of_transient clock d fn w hno herr htr, ?_, ?_⟩
  · rw [acquireAction_of_free d (clock w) hno]
  · intro d2 fn2
    refine ⟨?_, ?_, ?_⟩
    · cases hout : (fn2 (fn w).2).1 with
      | ok r2 => rw [withIdempotentAction_of_ok clock d2 fn2 (fn w).2 hno hout]
      | error e2 =>
        by_cases ht : isTransient e2 = true
        · rw [withIdempotentAction_of_transient clock d2 fn2 (fn w).2 hno hout ht]
        · rw [withIdempotentAction_of_permanent clock d2 fn2 (fn w).2 hno hout
            (by simpa using ht)]
    · intro r2 hout
      rw [withIdempotentAction_of_ok clock d2 fn2 (fn w).2 hno hout]
    · intro e2 hout
      by_cases ht : isTransient e2 = true
      · rw [withIdempotentAction_of_transient clock d2 fn2 (fn w).2 hno hout ht]
      · rw [withIdempotentAction_of_permanent clock d2 fn2 (fn w).2 hno hout
          (by simpa using ht)]

/-- C14 on the demonstration world: a rate-limited task leaves the ledger
empty, and the retry sends the email. -/
theorem withIdempotentAction_transient_releases_witness :
    (∀ x ∈ ([] : Ledger), ¬ (x.shop = "demo.myshopify.com" ∧ x.order_id = "1001" ∧
      x.action = "fulfill_subscription")) ∧
    isTransient ⟨ErrorClass.shopifyRateLimitError, some 429, some 429, none,
      some "Rate limited by Shopify", some 2⟩ = true ∧
    withIdempotentAction demoClock [] "demo.myshopify.com" "1001" "fulfill_subscription"
        demoDetails demoRateLimited [] =
      (Except.error ⟨ErrorClass.shopifyRateLimitError, some 429, some 429, none,
        some "Rate limited by Shopify", some 2⟩, [], ["request refused"]) ∧
    (withIdempotentAction demoClock [] "demo.myshopify.com" "1001" "fulfill_subscription"
        demoDetails demoSend ["request refused"]).2.2 = ["request refused", "email sent"] := by
  have key := withIdempotentAction_transient_releases demoClock [] "demo.myshopify.com" "1001"
    "fulfill_subscription" demoDetails demoRateLimited []
    ⟨ErrorClass.shopifyRateLimitError, some 429, some 429, none,
      some "Rate limited by Shopify", some 2⟩ (by simp) rfl (by decide)
  exact ⟨by simp, by decide, key.1, (key.2.2 demoDetails demoSend).1⟩

/-- C16: a `withIdempotentAction` call that finds a row for its key returns
`skipped = true` and leaves the ledger and the world as they were, without
running its task; `releaseAction` deletes exactly the rows that hold its key
and are acquired: the rows it keeps are unchanged and in order, and a row
that is completed or failed is always kept. -/
theorem ledger_rows_touched_by_owner_only {σ : Type} (clock : σ → Int) (l : Ledger)
    (shop orderId action : String) (d : JsValue) (fn : Task σ) (w : σ) :
    ((∃ r ∈ l, r.shop = shop ∧ r.order_id = orderId ∧ r.action = action) →
      ∃ existing,
        withIdempotentAction clock l shop orderId action d fn w =
          (Except.ok (IdemResult.skipped existing), l, w)) ∧
    List.Sublist (releaseAction l shop orderId action) l ∧
    (∀ r, r ∈ releaseAction l shop orderId action ↔
      r ∈ l ∧ ¬ ((r.shop = shop ∧ r.order_id = orderId ∧ r.action = action) ∧
        r.status = ActionStatus.acquired)) ∧
    (∀ r ∈ l, (r.status = ActionStatus.completed ∨ r.status = ActionStatus.failed) →
      r ∈ releaseAction l shop orderId action) := by
  have hmem : ∀ r, r ∈ releaseAction l shop orderId action ↔
      r ∈ l ∧ ¬ ((r.shop = shop ∧ r.order_id = orderId ∧ r.action = action) ∧
        r.status = ActionStatus.acquired) := by
    intro r
    unfold releaseAction
    rw [List.mem_filter]
    simp only [Bool.not_eq_true', Bool.and_eq_false_iff, Bool.not_eq_eq_eq_not, Bool.not_true,
      decide_eq_false_iff_not, ← actionHit_iff shop orderId action r]
    constructor
    · rintro ⟨h1, h2⟩
      refine ⟨h1, ?_⟩
      rintro ⟨k1, k2⟩
      rcases h2 with h | h
      · rw [k1] at h; exact absurd h (by decide)
      · exact h k2
    · rintro ⟨h1, h2⟩
      refine ⟨h1, ?_⟩
      by_cases hk : actionHit shop orderId action r = true
      · right; exact fun h => h2 ⟨hk, h⟩
      · left; simpa using hk
  refine ⟨?_, List.filter_sublist _, hmem, ?_⟩
  · rintro ⟨r0, hr0, hkey⟩
    have hany : l.any (actionHit shop orderId action) = true :=
      List.any_eq_true.mpr ⟨r0, hr0, (actionHit_iff _ _ _ r0).mpr hkey⟩
    obtain ⟨r, _, _, _, hres⟩ := withIdempotentAction_of_hit clock d fn w hany
    exact ⟨_, hres⟩
  · intro r hr hst
    rw [hmem]
    refine ⟨hr, ?_⟩
    rintro ⟨_, hacq⟩
    rcases hst with h | h <;> rw [h] at hacq <;> exact absurd hacq (by decide)

/-- C17 (as the code has it): on a ledger with no row for the key, when the
task succeeds with `r`, the call returns `r` and the row is completed; its
details are the serialization of `r` when `r` is truthy, and what
`acquireAction` stored (the serialization of the acquire-time details, or
null) when `r` is falsy: `null`, `false`, `0`, the empty string. -/
theorem withIdempotentAction_completed_details {σ : Type} (clock : σ → Int) (l : Ledger)
    (shop orderId action : String) (d : JsValue) (fn : Task σ) (w : σ) (r : JsValue)
    (hfree : ∀ x ∈ l, ¬ (x.shop = shop ∧ x.order_id = orderId ∧ x.action = action))
    (hok : (fn w).1 = Except.ok r) :
    (withIdempotentAction clock l shop orderId action d fn w).1 =
        Except.ok (IdemResult.ran r) ∧
    ∃ row, (withIdempotentAction clock l shop orderId action d fn w).2.1 = l ++ [row] ∧
      (row.shop = shop ∧ row.order_id = orderId ∧ row.action = action) ∧
      row.status = ActionStatus.completed ∧
      (r.truthy = true → row.details_json = some r.json) ∧
      (r.truthy = false →
        row.details_json = if d.truthy then some d.json else none) := by
  have hno := any_actionHit_eq_false hfree
  rw [withIdempotentAction_of_ok clock d fn w hno hok]
  refine ⟨rfl, _, rfl, ?_, ?_, ?_, ?_⟩
  · rw [onUpdateAction_eq_with]; exact ⟨rfl, rfl, rfl⟩
  · rw [onUpdateAction_eq_with]
  · intro ht
    rw [onUpdateAction_eq_with]
    simp [detailsJson, ht, coalesce]
  · intro hf
    rw [onUpdateAction_eq_with]
    simp [detailsJson, hf, coalesce]

/-- C17 on the demonstration world: a truthy result replaces the details. -/
theorem withIdempotentAction_completed_details_witness :
    (∀ x ∈ ([] : Ledger), ¬ (x.shop = "demo.myshopify.com" ∧ x.order_id = "1001" ∧
      x.action = "email_northern")) ∧
    (withIdempotentAction demoClock [] "demo.myshopify.com" "1001" "email_northern"
        demoDetails demoSend []).1 = Except.ok (IdemResult.ran ⟨true, "\x7b\"success\":true\x7d"⟩) ∧
    (withIdempotentAction demoClock [] "demo.myshopify.com" "1001" "email_northern"
        demoDetails demoSend []).2.1.map (fun r => (r.status, r.details_json)) =
      [(ActionStatus.completed, some "\x7b\"success\":true\x7d")] := by
  have key := withIdempotentAction_completed_details demoClock [] "demo.myshopify.com" "1001"
    "email_northern" demoDetails demoSend [] ⟨true, "\x7b\"success\":true\x7d"⟩ (by simp) rfl
  exact ⟨by simp, key.1, by decide⟩

/-- C17 as stated fails for the result `null`: the task succeeds with `null`
and the completed row still holds the details passed at acquire time,
`{"notifyCustomer":true}`, not the serialization `null`. -/
theorem withIdempotentAction_null_keeps_details :
    (demoQuiet []).1 = Except.ok jsNull ∧
    (withIdempotentAction demoClock [] "demo.myshopify.com" "1001" "fulfill_subscription"
        demoDetails demoQuiet []).1 = Except.ok (IdemResult.ran jsNull) ∧
    (withIdempotentAction demoClock [] "demo.myshopify.com" "1001" "fulfill_subscription"
        demoDetails demoQuiet []).2.1.map (fun r => (r.status, r.details_json)) =
      [(ActionStatus.completed, some "\x7b\"notifyCustomer\":true\x7d")] ∧
    some "\x7b\"notifyCustomer\":true\x7d" ≠ some jsNull.json := by
  refine ⟨rfl, rfl, by decide, by decide⟩

/-! ## A failed record stays, whatever later calls do -/

theorem filter_hit_append_other (l : Ledger) (shop orderId action : String) (row : ActionLog)
    (h : actionHit shop orderId action row = false) :
    (l ++ [row]).filter (actionHit shop orderId action) =
      l.filter (actionHit shop orderId action) := by
  rw [List.filter_append]
  simp [h]

/-- A `withIdempotentAction` call with another key leaves the rows of the key
`(shop, orderId, action)` as they were. -/
theorem withIdempotentAction_other_key {σ : Type} (clock : σ → Int) (l : Ledger)
    (shop orderId action shop2 orderId2 action2 : String) (d : JsValue) (fn : Task σ) (w : σ)
    (hne : ¬ (shop2 = shop ∧ orderId2 = orderId ∧ action2 = action)) :
    (withIdempotentAction clock l shop2 orderId2 action2 d fn w).2.1.filter
        (actionHit shop orderId action) =
      l.filter (actionHit shop orderId action) := by
  have hother : ∀ row : ActionLog,
      (row.shop = shop2 ∧ row.order_id = orderId2 ∧ row.action = action2) →
      actionHit shop orderId action row = false := by
    intro row hk
    rw [Bool.eq_false_iff]
    intro hhit
    obtain ⟨k1, k2, k3⟩ := (actionHit_iff _ _ _ row).mp hhit
    exact hne ⟨hk.1.symm.trans k1, hk.2.1.symm.trans k2, hk.2.2.symm.trans k3⟩
  cases hany : l.any (actionHit shop2 orderId2 action2) with
  | true =>
    obtain ⟨_, _, _, _, hres⟩ := withIdempotentAction_of_hit clock d fn w hany
    rw [hres]
  | false =>
    cases hout : (fn w).1 with
    | ok r =>
      rw [withIdempotentAction_of_ok clock d fn w hany hout]
      apply filter_hit_append_other
      apply hother
      rw [onUpdateAction_eq_with]
      exact ⟨rfl, rfl, rfl⟩
    | error e =>
      by_cases ht : isTransient e = true
      · rw [withIdempotentAction_of_transient clock d fn w hany hout ht]
      · rw [withIdempotentAction_of_permanent clock d fn w hany hout (by simpa using ht)]
        apply filter_hit_append_other
        apply hother
        rw [onUpdateAction_eq_with]
        exact ⟨rfl, rfl, rfl⟩

/-- A `withIdempotentAction` call on a ledger that holds a row for its key is
skipped with the first such row, and changes nothing. -/
theorem withIdempotentAction_of_filter {σ : Type} (clock : σ → Int) (l : Ledger)
    (shop orderId action : String) (d : JsValue) (fn : Task σ) (w : σ) (row : ActionLog)
    (h : l.filter (actionHit shop orderId action) = [row]) :
    withIdempotentAction clock l shop orderId action d fn w =
      (Except.ok (IdemResult.skipped
        (some { id := row.id, status := row.status, created_at := row.created_at })), l, w) := by
  have hrow : row ∈ l.filter (actionHit shop orderId action) := by
    rw [h]; exact List.mem_singleton.mpr rfl
  rw [List.mem_filter] at hrow
  have hany : l.any (actionHit shop orderId action) = true :=
    List.any_eq_true.mpr ⟨row, hrow.1, hrow.2⟩
  obtain ⟨x, hx, hhit, _, hres⟩ := withIdempotentAction_of_hit clock d fn w hany
  have hxm : x ∈ l.filter (actionHit shop orderId action) := List.mem_filter.mpr ⟨hx, hhit⟩
  rw [h] at hxm
  rw [hres, List.mem_singleton.mp hxm]

theorem runIdemCalls_keeps_row {σ : Type} (clock : σ → Int) (shop orderId action : String)
    (row : ActionLog) :
    ∀ (calls : List (IdemCall σ)) (st : Ledger × σ),
      st.1.filter (actionHit shop orderId action) = [row] →
      (runIdemCalls clock calls st).1.filter (actionHit shop orderId action) = [row] := by
  intro calls
  induction calls with
  | nil => intro st h; exact h
  | cons c cs ih =>
    intro st h
    simp only [runIdemCalls]
    apply ih
    by_cases hk : c.shop = shop ∧ c.orderId = orderId ∧ c.action = action
    · obtain ⟨k1, k2, k3⟩ := hk
      rw [k1, k2, k3, withIdempotentAction_of_filter clock st.1 shop orderId action c.details
        c.fn st.2 row h]
      exact h
    · rw [withIdempotentAction_other_key clock st.1 shop orderId action c.shop c.orderId
        c.action c.details c.fn st.2 hk]
      exact h

/-- C15: on a ledger with no row for the key, when the task throws an error
that is not transient, the call re-raises that error and appends one row for
the key with status failed and details `{ error: m }`, `m` being the first
1000 characters of the error message; after any further
`withIdempotentAction` calls (any keys, any tasks), a call with the key
returns `skipped = true` with that failed row and leaves ledger and world
untouched, its task not run. -/
theorem withIdempotentAction_permanent_blocks {σ : Type} (clock : σ → Int) (l : Ledger)
    (shop orderId action : String) (d : JsValue) (fn : Task σ) (w : σ) (err : JsError)
    (hfree : ∀ x ∈ l, ¬ (x.shop = shop ∧ x.order_id = orderId ∧ x.action = action))
    (herr : (fn w).1 = Except.error err) (hperm : isTransient err = false) :
    (withIdempotentAction clock l shop orderId action d fn w).1 = Except.error err ∧
    (withIdempotentAction clock l shop orderId action d fn w).2.2 = (fn w).2 ∧
    ∃ row, (withIdempotentAction clock l shop orderId action d fn w).2.1 = l ++ [row] ∧
      (row.shop = shop ∧ row.order_id = orderId ∧ row.action = action) ∧
      row.status = ActionStatus.failed ∧
      row.details_json =
        some (errorDetailsJson (String.mk ((jsString err.message).data.take 1000))) ∧
      ∀ (calls : List (IdemCall σ)) (d2 : JsValue) (fn2 : Task σ),
        withIdempotentAction clock (runIdemCalls clock calls (l ++ [row], (fn w).2)).1
            shop orderId action d2 fn2 (runIdemCalls clock calls (l ++ [row], (fn w).2)).2 =
          (Except.ok (IdemResult.skipped
            (some { id := row.id, status := ActionStatus.failed,
                    created_at := row.created_at })),
            (runIdemCalls clock calls (l ++ [row], (fn w).2)).1,
            (runIdemCalls clock calls (l ++ [row], (fn w).2)).2) := by
  have hno := any_actionHit_eq_false hfree
  rw [withIdempotentAction_of_permanent clock d fn w hno herr hperm]
  refine ⟨rfl, rfl, _, rfl, ?_, ?_, ?_, ?_⟩
  · rw [onUpdateAction_eq_with]; exact ⟨rfl, rfl, rfl⟩
  · rw [onUpdateAction_eq_with]
  · rw [onUpdateAction_eq_with]; rfl
  · intro calls d2 fn2
    generalize hrow : onUpdateAction (clock (fn w).2)
        (acquiredRow (nextActionId l) shop orderId action d (clock w))
        { acquiredRow (nextActionId l) shop orderId action d (clock w) with
          status := ActionStatus.failed,
          details_json := some (errorDetailsJson (jsSlice 1000 (jsString err.message))) } = row
    have hkey : actionHit shop orderId action row = true := by
      rw [← hrow, onUpdateAction_eq_with]
      exact (actionHit_iff _ _ _ _).mpr ⟨rfl, rfl, rfl⟩
    have hst : row.status = ActionStatus.failed := by
      rw [← hrow, onUpdateAction_eq_with]
    have hfil : (l ++ [row]).filter (actionHit shop orderId action) = [row] := by
      rw [List.filter_append]
      have : l.filter (actionHit shop orderId action) = [] := by
        rw [List.filter_eq_nil_iff]
        intro x hx
        rw [not_hit_of_any_eq_false hno x hx]
        decide
      rw [this]
      simp [hkey]
    have hkeep := runIdemCalls_keeps_row clock shop orderId action row calls
      (l ++ [row], (fn w).2) hfil
    rw [withIdempotentAction_of_filter clock _ shop orderId action d2 fn2 _ row hkeep, hst]

/-- C15 on the demonstration world: a missing template fails the record for
good; a later call for the same email is skipped although its task would
succeed. -/
theorem withIdempotentAction_permanent_blocks_witness :
    (∀ x ∈ ([] : Ledger), ¬ (x.shop = "demo.myshopify.com" ∧ x.order_id = "1001" ∧
      x.action = "email_northern")) ∧
    isTransient ⟨ErrorClass.plain, none, none, none,
      some "Email template not found: northern_subscription", none⟩ = false ∧
    (withIdempotentAction demoClock [] "demo.myshopify.com" "1001" "email_northern"
        demoDetails demoBroken []).1 =
      Except.error ⟨ErrorClass.plain, none, none, none,
        some "Email template not found: northern_subscription", none⟩ ∧
    (withIdempotentAction demoClock [] "demo.myshopify.com" "1001" "email_northern"
        demoDetails demoBroken []).2.1.map (fun r => (r.status, r.details_json)) =
      [(ActionStatus.failed,
        some "\x7b\"error\":\"Email template not found: northern_subscription\"\x7d")] ∧
    (withIdempotentAction demoClock
        (withIdempotentAction demoClock [] "demo.myshopify.com" "1001" "email_northern"
          demoDetails demoBroken []).2.1
        "demo.myshopify.com" "1001" "email_northern" demoDetails demoSend
        ["lookup failed"]).2.2 = ["lookup failed"] := by
  have key := withIdempotentAction_permanent_blocks demoClock [] "demo.myshopify.com" "1001"
    "email_northern" demoDetails demoBroken []
    ⟨ErrorClass.plain, none, none, none,
      some "Email template not found: northern_subscription", none⟩ (by simp) rfl (by decide)
  exact ⟨by simp, by decide, key.1, by decide, by decide⟩

/-- C29: the classification of `withIdempotentAction` reads only `status`,
`statusCode`, `code` and `message`: an error is transient exactly when status
is 429, or statusCode is 429, or the message contains "429", or code is
ECONNRESET or ETIMEDOUT; two tasks that leave the same world and throw
errors agreeing on these four properties leave the same ledger; and on a free
key an error whose message contains "429" releases the row, whatever its
status code and class. -/
theorem isTransient_reads_four_fields {σ : Type} (clock : σ → Int) (l : Ledger)
    (shop orderId action : String) (d : JsValue) (w : σ) :
    (∀ err : JsError, isTransient err = true ↔
      (err.status = some 429 ∨ err.statusCode = some 429 ∨
        (∃ m, err.message = some m ∧ "429".data <:+: m.data) ∨
        err.code = some "ECONNRESET" ∨ err.code = some "ETIMEDOUT")) ∧
    (∀ (e1 e2 : JsError) (fn1 fn2 : Task σ),
      e1.status = e2.status → e1.statusCode = e2.statusCode → e1.code = e2.code →
      e1.message = e2.message →
      (fn1 w).1 = Except.error e1 → (fn2 w).1 = Except.error e2 → (fn1 w).2 = (fn2 w).2 →
      isTransient e1 = isTransient e2 ∧
      (withIdempotentAction clock l shop orderId action d fn1 w).2 =
        (withIdempotentAction clock l shop orderId action d fn2 w).2) ∧
    (∀ (err : JsError) (fn : Task σ) (m : String),
      (∀ x ∈ l, ¬ (x.shop = shop ∧ x.order_id = orderId ∧ x.action = action)) →
      (fn w).1 = Except.error err → err.message = some m → "429".data <:+: m.data →
      withIdempotentAction clock l shop orderId action d fn w =
        (Except.error err, l, (fn w).2)) := by
  have hiff : ∀ err : JsError, isTransient err = true ↔
      (err.status = some 429 ∨ err.statusCode = some 429 ∨
        (∃ m, err.message = some m ∧ "429".data <:+: m.data) ∨
        err.code = some "ECONNRESET" ∨ err.code = some "ETIMEDOUT") := by
    intro err
    unfold isTransient
    cases hm : err.message with
    | none => simp [or_assoc]
    | some m => simp [jsIncludes, or_assoc]
  have hsame : ∀ e1 e2 : JsError, e1.status = e2.status → e1.statusCode = e2.statusCode →
      e1.code = e2.code → e1.message = e2.message → isTransient e1 = isTransient e2 := by
    intro e1 e2 h1 h2 h3 h4
    unfold isTransient
    rw [h1, h2, h3, h4]
  refine ⟨hiff, ?_, ?_⟩
  · intro e1 e2 fn1 fn2 h1 h2 h3 h4 hf1 hf2 hw
    have ht := hsame e1 e2 h1 h2 h3 h4
    refine ⟨ht, ?_⟩
    cases hany : l.any (actionHit shop orderId action) with
    | true =>
      obtain ⟨_, _, _, _, r1⟩ := withIdempotentAction_of_hit clock d fn1 w hany
      obtain ⟨_, _, _, hfind2, r2⟩ := withIdempotentAction_of_hit clock d fn2 w hany
      rw [r1, r2]
    | false =>
      by_cases htr : isTransient e1 = true
      · rw [withIdempotentAction_of_transient clock d fn1 w hany hf1 htr,
          withIdempotentAction_of_transient clock d fn2 w hany hf2 (ht ▸ htr), hw]
      · have hp1 : isTransient e1 = false := by simpa using htr
        rw [withIdempotentAction_of_permanent clock d fn1 w hany hf1 hp1,
          withIdempotentAction_of_permanent clock d fn2 w hany hf2 (ht ▸ hp1), hw, h4]
  · intro err fn m hfree herr hm hinf
    exact withIdempotentAction_of_transient clock d fn w (any_actionHit_eq_false hfree) herr
      ((hiff err).mpr (Or.inr (Or.inr (Or.inl ⟨m, hm, hinf⟩))))

/-! ## Order processing -/

/-- A `withIdempotentAction` call never changes or removes a row that was in
the ledger before it: the ledger afterwards extends the one before. -/
theorem withIdempotentAction_prefix {σ : Type} (clock : σ → Int) (l : Ledger)
    (shop orderId action : String) (d : JsValue) (fn : Task σ) (w : σ) :
    l <+: (withIdempotentAction clock l shop orderId action d fn w).2.1 := by
  cases hany : l.any (actionHit shop orderId action) with
  | true =>
    obtain ⟨_, _, _, _, hres⟩ := withIdempotentAction_of_hit clock d fn w hany
    rw [hres]
  | false =>
    cases hout : (fn w).1 with
    | ok r =>
      rw [withIdempotentAction_of_ok clock d fn w hany hout]
      exact List.prefix_append _ _
    | error e =>
      by_cases ht : isTransient e = true
      · rw [withIdempotentAction_of_transient clock d fn w hany hout ht]
      · rw [withIdempotentAction_of_permanent clock d fn w hany hout (by simpa using ht)]
        exact List.prefix_append _ _

theorem actionStep_prefix {σ : Type} (env : OrderEnv σ) (shop orderId action : String)
    (details : JsValue) (fn : Task σ) (doneStatus : String) (acts : List ActionEntry)
    (st : Ledger × σ) :
    st.1 <+: (actionStep env shop orderId action details fn doneStatus acts st).2.1 := by
  have h := withIdempotentAction_prefix env.clock st.1 shop orderId action details fn st.2
  unfold actionStep
  cases hres : withIdempotentAction env.clock st.1 shop orderId action details fn st.2 with
  | mk out rest =>
    rw [hres] at h
    cases rest with
    | mk l w =>
      cases out with
      | error e => exact h
      | ok res =>
        cases res with
        | skipped ex => exact h
        | ran r => exact h

theorem andThen_prefix {α β σ : Type} (l : Ledger) (r : Except JsError α × (Ledger × σ))
    (k : α → Ledger × σ → Except JsError β × (Ledger × σ))
    (hr : l <+: r.2.1) (hk : ∀ a s, s.1 <+: (k a s).2.1) : l <+: (andThen r k).2.1 := by
  unfold andThen
  cases r with
  | mk out s =>
    cases out with
    | error e => exact hr
    | ok a => exact hr.trans (hk a s)

theorem stepIf_prefix {σ : Type} (cond : Bool)
    (step : List ActionEntry → Ledger × σ → Except JsError (List ActionEntry) × (Ledger × σ))
    (acts : List ActionEntry) (st : Ledger × σ) (h : ∀ a s, s.1 <+: (step a s).2.1) :
    st.1 <+: (stepIf cond step acts st).2.1 := by
  unfold stepIf
  cases cond with
  | true => exact h acts st
  | false => exact List.prefix_refl _

theorem subscriptionActions_prefix {σ : Type} (env : OrderEnv σ) (shop : String) (order : Order)
    (products : ProductTypes) (parsedTags : ParsedTags) (acts : List ActionEntry)
    (st : Ledger × σ) :
    st.1 <+: (subscriptionActions env shop order products parsedTags acts st).2.1 := by
  unfold subscriptionActions
  simp only
  split
  · apply andThen_prefix
    · exact stepIf_prefix _ _ _ _ (fun a s => actionStep_prefix env _ _ _ _ _ _ a s)
    · intro a s
      apply andThen_prefix
      · exact stepIf_prefix _ _ _ _ (fun a s => actionStep_prefix env _ _ _ _ _ _ a s)
      · intro a2 s2
        exact actionStep_prefix env _ _ _ _ _ _ a2 s2
  · split
    · exact actionStep_prefix env _ _ _ _ _ _ acts st
    · exact List.prefix_refl _

theorem workshopActions_prefix {σ : Type} (env : OrderEnv σ) (shop : String) (order : Order)
    (products : ProductTypes) (acts : List ActionEntry) (st : Ledger × σ) :
    st.1 <+: (workshopActions env shop order products acts st).2.1 := by
  unfold workshopActions
  simp only
  split
  · exact List.prefix_refl _
  · rename_i w1 _
    apply andThen_prefix
    · exact stepIf_prefix (decide (customerEmail order ≠ ""))
        (actionStep env shop order.id "email_workshop"
          (emailDetails "workshop_email" (customerEmail order))
          (env.sendTemplateEmail shop "workshop_email" (customerEmail order) order) "sent")
        acts (st.1, w1) (fun a s => actionStep_prefix env _ _ _ _ _ _ a s)
    · intro a s
      exact actionStep_prefix env _ _ _ _ _ _ a s

/-- The function `processOrderPaid` never changes or removes a ledger row that
was there before it. -/
theorem processOrderPaid_prefix {σ : Type} (env : OrderEnv σ) (shop : String) (order : Order)
    (st : Ledger × σ) : st.1 <+: (processOrderPaid env shop order st).2.1 := by
  unfold processOrderPaid
  simp only
  apply andThen_prefix
  · split
    · split
      · rename_i tags w1 _
        exact subscriptionActions_prefix env shop order
          (detectProductTypes env.toLowerCase order.line_items)
          (parseOrderTags env.toLowerCase tags) [] (st.1, w1)
      · exact List.prefix_refl _
    · exact List.prefix_refl _
  · intro a s
    apply andThen_prefix
    · exact stepIf_prefix _ _ _ _ (fun a s => workshopActions_prefix env shop order _ a s)
    · intro a2 s2
      exact List.prefix_refl _

theorem completeJob_status {s : JobStore} {jobId : Nat} {now : Int} {r : WebhookJob}
    (hr : r ∈ completeJob s jobId now) (hid : r.id = jobId) : r.status = Status.completed := by
  unfold completeJob at hr
  obtain ⟨x, _, rfl⟩ := List.mem_map.mp hr
  by_cases hx : x.id = jobId
  · rw [if_pos hx, onUpdate_status]
  · rw [if_neg hx] at hid
    exact absurd hid hx

/-- The two ways `processJob` resolves an `order_paid` job, by what
`processOrderPaid` did. -/
theorem processJob_order_paid {σ : Type} (env : OrderEnv σ) (m : Nat) (job : ClaimedJob)
    (st : JobStore × Ledger × σ) (hjob : job.jobType = "order_paid") :
    (∀ acts st1, processOrderPaid env job.shop (env.parseOrder job.payload) st.2 =
        (Except.ok acts, st1) →
      processJob env m job st =
        (Except.ok ProcessOutcome.success, (completeJob st.1 job.id (env.clock st1.2), st1))) ∧
    (∀ err st1, processOrderPaid env job.shop (env.parseOrder job.payload) st.2 =
        (Except.error err, st1) →
      processJob env m job st =
        (Except.ok (ProcessOutcome.failure err.message
          (failJob st.1 job.id (jsString err.message) (retryAfterOf err) m
            (env.clock st1.2)).1),
          ((failJob st.1 job.id (jsString err.message) (retryAfterOf err) m
            (env.clock st1.2)).2, st1))) := by
  constructor
  · intro acts st1 h
    unfold processJob
    simp only [hjob, if_true, h]
  · intro err st1 h
    unfold processJob
    simp only [hjob, if_true, h]

theorem processJob_other_type {σ : Type} (env : OrderEnv σ) (m : Nat) (job : ClaimedJob)
    (st : JobStore × Ledger × σ) (hjob : job.jobType ≠ "order_paid") :
    processJob env m job st =
      (Except.ok ProcessOutcome.success, (completeJob st.1 job.id (env.clock st.2.2), st.2)) := by
  unfold processJob
  simp only [hjob, if_false]

theorem processJob_ledger {σ : Type} (env : OrderEnv σ) (m : Nat) (job : ClaimedJob)
    (st : JobStore × Ledger × σ) : st.2.1 <+: (processJob env m job st).2.2.1 := by
  by_cases hjob : job.jobType = "order_paid"
  · have hp := processOrderPaid_prefix env job.shop (env.parseOrder job.payload) st.2
    obtain ⟨h1, h2⟩ := processJob_order_paid env m job st hjob
    cases hres : processOrderPaid env job.shop (env.parseOrder job.payload) st.2 with
    | mk out st1 =>
      rw [hres] at hp
      cases out with
      | ok acts => rw [h1 acts st1 hres]; exact hp
      | error err => rw [h2 err st1 hres]; exact hp
  · rw [processJob_other_type env m job st hjob]

/-- C18 (as the code has it): a failed ledger record does not block its
`order_paid` job.  In a later attempt the record is left as it is, a
`withIdempotentAction` call for its key is skipped without running the task,
and when `processOrderPaid` gets through, `processJob` reports success and
marks the job completed while the record is still failed. -/
theorem failed_action_does_not_block {σ : Type} (env : OrderEnv σ) (m : Nat) (job : ClaimedJob)
    (s : JobStore) (l : Ledger) (w : σ) (row : ActionLog) (hrow : row ∈ l)
    (hf : row.status = ActionStatus.failed) (hjob : job.jobType = "order_paid") :
    row ∈ (processJob env m job (s, l, w)).2.2.1 ∧
    (∀ (d : JsValue) (fn : Task σ) (w2 : σ), ∃ existing,
      withIdempotentAction env.clock l row.shop row.order_id row.action d fn w2 =
        (Except.ok (IdemResult.skipped existing), l, w2)) ∧
    (∀ acts st1, processOrderPaid env job.shop (env.parseOrder job.payload) (l, w) =
        (Except.ok acts, st1) →
      (processJob env m job (s, l, w)).1 = Except.ok ProcessOutcome.success ∧
      (∀ r ∈ (processJob env m job (s, l, w)).2.1, r.id = job.id →
        r.status = Status.completed) ∧
      row ∈ (processJob env m job (s, l, w)).2.2.1 ∧
      row.status = ActionStatus.failed) := by
  have hkeep : row ∈ (processJob env m job (s, l, w)).2.2.1 :=
    (processJob_ledger env m job (s, l, w)).subset hrow
  refine ⟨hkeep, ?_, ?_⟩
  · intro d fn w2
    have hany : l.any (actionHit row.shop row.order_id row.action) = true :=
      List.any_eq_true.mpr ⟨row, hrow, (actionHit_iff _ _ _ row).mpr ⟨rfl, rfl, rfl⟩⟩
    obtain ⟨_, _, _, _, hres⟩ := withIdempotentAction_of_hit env.clock d fn w2 hany
    exact ⟨_, hres⟩
  · intro acts st1 hok
    have h1 := (processJob_order_paid env m job (s, l, w) hjob).1 acts st1 hok
    refine ⟨by rw [h1], ?_, hkeep, hf⟩
    intro r hr hid
    rw [h1] at hr
    exact completeJob_status hr hid

/-- C18 on the scenario: the second attempt leaves the failed email record in
the ledger. -/
theorem failed_action_does_not_block_witness :
    failedEmailRow ∈ firstAttempt.2.1 ∧ failedEmailRow.status = ActionStatus.failed ∧
    secondClaim.jobType = "order_paid" ∧
    failedEmailRow ∈
      (processJob brokenMailEnv 5 secondClaim
        ((claimJob firstAttempt.1 "worker_a" 500 1).2, firstAttempt.2.1,
          firstAttempt.2.2 ++ ["slept"])).2.2.1 :=
  ⟨by decide, rfl, rfl,
    (failed_action_does_not_block brokenMailEnv 5 secondClaim
      (claimJob firstAttempt.1 "worker_a" 500 1).2 firstAttempt.2.1
      (firstAttempt.2.2 ++ ["slept"]) failedEmailRow (by decide) rfl rfl).1⟩

/-- C18 as stated fails on the scenario: the first attempt records
`email_northern` as failed and requeues the job; the second attempt skips the
email, fulfils the order and marks the job completed although the record is
still failed. -/
theorem job_completes_with_failed_action :
    firstAttempt.1.map (fun r => (r.id, r.status, r.attempts)) = [(1, Status.queued, 1)] ∧
    firstAttempt.2.1.map (fun r => (r.action, r.status)) =
      [("email_northern", ActionStatus.failed)] ∧
    secondAttempt.1.map (fun r => (r.id, r.status, r.attempts)) = [(1, Status.completed, 2)] ∧
    secondAttempt.2.1.map (fun r => (r.action, r.status)) =
      [("email_northern", ActionStatus.failed),
       ("fulfill_subscription", ActionStatus.completed)] ∧
    secondAttempt.2.2 =
      ["tags read", "template missing", "slept", "tags read", "order fulfilled"] := by
  refine ⟨by decide, by decide, by decide, by decide, by decide⟩

/-- C19 (as the code has it): `processJob` never lets an error escape; it runs
`processOrderPaid` for an `order_paid` job and nothing for any other type;
when the task succeeds it reports success and the job's row is completed by
`completeJob`; when the task throws `err` it calls `failJob` once with
`String(err.message)` and a hint that is null unless `err` is a
`ShopifyRateLimitError`, and is then `err.retryAfter` when that is a number
other than 0 and 10 when it is 0 or missing. -/
theorem processJob_resolves_once {σ : Type} (env : OrderEnv σ) (m : Nat) (job : ClaimedJob)
    (st : JobStore × Ledger × σ) :
    (∃ out, (processJob env m job st).1 = Except.ok out) ∧
    (job.jobType = "order_paid" →
      ∀ acts st1, processOrderPaid env job.shop (env.parseOrder job.payload) st.2 =
          (Except.ok acts, st1) →
        processJob env m job st =
          (Except.ok ProcessOutcome.success,
            (completeJob st.1 job.id (env.clock st1.2), st1)) ∧
        ∀ r ∈ (processJob env m job st).2.1, r.id = job.id → r.status = Status.completed) ∧
    (job.jobType ≠ "order_paid" →
      processJob env m job st =
        (Except.ok ProcessOutcome.success,
          (completeJob st.1 job.id (env.clock st.2.2), st.2)) ∧
      ∀ r ∈ (processJob env m job st).2.1, r.id = job.id → r.status = Status.completed) ∧
    (job.jobType = "order_paid" →
      ∀ err st1, processOrderPaid env job.shop (env.parseOrder job.payload) st.2 =
          (Except.error err, st1) →
        processJob env m job st =
          (Except.ok (ProcessOutcome.failure err.message
            (failJob st.1 job.id (jsString err.message) (retryAfterOf err) m
              (env.clock st1.2)).1),
            ((failJob st.1 job.id (jsString err.message) (retryAfterOf err) m
              (env.clock st1.2)).2, st1))) ∧
    (∀ err : JsError,
      (err.cls ≠ ErrorClass.shopifyRateLimitError → retryAfterOf err = none) ∧
      (err.cls = ErrorClass.shopifyRateLimitError →
        (∀ n, err.retryAfter = some n → n ≠ 0 → retryAfterOf err = some n) ∧
        ((err.retryAfter = none ∨ err.retryAfter = some 0) → retryAfterOf err = some 10))) := by
  refine ⟨?_, ?_, ?_, ?_, ?_⟩
  · by_cases hjob : job.jobType = "order_paid"
    · obtain ⟨h1, h2⟩ := processJob_order_paid env m job st hjob
      cases hres : processOrderPaid env job.shop (env.parseOrder job.payload) st.2 with
      | mk out st1 =>
        cases out with
        | ok acts => exact ⟨_, by rw [h1 acts st1 hres]⟩
        | error err => exact ⟨_, by rw [h2 err st1 hres]⟩
    · exact ⟨_, by rw [processJob_other_type env m job st hjob]⟩
  · intro hjob acts st1 hok
    have h1 := (processJob_order_paid env m job st hjob).1 acts st1 hok
    refine ⟨h1, ?_⟩
    intro r hr hid
    rw [h1] at hr
    exact completeJob_status hr hid
  · intro hjob
    have h1 := processJob_other_type env m job st hjob
    refine ⟨h1, ?_⟩
    intro r hr hid
    rw [h1] at hr
    exact completeJob_status hr hid
  · intro hjob err st1 herr
    exact (processJob_order_paid env m job st hjob).2 err st1 herr
  · intro err
    refine ⟨?_, ?_⟩
    · intro h
      unfold retryAfterOf
      rw [if_neg h]
    · intro h
      unfold retryAfterOf
      rw [if_pos h]
      refine ⟨?_, ?_⟩
      · intro n hn hne
        rw [hn]
        simp [hne]
      · rintro (h0 | h0) <;> simp [h0]

/-- C19 as stated fails when Shopify answers 429 with `Retry-After: 0`: the
exception carries `retryAfter = 0`, and `processJob` calls `failJob` with the
hint 10, so the job is requeued 10 seconds ahead. -/
theorem processJob_hint_defaults_to_ten :
    (processOrderPaid rateLimitedEnv "demo.myshopify.com" demoOrder ([], [])).1 =
      Except.error ⟨ErrorClass.shopifyRateLimitError, some 429, some 429, none,
        some "Rate limited by Shopify", some 0⟩ ∧
    (processJob rateLimitedEnv 5
        { id := 1, shop := "demo.myshopify.com", jobType := "order_paid",
          orderId := some "1001", payload := "\x7b\x7d", attempts := 1 }
        (scenarioClaimed, [], [])).1 =
      Except.ok (ProcessOutcome.failure (some "Rate limited by Shopify")
        (FailResult.requeued 1 10)) ∧
    (processJob rateLimitedEnv 5
        { id := 1, shop := "demo.myshopify.com", jobType := "order_paid",
          orderId := some "1001", payload := "\x7b\x7d", attempts := 1 }
        (scenarioClaimed, [], [])).2.1.map (fun r => (r.status, r.run_after)) =
      [(Status.queued, 310)] := by
  refine ⟨rfl, rfl, by decide⟩

/-! ## Lemmas on the removal pipeline -/

theorem onUpdateTarget_eq_with (now : Int) (old new : RemovalTarget) :
    onUpdateTarget now old new =
      { new with updated_at := (onUpdateTarget now old new).updated_at } := by
  unfold onUpdateTarget
  by_cases h : new = old
  · simp [h]
  · simp [h]

theorem onUpdateTarget_id (now : Int) (old new : RemovalTarget) :
    (onUpdateTarget now old new).id = new.id := by
  rw [onUpdateTarget_eq_with]

theorem onUpdateTarget_statusKey (now : Int) (old new : RemovalTarget) :
    statusKey (onUpdateTarget now old new) = statusKey new := by
  rw [onUpdateTarget_eq_with]
  rfl

theorem onUpdateTarget_email (now : Int) (old new : RemovalTarget) :
    (onUpdateTarget now old new).email = new.email := by
  rw [onUpdateTarget_eq_with]

theorem updateTarget_ids (ts : List RemovalTarget) (id : Nat) (now : Int)
    (set : RemovalTarget → RemovalTarget) (hset : ∀ r, (set r).id = r.id) :
    (updateTarget ts id now set).map (fun r => r.id) = ts.map (fun r => r.id) := by
  unfold updateTarget
  rw [List.map_map]
  apply List.map_congr_left
  intro r _
  show (if r.id = id then onUpdateTarget now r (set r) else r).id = r.id
  split
  · rw [onUpdateTarget_id, hset]
  · rfl

theorem mem_updateTarget {ts : List RemovalTarget} {id : Nat} {now : Int}
    {set : RemovalTarget → RemovalTarget} (hset : ∀ r, (set r).id = r.id) {r : RemovalTarget}
    (hr : r ∈ updateTarget ts id now set) :
    (r.id ≠ id ∧ r ∈ ts) ∨
    (r.id = id ∧ ∃ r0 ∈ ts, r0.id = id ∧ r = onUpdateTarget now r0 (set r0)) := by
  unfold updateTarget at hr
  obtain ⟨r0, hr0, rfl⟩ := List.mem_map.mp hr
  by_cases h : r0.id = id
  · right
    rw [if_pos h]
    exact ⟨by rw [onUpdateTarget_id, hset, h], r0, hr0, h, rfl⟩
  · left
    rw [if_neg h]
    exact ⟨h, hr0⟩

theorem sameOutside_refl (ids : List Nat) (ts : List RemovalTarget) : SameOutside ids ts ts :=
  fun _ _ => Iff.rfl

theorem sameOutside_trans {ids : List Nat} {a b c : List RemovalTarget}
    (h1 : SameOutside ids a b) (h2 : SameOutside ids b c) : SameOutside ids a c :=
  fun r hr => (h2 r hr).trans (h1 r hr)

theorem sameOutside_mono {ids ids2 : List Nat} {a b : List RemovalTarget}
    (h : SameOutside ids a b) (hsub : ids ⊆ ids2) : SameOutside ids2 a b :=
  fun r hr => h r (fun hin => hr (hsub hin))

theorem updateTarget_sameOutside (ts : List RemovalTarget) (id : Nat) (now : Int)
    (set : RemovalTarget → RemovalTarget) (hset : ∀ r, (set r).id = r.id) :
    SameOutside [id] ts (updateTarget ts id now set) := by
  intro r hr
  have hne : r.id ≠ id := fun h => hr (by simp [h])
  constructor
  · intro hmem
    rcases mem_updateTarget hset hmem with ⟨_, h⟩ | ⟨h, _⟩
    · exact h
    · exact absurd h hne
  · intro hmem
    unfold updateTarget
    exact List.mem_map.mpr ⟨r, hmem, by rw [if_neg hne]⟩

theorem setEmail_id (e : String) (r : RemovalTarget) : (setEmail e r).id = r.id := rfl

theorem setStatus_id (s : RemovalStatus) (e : Option String) (r : RemovalTarget) :
    (setStatus s e r).id = r.id := rfl

theorem setDone_id (t : Int) (r : RemovalTarget) : (setDone t r).id = r.id := rfl

theorem updateTarget_setEmail_statusKey (ts : List RemovalTarget) (id : Nat) (now : Int)
    (e : String) :
    (updateTarget ts id now (setEmail e)).map statusKey = ts.map statusKey := by
  unfold updateTarget
  rw [List.map_map]
  apply List.map_congr_left
  intro r _
  show statusKey (if r.id = id then onUpdateTarget now r (setEmail e r) else r) = statusKey r
  split
  · rw [onUpdateTarget_statusKey]
    rfl
  · rfl

theorem stepQuiet_refl {σ : Type} (id : Nat) (st : RemovalState σ) : StepQuiet id st st :=
  ⟨rfl, sameOutside_refl _ _, rfl, rfl, rfl⟩

theorem stepQuiet_trans {σ : Type} {id : Nat} {a b c : RemovalState σ}
    (h1 : StepQuiet id a b) (h2 : StepQuiet id b c) : StepQuiet id a c :=
  ⟨h2.1.trans h1.1, sameOutside_trans h1.2.1 h2.2.1, h2.2.2.1.trans h1.2.2.1,
    h2.2.2.2.1.trans h1.2.2.2.1, h2.2.2.2.2.trans h1.2.2.2.2⟩

theorem stepQuiet_then_closed {σ : Type} {id : Nat} {a b c : RemovalState σ}
    (h1 : StepQuiet id a b) (h2 : StepClosed id b c) : StepClosed id a c := by
  obtain ⟨hs, hi, hp, hc, entry, hl, he⟩ := h2
  refine ⟨sameOutside_trans h1.2.1 hs, hi.trans h1.2.2.1, ?_, ?_, entry, ?_, he⟩
  · rw [hp, h1.2.2.2.2]
  · rw [hc, h1.2.2.2.2]
  · rw [hl, h1.2.2.2.1]

theorem stepQuiet_world {σ : Type} (id : Nat) (st : RemovalState σ) (w : σ) :
    StepQuiet id st { st with world := w } :=
  ⟨rfl, sameOutside_refl _ _, rfl, rfl, rfl⟩

theorem closedCount_countStatus (status : RemovalStatus) (stats : RemovalStats)
    (h : status ≠ RemovalStatus.pending) :
    closedCount (countStatus status stats) = closedCount stats + 1 ∧
    (countStatus status stats).processed = stats.processed := by
  cases status
  · exact absurd rfl h
  all_goals exact ⟨by simp only [closedCount, countStatus]; omega, rfl⟩

theorem closeTarget_closed {σ : Type} (env : RemovalEnv σ) (shop : String) (id : Nat)
    (status : RemovalStatus) (removalError : String) (calendarKey email : Option String)
    (logError : String) (st : RemovalState σ) (h : status ≠ RemovalStatus.pending) :
    StepClosed id st
      (closeTarget env shop id status removalError calendarKey email logError st) := by
  refine ⟨updateTarget_sameOutside _ _ _ _ (setStatus_id _ _),
    updateTarget_ids _ _ _ _ (setStatus_id _ _),
    (closedCount_countStatus status st.stats h).2,
    (closedCount_countStatus status st.stats h).1, _, rfl, rfl⟩

theorem setEmail_quiet {σ : Type} (id : Nat) (st : RemovalState σ) (w : σ) (now : Int)
    (e : String) :
    StepQuiet id st
      { st with world := w, targets := updateTarget st.targets id now (setEmail e) } :=
  ⟨updateTarget_setEmail_statusKey _ _ _ _, updateTarget_sameOutside _ _ _ _ (setEmail_id e),
    updateTarget_ids _ _ _ _ (setEmail_id e), rfl, rfl⟩

theorem resolveEmail_spec {σ : Type} (env : RemovalEnv σ) (shop : String) (row : RemovalTarget)
    (st : RemovalState σ) (res : Except JsError (Option (Option String)))
    (st1 : RemovalState σ) (h : resolveEmail env shop row st = (res, st1)) :
    (res = Except.ok none ∧ StepClosed row.id st st1) ∨
    (res ≠ Except.ok none ∧ StepQuiet row.id st st1) := by
  unfold resolveEmail at h
  split at h
  · split at h
    · obtain ⟨rfl, rfl⟩ := Prod.mk.inj h
      exact Or.inr ⟨by simp, stepQuiet_world _ _ _⟩
    · split at h
      · obtain ⟨rfl, rfl⟩ := Prod.mk.inj h
        exact Or.inr ⟨by simp, setEmail_quiet _ _ _ _ _⟩
      · obtain ⟨rfl, rfl⟩ := Prod.mk.inj h
        exact Or.inl ⟨rfl, stepQuiet_then_closed (stepQuiet_world _ _ _)
          (closeTarget_closed _ _ _ _ _ _ _ _ _ (by decide))⟩
  · obtain ⟨rfl, rfl⟩ := Prod.mk.inj h
    exact Or.inr ⟨by simp, stepQuiet_refl _ _⟩

theorem cachedSnapshot_quiet {σ : Type} (env : RemovalEnv σ) (shop monthStamp calendarKey : String)
    (id : Nat) (st : RemovalState σ) :
    StepQuiet id st (cachedSnapshot env shop monthStamp calendarKey st).2 := by
  unfold cachedSnapshot
  simp only
  split
  · exact stepQuiet_refl _ _
  · split
    · exact stepQuiet_world _ _ _
    · exact ⟨rfl, sameOutside_refl _ _, rfl, rfl, rfl⟩

theorem removeSubscriber_spec {σ : Type} (env : RemovalEnv σ) (shop : String) (id : Nat)
    (calendarKey email : String) (snapshotId : Nat) (st : RemovalState σ)
    (res : Except JsError Unit) (st1 : RemovalState σ)
    (h : removeSubscriber env shop id calendarKey email snapshotId st = (res, st1)) :
    (res = Except.ok () ∧ StepClosed id st st1) ∨
    (∃ e, res = Except.error e ∧ StepQuiet id st st1) := by
  unfold removeSubscriber at h
  split at h
  · obtain ⟨rfl, rfl⟩ := Prod.mk.inj h
    exact Or.inr ⟨_, rfl, stepQuiet_world _ _ _⟩
  · split at h
    · obtain ⟨rfl, rfl⟩ := Prod.mk.inj h
      exact Or.inl ⟨rfl, stepQuiet_then_closed (stepQuiet_world _ _ _)
          (closeTarget_closed _ _ _ _ _ _ _ _ _ (by decide))⟩
    · split at h
      · obtain ⟨rfl, rfl⟩ := Prod.mk.inj h
        exact Or.inr ⟨_, rfl, stepQuiet_world _ _ _⟩
      · obtain ⟨rfl, rfl⟩ := Prod.mk.inj h
        refine Or.inl ⟨rfl, updateTarget_sameOutside _ _ _ _ (setDone_id _),
          updateTarget_ids _ _ _ _ (setDone_id _),
          (closedCount_countStatus RemovalStatus.done st.stats (by decide)).2,
          (closedCount_countStatus RemovalStatus.done st.stats (by decide)).1, _, rfl, rfl⟩

theorem removeTarget_spec {σ : Type} (env : RemovalEnv σ) (shop monthStamp : String)
    (row : RemovalTarget) (st : RemovalState σ) (res : Except JsError Unit)
    (st1 : RemovalState σ) (h : removeTarget env shop monthStamp row st = (res, st1)) :
    (res = Except.ok () ∧ StepClosed row.id st st1) ∨
    (∃ e, res = Except.error e ∧ StepQuiet row.id st st1) := by
  unfold removeTarget andThen at h
  cases hres : resolveEmail env shop row st with
  | mk r sa =>
    rw [hres] at h
    rcases resolveEmail_spec env shop row st r sa hres with ⟨rfl, hc⟩ | ⟨hne, hq⟩
    · obtain ⟨rfl, rfl⟩ := Prod.mk.inj h
      exact Or.inl ⟨rfl, hc⟩
    · cases r with
      | error e =>
        obtain ⟨rfl, rfl⟩ := Prod.mk.inj h
        exact Or.inr ⟨e, rfl, hq⟩
      | ok resolved =>
        cases resolved with
        | none => exact absurd rfl hne
        | some current =>
          simp only at h
          split at h
          · obtain ⟨rfl, rfl⟩ := Prod.mk.inj h
            exact Or.inl ⟨rfl, stepQuiet_then_closed hq
              (closeTarget_closed _ _ _ _ _ _ _ _ _ (by decide))⟩
          · split at h
            · obtain ⟨rfl, rfl⟩ := Prod.mk.inj h
              exact Or.inl ⟨rfl, stepQuiet_then_closed hq
                (closeTarget_closed _ _ _ _ _ _ _ _ _ (by decide))⟩
            · rename_i email _ calendarKey _
              have hq2 := cachedSnapshot_quiet env shop monthStamp calendarKey row.id sa
              cases hsnap : cachedSnapshot env shop monthStamp calendarKey sa with
              | mk r2 sb =>
                rw [hsnap] at h hq2
                cases r2 with
                | error e =>
                  obtain ⟨rfl, rfl⟩ := Prod.mk.inj h
                  exact Or.inr ⟨e, rfl, stepQuiet_trans hq hq2⟩
                | ok snapshot =>
                  simp only at h
                  split at h
                  · obtain ⟨rfl, rfl⟩ := Prod.mk.inj h
                    exact Or.inl ⟨rfl, stepQuiet_then_closed (stepQuiet_trans hq hq2)
                      (closeTarget_closed _ _ _ _ _ _ _ _ _ (by decide))⟩
                  · rcases removeSubscriber_spec _ _ _ _ _ _ _ _ _ h with ⟨rfl, hc⟩ | ⟨e, rfl, hq3⟩
                    · exact Or.inl ⟨rfl, stepQuiet_then_closed (stepQuiet_trans hq hq2) hc⟩
                    · exact Or.inr ⟨e, rfl, stepQuiet_trans (stepQuiet_trans hq hq2) hq3⟩

theorem recordFailure_closed {σ : Type} (env : RemovalEnv σ) (shop : String)
    (row : RemovalTarget) (err : JsError) (st : RemovalState σ) :
    StepClosed row.id st (recordFailure env shop row err st) :=
  ⟨updateTarget_sameOutside _ _ _ _ (setStatus_id _ _),
    updateTarget_ids _ _ _ _ (setStatus_id _ _),
    (closedCount_countStatus RemovalStatus.failed st.stats (by decide)).2,
    (closedCount_countStatus RemovalStatus.failed st.stats (by decide)).1, _, rfl, rfl⟩

theorem processTarget_of_ok {σ : Type} (env : RemovalEnv σ) (shop monthStamp : String)
    (row : RemovalTarget) (st st1 : RemovalState σ)
    (h : removeTarget env shop monthStamp row (countProcessed st) = (Except.ok (), st1)) :
    processTarget env shop monthStamp row st = (Except.ok (), st1) := by
  unfold processTarget
  rw [h]

theorem processTarget_of_rateLimit {σ : Type} (env : RemovalEnv σ) (shop monthStamp : String)
    (row : RemovalTarget) (st st1 : RemovalState σ) (err : JsError)
    (h : removeTarget env shop monthStamp row (countProcessed st) = (Except.error err, st1))
    (hr : isRateLimit err = true) :
    processTarget env shop monthStamp row st = (Except.error err, st1) := by
  unfold processTarget
  rw [h]
  simp only [hr, if_true]

theorem processTarget_of_other {σ : Type} (env : RemovalEnv σ) (shop monthStamp : String)
    (row : RemovalTarget) (st st1 : RemovalState σ) (err : JsError)
    (h : removeTarget env shop monthStamp row (countProcessed st) = (Except.error err, st1))
    (hr : isRateLimit err = false) :
    processTarget env shop monthStamp row st =
      (Except.ok (), recordFailure env shop row err st1) := by
  unfold processTarget
  rw [h]
  simp [hr]

/-- A turn that returns closed its target; a turn that throws threw a rate
limit out of the `try` body and closed nothing. -/
theorem processTarget_spec {σ : Type} (env : RemovalEnv σ) (shop monthStamp : String)
    (row : RemovalTarget) (st : RemovalState σ) (res : Except JsError Unit)
    (st1 : RemovalState σ) (h : processTarget env shop monthStamp row st = (res, st1)) :
    (res = Except.ok () ∧ StepClosed row.id (countProcessed st) st1) ∨
    (∃ e, res = Except.error e ∧ isRateLimit e = true ∧
      removeTarget env shop monthStamp row (countProcessed st) = (Except.error e, st1) ∧
      StepQuiet row.id (countProcessed st) st1) := by
  cases hbody : removeTarget env shop monthStamp row (countProcessed st) with
  | mk r sa =>
    rcases removeTarget_spec env shop monthStamp row _ r sa hbody with ⟨rfl, hc⟩ | ⟨e, rfl, hq⟩
    · rw [processTarget_of_ok _ _ _ _ _ _ hbody] at h
      obtain ⟨rfl, rfl⟩ := Prod.mk.inj h
      exact Or.inl ⟨rfl, hc⟩
    · cases hr : isRateLimit e with
      | true =>
        rw [processTarget_of_rateLimit _ _ _ _ _ _ _ hbody hr] at h
        obtain ⟨rfl, rfl⟩ := Prod.mk.inj h
        exact Or.inr ⟨e, rfl, hr, rfl, hq⟩
      | false =>
        rw [processTarget_of_other _ _ _ _ _ _ _ hbody hr] at h
        obtain ⟨rfl, rfl⟩ := Prod.mk.inj h
        exact Or.inl ⟨rfl, stepQuiet_then_closed hq (recordFailure_closed _ _ _ _ _)⟩

theorem processTargets_cons_ok {σ : Type} (env : RemovalEnv σ) (shop monthStamp : String)
    (row : RemovalTarget) (rest : List RemovalTarget) (st st1 : RemovalState σ)
    (h : processTarget env shop monthStamp row st = (Except.ok (), st1)) :
    processTargets env shop monthStamp (row :: rest) st =
      processTargets env shop monthStamp rest st1 := by
  rw [processTargets, h]

theorem processTargets_cons_error {σ : Type} (env : RemovalEnv σ) (shop monthStamp : String)
    (row : RemovalTarget) (rest : List RemovalTarget) (st st1 : RemovalState σ) (e : JsError)
    (h : processTarget env shop monthStamp row st = (Except.error e, st1)) :
    processTargets env shop monthStamp (row :: rest) st = (Except.error e, st1) := by
  rw [processTargets, h]

/-- The loop over `pre ++ rest` is the loop over `rest` from the state the loop
over `pre` left, when that one got through. -/
theorem processTargets_append {σ : Type} (env : RemovalEnv σ) (shop monthStamp : String)
    (pre rest : List RemovalTarget) (st st1 : RemovalState σ)
    (h : processTargets env shop monthStamp pre st = (Except.ok (), st1)) :
    processTargets env shop monthStamp (pre ++ rest) st =
      processTargets env shop monthStamp rest st1 := by
  induction pre generalizing st with
  | nil =>
    rw [processTargets] at h
    obtain ⟨_, rfl⟩ := Prod.mk.inj h
    rfl
  | cons row pre ih =>
    cases hstep : processTarget env shop monthStamp row st with
    | mk r sa =>
      cases r with
      | error e =>
        rw [processTargets_cons_error _ _ _ _ _ _ _ _ hstep] at h
        exact absurd (Prod.mk.inj h).1 (by simp)
      | ok u =>
        rw [processTargets_cons_ok _ _ _ _ _ _ _ hstep] at h
        rw [List.cons_append, processTargets_cons_ok _ _ _ _ _ _ _ hstep]
        exact ih sa h

/-- What a loop that got through its rows did: it touched no row with another
id, kept the ids, counted every row as processed and closed every row. -/
theorem processTargets_spec {σ : Type} (env : RemovalEnv σ) (shop monthStamp : String)
    (rows : List RemovalTarget) (st st1 : RemovalState σ)
    (h : processTargets env shop monthStamp rows st = (Except.ok (), st1)) :
    SameOutside (rows.map (fun r => r.id)) st.targets st1.targets ∧
    st1.targets.map (fun r => r.id) = st.targets.map (fun r => r.id) ∧
    st1.stats.processed = st.stats.processed + rows.length ∧
    closedCount st1.stats = closedCount st.stats + rows.length := by
  induction rows generalizing st with
  | nil =>
    rw [processTargets] at h
    obtain ⟨_, rfl⟩ := Prod.mk.inj h
    exact ⟨sameOutside_refl _ _, rfl, rfl, rfl⟩
  | cons row rows ih =>
    cases hstep : processTarget env shop monthStamp row st with
    | mk r sa =>
      cases r with
      | error e =>
        rw [processTargets_cons_error _ _ _ _ _ _ _ _ hstep] at h
        exact absurd (Prod.mk.inj h).1 (by simp)
      | ok u =>
        rw [processTargets_cons_ok _ _ _ _ _ _ _ hstep] at h
        obtain ⟨h1, h2, h3, h4⟩ := ih sa h
        rcases processTarget_spec _ _ _ _ _ _ _ hstep with ⟨_, hs, hi, hp, hc, _⟩ | ⟨e, he, _⟩
        · refine ⟨?_, h2.trans hi, ?_, ?_⟩
          · exact sameOutside_trans (sameOutside_mono hs (by simp)) (sameOutside_mono h1 (by simp))
          · have e2 : (countProcessed st).stats.processed = st.stats.processed + 1 := rfl
            rw [h3, hp, e2, List.length_cons]
            omega
          · have e1 : closedCount (countProcessed st).stats = closedCount st.stats := rfl
            rw [h4, hc, e1, List.length_cons]
            omega
        · exact absurd he (by simp)

theorem mem_pendingRows (ts : List RemovalTarget) (shop monthStamp : String)
    (r : RemovalTarget) :
    r ∈ pendingRows ts shop monthStamp ↔
      r ∈ ts ∧ r.shop = shop ∧ r.month_stamp = monthStamp ∧
        r.removal_status = RemovalStatus.pending := by
  unfold pendingRows
  rw [(List.perm_insertionSort targetOrder _).mem_iff, List.mem_filter]
  simp [and_assoc]

theorem pendingRows_sorted (ts : List RemovalTarget) (shop monthStamp : String) :
    (pendingRows ts shop monthStamp).Sorted targetOrder := by
  unfold pendingRows
  exact List.sorted_insertionSort targetOrder _

theorem pendingRows_nodup (ts : List RemovalTarget) (shop monthStamp : String)
    (hid : (ts.map (fun r => r.id)).Nodup) :
    ((pendingRows ts shop monthStamp).map (fun r => r.id)).Nodup := by
  unfold pendingRows
  refine ((List.perm_insertionSort targetOrder _).map _).nodup_iff.mpr ?_
  exact hid.sublist ((List.filter_sublist _).map _)

theorem processRemovalJob_of_ok {σ : Type} (env : RemovalEnv σ)
    (shop monthStamp workerId : String) (db : RemovalDb σ) (job : RemovalClaim)
    (jobs1 : RemovalStore) (st : RemovalState σ)
    (hclaim : claimRemovalJob db.jobs shop monthStamp workerId (env.clock db.world) =
      (some job, jobs1))
    (hloop : processTargets env shop monthStamp (pendingRows db.targets shop monthStamp)
      (startState db) = (Except.ok (), st)) :
    processRemovalJob env shop monthStamp workerId db =
      (RemovalOutcome.completed st.stats,
        { jobs := completeRemovalJob jobs1 job.id st.stats (env.clock st.world),
          active := db.active, targets := st.targets, logs := st.logs, world := st.world }) := by
  unfold processRemovalJob
  rw [hclaim]
  simp only
  rw [hloop]

theorem processRemovalJob_of_error {σ : Type} (env : RemovalEnv σ)
    (shop monthStamp workerId : String) (db : RemovalDb σ) (job : RemovalClaim)
    (jobs1 : RemovalStore) (st : RemovalState σ) (err : JsError)
    (hclaim : claimRemovalJob db.jobs shop monthStamp workerId (env.clock db.world) =
      (some job, jobs1))
    (hloop : processTargets env shop monthStamp (pendingRows db.targets shop monthStamp)
      (startState db) = (Except.error err, st)) :
    processRemovalJob env shop monthStamp workerId db =
      (RemovalOutcome.failed err.message st.stats,
        { jobs := (failRemovalJob jobs1 job.id (jsString err.message)
            (retryAfterOrNull err.retryAfter) (env.clock st.world)).2,
          active := db.active, targets := st.targets, logs := st.logs, world := st.world }) := by
  unfold processRemovalJob
  rw [hclaim]
  simp only
  rw [hloop]

theorem removalBackoff_orNull (hint : Option Int) (attempts : Nat) :
    removalBackoff (retryAfterOrNull hint) attempts = removalBackoff hint attempts := by
  cases hint with
  | none => rfl
  | some n =>
    by_cases h : n = 0
    · simp [retryAfterOrNull, removalBackoff, h]
    · simp [retryAfterOrNull, removalBackoff, h]

/-- Passing `err.retryAfter || null` to `failRemovalJob` is the same as passing
`err.retryAfter`: the function treats the hints `null` and `0` alike. -/
theorem failRemovalJob_orNull (s : RemovalStore) (jobId : Nat) (error : String)
    (hint : Option Int) (now : Int) :
    failRemovalJob s jobId error (retryAfterOrNull hint) now =
      failRemovalJob s jobId error hint now := by
  unfold failRemovalJob
  rw [removalBackoff_orNull]

theorem onUpdateRemoval_eq_with (now : Int) (old new : RemovalJob) :
    onUpdateRemoval now old new =
      { new with updated_at := (onUpdateRemoval now old new).updated_at } := by
  unfold onUpdateRemoval
  by_cases h : new = old
  · simp [h]
  · simp [h]

theorem failRemovalJob_status (s : RemovalStore) (jobId : Nat) (error : String)
    (hint : Option Int) (now : Int) (j : RemovalJob)
    (hj : j ∈ (failRemovalJob s jobId error hint now).2) (hid : j.id = jobId) :
    (j.status = Status.queued ∨ j.status = Status.failed) ∧ j.locked_at = none ∧
      j.locked_by = none ∧ j.last_error = some (jsSlice 2000 error) := by
  unfold failRemovalJob at hj
  split at hj
  · obtain ⟨r, _, rfl⟩ := List.mem_map.mp hj
    by_cases h : r.id = jobId
    · rw [if_pos h, onUpdateRemoval_eq_with]
      exact ⟨Or.inr rfl, rfl, rfl, rfl⟩
    · rw [if_neg h] at hid
      exact absurd hid h
  · obtain ⟨r, _, rfl⟩ := List.mem_map.mp hj
    by_cases h : r.id = jobId
    · rw [if_pos h, onUpdateRemoval_eq_with]
      exact ⟨Or.inl rfl, rfl, rfl, rfl⟩
    · rw [if_neg h] at hid
      exact absurd hid h

theorem completeRemovalJob_status (s : RemovalStore) (jobId : Nat) (stats : RemovalStats)
    (now : Int) (j : RemovalJob) (hj : j ∈ completeRemovalJob s jobId stats now)
    (hid : j.id = jobId) :
    j.status = Status.completed ∧ j.locked_at = none ∧ j.locked_by = none ∧
      j.stats_json = some (statsJson stats) ∧ j.last_error = none := by
  unfold completeRemovalJob at hj
  obtain ⟨r, _, rfl⟩ := List.mem_map.mp hj
  by_cases h : r.id = jobId
  · rw [if_pos h, onUpdateRemoval_eq_with]
    exact ⟨rfl, rfl, rfl, rfl, rfl⟩
  · rw [if_neg h] at hid
    exact absurd hid h

/-! ## Claims on the removal pipeline -/

/-- C20: in `processRemovalJob`, when the loop got through the targets before
target `row` and processing `row` raises a rate-limit error, the job is not
completed: the outcome reports the error with stats that count `row` as
processed and only the targets before it as closed; tables, logs and world
are the ones at the throw, so no later target was reached; every target keeps
the outcome columns it had when `row` was reached, `row` and every later
target still pending; and the job row is the one `failRemovalJob` leaves when
called with the error's `retryAfter`. -/
theorem processRemovalJob_rate_limit_aborts {σ : Type} (env : RemovalEnv σ)
    (shop monthStamp workerId : String) (db : RemovalDb σ) (job : RemovalClaim)
    (jobs1 : RemovalStore) (pre post : List RemovalTarget) (row : RemovalTarget)
    (st1 st2 : RemovalState σ) (err : JsError)
    (hid : (db.targets.map (fun r => r.id)).Nodup)
    (hclaim : claimRemovalJob db.jobs shop monthStamp workerId (env.clock db.world) =
      (some job, jobs1))
    (hrows : pendingRows db.targets shop monthStamp = pre ++ row :: post)
    (hpre : processTargets env shop monthStamp pre (startState db) = (Except.ok (), st1))
    (hrow : removeTarget env shop monthStamp row (countProcessed st1) = (Except.error err, st2))
    (hrate : isRateLimit err = true) :
    (processRemovalJob env shop monthStamp workerId db).1 =
      RemovalOutcome.failed err.message st2.stats ∧
    st2.stats.processed = pre.length + 1 ∧ closedCount st2.stats = pre.length ∧
    (processRemovalJob env shop monthStamp workerId db).2.targets = st2.targets ∧
    (processRemovalJob env shop monthStamp workerId db).2.logs = st2.logs ∧
    (processRemovalJob env shop monthStamp workerId db).2.world = st2.world ∧
    st2.logs = st1.logs ∧
    (processRemovalJob env shop monthStamp workerId db).2.targets.map statusKey =
      st1.targets.map statusKey ∧
    (∀ r ∈ (processRemovalJob env shop monthStamp workerId db).2.targets,
      r.id ∈ (row :: post).map (fun t => t.id) → r.removal_status = RemovalStatus.pending) ∧
    (processRemovalJob env shop monthStamp workerId db).2.jobs =
      (failRemovalJob jobs1 job.id (jsString err.message) err.retryAfter
        (env.clock st2.world)).2 ∧
    (∀ j ∈ (processRemovalJob env shop monthStamp workerId db).2.jobs, j.id = job.id →
      j.status ≠ Status.completed) := by
  have hstep := processTarget_of_rateLimit env shop monthStamp row st1 st2 err hrow hrate
  have hloop : processTargets env shop monthStamp (pendingRows db.targets shop monthStamp)
      (startState db) = (Except.error err, st2) := by
    rw [hrows, processTargets_append _ _ _ _ _ _ _ hpre,
      processTargets_cons_error _ _ _ _ _ _ _ _ hstep]
  have hres := processRemovalJob_of_error env shop monthStamp workerId db job jobs1 st2 err
    hclaim hloop
  obtain ⟨hout, _, hproc, hclosed⟩ := processTargets_spec env shop monthStamp pre _ _ hpre
  rcases removeTarget_spec env shop monthStamp row _ _ _ hrow with ⟨hbad, _⟩ | ⟨_, _, hq⟩
  · exact absurd hbad (by simp)
  obtain ⟨hkey, _, _, hlogs, hstats⟩ := hq
  have hjobs : (processRemovalJob env shop monthStamp workerId db).2.jobs =
      (failRemovalJob jobs1 job.id (jsString err.message) err.retryAfter
        (env.clock st2.world)).2 := by
    rw [hres]
    exact congrArg Prod.snd (failRemovalJob_orNull _ _ _ _ _)
  refine ⟨by rw [hres], ?_, ?_, by rw [hres], by rw [hres], by rw [hres], hlogs, ?_, ?_,
    hjobs, ?_⟩
  · rw [hstats]
    show st1.stats.processed + 1 = pre.length + 1
    rw [hproc]
    show emptyStats.processed + pre.length + 1 = pre.length + 1
    simp [emptyStats]
  · rw [hstats]
    show closedCount st1.stats = pre.length
    rw [hclosed]
    show closedCount emptyStats + pre.length = pre.length
    simp [closedCount, emptyStats]
  · rw [hres]
    exact hkey
  · intro r hr hin
    rw [hres] at hr
    have hr2 : statusKey r ∈ st1.targets.map statusKey := by
      have : statusKey r ∈ st2.targets.map statusKey := List.mem_map_of_mem _ hr
      rw [hkey] at this
      exact this
    obtain ⟨r1, hr1, hk⟩ := List.mem_map.mp hr2
    have hid1 : r1.id = r.id := congrArg (fun k => k.1) hk
    have hst1 : r1.removal_status = r.removal_status := congrArg (fun k => k.2.1) hk
    obtain ⟨p, hp, hpid⟩ := List.mem_map.mp hin
    have hnd := pendingRows_nodup db.targets shop monthStamp hid
    rw [hrows, List.map_append, List.nodup_append] at hnd
    have hnotpre : r1.id ∉ pre.map (fun t => t.id) := by
      intro hmem
      exact hnd.2.2 hmem (by rw [hid1]; exact hin)
    have hr1db : r1 ∈ db.targets := (hout r1 hnotpre).mp hr1
    have hpin : p ∈ pendingRows db.targets shop monthStamp := by
      rw [hrows]
      exact List.mem_append_right _ hp
    obtain ⟨hpdb, _, _, hpend⟩ := (mem_pendingRows _ _ _ _).mp hpin
    have heq : r1 = p := eq_of_id_eq hid hr1db hpdb (by rw [hid1]; exact hpid.symm)
    rw [← hst1, heq]
    exact hpend
  · intro j hj hjid
    rw [hjobs] at hj
    rcases (failRemovalJob_status _ _ _ _ _ j hj hjid).1 with h | h <;> rw [h] <;> decide

/-- C20 on a batch of three targets where the deletion for the second one is
rate limited. -/
theorem processRemovalJob_rate_limit_aborts_witness :
    (demoRemovalDb.targets.map (fun r => r.id)).Nodup ∧
    isRateLimit addEventRateLimit = true ∧
    (processRemovalJob (demoRemovalEnv rateLimitOnSecond) "demo.myshopify.com" "2024-03"
      "api_1" demoRemovalDb).2.targets.map statusKey =
      (processTargets (demoRemovalEnv rateLimitOnSecond) "demo.myshopify.com" "2024-03"
        [demoTarget 1 "c1" (some "a@example.com") "111"]
        (startState demoRemovalDb)).2.targets.map statusKey :=
  ⟨by decide, by decide,
    (processRemovalJob_rate_limit_aborts (demoRemovalEnv rateLimitOnSecond)
      "demo.myshopify.com" "2024-03" "api_1" demoRemovalDb
      { id := 1, status := Status.queued, attempts := 0 }
      (claimRemovalJob demoRemovalDb.jobs "demo.myshopify.com" "2024-03" "api_1" 1000).2
      [demoTarget 1 "c1" (some "a@example.com") "111"]
      [demoTarget 3 "c3" none "222"]
      (demoTarget 2 "c2" (some "b@example.com") "111")
      (processTargets (demoRemovalEnv rateLimitOnSecond) "demo.myshopify.com" "2024-03"
        [demoTarget 1 "c1" (some "a@example.com") "111"] (startState demoRemovalDb)).2
      (removeTarget (demoRemovalEnv rateLimitOnSecond) "demo.myshopify.com" "2024-03"
        (demoTarget 2 "c2" (some "b@example.com") "111")
        (countProcessed (processTargets (demoRemovalEnv rateLimitOnSecond)
          "demo.myshopify.com" "2024-03"
          [demoTarget 1 "c1" (some "a@example.com") "111"] (startState demoRemovalDb)).2)).2
      addEventRateLimit (by decide) (by decide) (by decide) rfl rfl (by decide)).2.2.2.2.2.2.2.1⟩

theorem updateTarget_hit {ts : List RemovalTarget} {id : Nat} {now : Int}
    {set : RemovalTarget → RemovalTarget} (hset : ∀ r, (set r).id = r.id) {r : RemovalTarget}
    (hr : r ∈ updateTarget ts id now set) (hid : r.id = id) :
    ∃ r0 ∈ ts, r0.id = id ∧ statusKey r = statusKey (set r0) ∧ r.email = (set r0).email := by
  rcases mem_updateTarget hset hr with ⟨hne, _⟩ | ⟨_, r0, hr0, h0, rfl⟩
  · exact absurd hid hne
  · exact ⟨r0, hr0, h0, onUpdateTarget_statusKey _ _ _, onUpdateTarget_email _ _ _⟩

theorem recordFailure_status {σ : Type} (env : RemovalEnv σ) (shop : String)
    (row : RemovalTarget) (err : JsError) (st : RemovalState σ) (r : RemovalTarget)
    (hr : r ∈ (recordFailure env shop row err st).targets) (hid : r.id = row.id) :
    r.removal_status = RemovalStatus.failed ∧
      r.removal_error = some (jsSlice 1000 (jsString err.message)) := by
  obtain ⟨r0, _, _, hk, _⟩ := updateTarget_hit (setStatus_id _ _) hr hid
  exact ⟨congrArg (fun k => k.2.1) hk, congrArg (fun k => k.2.2.1) hk⟩

/-- C21: in `processRemovalJob`, when processing a target raises an error that
is not a rate limit, the turn returns normally after setting that target to
failed with the first 1000 characters of the message; rows with another id
are the same before and after the turn; the loop goes on with the next row,
the rows being the pending targets in ascending id order; and when the rest
of the loop gets through, the job ends completed. -/
theorem processRemovalJob_error_fails_only_target {σ : Type} (env : RemovalEnv σ)
    (shop monthStamp : String) (row : RemovalTarget) (st st2 : RemovalState σ) (err : JsError)
    (hbody : removeTarget env shop monthStamp row (countProcessed st) = (Except.error err, st2))
    (hother : isRateLimit err = false) :
    processTarget env shop monthStamp row st =
      (Except.ok (), recordFailure env shop row err st2) ∧
    (recordFailure env shop row err st2).targets.map (fun r => r.id) =
      st.targets.map (fun r => r.id) ∧
    (∀ r ∈ (recordFailure env shop row err st2).targets, r.id = row.id →
      r.removal_status = RemovalStatus.failed ∧
      r.removal_error = some (jsSlice 1000 (jsString err.message))) ∧
    (∀ r : RemovalTarget, r.id ≠ row.id →
      (r ∈ (recordFailure env shop row err st2).targets ↔ r ∈ st.targets)) ∧
    (∀ rest, processTargets env shop monthStamp (row :: rest) st =
      processTargets env shop monthStamp rest (recordFailure env shop row err st2)) ∧
    (∀ ts : List RemovalTarget,
      (pendingRows ts shop monthStamp).Sorted (fun a b => a.id ≤ b.id) ∧
      ∀ r, r ∈ pendingRows ts shop monthStamp ↔
        r ∈ ts ∧ r.shop = shop ∧ r.month_stamp = monthStamp ∧
          r.removal_status = RemovalStatus.pending) ∧
    (∀ (db : RemovalDb σ) (workerId : String) (job : RemovalClaim) (jobs1 : RemovalStore)
        (pre post : List RemovalTarget) (stf : RemovalState σ),
      claimRemovalJob db.jobs shop monthStamp workerId (env.clock db.world) =
        (some job, jobs1) →
      pendingRows db.targets shop monthStamp = pre ++ row :: post →
      processTargets env shop monthStamp pre (startState db) = (Except.ok (), st) →
      processTargets env shop monthStamp post (recordFailure env shop row err st2) =
        (Except.ok (), stf) →
      (processRemovalJob env shop monthStamp workerId db).1 =
        RemovalOutcome.completed stf.stats ∧
      ∀ j ∈ (processRemovalJob env shop monthStamp workerId db).2.jobs, j.id = job.id →
        j.status = Status.completed) := by
  have hstep := processTarget_of_other env shop monthStamp row st st2 err hbody hother
  rcases removeTarget_spec env shop monthStamp row _ _ _ hbody with ⟨hbad, _⟩ | ⟨_, _, hq⟩
  · exact absurd hbad (by simp)
  have hc := stepQuiet_then_closed hq (recordFailure_closed env shop row err st2)
  refine ⟨hstep, hc.2.1, recordFailure_status env shop row err st2, ?_, ?_, ?_, ?_⟩
  · intro r hne
    exact hc.1 r (by simpa using hne)
  · intro rest
    exact processTargets_cons_ok _ _ _ _ _ _ _ hstep
  · intro ts
    exact ⟨pendingRows_sorted ts shop monthStamp, mem_pendingRows ts shop monthStamp⟩
  · intro db workerId job jobs1 pre post stf hclaim hrows hpre hpost
    have hloop : processTargets env shop monthStamp (pendingRows db.targets shop monthStamp)
        (startState db) = (Except.ok (), stf) := by
      rw [hrows, processTargets_append _ _ _ _ _ _ _ hpre,
        processTargets_cons_ok _ _ _ _ _ _ _ hstep, hpost]
    have hres := processRemovalJob_of_ok env shop monthStamp workerId db job jobs1 stf
      hclaim hloop
    refine ⟨by rw [hres], ?_⟩
    intro j hj hjid
    rw [hres] at hj
    exact (completeRemovalJob_status _ _ _ _ j hj hjid).1

/-- C21 on a batch of three targets where the deletion for the second one
meets a connection reset. -/
theorem processRemovalJob_error_fails_only_target_witness :
    isRateLimit connectionReset = false ∧
    (processRemovalJob (demoRemovalEnv resetOnSecond) "demo.myshopify.com" "2024-03" "api_1"
      demoRemovalDb).2.targets.map (fun r => (r.id, r.removal_status, r.removal_error)) =
      [(1, RemovalStatus.done, none), (2, RemovalStatus.failed, some "fetch failed"),
       (3, RemovalStatus.done, none)] ∧
    processTarget (demoRemovalEnv resetOnSecond) "demo.myshopify.com" "2024-03"
      (demoTarget 2 "c2" (some "b@example.com") "111")
      (processTargets (demoRemovalEnv resetOnSecond) "demo.myshopify.com" "2024-03"
        [demoTarget 1 "c1" (some "a@example.com") "111"] (startState demoRemovalDb)).2 =
      (Except.ok (), recordFailure (demoRemovalEnv resetOnSecond) "demo.myshopify.com"
        (demoTarget 2 "c2" (some "b@example.com") "111") connectionReset
        (removeTarget (demoRemovalEnv resetOnSecond) "demo.myshopify.com" "2024-03"
          (demoTarget 2 "c2" (some "b@example.com") "111")
          (countProcessed (processTargets (demoRemovalEnv resetOnSecond)
            "demo.myshopify.com" "2024-03"
            [demoTarget 1 "c1" (some "a@example.com") "111"]
            (startState demoRemovalDb)).2)).2) :=
  ⟨by decide, by decide,
    (processRemovalJob_error_fails_only_target (demoRemovalEnv resetOnSecond)
      "demo.myshopify.com" "2024-03" (demoTarget 2 "c2" (some "b@example.com") "111")
      (processTargets (demoRemovalEnv resetOnSecond) "demo.myshopify.com" "2024-03"
        [demoTarget 1 "c1" (some "a@example.com") "111"] (startState demoRemovalDb)).2
      (removeTarget (demoRemovalEnv resetOnSecond) "demo.myshopify.com" "2024-03"
        (demoTarget 2 "c2" (some "b@example.com") "111")
        (countProcessed (processTargets (demoRemovalEnv resetOnSecond)
          "demo.myshopify.com" "2024-03"
          [demoTarget 1 "c1" (some "a@example.com") "111"]
          (startState demoRemovalDb)).2)).2
      connectionReset rfl (by decide)).1⟩

theorem closeSingle_status {σ : Type} (env : RemovalEnv σ) (prevId : Nat)
    (status : RemovalStatus) (removalError : String) (db : RemovalDb σ) (r : RemovalTarget)
    (hr : r ∈ (closeSingle env prevId status removalError db).targets) (hid : r.id = prevId) :
    r.removal_status = status ∧ r.removal_error = some removalError := by
  obtain ⟨r0, _, _, hk, _⟩ := updateTarget_hit (setStatus_id _ _) hr hid
  exact ⟨congrArg (fun k => k.2.1) hk, congrArg (fun k => k.2.2.1) hk⟩

theorem processSingle_of_existing_error {σ : Type} (env : RemovalEnv σ)
    (shop contractId customerId : String) (lineVariantId : Option String) (db db1 : RemovalDb σ)
    (existing : RemovalTarget) (rest : List RemovalTarget) (err : JsError)
    (hactive : db.active.any (fun a => decide (a.shop = shop) &&
      decide (a.customer_id = customerId)) = false)
    (hfound : db.targets.filter (fun r => decide (r.shop = shop) &&
      decide (r.contract_id = contractId) &&
      decide (r.month_stamp = env.monthStamp db.world)) = existing :: rest)
    (hpending : existing.removal_status = RemovalStatus.pending)
    (hbody : removeSingle env shop (env.monthStamp db.world) customerId lineVariantId
      existing.id db = (Except.error err, db1)) :
    processSingleContractRemoval env shop contractId customerId lineVariantId db =
      (SingleOutcome.failed err.message,
        closeSingle env existing.id RemovalStatus.failed
          (jsSlice 1000 (jsString err.message)) db1) := by
  unfold processSingleContractRemoval
  simp only [hactive, hfound, hpending, hbody]
  simp

theorem processSingle_of_new_error {σ : Type} (env : RemovalEnv σ)
    (shop contractId customerId : String) (lineVariantId : Option String) (db db1 : RemovalDb σ)
    (err : JsError)
    (hactive : db.active.any (fun a => decide (a.shop = shop) &&
      decide (a.customer_id = customerId)) = false)
    (hfound : db.targets.filter (fun r => decide (r.shop = shop) &&
      decide (r.contract_id = contractId) &&
      decide (r.month_stamp = env.monthStamp db.world)) = [])
    (hbody : removeSingle env shop (env.monthStamp db.world) customerId lineVariantId
      (nextTargetId db.targets)
      (insertPending env shop (env.monthStamp db.world) contractId customerId lineVariantId db) =
        (Except.error err, db1)) :
    processSingleContractRemoval env shop contractId customerId lineVariantId db =
      (SingleOutcome.failed err.message,
        closeSingle env (nextTargetId db.targets) RemovalStatus.failed
          (jsSlice 1000 (jsString err.message)) db1) := by
  unfold processSingleContractRemoval
  simp only [hactive, hfound, hbody]
  simp

/-- C22 (as the code has it): in `processRemovalJob` an error that the inner
`catch` classifies as a rate limit (an `AddEventRateLimitError`, the
`ShopifyRateLimitError` of `customerLookup.js`, or `status === 429`) is
re-thrown with no target marked, so the target stays as it was; every other
error, a connection reset or a timeout included, sets the target to failed;
in `processSingleContractRemoval` every error of the `try` body, a rate limit
included, sets the target to failed. -/
theorem removal_error_marking {σ : Type} (env : RemovalEnv σ) (shop monthStamp : String) :
    (∀ (row : RemovalTarget) (st st2 : RemovalState σ) (err : JsError),
      removeTarget env shop monthStamp row (countProcessed st) = (Except.error err, st2) →
      isRateLimit err = true →
      processTarget env shop monthStamp row st = (Except.error err, st2) ∧
      st2.targets.map statusKey = st.targets.map statusKey) ∧
    (∀ (row : RemovalTarget) (st st2 : RemovalState σ) (err : JsError),
      removeTarget env shop monthStamp row (countProcessed st) = (Except.error err, st2) →
      isRateLimit err = false →
      processTarget env shop monthStamp row st =
        (Except.ok (), recordFailure env shop row err st2) ∧
      ∀ r ∈ (recordFailure env shop row err st2).targets, r.id = row.id →
        r.removal_status = RemovalStatus.failed) ∧
    (∀ (contractId customerId : String) (lineVariantId : Option String) (db db1 : RemovalDb σ)
        (existing : RemovalTarget) (rest : List RemovalTarget) (err : JsError),
      db.active.any (fun a => decide (a.shop = shop) &&
        decide (a.customer_id = customerId)) = false →
      db.targets.filter (fun r => decide (r.shop = shop) &&
        decide (r.contract_id = contractId) &&
        decide (r.month_stamp = env.monthStamp db.world)) = existing :: rest →
      existing.removal_status = RemovalStatus.pending →
      removeSingle env shop (env.monthStamp db.world) customerId lineVariantId
        existing.id db = (Except.error err, db1) →
      (processSingleContractRemoval env shop contractId customerId lineVariantId db).1 =
        SingleOutcome.failed err.message ∧
      ∀ r ∈ (processSingleContractRemoval env shop contractId customerId lineVariantId
          db).2.targets, r.id = existing.id → r.removal_status = RemovalStatus.failed) ∧
    (∀ (contractId customerId : String) (lineVariantId : Option String) (db db1 : RemovalDb σ)
        (err : JsError),
      db.active.any (fun a => decide (a.shop = shop) &&
        decide (a.customer_id = customerId)) = false →
      db.targets.filter (fun r => decide (r.shop = shop) &&
        decide (r.contract_id = contractId) &&
        decide (r.month_stamp = env.monthStamp db.world)) = [] →
      removeSingle env shop (env.monthStamp db.world) customerId lineVariantId
        (nextTargetId db.targets)
        (insertPending env shop (env.monthStamp db.world) contractId customerId
          lineVariantId db) = (Except.error err, db1) →
      (processSingleContractRemoval env shop contractId customerId lineVariantId db).1 =
        SingleOutcome.failed err.message ∧
      ∀ r ∈ (processSingleContractRemoval env shop contractId customerId lineVariantId
          db).2.targets, r.id = nextTargetId db.targets →
        r.removal_status = RemovalStatus.failed) := by
  refine ⟨?_, ?_, ?_, ?_⟩
  · intro row st st2 err hbody hrate
    refine ⟨processTarget_of_rateLimit _ _ _ _ _ _ _ hbody hrate, ?_⟩
    rcases removeTarget_spec env shop monthStamp row _ _ _ hbody with ⟨hbad, _⟩ | ⟨_, _, hq⟩
    · exact absurd hbad (by simp)
    · exact hq.1
  · intro row st st2 err hbody hother
    exact ⟨processTarget_of_other _ _ _ _ _ _ _ hbody hother,
      fun r hr hid => (recordFailure_status env shop row err st2 r hr hid).1⟩
  · intro contractId customerId lineVariantId db db1 existing rest err ha hf hp hb
    have hres := processSingle_of_existing_error env shop contractId customerId lineVariantId
      db db1 existing rest err ha hf hp hb
    refine ⟨by rw [hres], ?_⟩
    intro r hr hid
    rw [hres] at hr
    exact (closeSingle_status _ _ _ _ _ r hr hid).1
  · intro contractId customerId lineVariantId db db1 err ha hf hb
    have hres := processSingle_of_new_error env shop contractId customerId lineVariantId
      db db1 err ha hf hb
    refine ⟨by rw [hres], ?_⟩
    intro r hr hid
    rw [hres] at hr
    exact (closeSingle_status _ _ _ _ _ r hr hid).1

/-- C22 as stated fails twice: a connection reset, which `isTransient` counts
as transient, is no rate limit for `processRemovalJob`, and the second target
of the batch ends failed; and in `processSingleContractRemoval` a rate-limit
error with a hint ends with the target failed. -/
theorem transient_error_marks_target_failed :
    isTransient connectionReset = true ∧ isRateLimit connectionReset = false ∧
    (processRemovalJob (demoRemovalEnv resetOnSecond) "demo.myshopify.com" "2024-03" "api_1"
      demoRemovalDb).2.targets.map (fun r => (r.id, r.removal_status)) =
      [(1, RemovalStatus.done), (2, RemovalStatus.failed), (3, RemovalStatus.done)] ∧
    isTransient addEventRateLimit = true ∧ isRateLimit addEventRateLimit = true ∧
    (processSingleContractRemoval (demoRemovalEnv rateLimitAlways) "demo.myshopify.com"
      "contract-c2" "c2" (some "111") demoRemovalDb).1 =
      SingleOutcome.failed (some "Rate limited by AddEvent") ∧
    (processSingleContractRemoval (demoRemovalEnv rateLimitAlways) "demo.myshopify.com"
      "contract-c2" "c2" (some "111") demoRemovalDb).2.targets.map
        (fun r => (r.id, r.removal_status, r.removal_error)) =
      [(1, RemovalStatus.pending, none),
       (2, RemovalStatus.failed, some "Rate limited by AddEvent"),
       (3, RemovalStatus.pending, none)] := by
  refine ⟨by decide, by decide, by decide, by decide, by decide, by decide, by decide⟩

theorem closeTarget_status {σ : Type} (env : RemovalEnv σ) (shop : String) (id : Nat)
    (status : RemovalStatus) (removalError : String) (calendarKey email : Option String)
    (logError : String) (st : RemovalState σ) (r : RemovalTarget)
    (hr : r ∈ (closeTarget env shop id status removalError calendarKey email logError
      st).targets) (hid : r.id = id) :
    r.removal_status = status ∧ r.removal_error = some removalError := by
  obtain ⟨r0, _, _, hk, _⟩ := updateTarget_hit (setStatus_id _ _) hr hid
  exact ⟨congrArg (fun k => k.2.1) hk, congrArg (fun k => k.2.2.1) hk⟩

theorem resolveEmail_of_stored {σ : Type} (env : RemovalEnv σ) (shop : String)
    (row : RemovalTarget) (st : RemovalState σ) (e : String)
    (h : truthyString row.email = some e) :
    resolveEmail env shop row st = (Except.ok (some row.email), st) := by
  unfold resolveEmail
  simp [h]

theorem resolveEmail_of_no_customer {σ : Type} (env : RemovalEnv σ) (shop : String)
    (row : RemovalTarget) (st : RemovalState σ) (h : row.customer_id = "") :
    resolveEmail env shop row st = (Except.ok (some row.email), st) := by
  unfold resolveEmail
  simp [h]

theorem resolveEmail_of_found {σ : Type} (env : RemovalEnv σ) (shop : String)
    (row : RemovalTarget) (st : RemovalState σ) (customerData : Option CustomerData) (w : σ)
    (e : String) (hstored : truthyString row.email = none) (hcust : row.customer_id ≠ "")
    (hlookup : env.getCustomerEmail shop row.customer_id st.world = (Except.ok customerData, w))
    (hfound : truthyString (customerData.bind (fun c => c.email)) = some e) :
    resolveEmail env shop row st =
      (Except.ok (some (some e)),
        { st with world := w,
                  targets := updateTarget st.targets row.id (env.clock w) (setEmail e) }) := by
  unfold resolveEmail
  rw [if_pos (by simp [hstored, hcust])]
  simp only [hlookup, hfound]

theorem resolveEmail_of_missing {σ : Type} (env : RemovalEnv σ) (shop : String)
    (row : RemovalTarget) (st : RemovalState σ) (customerData : Option CustomerData) (w : σ)
    (hstored : truthyString row.email = none) (hcust : row.customer_id ≠ "")
    (hlookup : env.getCustomerEmail shop row.customer_id st.world = (Except.ok customerData, w))
    (hfound : truthyString (customerData.bind (fun c => c.email)) = none) :
    resolveEmail env shop row st =
      (Except.ok none,
        closeTarget env shop row.id RemovalStatus.not_found
          "Customer email not found in Shopify" none row.email "Customer email not found"
          { st with world := w }) := by
  unfold resolveEmail
  rw [if_pos (by simp [hstored, hcust])]
  simp only [hlookup, hfound]

/-- Once the email, the calendar key and the snapshot id are found, the `try`
body is the lookup and removal of lines 311-342. -/
theorem removeTarget_of_path {σ : Type} (env : RemovalEnv σ) (shop monthStamp : String)
    (row : RemovalTarget) (st sa sb : RemovalState σ) (current : Option String)
    (email calendarKey : String) (snapshot : Option Nat) (snapshotId : Nat)
    (hres : resolveEmail env shop row st = (Except.ok (some current), sa))
    (hcur : truthyString current = some email)
    (hkey : getCalendarKeyForVariant env.config row.line_variant_id = some calendarKey)
    (hsnap : cachedSnapshot env shop monthStamp calendarKey sa = (Except.ok snapshot, sb))
    (hid : truthyNat snapshot = some snapshotId) :
    removeTarget env shop monthStamp row st =
      removeSubscriber env shop row.id calendarKey email snapshotId sb := by
  unfold removeTarget andThen
  rw [hres]
  simp only [hcur, hkey, hsnap, hid]

theorem removeSubscriber_of_deleted {σ : Type} (env : RemovalEnv σ) (shop : String) (id : Nat)
    (calendarKey email : String) (snapshotId : Nat) (st : RemovalState σ)
    (found : Option String) (subscriberId : String) (w w2 : σ)
    (hlookup : env.lookupSubscriberByEmail snapshotId email st.world = (Except.ok found, w))
    (hfound : truthyString found = some subscriberId)
    (hdelete : env.deleteSubscriber (getCalendarId env.config calendarKey) subscriberId w =
      (Except.ok (), w2)) :
    removeSubscriber env shop id calendarKey email snapshotId st =
      (Except.ok (),
        { st with
          world := w2,
          targets := updateTarget st.targets id (env.clock w2) (setDone (env.clock w2)),
          logs := logRemovalAttempt st.logs shop id (some calendarKey) (some email)
            (some subscriberId) RemovalStatus.done none (env.clock w2),
          stats := countStatus RemovalStatus.done st.stats }) := by
  unfold removeSubscriber
  simp only [hlookup, hfound, hdelete]

theorem removeSubscriber_of_refused {σ : Type} (env : RemovalEnv σ) (shop : String) (id : Nat)
    (calendarKey email : String) (snapshotId : Nat) (st : RemovalState σ)
    (found : Option String) (subscriberId : String) (w w2 : σ) (e : JsError)
    (hlookup : env.lookupSubscriberByEmail snapshotId email st.world = (Except.ok found, w))
    (hfound : truthyString found = some subscriberId)
    (hdelete : env.deleteSubscriber (getCalendarId env.config calendarKey) subscriberId w =
      (Except.error e, w2)) :
    removeSubscriber env shop id calendarKey email snapshotId st =
      (Except.error e, { st with world := w2 }) := by
  unfold removeSubscriber
  simp only [hlookup, hfound, hdelete]

theorem removeSubscriber_of_absent {σ : Type} (env : RemovalEnv σ) (shop : String) (id : Nat)
    (calendarKey email : String) (snapshotId : Nat) (st : RemovalState σ)
    (found : Option String) (w : σ)
    (hlookup : env.lookupSubscriberByEmail snapshotId email st.world = (Except.ok found, w))
    (hfound : truthyString found = none) :
    removeSubscriber env shop id calendarKey email snapshotId st =
      (Except.ok (),
        closeTarget env shop id RemovalStatus.not_found
          "Subscriber not found in AddEvent calendar" (some calendarKey) (some email)
          "Not in AddEvent" { st with world := w }) := by
  unfold removeSubscriber
  simp only [hlookup, hfound]

/-- C23: the outcome of the `try` body of `processRemovalJob` for a pending
row when no collaborator throws. A row with no stored email is closed as
not_found when it has no customer id or the customer lookup yields no email;
an email the lookup yields is written to the target. With an email, the row
is closed as skipped when its variant maps to no calendar key or no snapshot
id is obtained, as not_found when the snapshot lookup yields no subscriber
id, and otherwise `deleteSubscriber` is called for the subscriber found and
the row ends done with `removed_at` set and `removal_error` cleared. -/
theorem removeTarget_final_status {σ : Type} (env : RemovalEnv σ) (shop monthStamp : String)
    (row : RemovalTarget) (st : RemovalState σ) :
    (truthyString row.email = none → row.customer_id = "" →
      removeTarget env shop monthStamp row st =
        (Except.ok (),
          closeTarget env shop row.id RemovalStatus.not_found "No email available" none none
            "No email available" st) ∧
      ∀ r ∈ (removeTarget env shop monthStamp row st).2.targets, r.id = row.id →
        r.removal_status = RemovalStatus.not_found) ∧
    (∀ customerData w, truthyString row.email = none → row.customer_id ≠ "" →
      env.getCustomerEmail shop row.customer_id st.world = (Except.ok customerData, w) →
      truthyString (customerData.bind (fun c => c.email)) = none →
      (removeTarget env shop monthStamp row st).1 = Except.ok () ∧
      (removeTarget env shop monthStamp row st).2.world = w ∧
      ∀ r ∈ (removeTarget env shop monthStamp row st).2.targets, r.id = row.id →
        r.removal_status = RemovalStatus.not_found) ∧
    (∀ e, truthyString row.email = some e →
      resolveEmail env shop row st = (Except.ok (some row.email), st)) ∧
    (∀ customerData w e, truthyString row.email = none → row.customer_id ≠ "" →
      env.getCustomerEmail shop row.customer_id st.world = (Except.ok customerData, w) →
      truthyString (customerData.bind (fun c => c.email)) = some e →
      resolveEmail env shop row st =
        (Except.ok (some (some e)),
          { st with world := w,
                    targets := updateTarget st.targets row.id (env.clock w) (setEmail e) }) ∧
      ∀ r ∈ updateTarget st.targets row.id (env.clock w) (setEmail e), r.id = row.id →
        r.email = some e) ∧
    (∀ current sa email, resolveEmail env shop row st = (Except.ok (some current), sa) →
      truthyString current = some email →
      (getCalendarKeyForVariant env.config row.line_variant_id = none →
        (removeTarget env shop monthStamp row st).1 = Except.ok () ∧
        (removeTarget env shop monthStamp row st).2.world = sa.world ∧
        ∀ r ∈ (removeTarget env shop monthStamp row st).2.targets, r.id = row.id →
          r.removal_status = RemovalStatus.skipped) ∧
      (∀ calendarKey snapshot sb,
        getCalendarKeyForVariant env.config row.line_variant_id = some calendarKey →
        cachedSnapshot env shop monthStamp calendarKey sa = (Except.ok snapshot, sb) →
        (truthyNat snapshot = none →
          (removeTarget env shop monthStamp row st).1 = Except.ok () ∧
          (removeTarget env shop monthStamp row st).2.world = sb.world ∧
          ∀ r ∈ (removeTarget env shop monthStamp row st).2.targets, r.id = row.id →
            r.removal_status = RemovalStatus.skipped) ∧
        (∀ snapshotId found w, truthyNat snapshot = some snapshotId →
          env.lookupSubscriberByEmail snapshotId email sb.world = (Except.ok found, w) →
          (truthyString found = none →
            (removeTarget env shop monthStamp row st).1 = Except.ok () ∧
            (removeTarget env shop monthStamp row st).2.world = w ∧
            ∀ r ∈ (removeTarget env shop monthStamp row st).2.targets, r.id = row.id →
              r.removal_status = RemovalStatus.not_found) ∧
          (∀ subscriberId w2, truthyString found = some subscriberId →
            env.deleteSubscriber (getCalendarId env.config calendarKey) subscriberId w =
              (Except.ok (), w2) →
            (removeTarget env shop monthStamp row st).1 = Except.ok () ∧
            (removeTarget env shop monthStamp row st).2.world = w2 ∧
            ∀ r ∈ (removeTarget env shop monthStamp row st).2.targets, r.id = row.id →
              r.removal_status = RemovalStatus.done ∧
              r.removed_at = some (env.clock w2) ∧ r.removal_error = none)))) := by
  refine ⟨?_, ?_, ?_, ?_, ?_⟩
  · intro hstored hcust
    have hres := resolveEmail_of_no_customer env shop row st hcust
    have heq : removeTarget env shop monthStamp row st =
        (Except.ok (),
          closeTarget env shop row.id RemovalStatus.not_found "No email available" none none
            "No email available" st) := by
      unfold removeTarget andThen
      rw [hres]
      simp only [hstored]
    refine ⟨heq, ?_⟩
    intro r hr hid
    rw [heq] at hr
    exact (closeTarget_status _ _ _ _ _ _ _ _ _ r hr hid).1
  · intro customerData w hstored hcust hlookup hfound
    have hres := resolveEmail_of_missing env shop row st customerData w hstored hcust hlookup
      hfound
    have heq : removeTarget env shop monthStamp row st =
        (Except.ok (),
          closeTarget env shop row.id RemovalStatus.not_found
            "Customer email not found in Shopify" none row.email "Customer email not found"
            { st with world := w }) := by
      unfold removeTarget andThen
      rw [hres]
    refine ⟨by rw [heq], by rw [heq]; rfl, ?_⟩
    intro r hr hid
    rw [heq] at hr
    exact (closeTarget_status _ _ _ _ _ _ _ _ _ r hr hid).1
  · intro e hstored
    exact resolveEmail_of_stored env shop row st e hstored
  · intro customerData w e hstored hcust hlookup hfound
    refine ⟨resolveEmail_of_found env shop row st customerData w e hstored hcust hlookup
      hfound, ?_⟩
    intro r hr hid
    obtain ⟨r0, _, _, _, hmail⟩ := updateTarget_hit (setEmail_id e) hr hid
    exact hmail
  · intro current sa email hres hcur
    refine ⟨?_, ?_⟩
    · intro hkey
      have heq : removeTarget env shop monthStamp row st =
          (Except.ok (),
            closeTarget env shop row.id RemovalStatus.skipped
              "No calendar mapping for variant" none (some email) "No calendar mapping"
              sa) := by
        unfold removeTarget andThen
        rw [hres]
        simp only [hcur, hkey]
      refine ⟨by rw [heq], by rw [heq]; rfl, ?_⟩
      intro r hr hid
      rw [heq] at hr
      exact (closeTarget_status _ _ _ _ _ _ _ _ _ r hr hid).1
    · intro calendarKey snapshot sb hkey hsnap
      refine ⟨?_, ?_⟩
      · intro hnone
        have heq : removeTarget env shop monthStamp row st =
            (Except.ok (),
              closeTarget env shop row.id RemovalStatus.skipped "Could not create snapshot"
                (some calendarKey) (some email) "No snapshot" sb) := by
          unfold removeTarget andThen
          rw [hres]
          simp only [hcur, hkey, hsnap, hnone]
        refine ⟨by rw [heq], by rw [heq]; rfl, ?_⟩
        intro r hr hid
        rw [heq] at hr
        exact (closeTarget_status _ _ _ _ _ _ _ _ _ r hr hid).1
      · intro snapshotId found w hid hlookup
        have hpath := removeTarget_of_path env shop monthStamp row st sa sb current email
          calendarKey snapshot snapshotId hres hcur hkey hsnap hid
        refine ⟨?_, ?_⟩
        · intro hnone
          have heq := removeSubscriber_of_absent env shop row.id calendarKey email
            snapshotId sb found w hlookup hnone
          rw [← hpath] at heq
          refine ⟨by rw [heq], by rw [heq]; rfl, ?_⟩
          intro r hr hrid
          rw [heq] at hr
          exact (closeTarget_status _ _ _ _ _ _ _ _ _ r hr hrid).1
        · intro subscriberId w2 hsome hdelete
          have heq := removeSubscriber_of_deleted env shop row.id calendarKey email
            snapshotId sb found subscriberId w w2 hlookup hsome hdelete
          rw [← hpath] at heq
          refine ⟨by rw [heq], by rw [heq], ?_⟩
          intro r hr hrid
          rw [heq] at hr
          obtain ⟨r0, _, _, hk, _⟩ := updateTarget_hit (setDone_id _) hr hrid
          exact ⟨congrArg (fun k => k.2.1) hk, congrArg (fun k => k.2.2.2) hk,
            congrArg (fun k => k.2.2.1) hk⟩

theorem removeSingle_error_logs {σ : Type} (env : RemovalEnv σ)
    (shop monthStamp customerId : String) (lineVariantId : Option String) (prevId : Nat)
    (db db1 : RemovalDb σ) (err : JsError)
    (h : removeSingle env shop monthStamp customerId lineVariantId prevId db =
      (Except.error err, db1)) : db1.logs = db.logs := by
  unfold removeSingle at h
  split at h
  · obtain ⟨_, rfl⟩ := Prod.mk.inj h
    rfl
  · split at h
    · exact absurd (Prod.mk.inj h).1 (by simp)
    · simp only at h
      split at h
      · exact absurd (Prod.mk.inj h).1 (by simp)
      · split at h
        · obtain ⟨_, rfl⟩ := Prod.mk.inj h
          rfl
        · split at h
          · exact absurd (Prod.mk.inj h).1 (by simp)
          · split at h
            · obtain ⟨_, rfl⟩ := Prod.mk.inj h
              rfl
            · split at h
              · exact absurd (Prod.mk.inj h).1 (by simp)
              · split at h
                · obtain ⟨_, rfl⟩ := Prod.mk.inj h
                  rfl
                · exact absurd (Prod.mk.inj h).1 (by simp)

theorem removeSingle_of_deleted {σ : Type} (env : RemovalEnv σ)
    (shop monthStamp customerId : String) (lineVariantId : Option String) (prevId : Nat)
    (db : RemovalDb σ) (customerData : Option CustomerData) (email calendarKey : String)
    (snapshot : Option Nat) (snapshotId : Nat) (found : Option String) (subscriberId : String)
    (w w2 w3 w4 : σ)
    (hcust : env.getCustomerEmail shop customerId db.world = (Except.ok customerData, w))
    (hmail : truthyString (customerData.bind (fun c => c.email)) = some email)
    (hkey : getCalendarKeyForVariant env.config lineVariantId = some calendarKey)
    (hsnap : env.ensureSnapshot shop monthStamp calendarKey w = (Except.ok snapshot, w2))
    (hid : truthyNat snapshot = some snapshotId)
    (hlookup : env.lookupSubscriberByEmail snapshotId email w2 = (Except.ok found, w3))
    (hfound : truthyString found = some subscriberId)
    (hdelete : env.deleteSubscriber (getCalendarId env.config calendarKey) subscriberId w3 =
      (Except.ok (), w4)) :
    (removeSingle env shop monthStamp customerId lineVariantId prevId db).1 =
      Except.ok (SingleOutcome.done subscriberId) ∧
    (removeSingle env shop monthStamp customerId lineVariantId prevId db).2.logs =
      logRemovalAttempt db.logs shop prevId (some calendarKey) (some email)
        (some subscriberId) RemovalStatus.done none (env.clock w4) := by
  unfold removeSingle
  simp only [hcust, hmail, hkey, hsnap, hid, hlookup, hfound, hdelete]
  exact ⟨trivial, trivial⟩

theorem removeSingle_of_refused {σ : Type} (env : RemovalEnv σ)
    (shop monthStamp customerId : String) (lineVariantId : Option String) (prevId : Nat)
    (db : RemovalDb σ) (customerData : Option CustomerData) (email calendarKey : String)
    (snapshot : Option Nat) (snapshotId : Nat) (found : Option String) (subscriberId : String)
    (w w2 w3 w4 : σ) (e : JsError)
    (hcust : env.getCustomerEmail shop customerId db.world = (Except.ok customerData, w))
    (hmail : truthyString (customerData.bind (fun c => c.email)) = some email)
    (hkey : getCalendarKeyForVariant env.config lineVariantId = some calendarKey)
    (hsnap : env.ensureSnapshot shop monthStamp calendarKey w = (Except.ok snapshot, w2))
    (hid : truthyNat snapshot = some snapshotId)
    (hlookup : env.lookupSubscriberByEmail snapshotId email w2 = (Except.ok found, w3))
    (hfound : truthyString found = some subscriberId)
    (hdelete : env.deleteSubscriber (getCalendarId env.config calendarKey) subscriberId w3 =
      (Except.error e, w4)) :
    (removeSingle env shop monthStamp customerId lineVariantId prevId db).1 =
      Except.error e ∧
    (removeSingle env shop monthStamp customerId lineVariantId prevId db).2.logs = db.logs := by
  unfold removeSingle
  simp only [hcust, hmail, hkey, hsnap, hid, hlookup, hfound, hdelete]
  exact ⟨trivial, trivial⟩

theorem processSingle_logs_existing {σ : Type} (env : RemovalEnv σ)
    (shop contractId customerId : String) (lineVariantId : Option String) (db : RemovalDb σ)
    (existing : RemovalTarget) (rest : List RemovalTarget)
    (hactive : db.active.any (fun a => decide (a.shop = shop) &&
      decide (a.customer_id = customerId)) = false)
    (hfound : db.targets.filter (fun r => decide (r.shop = shop) &&
      decide (r.contract_id = contractId) &&
      decide (r.month_stamp = env.monthStamp db.world)) = existing :: rest)
    (hpending : existing.removal_status = RemovalStatus.pending) :
    (processSingleContractRemoval env shop contractId customerId lineVariantId db).2.logs =
      (removeSingle env shop (env.monthStamp db.world) customerId lineVariantId
        existing.id db).2.logs := by
  unfold processSingleContractRemoval
  simp only [hactive, hfound, hpending]
  cases hbody : removeSingle env shop (env.monthStamp db.world) customerId lineVariantId
      existing.id db with
  | mk res db1 =>
    cases res with
    | ok out => simp
    | error err => simp [closeSingle]

theorem processSingle_logs_new {σ : Type} (env : RemovalEnv σ)
    (shop contractId customerId : String) (lineVariantId : Option String) (db : RemovalDb σ)
    (hactive : db.active.any (fun a => decide (a.shop = shop) &&
      decide (a.customer_id = customerId)) = false)
    (hfound : db.targets.filter (fun r => decide (r.shop = shop) &&
      decide (r.contract_id = contractId) &&
      decide (r.month_stamp = env.monthStamp db.world)) = []) :
    (processSingleContractRemoval env shop contractId customerId lineVariantId db).2.logs =
      (removeSingle env shop (env.monthStamp db.world) customerId lineVariantId
        (nextTargetId db.targets)
        (insertPending env shop (env.monthStamp db.world) contractId customerId
          lineVariantId db)).2.logs := by
  unfold processSingleContractRemoval
  simp only [hactive, hfound]
  cases hbody : removeSingle env shop (env.monthStamp db.world) customerId lineVariantId
      (nextTargetId db.targets)
      (insertPending env shop (env.monthStamp db.world) contractId customerId
        lineVariantId db) with
  | mk res db1 =>
    cases res with
    | ok out => simp
    | error err => simp [closeSingle]

/-- C24 (as the code has it): for a target on which `processRemovalJob` issues
the delete-subscriber call, nothing was logged for it before the call; when
the call succeeds exactly one entry is appended, with the calendar key, the
email, the subscriber id and status done; when it throws an error that is not
a rate limit exactly one entry is appended, with status failed and the error
text, a null calendar key, a null subscriber id and the email the row had
when it was selected; when it throws a rate limit no entry is written. In
`processSingleContractRemoval`, for a pending target that exists and for one
it has just inserted, the successful call appends the one done entry and a
call that throws writes none. -/
theorem removal_log_entries {σ : Type} (env : RemovalEnv σ) (shop monthStamp : String)
    (row : RemovalTarget) (st sa sb : RemovalState σ) (current : Option String)
    (email calendarKey : String) (snapshot : Option Nat) (snapshotId : Nat)
    (found : Option String) (subscriberId : String) (w : σ)
    (hres : resolveEmail env shop row (countProcessed st) = (Except.ok (some current), sa))
    (hcur : truthyString current = some email)
    (hkey : getCalendarKeyForVariant env.config row.line_variant_id = some calendarKey)
    (hsnap : cachedSnapshot env shop monthStamp calendarKey sa = (Except.ok snapshot, sb))
    (hid : truthyNat snapshot = some snapshotId)
    (hlookup : env.lookupSubscriberByEmail snapshotId email sb.world = (Except.ok found, w))
    (hfound : truthyString found = some subscriberId) :
    sb.logs = st.logs ∧
    (∀ w2, env.deleteSubscriber (getCalendarId env.config calendarKey) subscriberId w =
        (Except.ok (), w2) →
      (processTarget env shop monthStamp row st).1 = Except.ok () ∧
      (processTarget env shop monthStamp row st).2.logs =
        st.logs ++ [{ id := nextLogId st.logs, shop := shop, prev_cancelled_id := row.id,
                      calendar_key := some calendarKey, email := some email,
                      subscriber_id := some subscriberId, status := RemovalStatus.done,
                      error := none, created_at := env.clock w2 }]) ∧
    (∀ e w2, env.deleteSubscriber (getCalendarId env.config calendarKey) subscriberId w =
        (Except.error e, w2) → isRateLimit e = false →
      (processTarget env shop monthStamp row st).1 = Except.ok () ∧
      (processTarget env shop monthStamp row st).2.logs =
        st.logs ++ [{ id := nextLogId st.logs, shop := shop, prev_cancelled_id := row.id,
                      calendar_key := none, email := row.email, subscriber_id := none,
                      status := RemovalStatus.failed,
                      error := (truthyString e.message).map (jsSlice 2000),
                      created_at := env.clock w2 }]) ∧
    (∀ e w2, env.deleteSubscriber (getCalendarId env.config calendarKey) subscriberId w =
        (Except.error e, w2) → isRateLimit e = true →
      (processTarget env shop monthStamp row st).1 = Except.error e ∧
      (processTarget env shop monthStamp row st).2.logs = st.logs) ∧
    (∀ (contractId customerId : String) (lineVariantId : Option String) (db : RemovalDb σ)
        (existing : RemovalTarget) (rest : List RemovalTarget)
        (customerData : Option CustomerData) (mail key : String) (snap : Option Nat)
        (sid : Nat) (hit : Option String) (sub : String) (w1 w2 w3 : σ),
      db.active.any (fun a => decide (a.shop = shop) &&
        decide (a.customer_id = customerId)) = false →
      db.targets.filter (fun r => decide (r.shop = shop) &&
        decide (r.contract_id = contractId) &&
        decide (r.month_stamp = env.monthStamp db.world)) = existing :: rest →
      existing.removal_status = RemovalStatus.pending →
      env.getCustomerEmail shop customerId db.world = (Except.ok customerData, w1) →
      truthyString (customerData.bind (fun c => c.email)) = some mail →
      getCalendarKeyForVariant env.config lineVariantId = some key →
      env.ensureSnapshot shop (env.monthStamp db.world) key w1 = (Except.ok snap, w2) →
      truthyNat snap = some sid →
      env.lookupSubscriberByEmail sid mail w2 = (Except.ok hit, w3) →
      truthyString hit = some sub →
      (∀ w4, env.deleteSubscriber (getCalendarId env.config key) sub w3 =
          (Except.ok (), w4) →
        (processSingleContractRemoval env shop contractId customerId lineVariantId
          db).2.logs =
          db.logs ++ [{ id := nextLogId db.logs, shop := shop,
                        prev_cancelled_id := existing.id, calendar_key := some key,
                        email := some mail, subscriber_id := some sub,
                        status := RemovalStatus.done, error := none,
                        created_at := env.clock w4 }]) ∧
      (∀ e w4, env.deleteSubscriber (getCalendarId env.config key) sub w3 =
          (Except.error e, w4) →
        (processSingleContractRemoval env shop contractId customerId lineVariantId
          db).2.logs = db.logs)) ∧
    (∀ (contractId customerId : String) (lineVariantId : Option String) (db : RemovalDb σ)
        (customerData : Option CustomerData) (mail key : String) (snap : Option Nat)
        (sid : Nat) (hit : Option String) (sub : String) (w1 w2 w3 : σ),
      db.active.any (fun a => decide (a.shop = shop) &&
        decide (a.customer_id = customerId)) = false →
      db.targets.filter (fun r => decide (r.shop = shop) &&
        decide (r.contract_id = contractId) &&
        decide (r.month_stamp = env.monthStamp db.world)) = [] →
      env.getCustomerEmail shop customerId db.world = (Except.ok customerData, w1) →
      truthyString (customerData.bind (fun c => c.email)) = some mail →
      getCalendarKeyForVariant env.config lineVariantId = some key →
      env.ensureSnapshot shop (env.monthStamp db.world) key w1 = (Except.ok snap, w2) →
      truthyNat snap = some sid →
      env.lookupSubscriberByEmail sid mail w2 = (Except.ok hit, w3) →
      truthyString hit = some sub →
      (∀ w4, env.deleteSubscriber (getCalendarId env.config key) sub w3 =
          (Except.ok (), w4) →
        (processSingleContractRemoval env shop contractId customerId lineVariantId
          db).2.logs =
          db.logs ++ [{ id := nextLogId db.logs, shop := shop,
                        prev_cancelled_id := nextTargetId db.targets,
                        calendar_key := some key, email := some mail,
                        subscriber_id := some sub, status := RemovalStatus.done,
                        error := none, created_at := env.clock w4 }]) ∧
      (∀ e w4, env.deleteSubscriber (getCalendarId env.config key) sub w3 =
          (Except.error e, w4) →
        (processSingleContractRemoval env shop contractId customerId lineVariantId
          db).2.logs = db.logs)) := by
  have hpath := removeTarget_of_path env shop monthStamp row (countProcessed st) sa sb current
    email calendarKey snapshot snapshotId hres hcur hkey hsnap hid
  have hq1 : StepQuiet row.id (countProcessed st) sa := by
    rcases resolveEmail_spec env shop row _ _ _ hres with ⟨hbad, _⟩ | ⟨_, hq⟩
    · exact absurd hbad (by simp)
    · exact hq
  have hq2 : StepQuiet row.id sa sb := by
    have := cachedSnapshot_quiet env shop monthStamp calendarKey row.id sa
    rw [hsnap] at this
    exact this
  have hlogs : sb.logs = st.logs := hq2.2.2.2.1.trans hq1.2.2.2.1
  refine ⟨hlogs, ?_, ?_, ?_, ?_, ?_⟩
  · intro w2 hdelete
    have hbody := removeSubscriber_of_deleted env shop row.id calendarKey email snapshotId sb
      found subscriberId w w2 hlookup hfound hdelete
    rw [← hpath] at hbody
    rw [processTarget_of_ok _ _ _ _ _ _ hbody]
    refine ⟨rfl, ?_⟩
    show logRemovalAttempt sb.logs shop row.id (some calendarKey) (some email)
      (some subscriberId) RemovalStatus.done none (env.clock w2) = _
    rw [hlogs]
    rfl
  · intro e w2 hdelete hother
    have hbody := removeSubscriber_of_refused env shop row.id calendarKey email snapshotId sb
      found subscriberId w w2 e hlookup hfound hdelete
    rw [← hpath] at hbody
    rw [processTarget_of_other _ _ _ _ _ _ _ hbody hother]
    refine ⟨rfl, ?_⟩
    show logRemovalAttempt sb.logs shop row.id none row.email none RemovalStatus.failed
      e.message (env.clock w2) = _
    rw [hlogs]
    rfl
  · intro e w2 hdelete hrate
    have hbody := removeSubscriber_of_refused env shop row.id calendarKey email snapshotId sb
      found subscriberId w w2 e hlookup hfound hdelete
    rw [← hpath] at hbody
    rw [processTarget_of_rateLimit _ _ _ _ _ _ _ hbody hrate]
    exact ⟨rfl, hlogs⟩
  · intro contractId customerId lineVariantId db existing rest customerData mail key snap sid
      hit sub w1 w2 w3 hactive hrows hpending hcust hmail hk hs hsid hl hh
    have hconn := processSingle_logs_existing env shop contractId customerId lineVariantId db
      existing rest hactive hrows hpending
    refine ⟨?_, ?_⟩
    · intro w4 hdelete
      rw [hconn, (removeSingle_of_deleted env shop (env.monthStamp db.world) customerId
        lineVariantId existing.id db customerData mail key snap sid hit sub w1 w2 w3 w4
        hcust hmail hk hs hsid hl hh hdelete).2]
      rfl
    · intro e w4 hdelete
      rw [hconn, (removeSingle_of_refused env shop (env.monthStamp db.world) customerId
        lineVariantId existing.id db customerData mail key snap sid hit sub w1 w2 w3 w4 e
        hcust hmail hk hs hsid hl hh hdelete).2]
  · intro contractId customerId lineVariantId db customerData mail key snap sid hit sub
      w1 w2 w3 hactive hrows hcust hmail hk hs hsid hl hh
    have hconn := processSingle_logs_new env shop contractId customerId lineVariantId db
      hactive hrows
    refine ⟨?_, ?_⟩
    · intro w4 hdelete
      rw [hconn, (removeSingle_of_deleted env shop (env.monthStamp db.world) customerId
        lineVariantId (nextTargetId db.targets)
        (insertPending env shop (env.monthStamp db.world) contractId customerId
          lineVariantId db)
        customerData mail key snap sid hit sub w1 w2 w3 w4
        hcust hmail hk hs hsid hl hh hdelete).2]
      rfl
    · intro e w4 hdelete
      rw [hconn, (removeSingle_of_refused env shop (env.monthStamp db.world) customerId
        lineVariantId (nextTargetId db.targets)
        (insertPending env shop (env.monthStamp db.world) contractId customerId
          lineVariantId db)
        customerData mail key snap sid hit sub w1 w2 w3 w4 e
        hcust hmail hk hs hsid hl hh hdelete).2]
      rfl

/-- C24 on the first target of the demo batch: its log entry carries all
four columns. -/
theorem removal_log_entries_witness :
    truthyString (some "a@example.com") = some "a@example.com" ∧
    getCalendarKeyForVariant demoConfig (some "111") = some "northern" ∧
    (processTarget (demoRemovalEnv resetOnThird) "demo.myshopify.com" "2024-03"
      (demoTarget 1 "c1" (some "a@example.com") "111") (startState demoRemovalDb)).2.logs =
      [{ id := 1, shop := "demo.myshopify.com", prev_cancelled_id := 1,
         calendar_key := some "northern", email := some "a@example.com",
         subscriber_id := some "sub-a@example.com", status := RemovalStatus.done,
         error := none, created_at := 1003 }] :=
  ⟨by decide, by decide,
    ((removal_log_entries (demoRemovalEnv resetOnThird) "demo.myshopify.com" "2024-03"
      (demoTarget 1 "c1" (some "a@example.com") "111") (startState demoRemovalDb)
      (countProcessed (startState demoRemovalDb))
      (cachedSnapshot (demoRemovalEnv resetOnThird) "demo.myshopify.com" "2024-03" "northern"
        (countProcessed (startState demoRemovalDb))).2
      (some "a@example.com") "a@example.com" "northern" (some 7) 7
      (some "sub-a@example.com") "sub-a@example.com"
      ["snapshot northern", "lookup a@example.com"]
      rfl (by decide) (by decide) rfl (by decide) rfl (by decide)).2.1
      ["snapshot northern", "lookup a@example.com", "delete sub-a@example.com"] rfl).2⟩

/-- C24 as stated fails when the delete call throws. After a connection reset
on the third target the one entry logged for it has no calendar key, no
subscriber id and no email (the row had none when selected, the email looked
up is not logged). After a rate limit on the second target no entry is
logged for it, and `processSingleContractRemoval` logs nothing at all,
although the delete call was issued in each case. -/
theorem delete_failure_log_lacks_fields :
    (processRemovalJob (demoRemovalEnv resetOnThird) "demo.myshopify.com" "2024-03" "api_1"
      demoRemovalDb).2.logs.map
        (fun l => (l.prev_cancelled_id, l.calendar_key, l.email, l.subscriber_id, l.status)) =
      [(1, some "northern", some "a@example.com", some "sub-a@example.com",
          RemovalStatus.done),
       (2, some "northern", some "b@example.com", some "sub-b@example.com",
          RemovalStatus.done),
       (3, none, none, none, RemovalStatus.failed)] ∧
    "delete refused sub-c3@example.com" ∈
      (processRemovalJob (demoRemovalEnv resetOnThird) "demo.myshopify.com" "2024-03" "api_1"
        demoRemovalDb).2.world ∧
    (processRemovalJob (demoRemovalEnv rateLimitOnSecond) "demo.myshopify.com" "2024-03"
      "api_1" demoRemovalDb).2.logs.map (fun l => l.prev_cancelled_id) = [1] ∧
    "delete refused sub-b@example.com" ∈
      (processRemovalJob (demoRemovalEnv rateLimitOnSecond) "demo.myshopify.com" "2024-03"
        "api_1" demoRemovalDb).2.world ∧
    (processSingleContractRemoval (demoRemovalEnv rateLimitAlways) "demo.myshopify.com"
      "contract-c2" "c2" (some "111") demoRemovalDb).2.logs = [] ∧
    "delete refused sub-c2@example.com" ∈
      (processSingleContractRemoval (demoRemovalEnv rateLimitAlways) "demo.myshopify.com"
        "contract-c2" "c2" (some "111") demoRemovalDb).2.world := by
  refine ⟨by decide, by decide, by decide, by decide, by decide, by decide⟩

theorem removalAttempts_of_mem {s : RemovalStore} (hid : (s.map (fun r => r.id)).Nodup)
    {j : RemovalJob} (hj : j ∈ s) : removalAttempts s j.id = j.attempts := by
  unfold removalAttempts
  cases hf : s.filter (fun r => decide (r.id = j.id)) with
  | nil =>
    have : j ∈ s.filter (fun r => decide (r.id = j.id)) :=
      List.mem_filter.mpr ⟨hj, by simp⟩
    rw [hf] at this
    exact absurd this (List.not_mem_nil _)
  | cons r rest =>
    have hr : r ∈ s.filter (fun r => decide (r.id = j.id)) := by
      rw [hf]
      exact List.mem_cons_self _ _
    obtain ⟨hrs, hrid⟩ := List.mem_filter.mp hr
    have : r = j := eq_of_id_eq hid hrs hj (by simpa using hrid)
    rw [this]

theorem failRemovalJob_of_lt (s : RemovalStore) (jobId : Nat) (error : String)
    (hint : Option Int) (now : Int) (h : removalAttempts s jobId < 5) :
    failRemovalJob s jobId error hint now =
      (RemovalFailResult.requeued (removalBackoff hint (removalAttempts s jobId)),
        s.map (fun r =>
          if r.id = jobId then
            onUpdateRemoval now r
              { r with status := Status.queued, locked_at := none, locked_by := none,
                       last_error := some (jsSlice 2000 error) }
          else r)) := by
  unfold failRemovalJob
  rw [if_neg (by omega)]

/-- What `failRemovalJob` does when it requeues a removal job (stored attempts
below 5): it computes the delay (the hint when it is given and not 0, else
`min(300, 10 * 2^attempts)`) and returns it as `backoff`; the job row goes
back to queued with its lock cleared, the error recorded and its attempts
kept. The delay is stored nowhere, and `claimRemovalJob` for the job's shop
and month claims that job at whatever time it is called next. -/
theorem failRemovalJob_requeues_without_delay (s : RemovalStore) (j : RemovalJob)
    (error : String) (hint : Option Int) (now : Int)
    (hid : (s.map (fun r => r.id)).Nodup) (hkey : RemovalKeyUnique s) (hj : j ∈ s)
    (hatt : j.attempts < 5) :
    (failRemovalJob s j.id error hint now).1 =
      RemovalFailResult.requeued (removalBackoff hint j.attempts) ∧
    (∀ d, hint = some d → d ≠ 0 → removalBackoff hint j.attempts = d) ∧
    ((hint = none ∨ hint = some 0) →
      removalBackoff hint j.attempts = ((min 300 (2 ^ j.attempts * 10) : Nat) : Int)) ∧
    (∀ r ∈ (failRemovalJob s j.id error hint now).2, r.id = j.id →
      r.status = Status.queued ∧ r.locked_at = none ∧ r.locked_by = none ∧
      r.last_error = some (jsSlice 2000 error) ∧ r.attempts = j.attempts) ∧
    (∀ (workerId : String) (now2 : Int), ∃ c,
      (claimRemovalJob (failRemovalJob s j.id error hint now).2 j.shop j.month_stamp workerId
        now2).1 = some c ∧ c.id = j.id ∧ c.status = Status.queued) := by
  have hattempts := removalAttempts_of_mem hid hj
  have hres := failRemovalJob_of_lt s j.id error hint now (by rw [hattempts]; exact hatt)
  rw [hattempts] at hres
  have hrow : ∀ r ∈ (failRemovalJob s j.id error hint now).2, r.id = j.id →
      r.status = Status.queued ∧ r.locked_at = none ∧ r.locked_by = none ∧
      r.last_error = some (jsSlice 2000 error) ∧ r.attempts = j.attempts ∧
      r.shop = j.shop ∧ r.month_stamp = j.month_stamp := by
    intro r hr hrid
    rw [hres] at hr
    obtain ⟨r0, hr0, rfl⟩ := List.mem_map.mp hr
    by_cases h : r0.id = j.id
    · have : r0 = j := eq_of_id_eq hid hr0 hj h
      subst this
      rw [if_pos rfl, onUpdateRemoval_eq_with]
      exact ⟨rfl, rfl, rfl, rfl, rfl, rfl, rfl⟩
    · rw [if_neg h] at hrid
      exact absurd hrid h
  refine ⟨by rw [hres], ?_, ?_, ?_, ?_⟩
  · intro d hd hne
    rw [hd]
    simp [removalBackoff, hne]
  · rintro (h | h) <;> rw [h] <;> simp [removalBackoff, removalBackoffSeconds]
  · intro r hr hrid
    obtain ⟨h1, h2, h3, h4, h5, _⟩ := hrow r hr hrid
    exact ⟨h1, h2, h3, h4, h5⟩
  · intro workerId now2
    have hshape : ∀ x ∈ (failRemovalJob s j.id error hint now).2,
        ∃ y ∈ s, x.id = y.id ∧ x.shop = y.shop ∧ x.month_stamp = y.month_stamp := by
      intro x hx
      rw [hres] at hx
      obtain ⟨y, hy, rfl⟩ := List.mem_map.mp hx
      refine ⟨y, hy, ?_⟩
      by_cases h : y.id = j.id
      · rw [if_pos h, onUpdateRemoval_eq_with]
        exact ⟨rfl, rfl, rfl⟩
      · rw [if_neg h]
        exact ⟨rfl, rfl, rfl⟩
    have hjin : ∃ x ∈ (failRemovalJob s j.id error hint now).2, x.id = j.id := by
      rw [hres]
      exact ⟨_, List.mem_map_of_mem _ hj, by rw [if_pos rfl, onUpdateRemoval_eq_with]⟩
    obtain ⟨x0, hx0, hx0id⟩ := hjin
    obtain ⟨q1, _, _, _, _, q6, q7⟩ := hrow x0 hx0 hx0id
    unfold claimRemovalJob
    cases hfil : (failRemovalJob s j.id error hint now).2.filter
        (fun r => removalHit j.shop j.month_stamp r && decide (r.status = Status.queued)) with
    | nil =>
      have : x0 ∈ (failRemovalJob s j.id error hint now).2.filter
          (fun r => removalHit j.shop j.month_stamp r && decide (r.status = Status.queued)) :=
        List.mem_filter.mpr ⟨hx0, by simp [removalHit, q1, q6, q7]⟩
      rw [hfil] at this
      exact absurd this (List.not_mem_nil _)
    | cons x rest =>
      have hx : x ∈ (failRemovalJob s j.id error hint now).2.filter
          (fun r => removalHit j.shop j.month_stamp r && decide (r.status = Status.queued)) := by
        rw [hfil]
        exact List.mem_cons_self _ _
      obtain ⟨hxs, hxp⟩ := List.mem_filter.mp hx
      simp only [Bool.and_eq_true, decide_eq_true_eq] at hxp
      obtain ⟨hxhit, hxq⟩ := hxp
      obtain ⟨k1, k2⟩ := (removalHit_iff _ _ _).mp hxhit
      obtain ⟨y, hy, e1, e2, e3⟩ := hshape x hxs
      have hyj : y = j := hkey y hy j hj (by rw [← e2, k1]) (by rw [← e3, k2])
      exact ⟨_, rfl, by rw [e1, hyj], hxq⟩

/-- The demo job failed with the hint 60 at time 1010 is requeued with the
backoff 60. -/
theorem failRemovalJob_requeues_without_delay_witness :
    ((claimRemovalJob demoRemovalDb.jobs "demo.myshopify.com" "2024-03" "api_1" 1000).2.map
      (fun r => r.id)).Nodup ∧
    (failRemovalJob
      (claimRemovalJob demoRemovalDb.jobs "demo.myshopify.com" "2024-03" "api_1" 1000).2 1
      "Rate limited by AddEvent" (some 60) 1010).1 = RemovalFailResult.requeued 60 :=
  ⟨by decide,
    (failRemovalJob_requeues_without_delay
      (claimRemovalJob demoRemovalDb.jobs "demo.myshopify.com" "2024-03" "api_1" 1000).2
      { id := 1, shop := "demo.myshopify.com", month_stamp := "2024-03",
        status := Status.processing, attempts := 1, locked_at := some 1000,
        locked_by := some "api_1", stats_json := none, last_error := none,
        created_at := 900, updated_at := 1000 }
      "Rate limited by AddEvent" (some 60) 1010 (by decide)
      (by unfold RemovalKeyUnique; decide) (by decide) (by decide)).1⟩

/-- C25 at the failing input: the demo job, failed at time 1010 with the
retry-after hint 60, is requeued with `backoff` 60, and a `claimRemovalJob` at
the same time 1010 claims it, where the claim has it stay unclaimed until time
1070. -/
theorem claimRemovalJob_ignores_backoff :
    (failRemovalJob
      (claimRemovalJob demoRemovalDb.jobs "demo.myshopify.com" "2024-03" "api_1" 1000).2 1
      "Rate limited by AddEvent" (some 60) 1010).1 = RemovalFailResult.requeued 60 ∧
    (claimRemovalJob
      (failRemovalJob
        (claimRemovalJob demoRemovalDb.jobs "demo.myshopify.com" "2024-03" "api_1" 1000).2 1
        "Rate limited by AddEvent" (some 60) 1010).2
      "demo.myshopify.com" "2024-03" "api_2" 1010).1 =
      some { id := 1, status := Status.queued, attempts := 1 } := by
  refine ⟨by decide, by decide⟩

/-! ## Lemmas on the subscriber listing -/

theorem fetchLoop_of_error {σ : Type} (env : AddEventEnv σ) (calendarId : String)
    (fuel page : Nat) (all : List Subscriber) (w w1 : σ) (e : JsError)
    (h : env.listPage calendarId page w = (Except.error e, w1)) :
    fetchLoop env calendarId (fuel + 1) page all w = some (Except.error e, w1) := by
  rw [fetchLoop, h]

theorem fetchLoop_of_short {σ : Type} (env : AddEventEnv σ) (calendarId : String)
    (fuel page : Nat) (all : List Subscriber) (w w1 : σ) (subs : List RawSubscriber)
    (h : env.listPage calendarId page w = (Except.ok subs, w1)) (hlen : subs.length < 100) :
    fetchLoop env calendarId (fuel + 1) page all w =
      some (Except.ok (all ++ subs.map (toSubscriber env.toLowerCase)), w1) := by
  rw [fetchLoop, h]
  simp only [hlen, if_true]
  split <;> rfl

theorem fetchLoop_of_last {σ : Type} (env : AddEventEnv σ) (calendarId : String)
    (fuel page : Nat) (all : List Subscriber) (w w1 : σ) (subs : List RawSubscriber)
    (h : env.listPage calendarId page w = (Except.ok subs, w1)) (hlen : ¬ subs.length < 100)
    (hpage : page + 1 > 100) :
    fetchLoop env calendarId (fuel + 1) page all w =
      some (Except.ok (all ++ subs.map (toSubscriber env.toLowerCase)), w1) := by
  rw [fetchLoop, h]
  simp only [hlen, if_false, hpage, if_true]

theorem fetchLoop_of_more {σ : Type} (env : AddEventEnv σ) (calendarId : String)
    (fuel page : Nat) (all : List Subscriber) (w w1 : σ) (subs : List RawSubscriber)
    (h : env.listPage calendarId page w = (Except.ok subs, w1)) (hlen : ¬ subs.length < 100)
    (hpage : ¬ page + 1 > 100) :
    fetchLoop env calendarId (fuel + 1) page all w =
      fetchLoop env calendarId fuel (page + 1)
        (all ++ subs.map (toSubscriber env.toLowerCase)) w1 := by
  rw [fetchLoop, h]
  simp only [hlen, if_false, hpage]

theorem tracedEnv_listPage_ok {σ : Type} (env : AddEventEnv σ) (calendarId : String)
    (page : Nat) (w w1 : σ) (t : List (Nat × List RawSubscriber)) (subs : List RawSubscriber)
    (h : env.listPage calendarId page w = (Except.ok subs, w1)) :
    (tracedEnv env).listPage calendarId page (w, t) =
      (Except.ok subs, (w1, t ++ [(page, subs)])) := by
  show (match env.listPage calendarId page w with
    | (Except.ok subscribers, w1) => (Except.ok subscribers, (w1, t ++ [(page, subscribers)]))
    | (Except.error e, w1) => (Except.error e, (w1, t ++ [(page, [])]))) = _
  rw [h]

theorem tracedEnv_listPage_error {σ : Type} (env : AddEventEnv σ) (calendarId : String)
    (page : Nat) (w w1 : σ) (t : List (Nat × List RawSubscriber)) (e : JsError)
    (h : env.listPage calendarId page w = (Except.error e, w1)) :
    (tracedEnv env).listPage calendarId page (w, t) =
      (Except.error e, (w1, t ++ [(page, [])])) := by
  show (match env.listPage calendarId page w with
    | (Except.ok subscribers, w1) => (Except.ok subscribers, (w1, t ++ [(page, subscribers)]))
    | (Except.error e, w1) => (Except.error e, (w1, t ++ [(page, [])]))) = _
  rw [h]

/-- Once the loop has enough turns to reach page 100, more turns change
nothing. -/
theorem fetchLoop_fuel {σ : Type} (env : AddEventEnv σ) (calendarId : String) (k : Nat) :
    ∀ (fuel page : Nat) (all : List Subscriber) (w : σ), page ≤ 100 → 101 ≤ page + fuel →
      fetchLoop env calendarId (fuel + k) page all w =
        fetchLoop env calendarId fuel page all w := by
  intro fuel
  induction fuel with
  | zero =>
    intro page all w h1 h2
    omega
  | succ fuel ih =>
    intro page all w h1 h2
    have hk : fuel + 1 + k = (fuel + k) + 1 := by omega
    rw [hk]
    cases h : env.listPage calendarId page w with
    | mk res w1 =>
      cases res with
      | error e => rw [fetchLoop_of_error _ _ _ _ _ _ _ _ h, fetchLoop_of_error _ _ _ _ _ _ _ _ h]
      | ok subs =>
        by_cases hlen : subs.length < 100
        · rw [fetchLoop_of_short _ _ _ _ _ _ _ _ h hlen,
            fetchLoop_of_short _ _ _ _ _ _ _ _ h hlen]
        · by_cases hpage : page + 1 > 100
          · rw [fetchLoop_of_last _ _ _ _ _ _ _ _ h hlen hpage,
              fetchLoop_of_last _ _ _ _ _ _ _ _ h hlen hpage]
          · rw [fetchLoop_of_more _ _ _ _ _ _ _ _ h hlen hpage,
              fetchLoop_of_more _ _ _ _ _ _ _ _ h hlen hpage]
            exact ih (page + 1) _ w1 (by omega) (by omega)

/-- The run of the loop with the recording request: it ends, it asks for the
pages `page, page + 1, ...` in order, every page before the last one asked
for was full, and the list returned is `all` followed by the entries of the
pages asked for. -/
theorem fetchLoop_traced {σ : Type} (env : AddEventEnv σ) (calendarId : String) :
    ∀ (fuel page : Nat) (all : List Subscriber) (w : σ) (t : List (Nat × List RawSubscriber)),
      page ≤ 100 → 101 ≤ page + fuel →
      ∃ res w1 pages,
        fetchLoop (tracedEnv env) calendarId fuel page all (w, t) =
          some (res, (w1, t ++ pages)) ∧
        fetchLoop env calendarId fuel page all w = some (res, w1) ∧
        1 ≤ pages.length ∧ page + pages.length ≤ 101 ∧
        pages.map (fun p => p.1) = List.range' page pages.length ∧
        (∀ p ∈ pages.dropLast, 100 ≤ p.2.length) ∧
        (∀ out, res = Except.ok out →
          out = all ++ ((pages.map (fun p => p.2)).flatten).map
            (toSubscriber env.toLowerCase) ∧
          ∀ p, pages.getLast? = some p → p.2.length < 100 ∨ p.1 = 100) := by
  intro fuel
  induction fuel with
  | zero =>
    intro page all w t h1 h2
    omega
  | succ fuel ih =>
    intro page all w t h1 h2
    cases h : env.listPage calendarId page w with
    | mk res w1 =>
      cases res with
      | error e =>
        refine ⟨Except.error e, w1, [(page, [])], ?_, ?_, by simp, by simp; omega, by simp,
          by simp, ?_⟩
        · exact fetchLoop_of_error (tracedEnv env) _ _ _ _ _ _ _
            (tracedEnv_listPage_error env _ _ _ _ t e h)
        · exact fetchLoop_of_error env _ _ _ _ _ _ _ h
        · intro out hout
          exact absurd hout (by simp)
      | ok subs =>
        by_cases hlen : subs.length < 100
        · refine ⟨Except.ok (all ++ subs.map (toSubscriber env.toLowerCase)), w1,
            [(page, subs)], ?_, ?_, by simp, by simp; omega, by simp, by simp, ?_⟩
          · exact fetchLoop_of_short (tracedEnv env) _ _ _ _ _ _ _
              (tracedEnv_listPage_ok env _ _ _ _ t subs h) hlen
          · exact fetchLoop_of_short env _ _ _ _ _ _ _ h hlen
          · intro out hout
            refine ⟨by simpa using (Except.ok.inj hout).symm, ?_⟩
            intro p hp
            simp only [List.getLast?_singleton, Option.some.injEq] at hp
            subst hp
            exact Or.inl hlen
        · by_cases hpage : page + 1 > 100
          · refine ⟨Except.ok (all ++ subs.map (toSubscriber env.toLowerCase)), w1,
              [(page, subs)], ?_, ?_, by simp, by simp; omega, by simp, by simp, ?_⟩
            · exact fetchLoop_of_last (tracedEnv env) _ _ _ _ _ _ _
                (tracedEnv_listPage_ok env _ _ _ _ t subs h) hlen hpage
            · exact fetchLoop_of_last env _ _ _ _ _ _ _ h hlen hpage
            · intro out hout
              refine ⟨by simpa using (Except.ok.inj hout).symm, ?_⟩
              intro p hp
              simp only [List.getLast?_singleton, Option.some.injEq] at hp
              subst hp
              exact Or.inr (by show page = 100; omega)
          · obtain ⟨res, w2, pages, e1, e2, hl1, hl2, hr, hfull, hout⟩ :=
              ih (page + 1) (all ++ subs.map (toSubscriber env.toLowerCase)) w1
                (t ++ [(page, subs)]) (by omega) (by omega)
            have hne : pages ≠ [] := by
              intro hnil
              rw [hnil] at hl1
              simp at hl1
            refine ⟨res, w2, (page, subs) :: pages, ?_, ?_, by simp, ?_, ?_, ?_, ?_⟩
            · rw [fetchLoop_of_more (tracedEnv env) _ _ _ _ _ _ _
                (tracedEnv_listPage_ok env _ _ _ _ t subs h) hlen hpage]
              rw [show t ++ (page, subs) :: pages = t ++ [(page, subs)] ++ pages by simp]
              exact e1
            · rw [fetchLoop_of_more env _ _ _ _ _ _ _ h hlen hpage]
              exact e2
            · simp only [List.length_cons]
              omega
            · simp only [List.map_cons, List.length_cons, List.range'_succ]
              rw [hr]
            · intro p hp
              rw [List.dropLast_cons_of_ne_nil hne] at hp
              rcases List.mem_cons.mp hp with rfl | hp
              · exact Nat.le_of_not_lt hlen
              · exact hfull p hp
            · intro out ho
              obtain ⟨q1, q2⟩ := hout out ho
              refine ⟨?_, ?_⟩
              · rw [q1]
                simp
              · intro p hp
                obtain ⟨q, qs, hq⟩ := List.exists_cons_of_ne_nil hne
                rw [hq, List.getLast?_cons_cons, ← hq] at hp
                exact q2 p hp

/-! ## Claims on the subscriber snapshot -/

/-- C27: whatever the listing answers, the loop of `fetchCalendarSubscribers`
ends within 100 turns (more turns change nothing). Run with the recording
request, the function returns what it returns without it, asks for at least
one and at most 100 pages, asks for the pages 1, 2, ... in order, finds every
page before the last one full, and when it returns a list, that list is the
entries of the pages asked for, in order, and the last page asked for had
fewer than 100 entries or was page 100. -/
theorem fetchCalendarSubscribers_pages {σ : Type} (env : AddEventEnv σ) (calendarId : String)
    (w : σ) :
    (∃ r, fetchLoop env calendarId 100 1 [] w = some r) ∧
    (∀ k, fetchLoop env calendarId (100 + k) 1 [] w = fetchLoop env calendarId 100 1 [] w) ∧
    (env.config.apiKey = "" →
      fetchCalendarSubscribers env calendarId w =
        (Except.error (plainError "ADDEVENT_API_KEY not configured"), w)) ∧
    (env.config.apiKey ≠ "" →
      ∃ res w1 pages,
        fetchCalendarSubscribers (tracedEnv env) calendarId (w, []) = (res, (w1, pages)) ∧
        fetchCalendarSubscribers env calendarId w = (res, w1) ∧
        1 ≤ pages.length ∧ pages.length ≤ 100 ∧
        pages.map (fun p => p.1) = List.range' 1 pages.length ∧
        (∀ p ∈ pages.dropLast, 100 ≤ p.2.length) ∧
        (∀ out, res = Except.ok out →
          out = ((pages.map (fun p => p.2)).flatten).map (toSubscriber env.toLowerCase) ∧
          ∀ p, pages.getLast? = some p → p.2.length < 100 ∨ p.1 = 100)) := by
  obtain ⟨res, w1, pages, e1, e2, hl1, hl2, hr, hfull, hout⟩ :=
    fetchLoop_traced env calendarId 100 1 [] w [] (by omega) (by omega)
  refine ⟨⟨_, e2⟩, fun k => fetchLoop_fuel env calendarId k 100 1 [] w (by omega) (by omega),
    ?_, ?_⟩
  · intro hkey
    unfold fetchCalendarSubscribers
    rw [if_pos hkey]
  · intro hkey
    have hkey2 : ¬ (tracedEnv env).config.apiKey = "" := hkey
    refine ⟨res, w1, pages, ?_, ?_, hl1, by omega, hr, hfull, ?_⟩
    · unfold fetchCalendarSubscribers
      rw [if_neg hkey2, e1]
      simp
    · unfold fetchCalendarSubscribers
      rw [if_neg hkey, e2]
    · intro out ho
      obtain ⟨q1, q2⟩ := hout out ho
      exact ⟨by simpa using q1, q2⟩

theorem cacheBatches_flatten (subs : List Subscriber) :
    ∀ (fuel i : Nat), subs.length ≤ i + fuel * 500 →
      (cacheBatches subs fuel i).flatten = subs.drop i := by
  intro fuel
  induction fuel with
  | zero =>
    intro i h
    rw [cacheBatches, List.flatten_nil, List.drop_eq_nil_of_le (by omega)]
  | succ fuel ih =>
    intro i h
    rw [cacheBatches]
    by_cases hi : i < subs.length
    · rw [if_pos hi, List.flatten_cons, ih (i + 500) (by omega)]
      have : subs.drop (i + 500) = (subs.drop i).drop 500 := by
        rw [List.drop_drop]
      rw [this, List.take_append_drop]
    · rw [if_neg hi, List.flatten_nil, List.drop_eq_nil_of_le (by omega)]

/-- The batches of 500 insert the fetched list row by row, in order. -/
theorem rebuildCache_eq (cache : List CacheRow) (snapshotId : Nat) (subs : List Subscriber)
    (now : Int) :
    rebuildCache cache snapshotId subs now =
      subs.foldl (cacheUpsert snapshotId now)
        (cache.filter (fun r => decide (r.snapshot_id ≠ snapshotId))) := by
  unfold rebuildCache
  rw [← List.foldl_flatten, cacheBatches_flatten subs subs.length 0 (by omega), List.drop_zero]

theorem cacheHit_iff (snapshotId : Nat) (email : String) (r : CacheRow) :
    cacheHit snapshotId email r = true ↔ r.snapshot_id = snapshotId ∧ r.email = email := by
  simp [cacheHit]

theorem cacheUpsert_lookup (snapshotId : Nat) (now : Int) (c : List CacheRow) (s : Subscriber)
    (x : String) :
    (((cacheUpsert snapshotId now c s).filter (cacheHit snapshotId x)).head?).map
        (fun r => r.subscriber_id) =
      if s.email = x then some s.subscriber_id
      else ((c.filter (cacheHit snapshotId x)).head?).map (fun r => r.subscriber_id) := by
  unfold cacheUpsert
  by_cases hany : c.any (cacheHit snapshotId s.email) = true
  · rw [if_pos hany]
    by_cases hx : s.email = x
    · rw [if_pos hx]
      subst hx
      obtain ⟨r0, hr0, hhit⟩ := List.any_eq_true.mp hany
      cases hf : (c.map (fun r =>
          if cacheHit snapshotId s.email r = true then
            { r with subscriber_id := s.subscriber_id } else r)).filter
            (cacheHit snapshotId s.email) with
      | nil =>
        have hmem : ({ r0 with subscriber_id := s.subscriber_id } : CacheRow) ∈
            (c.map (fun r =>
              if cacheHit snapshotId s.email r = true then
                { r with subscriber_id := s.subscriber_id } else r)).filter
              (cacheHit snapshotId s.email) := by
          refine List.mem_filter.mpr ⟨List.mem_map.mpr ⟨r0, hr0, by rw [if_pos hhit]⟩, ?_⟩
          have := (cacheHit_iff _ _ _).mp hhit
          exact (cacheHit_iff _ _ _).mpr ⟨this.1, this.2⟩
        rw [hf] at hmem
        exact absurd hmem (List.not_mem_nil _)
      | cons y ys =>
        have hy : y ∈ (c.map (fun r =>
            if cacheHit snapshotId s.email r = true then
              { r with subscriber_id := s.subscriber_id } else r)).filter
              (cacheHit snapshotId s.email) := by
          rw [hf]
          exact List.mem_cons_self _ _
        obtain ⟨hy1, hy2⟩ := List.mem_filter.mp hy
        obtain ⟨r, _, rfl⟩ := List.mem_map.mp hy1
        by_cases hr : cacheHit snapshotId s.email r = true
        · simp [hr]
        · rw [if_neg hr] at hy2
          exact absurd hy2 hr
    · rw [if_neg hx, List.filter_map]
      have hcongr : c.filter ((cacheHit snapshotId x) ∘ (fun r =>
          if cacheHit snapshotId s.email r = true then
            { r with subscriber_id := s.subscriber_id } else r)) =
          c.filter (cacheHit snapshotId x) := by
        apply List.filter_congr
        intro r _
        by_cases hr : cacheHit snapshotId s.email r = true
        · simp only [Function.comp, hr, if_true]
          rfl
        · simp only [Function.comp, hr]
          rfl
      rw [hcongr]
      cases hf : c.filter (cacheHit snapshotId x) with
      | nil => rfl
      | cons y ys =>
        have hy : y ∈ c.filter (cacheHit snapshotId x) := by
          rw [hf]
          exact List.mem_cons_self _ _
        have hyx := (cacheHit_iff _ _ _).mp (List.mem_filter.mp hy).2
        have hnot : ¬ cacheHit snapshotId s.email y = true := by
          intro h
          exact hx (((cacheHit_iff _ _ _).mp h).2.symm.trans hyx.2)
        simp [hnot]
  · rw [if_neg hany, List.filter_append]
    have hall : ∀ r ∈ c, ¬ cacheHit snapshotId s.email r = true := by
      intro r hr h
      exact hany (List.any_eq_true.mpr ⟨r, hr, h⟩)
    by_cases hx : s.email = x
    · rw [if_pos hx]
      subst hx
      have hnil : c.filter (cacheHit snapshotId s.email) = [] :=
        List.filter_eq_nil_iff.mpr hall
      rw [hnil]
      simp [cacheHit]
    · rw [if_neg hx]
      have hnew : [({ id := nextCacheId c, snapshot_id := snapshotId, email := s.email,
                      subscriber_id := s.subscriber_id, created_at := now } : CacheRow)].filter
          (cacheHit snapshotId x) = [] := by
        simp [cacheHit, hx]
      rw [hnew, List.append_nil]

/-- After the fetched list was inserted row by row, a lookup finds the
subscriber id of a listed subscriber with that email, or what it found
before when no listed subscriber has it. -/
theorem foldl_cacheUpsert_lookup (snapshotId : Nat) (now : Int) (x : String) :
    ∀ (subs : List Subscriber) (c : List CacheRow),
      (∃ s ∈ subs, s.email = x ∧
        (((subs.foldl (cacheUpsert snapshotId now) c).filter
          (cacheHit snapshotId x)).head?).map (fun r => r.subscriber_id) =
          some s.subscriber_id) ∨
      ((∀ s ∈ subs, s.email ≠ x) ∧
        (((subs.foldl (cacheUpsert snapshotId now) c).filter
          (cacheHit snapshotId x)).head?).map (fun r => r.subscriber_id) =
          ((c.filter (cacheHit snapshotId x)).head?).map (fun r => r.subscriber_id)) := by
  intro subs
  induction subs with
  | nil =>
    intro c
    exact Or.inr ⟨fun s hs => absurd hs (List.not_mem_nil _), rfl⟩
  | cons s rest ih =>
    intro c
    rw [List.foldl_cons]
    rcases ih (cacheUpsert snapshotId now c s) with ⟨s2, hs2, he, hl⟩ | ⟨hno, hl⟩
    · exact Or.inl ⟨s2, List.mem_cons_of_mem _ hs2, he, hl⟩
    · rw [cacheUpsert_lookup] at hl
      by_cases hx : s.email = x
      · rw [if_pos hx] at hl
        exact Or.inl ⟨s, List.mem_cons_self _ _, hx, hl⟩
      · rw [if_neg hx] at hl
        refine Or.inr ⟨?_, hl⟩
        intro s2 hs2
        rcases List.mem_cons.mp hs2 with rfl | h
        · exact hx
        · exact hno s2 h

theorem cacheUpsert_other (snapshotId : Nat) (now : Int) (c : List CacheRow) (s : Subscriber) :
    (cacheUpsert snapshotId now c s).filter (fun r => decide (r.snapshot_id ≠ snapshotId)) =
      c.filter (fun r => decide (r.snapshot_id ≠ snapshotId)) := by
  unfold cacheUpsert
  split
  · rename_i hany
    clear hany
    induction c with
    | nil => rfl
    | cons r rest ih =>
      rw [List.map_cons]
      by_cases hr : cacheHit snapshotId s.email r = true
      · have hsid := ((cacheHit_iff _ _ _).mp hr).1
        rw [if_pos hr, List.filter_cons_of_neg (by simp [hsid]),
          List.filter_cons_of_neg (by simp [hsid]), ih]
      · rw [if_neg hr]
        by_cases hp : r.snapshot_id ≠ snapshotId
        · rw [List.filter_cons_of_pos (by simpa using hp),
            List.filter_cons_of_pos (by simpa using hp), ih]
        · rw [List.filter_cons_of_neg (by simpa using hp),
            List.filter_cons_of_neg (by simpa using hp), ih]
  · rw [List.filter_append]
    simp

theorem foldl_cacheUpsert_other (snapshotId : Nat) (now : Int) :
    ∀ (subs : List Subscriber) (c : List CacheRow),
      (subs.foldl (cacheUpsert snapshotId now) c).filter
          (fun r => decide (r.snapshot_id ≠ snapshotId)) =
        c.filter (fun r => decide (r.snapshot_id ≠ snapshotId)) := by
  intro subs
  induction subs with
  | nil => intro c; rfl
  | cons s rest ih =>
    intro c
    rw [List.foldl_cons, ih, cacheUpsert_other]

theorem cacheUpsert_from (snapshotId : Nat) (now : Int) (subs : List Subscriber)
    (c : List CacheRow) (s : Subscriber) (hs : s ∈ subs)
    (hc : ∀ r ∈ c, r.snapshot_id = snapshotId →
      ∃ s ∈ subs, s.email = r.email ∧ s.subscriber_id = r.subscriber_id) :
    ∀ r ∈ cacheUpsert snapshotId now c s, r.snapshot_id = snapshotId →
      ∃ s ∈ subs, s.email = r.email ∧ s.subscriber_id = r.subscriber_id := by
  intro r hr hsid
  unfold cacheUpsert at hr
  split at hr
  · obtain ⟨r0, hr0, rfl⟩ := List.mem_map.mp hr
    by_cases hhit : cacheHit snapshotId s.email r0 = true
    · rw [if_pos hhit]
      exact ⟨s, hs, ((cacheHit_iff _ _ _).mp hhit).2.symm, rfl⟩
    · rw [if_neg hhit] at hsid ⊢
      exact hc r0 hr0 hsid
  · rcases List.mem_append.mp hr with h | h
    · exact hc r h hsid
    · rw [List.mem_singleton] at h
      subst h
      exact ⟨s, hs, rfl, rfl⟩

theorem foldl_cacheUpsert_from (snapshotId : Nat) (now : Int) (subs : List Subscriber) :
    ∀ (l : List Subscriber) (c : List CacheRow), (∀ s ∈ l, s ∈ subs) →
      (∀ r ∈ c, r.snapshot_id = snapshotId →
        ∃ s ∈ subs, s.email = r.email ∧ s.subscriber_id = r.subscriber_id) →
      ∀ r ∈ l.foldl (cacheUpsert snapshotId now) c, r.snapshot_id = snapshotId →
        ∃ s ∈ subs, s.email = r.email ∧ s.subscriber_id = r.subscriber_id := by
  intro l
  induction l with
  | nil => intro c _ hc; exact hc
  | cons s rest ih =>
    intro c hl hc
    rw [List.foldl_cons]
    exact ih _ (fun s2 h2 => hl s2 (List.mem_cons_of_mem _ h2))
      (cacheUpsert_from snapshotId now subs c s (hl s (List.mem_cons_self _ _)) hc)

/-- What rebuilding the cache of a snapshot leaves: the rows of the other
snapshots as they were, rows of this snapshot that all come from the fetched
list, and for every email the subscriber id of a listed subscriber with that
email, or none when no listed subscriber has it. -/
theorem rebuildCache_spec (cache : List CacheRow) (snapshotId : Nat) (subs : List Subscriber)
    (now : Int) :
    (rebuildCache cache snapshotId subs now).filter
        (fun r => decide (r.snapshot_id ≠ snapshotId)) =
      cache.filter (fun r => decide (r.snapshot_id ≠ snapshotId)) ∧
    (∀ r ∈ rebuildCache cache snapshotId subs now, r.snapshot_id = snapshotId →
      ∃ s ∈ subs, s.email = r.email ∧ s.subscriber_id = r.subscriber_id) ∧
    (∀ x : String,
      (∃ s ∈ subs, s.email = x ∧
        (((rebuildCache cache snapshotId subs now).filter
          (cacheHit snapshotId x)).head?).map (fun r => r.subscriber_id) =
          some s.subscriber_id) ∨
      ((∀ s ∈ subs, s.email ≠ x) ∧
        (((rebuildCache cache snapshotId subs now).filter
          (cacheHit snapshotId x)).head?).map (fun r => r.subscriber_id) = none)) := by
  rw [rebuildCache_eq]
  refine ⟨?_, ?_, ?_⟩
  · rw [foldl_cacheUpsert_other, List.filter_filter]
    simp
  · exact foldl_cacheUpsert_from snapshotId now subs subs _ (fun s h => h)
      (fun r hr hsid => absurd hsid (by simpa using (List.mem_filter.mp hr).2))
  · intro x
    rcases foldl_cacheUpsert_lookup snapshotId now x subs
        (cache.filter (fun r => decide (r.snapshot_id ≠ snapshotId))) with h | ⟨hno, hl⟩
    · exact Or.inl h
    · refine Or.inr ⟨hno, ?_⟩
      rw [hl]
      have hnil : (cache.filter (fun r => decide (r.snapshot_id ≠ snapshotId))).filter
          (cacheHit snapshotId x) = [] := by
        rw [List.filter_eq_nil_iff]
        intro r hr hhit
        have h1 := (List.mem_filter.mp hr).2
        have h2 := ((cacheHit_iff _ _ _).mp hhit).1
        simp [h2] at h1
      rw [hnil]
      rfl

theorem snapshotHit_iff (shop monthStamp calendarKey : String) (r : SnapshotRow) :
    snapshotHit shop monthStamp calendarKey r = true ↔
      r.shop = shop ∧ r.month_stamp = monthStamp ∧ r.calendar_key = calendarKey := by
  simp [snapshotHit, and_assoc]

/-- After the upsert exactly one row value holds the key, with the new
`fetched_at` and count. -/
theorem upsertSnapshot_hits (snapshots : List SnapshotRow) (shop monthStamp calendarKey : String)
    (calendarId : String) (t : Int) (n : Nat) (hkey : SnapshotKeyUnique snapshots) :
    ∃ a, a ∈ upsertSnapshot snapshots shop monthStamp calendarKey calendarId t n ∧
      snapshotHit shop monthStamp calendarKey a = true ∧ a.fetched_at = t ∧
      a.subscriber_count = n ∧
      ∀ x ∈ upsertSnapshot snapshots shop monthStamp calendarKey calendarId t n,
        snapshotHit shop monthStamp calendarKey x = true → x = a := by
  unfold upsertSnapshot
  by_cases hany : snapshots.any (snapshotHit shop monthStamp calendarKey) = true
  · rw [if_pos hany]
    obtain ⟨r0, hr0, hhit⟩ := List.any_eq_true.mp hany
    have hk0 := (snapshotHit_iff _ _ _ _).mp hhit
    refine ⟨{ r0 with fetched_at := t, subscriber_count := n },
      List.mem_map.mpr ⟨r0, hr0, by rw [if_pos hhit]⟩,
      (snapshotHit_iff _ _ _ _).mpr hk0, rfl, rfl, ?_⟩
    intro x hx hxhit
    obtain ⟨y, hy, rfl⟩ := List.mem_map.mp hx
    by_cases hyhit : snapshotHit shop monthStamp calendarKey y = true
    · have hky := (snapshotHit_iff _ _ _ _).mp hyhit
      have : y = r0 := hkey y hy r0 hr0 (hky.1.trans hk0.1.symm)
        (hky.2.1.trans hk0.2.1.symm) (hky.2.2.trans hk0.2.2.symm)
      rw [if_pos hyhit, this]
    · rw [if_neg hyhit] at hxhit
      exact absurd hxhit hyhit
  · rw [if_neg hany]
    refine ⟨_, List.mem_append_right _ (List.mem_singleton_self _),
      (snapshotHit_iff _ _ _ _).mpr ⟨rfl, rfl, rfl⟩, rfl, rfl, ?_⟩
    intro x hx hxhit
    rcases List.mem_append.mp hx with h | h
    · exact absurd (List.any_eq_true.mpr ⟨x, h, hxhit⟩) hany
    · exact List.mem_singleton.mp h

theorem latestSnapshot_of_single (snapshots : List SnapshotRow)
    (shop monthStamp calendarKey : String) (a : SnapshotRow) (ha : a ∈ snapshots)
    (hhit : snapshotHit shop monthStamp calendarKey a = true)
    (hall : ∀ x ∈ snapshots, snapshotHit shop monthStamp calendarKey x = true → x = a) :
    latestSnapshot snapshots shop monthStamp calendarKey = some a := by
  unfold latestSnapshot
  have hperm := List.perm_insertionSort snapshotOrder
    (snapshots.filter (snapshotHit shop monthStamp calendarKey))
  cases hs : (snapshots.filter (snapshotHit shop monthStamp calendarKey)).insertionSort
      snapshotOrder with
  | nil =>
    have : a ∈ (snapshots.filter (snapshotHit shop monthStamp calendarKey)).insertionSort
        snapshotOrder := hperm.mem_iff.mpr (List.mem_filter.mpr ⟨ha, hhit⟩)
    rw [hs] at this
    exact absurd this (List.not_mem_nil _)
  | cons y ys =>
    have hy : y ∈ (snapshots.filter (snapshotHit shop monthStamp calendarKey)).insertionSort
        snapshotOrder := by
      rw [hs]
      exact List.mem_cons_self _ _
    obtain ⟨hy1, hy2⟩ := List.mem_filter.mp (hperm.mem_iff.mp hy)
    rw [List.head?_cons, hall y hy1 hy2]

theorem find_snapshot_of_single (snapshots : List SnapshotRow)
    (shop monthStamp calendarKey : String) (a : SnapshotRow) (ha : a ∈ snapshots)
    (hhit : snapshotHit shop monthStamp calendarKey a = true)
    (hall : ∀ x ∈ snapshots, snapshotHit shop monthStamp calendarKey x = true → x = a) :
    snapshots.find? (snapshotHit shop monthStamp calendarKey) = some a := by
  cases hf : snapshots.find? (snapshotHit shop monthStamp calendarKey) with
  | none =>
    rw [List.find?_eq_none] at hf
    exact absurd hhit (hf a ha)
  | some y =>
    rw [hall y (List.mem_of_find?_eq_some hf) (List.find?_some hf)]

theorem ensureSnapshot_of_fresh {σ : Type} (env : AddEventEnv σ)
    (shop monthStamp calendarKey calendarId : String) (st : SnapshotDb × σ)
    (snapshot : SnapshotRow)
    (hcal : truthyString (getCalendarId env.config calendarKey) = some calendarId)
    (hlatest : latestSnapshot st.1.snapshots shop monthStamp calendarKey = some snapshot)
    (hage : env.clock st.2 - fetchedInstant env.zoneOffset snapshot <
      env.config.snapshotTtlMinutes * 60) :
    ensureSnapshot env shop monthStamp calendarKey st = (Except.ok (some snapshot.id), st) := by
  unfold ensureSnapshot
  simp only [hcal, hlatest, hage, if_true]

theorem ensureSnapshot_of_stale {σ : Type} (env : AddEventEnv σ)
    (shop monthStamp calendarKey calendarId : String) (st : SnapshotDb × σ)
    (snapshot : SnapshotRow)
    (hcal : truthyString (getCalendarId env.config calendarKey) = some calendarId)
    (hlatest : latestSnapshot st.1.snapshots shop monthStamp calendarKey = some snapshot)
    (hage : ¬ env.clock st.2 - fetchedInstant env.zoneOffset snapshot <
      env.config.snapshotTtlMinutes * 60) :
    ensureSnapshot env shop monthStamp calendarKey st =
      refreshSnapshot env shop monthStamp calendarKey calendarId st := by
  unfold ensureSnapshot
  simp only [hcal, hlatest, hage, if_false]

theorem refreshSnapshot_of_ok {σ : Type} (env : AddEventEnv σ)
    (shop monthStamp calendarKey calendarId : String) (db : SnapshotDb) (w w1 : σ)
    (subs : List Subscriber) (hkey : SnapshotKeyUnique db.snapshots)
    (hfetch : fetchCalendarSubscribers env calendarId w = (Except.ok subs, w1)) :
    ∃ a : SnapshotRow,
      refreshSnapshot env shop monthStamp calendarKey calendarId (db, w) =
        (Except.ok (some a.id),
          ({ snapshots := upsertSnapshot db.snapshots shop monthStamp calendarKey calendarId
               (env.clock w1) subs.length,
             cache := rebuildCache db.cache a.id subs (env.clock w1) }, w1)) ∧
      a.fetched_at = env.clock w1 ∧ a.subscriber_count = subs.length ∧
      latestSnapshot
        (upsertSnapshot db.snapshots shop monthStamp calendarKey calendarId (env.clock w1)
          subs.length) shop monthStamp calendarKey = some a := by
  obtain ⟨a, ha, hhit, hat, hcount, hall⟩ := upsertSnapshot_hits db.snapshots shop monthStamp
    calendarKey calendarId (env.clock w1) subs.length hkey
  refine ⟨a, ?_, hat, hcount, latestSnapshot_of_single _ _ _ _ a ha hhit hall⟩
  unfold refreshSnapshot
  simp only [hfetch, find_snapshot_of_single _ _ _ _ a ha hhit hall, Option.map_some']

/-- What `ensureSnapshot` does for a calendar key with a configured calendar
id and a snapshot table that respects its unique key. When the age it
computes for the latest snapshot, the clock less the instant it reads back, is
below the TTL, it returns the snapshot's id and leaves tables and world as
they were, so no listing was fetched; otherwise it does what lines 187-237
do, which is one call of `fetchCalendarSubscribers`, after which the snapshot
row carries the time of the fetch and the count, the cache rows of other
snapshots are as before, every cache row of this snapshot comes from the
fetched list and every listed email has a row. A further call returns the
same id without fetching when the time since that fetch plus the zone offset
is below the TTL, and fetches again otherwise. -/
theorem ensureSnapshot_ttl {σ : Type} (env : AddEventEnv σ)
    (shop monthStamp calendarKey calendarId : String) (db : SnapshotDb) (w : σ)
    (hcal : truthyString (getCalendarId env.config calendarKey) = some calendarId)
    (hkey : SnapshotKeyUnique db.snapshots) :
    (∀ snapshot, latestSnapshot db.snapshots shop monthStamp calendarKey = some snapshot →
      env.clock w - fetchedInstant env.zoneOffset snapshot <
        env.config.snapshotTtlMinutes * 60 →
      ensureSnapshot env shop monthStamp calendarKey (db, w) =
        (Except.ok (some snapshot.id), (db, w))) ∧
    ((latestSnapshot db.snapshots shop monthStamp calendarKey = none ∨
      ∃ snapshot, latestSnapshot db.snapshots shop monthStamp calendarKey = some snapshot ∧
        ¬ env.clock w - fetchedInstant env.zoneOffset snapshot <
          env.config.snapshotTtlMinutes * 60) →
      ensureSnapshot env shop monthStamp calendarKey (db, w) =
        refreshSnapshot env shop monthStamp calendarKey calendarId (db, w)) ∧
    (∀ e w1, fetchCalendarSubscribers env calendarId w = (Except.error e, w1) →
      refreshSnapshot env shop monthStamp calendarKey calendarId (db, w) =
        (Except.error e, (db, w1))) ∧
    (∀ subs w1, fetchCalendarSubscribers env calendarId w = (Except.ok subs, w1) →
      ∃ a : SnapshotRow,
        refreshSnapshot env shop monthStamp calendarKey calendarId (db, w) =
          (Except.ok (some a.id),
            ({ snapshots := upsertSnapshot db.snapshots shop monthStamp calendarKey calendarId
                 (env.clock w1) subs.length,
               cache := rebuildCache db.cache a.id subs (env.clock w1) }, w1)) ∧
        a.fetched_at = env.clock w1 ∧ a.subscriber_count = subs.length ∧
        (rebuildCache db.cache a.id subs (env.clock w1)).filter
            (fun r => decide (r.snapshot_id ≠ a.id)) =
          db.cache.filter (fun r => decide (r.snapshot_id ≠ a.id)) ∧
        (∀ r ∈ rebuildCache db.cache a.id subs (env.clock w1), r.snapshot_id = a.id →
          ∃ s ∈ subs, s.email = r.email ∧ s.subscriber_id = r.subscriber_id) ∧
        (∀ s ∈ subs, ∃ r ∈ rebuildCache db.cache a.id subs (env.clock w1),
          r.snapshot_id = a.id ∧ r.email = s.email) ∧
        (∀ w2, env.clock w2 - env.clock w1 + env.zoneOffset <
            env.config.snapshotTtlMinutes * 60 →
          ensureSnapshot env shop monthStamp calendarKey
            ((refreshSnapshot env shop monthStamp calendarKey calendarId (db, w)).2.1, w2) =
            (Except.ok (some a.id),
              ((refreshSnapshot env shop monthStamp calendarKey calendarId (db, w)).2.1,
                w2))) ∧
        (∀ w2, ¬ env.clock w2 - env.clock w1 + env.zoneOffset <
            env.config.snapshotTtlMinutes * 60 →
          ensureSnapshot env shop monthStamp calendarKey
            ((refreshSnapshot env shop monthStamp calendarKey calendarId (db, w)).2.1, w2) =
            refreshSnapshot env shop monthStamp calendarKey calendarId
              ((refreshSnapshot env shop monthStamp calendarKey calendarId (db, w)).2.1,
                w2))) := by
  refine ⟨?_, ?_, ?_, ?_⟩
  · intro snapshot hlatest hage
    exact ensureSnapshot_of_fresh env shop monthStamp calendarKey calendarId (db, w) snapshot
      hcal hlatest hage
  · rintro (hnone | ⟨snapshot, hlatest, hage⟩)
    · unfold ensureSnapshot
      simp only [hcal, hnone]
    · unfold ensureSnapshot
      simp only [hcal, hlatest, hage, if_false]
  · intro e w1 hfetch
    unfold refreshSnapshot
    simp only [hfetch]
  · intro subs w1 hfetch
    obtain ⟨a, hres, hat, hcount, hlatest⟩ := refreshSnapshot_of_ok env shop monthStamp
      calendarKey calendarId db w w1 subs hkey hfetch
    obtain ⟨hother, hfrom, hlook⟩ := rebuildCache_spec db.cache a.id subs (env.clock w1)
    refine ⟨a, hres, hat, hcount, hother, hfrom, ?_, ?_, ?_⟩
    · intro s hs
      rcases hlook s.email with ⟨s2, _, _, hl⟩ | ⟨hno, _⟩
      · cases hf : (rebuildCache db.cache a.id subs (env.clock w1)).filter
            (cacheHit a.id s.email) with
        | nil =>
          rw [hf] at hl
          exact absurd hl (by simp)
        | cons r rest =>
          have hr : r ∈ (rebuildCache db.cache a.id subs (env.clock w1)).filter
              (cacheHit a.id s.email) := by
            rw [hf]
            exact List.mem_cons_self _ _
          obtain ⟨hr1, hr2⟩ := List.mem_filter.mp hr
          exact ⟨r, hr1, (cacheHit_iff _ _ _).mp hr2⟩
      · exact absurd rfl (hno s hs)
    · intro w2 hage
      rw [hres]
      have hfresh : env.clock w2 - fetchedInstant env.zoneOffset a <
          env.config.snapshotTtlMinutes * 60 := by
        unfold fetchedInstant
        rw [hat]
        omega
      exact ensureSnapshot_of_fresh env shop monthStamp calendarKey calendarId _ a hcal
        hlatest hfresh
    · intro w2 hage
      rw [hres]
      have hstale : ¬ env.clock w2 - fetchedInstant env.zoneOffset a <
          env.config.snapshotTtlMinutes * 60 := by
        unfold fetchedInstant
        rw [hat]
        omega
      exact ensureSnapshot_of_stale env shop monthStamp calendarKey calendarId _ a hcal
        hlatest hstale

/-- On the demo listing, with the process on UTC: with no snapshot yet,
`ensureSnapshot` fetches, and the call right after reuses the snapshot. -/
theorem ensureSnapshot_ttl_witness :
    truthyString (getCalendarId demoAddEventEnv.config "northern") = some "cal-n" ∧
    SnapshotKeyUnique emptySnapshotDb.snapshots ∧
    ensureSnapshot demoAddEventEnv "demo.myshopify.com" "2024-03" "northern"
        (emptySnapshotDb, []) =
      refreshSnapshot demoAddEventEnv "demo.myshopify.com" "2024-03" "northern" "cal-n"
        (emptySnapshotDb, []) ∧
    (ensureSnapshot demoAddEventEnv "demo.myshopify.com" "2024-03" "northern"
      (ensureSnapshot demoAddEventEnv "demo.myshopify.com" "2024-03" "northern"
        (emptySnapshotDb, [])).2).2.2 = ["list cal-n page 1"] :=
  ⟨by decide, by unfold SnapshotKeyUnique; decide,
    (ensureSnapshot_ttl demoAddEventEnv "demo.myshopify.com" "2024-03" "northern" "cal-n"
      emptySnapshotDb [] (by decide) (by unfold SnapshotKeyUnique; decide)).2.1
      (Or.inl (by decide)),
    by decide⟩

/-- C26 at the failing input, a process one hour east of UTC: the first
`ensureSnapshot` fetches the listing at time 1001 and stamps the snapshot
with it; the second call, made at the same time 1001, reads the stamp back
as one hour earlier, finds the snapshot 3600 seconds old against a TTL of 900
and fetches the listing again. On UTC the same two calls fetch once. -/
theorem ensureSnapshot_refetches_off_utc :
    (ensureSnapshot demoAddEventEnvEast "demo.myshopify.com" "2024-03" "northern"
      (emptySnapshotDb, [])).2.1.snapshots.map (fun r => r.fetched_at) = [1001] ∧
    demoAddEventEnvEast.clock
      (ensureSnapshot demoAddEventEnvEast "demo.myshopify.com" "2024-03" "northern"
        (emptySnapshotDb, [])).2.2 = 1001 ∧
    demoAddEventEnvEast.config.snapshotTtlMinutes * 60 = 900 ∧
    (ensureSnapshot demoAddEventEnvEast "demo.myshopify.com" "2024-03" "northern"
      (ensureSnapshot demoAddEventEnvEast "demo.myshopify.com" "2024-03" "northern"
        (emptySnapshotDb, [])).2).2.2 = ["list cal-n page 1", "list cal-n page 1"] ∧
    (ensureSnapshot demoAddEventEnv "demo.myshopify.com" "2024-03" "northern"
      (ensureSnapshot demoAddEventEnv "demo.myshopify.com" "2024-03" "northern"
        (emptySnapshotDb, [])).2).2.2 = ["list cal-n page 1"] := by
  refine ⟨by decide, by decide, by decide, by decide, by decide⟩

theorem dropWhile_trimmed {α : Type} (p : α → Bool) (l : List α) :
    (((l.dropWhile p).reverse.dropWhile p).reverse).dropWhile p =
      ((l.dropWhile p).reverse.dropWhile p).reverse := by
  have hpre : ((l.dropWhile p).reverse.dropWhile p).reverse <+: l.dropWhile p :=
    List.rdropWhile_prefix p (l.dropWhile p)
  cases hm : ((l.dropWhile p).reverse.dropWhile p).reverse with
  | nil => rfl
  | cons a t =>
    rw [hm] at hpre
    obtain ⟨rest, hrest⟩ := hpre
    have hhead := List.head?_dropWhile_not p l
    rw [← hrest] at hhead
    simp only [List.cons_append, List.head?_cons] at hhead
    rw [List.dropWhile_cons_of_neg (by simp [hhead])]

theorem jsTrim_idem (s : String) : jsTrim (jsTrim s) = jsTrim s := by
  unfold jsTrim
  simp only
  rw [dropWhile_trimmed, List.reverse_reverse, dropWhile_trimmed]

theorem jsOr_some_empty (y : String) : jsOr (some y) "" = y := by
  unfold jsOr
  by_cases h : y = ""
  · simp [h]
  · simp [h]

theorem fetchCalendarSubscribers_listed {σ : Type} (env : AddEventEnv σ) (calendarId : String)
    (w w1 : σ) (subs : List Subscriber)
    (h : fetchCalendarSubscribers env calendarId w = (Except.ok subs, w1)) :
    ∃ raws : List RawSubscriber, subs = raws.map (toSubscriber env.toLowerCase) := by
  obtain ⟨res, w2, pages, _, e2, _, _, _, _, hout⟩ :=
    fetchLoop_traced env calendarId 100 1 [] w [] (by omega) (by omega)
  unfold fetchCalendarSubscribers at h
  by_cases hkey : env.config.apiKey = ""
  · rw [if_pos hkey] at h
    exact absurd (Prod.mk.inj h).1 (by simp)
  · rw [if_neg hkey, e2] at h
    obtain ⟨h1, _⟩ := Prod.mk.inj h
    exact ⟨_, ((hout subs h1).1).trans (List.nil_append _)⟩

/-- C30: after lines 187-237 of `ensureSnapshot` cached a fetched list, whose
entries carry the emails of the listing lower-cased and trimmed,
`lookupSubscriberByEmail` for an email `e` returns the subscriber id of a
listed subscriber whose email equals `e` lower-cased and trimmed when there
is one, and `null` when there is none; both sides are normalized by the one
expression `String(x || "").toLowerCase().trim()`, which gives the same
result when applied twice wherever `toLowerCase` is idempotent and commutes
with `trim`. -/
theorem lookupSubscriberByEmail_after_refresh {σ : Type} (env : AddEventEnv σ)
    (shop monthStamp calendarKey calendarId : String) (db db1 : SnapshotDb) (w w1 w2 : σ)
    (subs : List Subscriber) (snapshotId : Nat)
    (hfetch : fetchCalendarSubscribers env calendarId w = (Except.ok subs, w1))
    (hres : refreshSnapshot env shop monthStamp calendarKey calendarId (db, w) =
      (Except.ok (some snapshotId), (db1, w2))) :
    (∃ raws : List RawSubscriber, subs = raws.map (toSubscriber env.toLowerCase)) ∧
    (∀ raw : RawSubscriber,
      (toSubscriber env.toLowerCase raw).email = normalizeEmail env.toLowerCase raw.email) ∧
    (∀ e : Option String,
      ((∃ s ∈ subs, s.email = normalizeEmail env.toLowerCase e) →
        ∃ s ∈ subs, s.email = normalizeEmail env.toLowerCase e ∧
          lookupSubscriberByEmail env.toLowerCase db1.cache snapshotId e =
            some s.subscriber_id) ∧
      ((∀ s ∈ subs, s.email ≠ normalizeEmail env.toLowerCase e) →
        lookupSubscriberByEmail env.toLowerCase db1.cache snapshotId e = none)) ∧
    (∀ x : String, env.toLowerCase (env.toLowerCase x) = env.toLowerCase x →
      env.toLowerCase (jsTrim (env.toLowerCase x)) = jsTrim (env.toLowerCase (env.toLowerCase x)) →
      normalizeEmail env.toLowerCase (some (normalizeEmail env.toLowerCase (some x))) =
        normalizeEmail env.toLowerCase (some x)) := by
  have hcache : db1.cache = rebuildCache db.cache snapshotId subs (env.clock w1) := by
    unfold refreshSnapshot at hres
    rw [hfetch] at hres
    simp only at hres
    split at hres
    · obtain ⟨h1, h2⟩ := Prod.mk.inj hres
      have hsid := Option.some.inj (Except.ok.inj h1)
      rw [← (Prod.mk.inj h2).1, hsid]
    · exact absurd (Except.ok.inj (Prod.mk.inj hres).1) (by simp)
  obtain ⟨_, _, hlook⟩ := rebuildCache_spec db.cache snapshotId subs (env.clock w1)
  refine ⟨fetchCalendarSubscribers_listed env calendarId w w1 subs hfetch, fun _ => rfl, ?_, ?_⟩
  · intro e
    unfold lookupSubscriberByEmail
    rw [hcache]
    rcases hlook (normalizeEmail env.toLowerCase e) with ⟨s, hs, he, hl⟩ | ⟨hno, hl⟩
    · exact ⟨fun _ => ⟨s, hs, he, hl⟩, fun hnone => absurd he (hnone s hs)⟩
    · refine ⟨?_, fun _ => hl⟩
      rintro ⟨s, hs, he⟩
      exact absurd he (hno s hs)
  · intro x h1 h2
    unfold normalizeEmail
    rw [jsOr_some_empty, jsOr_some_empty, h2, h1, jsTrim_idem]

/-- C30 on the demo listing: the subscriber listed as ` Ann@Example.com ` is
found for `ANN@example.COM`. -/
theorem lookupSubscriberByEmail_after_refresh_witness :
    lookupSubscriberByEmail asciiLower
      (refreshSnapshot demoAddEventEnv "demo.myshopify.com" "2024-03" "northern" "cal-n"
        (emptySnapshotDb, [])).2.1.cache 1 (some "  ANN@example.COM ") = some "s1" ∧
    lookupSubscriberByEmail asciiLower
      (refreshSnapshot demoAddEventEnv "demo.myshopify.com" "2024-03" "northern" "cal-n"
        (emptySnapshotDb, [])).2.1.cache 1 (some "carl@example.com") = none ∧
    ∃ raws : List RawSubscriber,
      [({ subscriber_id := "s1", email := "ann@example.com" } : Subscriber),
       { subscriber_id := "s2", email := "bob@example.com" }] =
        raws.map (toSubscriber asciiLower) :=
  ⟨by decide, by decide,
    (lookupSubscriberByEmail_after_refresh demoAddEventEnv "demo.myshopify.com" "2024-03"
      "northern" "cal-n" emptySnapshotDb
      (refreshSnapshot demoAddEventEnv "demo.myshopify.com" "2024-03" "northern" "cal-n"
        (emptySnapshotDb, [])).2.1
      [] ["list cal-n page 1"] ["list cal-n page 1"]
      [{ subscriber_id := "s1", email := "ann@example.com" },
       { subscriber_id := "s2", email := "bob@example.com" }] 1 rfl rfl).1⟩

/-! ## The plan of `processOrderPaid` -/

theorem andThen_pure {α S : Type} (r : Except JsError α × S) :
    andThen r (fun a s => (Except.ok a, s)) = r := by
  obtain ⟨res, s⟩ := r
  cases res <;> rfl

theorem andThen_assoc {α β γ S : Type} (r : Except JsError α × S)
    (k1 : α → S → Except JsError β × S) (k2 : β → S → Except JsError γ × S) :
    andThen (andThen r k1) k2 = andThen r (fun a s => andThen (k1 a s) k2) := by
  obtain ⟨res, s⟩ := r
  cases res <;> rfl

theorem attemptPlan_append {σ : Type} (env : OrderEnv σ) (shop orderId : String) :
    ∀ (p q : List (PlannedAction σ)) (acts : List ActionEntry) (st : Ledger × σ),
      attemptPlan env shop orderId (p ++ q) acts st =
        andThen (attemptPlan env shop orderId p acts st) (attemptPlan env shop orderId q) := by
  intro p
  induction p with
  | nil => intro q acts st; rfl
  | cons a rest ih =>
    intro q acts st
    rw [List.cons_append, attemptPlan, attemptPlan, andThen_assoc]
    congr 1
    funext acts1 st1
    exact ih q acts1 st1

theorem attemptPlan_single {σ : Type} (env : OrderEnv σ) (shop orderId : String)
    (p : PlannedAction σ) (acts : List ActionEntry) (st : Ledger × σ) :
    attemptPlan env shop orderId [p] acts st =
      actionStep env shop orderId p.action p.details p.task p.doneStatus acts st := by
  rw [attemptPlan]
  exact andThen_pure _

theorem attemptPlan_single_fun {σ : Type} (env : OrderEnv σ) (shop orderId : String)
    (p : PlannedAction σ) :
    attemptPlan env shop orderId [p] =
      fun acts st => actionStep env shop orderId p.action p.details p.task p.doneStatus
        acts st := by
  funext acts st
  exact attemptPlan_single env shop orderId p acts st

theorem attemptPlan_if {σ : Type} (env : OrderEnv σ) (shop orderId : String) (c : Bool)
    (p : PlannedAction σ) (acts : List ActionEntry) (st : Ledger × σ) :
    attemptPlan env shop orderId (if c then [p] else []) acts st =
      stepIf c (actionStep env shop orderId p.action p.details p.task p.doneStatus) acts st := by
  cases c
  · rfl
  · simp only [if_true, stepIf]
    exact attemptPlan_single env shop orderId p acts st

theorem classifyItem_flags (lower : String → String) (acc : ProductTypes) (item : LineItem) :
    (classifyItem lower acc item).hasNorthern =
      (acc.hasNorthern || jsIncludes (combinedTitle lower item) "northern") ∧
    (classifyItem lower acc item).hasSouthern =
      (acc.hasSouthern || jsIncludes (combinedTitle lower item) "southern") ∧
    (classifyItem lower acc item).hasWorkshop =
      (acc.hasWorkshop || jsIncludes (combinedTitle lower item) "workshop") := by
  unfold classifyItem
  cases hn : jsIncludes (combinedTitle lower item) "northern" <;>
    cases hs : jsIncludes (combinedTitle lower item) "southern" <;>
    cases hw : jsIncludes (combinedTitle lower item) "workshop" <;>
    simp [hn, hs, hw]

theorem foldl_classifyItem_flags (lower : String → String) :
    ∀ (l : List LineItem) (acc : ProductTypes),
      (l.foldl (classifyItem lower) acc).hasNorthern =
        (acc.hasNorthern ||
          l.any (fun item => jsIncludes (combinedTitle lower item) "northern")) ∧
      (l.foldl (classifyItem lower) acc).hasSouthern =
        (acc.hasSouthern ||
          l.any (fun item => jsIncludes (combinedTitle lower item) "southern")) ∧
      (l.foldl (classifyItem lower) acc).hasWorkshop =
        (acc.hasWorkshop ||
          l.any (fun item => jsIncludes (combinedTitle lower item) "workshop")) := by
  intro l
  induction l with
  | nil => intro acc; simp
  | cons item rest ih =>
    intro acc
    rw [List.foldl_cons]
    obtain ⟨h1, h2, h3⟩ := ih (classifyItem lower acc item)
    obtain ⟨c1, c2, c3⟩ := classifyItem_flags lower acc item
    rw [h1, h2, h3, c1, c2, c3]
    simp only [List.any_cons, Bool.or_assoc]
    exact ⟨trivial, trivial, trivial⟩

theorem detectProductTypes_flags (lower : String → String) (items : List LineItem) :
    (detectProductTypes lower items).hasNorthern =
      items.any (fun item => jsIncludes (combinedTitle lower item) "northern") ∧
    (detectProductTypes lower items).hasSouthern =
      items.any (fun item => jsIncludes (combinedTitle lower item) "southern") ∧
    (detectProductTypes lower items).hasWorkshop =
      items.any (fun item => jsIncludes (combinedTitle lower item) "workshop") := by
  unfold detectProductTypes
  obtain ⟨h1, h2, h3⟩ := foldl_classifyItem_flags lower items
    { hasNorthern := false, hasSouthern := false, hasWorkshop := false,
      northernItems := [], southernItems := [], workshopItems := [] }
  rw [h1, h2, h3]
  simp

theorem subscriptionActions_eq_plan {σ : Type} (env : OrderEnv σ) (shop : String)
    (order : Order) (products : ProductTypes) (parsedTags : ParsedTags)
    (acts : List ActionEntry) (st : Ledger × σ) :
    subscriptionActions env shop order products parsedTags acts st =
      if parsedTags.isFirstOrder || parsedTags.isRecurringOrder then
        attemptPlan env shop order.id
          (plannedSubscriptionActions env shop order products parsedTags) acts st
      else (Except.ok (acts ++ [("subscription_skipped", "no_matching_tag")]), st) := by
  unfold subscriptionActions plannedSubscriptionActions
  cases hf : parsedTags.isFirstOrder
  · cases hr : parsedTags.isRecurringOrder
    · simp
    · simp only [Bool.false_eq_true, if_false, if_true, Bool.or_true, Bool.false_or]
      rw [attemptPlan_single]
      rfl
  · simp only [if_true, Bool.true_or]
    rw [attemptPlan_append, attemptPlan_append, andThen_assoc]
    simp only [attemptPlan_if, attemptPlan_single_fun]
    rfl

theorem workshopActions_eq_plan {σ : Type} (env : OrderEnv σ) (shop : String) (order : Order)
    (products : ProductTypes) (acts : List ActionEntry) (st : Ledger × σ) :
    workshopActions env shop order products acts st =
      match env.saveWorkshopRegistration shop order products.workshopItems st.2 with
      | (Except.error e, w) => (Except.error e, (st.1, w))
      | (Except.ok _, w) =>
        attemptPlan env shop order.id (plannedWorkshopActions env shop order) acts
          (st.1, w) := by
  unfold workshopActions plannedWorkshopActions
  cases hsave : env.saveWorkshopRegistration shop order products.workshopItems st.2 with
  | mk res w =>
    cases res with
    | error e => rfl
    | ok u =>
      simp only
      rw [attemptPlan_append]
      simp only [attemptPlan_if, attemptPlan_single_fun]
      rfl

theorem processOrderPaid_eq_plan {σ : Type} (env : OrderEnv σ) (shop : String) (order : Order)
    (st : Ledger × σ) :
    processOrderPaid env shop order st = processByPlan env shop order st := by
  unfold processOrderPaid processByPlan
  simp only [subscriptionActions_eq_plan, workshopActions_eq_plan, stepIf, List.nil_append]

/-- C28: `processOrderPaid` does what the plan says. It equals
`processByPlan`, which attempts the planned subscription actions for an
order with a northern or southern item and the planned workshop actions for
one with a workshop item; the product flags are those of the line items and
the tag flags compare each tag lower-cased and trimmed. With the first-order
tag the plan is `email_northern` and `email_southern` for the product types
present (only with an email) and then `fulfill_subscription` with
`notifyCustomer = true`, whether or not the recurring tag is there too; with
only the recurring tag it is `fulfill_subscription` with `notifyCustomer =
false` alone; with neither tag it is empty. The workshop plan is
`email_workshop` (only with an email) and then `fulfill_workshop`; an order
with no matching product attempts nothing and leaves the ledger as it was. -/
theorem processOrderPaid_follows_plan {σ : Type} (env : OrderEnv σ) (shop : String)
    (order : Order) :
    (∀ st, processOrderPaid env shop order st = processByPlan env shop order st) ∧
    ((detectProductTypes env.toLowerCase order.line_items).hasNorthern =
        order.line_items.any
          (fun item => jsIncludes (combinedTitle env.toLowerCase item) "northern") ∧
      (detectProductTypes env.toLowerCase order.line_items).hasSouthern =
        order.line_items.any
          (fun item => jsIncludes (combinedTitle env.toLowerCase item) "southern") ∧
      (detectProductTypes env.toLowerCase order.line_items).hasWorkshop =
        order.line_items.any
          (fun item => jsIncludes (combinedTitle env.toLowerCase item) "workshop")) ∧
    (∀ tags : List String,
      ((parseOrderTags env.toLowerCase tags).isFirstOrder = true ↔
        ∃ tag ∈ tags, jsTrim (env.toLowerCase tag) = "subscription first order") ∧
      ((parseOrderTags env.toLowerCase tags).isRecurringOrder = true ↔
        ∃ tag ∈ tags, jsTrim (env.toLowerCase tag) = "subscription recurring order")) ∧
    (∀ (products : ProductTypes) (parsedTags : ParsedTags), parsedTags.isFirstOrder = true →
      (plannedSubscriptionActions env shop order products parsedTags).map (fun p => p.action) =
        (if products.hasNorthern && decide (customerEmail order ≠ "") then
          ["email_northern"] else []) ++
        (if products.hasSouthern && decide (customerEmail order ≠ "") then
          ["email_southern"] else []) ++ ["fulfill_subscription"] ∧
      (plannedSubscriptionActions env shop order products parsedTags).getLast? =
        some (plannedFulfill env shop order "fulfill_subscription" true) ∧
      plannedSubscriptionActions env shop order products parsedTags =
        plannedSubscriptionActions env shop order products
          { parsedTags with isRecurringOrder := false }) ∧
    (∀ (products : ProductTypes) (parsedTags : ParsedTags), parsedTags.isFirstOrder = false →
      parsedTags.isRecurringOrder = true →
      plannedSubscriptionActions env shop order products parsedTags =
        [plannedFulfill env shop order "fulfill_subscription" false]) ∧
    (∀ (products : ProductTypes) (parsedTags : ParsedTags), parsedTags.isFirstOrder = false →
      parsedTags.isRecurringOrder = false →
      plannedSubscriptionActions env shop order products parsedTags = []) ∧
    ((plannedWorkshopActions env shop order).map (fun p => p.action) =
        (if decide (customerEmail order ≠ "") then ["email_workshop"] else []) ++
          ["fulfill_workshop"] ∧
      (plannedWorkshopActions env shop order).getLast? =
        some (plannedFulfill env shop order "fulfill_workshop" true)) ∧
    (∀ (action : String) (notifyCustomer : Bool),
      (plannedFulfill env shop order action notifyCustomer).details =
        fulfillDetails notifyCustomer ∧
      (plannedFulfill env shop order action notifyCustomer).task =
        env.fulfillOrder shop order.id notifyCustomer) ∧
    (∀ st, (detectProductTypes env.toLowerCase order.line_items).hasNorthern = false →
      (detectProductTypes env.toLowerCase order.line_items).hasSouthern = false →
      (detectProductTypes env.toLowerCase order.line_items).hasWorkshop = false →
      processOrderPaid env shop order st =
        (Except.ok [("skipped", "no_matching_products")],
          (st.1, env.saveOrderSeen shop order st.2))) := by
  refine ⟨processOrderPaid_eq_plan env shop order,
    detectProductTypes_flags env.toLowerCase order.line_items, ?_, ?_, ?_, ?_, ?_,
    fun _ _ => ⟨rfl, rfl⟩, ?_⟩
  · intro tags
    unfold parseOrderTags
    simp [List.any_eq_true]
  · intro products parsedTags hf
    unfold plannedSubscriptionActions
    simp only [hf, if_true]
    refine ⟨?_, ?_, trivial⟩
    · cases products.hasNorthern && decide (customerEmail order ≠ "") <;>
        cases products.hasSouthern && decide (customerEmail order ≠ "") <;> rfl
    · cases products.hasNorthern && decide (customerEmail order ≠ "") <;>
        cases products.hasSouthern && decide (customerEmail order ≠ "") <;> rfl
  · intro products parsedTags hf hr
    unfold plannedSubscriptionActions
    simp [hf, hr]
  · intro products parsedTags hf hr
    unfold plannedSubscriptionActions
    simp [hf, hr]
  · unfold plannedWorkshopActions
    cases decide (customerEmail order ≠ "") <;> exact ⟨rfl, rfl⟩
  · intro st hn hs hw
    unfold processOrderPaid
    simp only [hn, hs, hw, stepIf, andThen]
    rfl

end AutoMailer
